import Mathlib

/-!
# SemaSYCL: integration header generation and checks of device code

A shallow embedding of `clang/lib/Sema/SemaSYCL.cpp`: the accumulator of
kernel records (`SYCLIntegrationHeader`), the flattening of a kernel object
into descriptors (`populateIntHeader`, `buildArgTys`, `getFieldDeclByName`),
the forward-declaration walk (`emitFwdDecl`, `emitForwardClassDecls`), the
emission of the header tables (`SYCLIntegrationHeader::emit`), the checks
of the visitor `MarkDeviceFunction` (`CheckSYCLType`, `IsRecursive` and the
`Visit` functions) and the body of the kernel (`KernelBodyTransform`,
`CreateSYCLKernelBody`).

Conventions of the embedding.

* Declarations have pointer identity in the source; here every declaration
  carries an `ID : Nat` and identity is equality of `ID`s.
* `assert` and `llvm_unreachable` end the run: functions that can reach one
  return `Except String _`, the error carrying the source's message.
* Services of the surrounding compiler that the code only queries
  (record layout, type sizes, the declaration printer, the type printer)
  are data of the model: `FieldDecl.BitOffset` is what
  `ASTRecordLayout::getFieldOffset` returns for the field,
  `ASTContext.getTypeSizeInChars` is the size service, `RecordInfo.FwdDecl`
  and `ClassTemplateDecl.FwdDecl` are what `Decl::print` writes under the
  forward-declaration policy.
* `uint64_t`/`size_t` quantities that count bytes or entries are `Nat`
  (they cannot wrap: they are sums of a few layout offsets, or bounded by
  the number of objects in memory); the narrowing conversions that the
  source writes out, `static_cast<unsigned>` and the passage to an `int`
  parameter, are modelled with explicit wrap-around.
* The output stream is kept structured: every table is a list of rows, one
  row per line the source writes, and `render` functions give the text.
* A function of the source that recurses without a bound of its own
  (`CheckSYCLType`, `IsRecursive`) takes a bound on the depth of the
  recursion and returns `none` when the bound is reached; that the source
  returns is stated as: from some bound on, the result is the same value.
* The traversal of `RecursiveASTVisitor` is a parameter of the `Visit`
  functions that start one (`TraverseStmt`).
-/

namespace SemaSYCL

/-! ## Declarations, contexts and types -/

abbrev SourceLocation := Nat

/-- The declaration kinds (`clang::Decl::Kind`) the code distinguishes. -/
inductive DeclKind
  | TranslationUnit
  | Namespace
  | CXXRecord
  | ClassTemplateSpecialization
  | ClassTemplate
  | Function
  | CXXMethod
  | LinkageSpec
deriving DecidableEq, Repr

/-- A declaration context together with the chain of its parents
(`DeclContext::getParent`); the chain always ends at the translation unit. -/
inductive DeclContext
  | TranslationUnit
  | Ctx (Kind : DeclKind) (Name : String) (Parent : DeclContext)
deriving DecidableEq, Repr

/-- Models `DeclContext::getDeclKind`. -/
def DeclContext.getDeclKind : DeclContext → DeclKind
  | .TranslationUnit => .TranslationUnit
  | .Ctx Kind _ _ => Kind

/-- Models `DeclContext::isTranslationUnit`. -/
def DeclContext.isTranslationUnit : DeclContext → Bool
  | .TranslationUnit => true
  | .Ctx Kind _ _ => Kind == .TranslationUnit

inductive TagTypeKind
  | Struct | Interface | Union | Class
deriving DecidableEq, Repr

inductive BuiltinKind
  | Void | Bool | Char | Short | Int | UInt | Long | ULong | Float | Double
deriving DecidableEq, Repr

inductive LangAS
  | Default | opencl_global | opencl_local | opencl_constant | opencl_private
  | opencl_generic
deriving DecidableEq, Repr

structure Qualifiers where
  Const : Bool := false
  Volatile : Bool := false
  Restrict : Bool := false
  AddressSpace : LangAS := .Default
deriving DecidableEq, Repr

/-- Models `Qualifiers::setAddressSpace`. -/
def Qualifiers.setAddressSpace (Q : Qualifiers) (AS : LangAS) : Qualifiers :=
  { Q with AddressSpace := AS }

/-- A lambda capture; `getCapturedVar` is defined for variable captures
only, and the model keeps the location of the captured variable. -/
inductive LambdaCapture
  | This
  | Variable (VarLoc : SourceLocation)
deriving DecidableEq, Repr

/-- A class template declaration, as far as the header emission reads it. -/
structure ClassTemplateDecl where
  ID : Nat
  Name : String
  DC : DeclContext
  /-- Value of `getTemplatedDecl()->isCompleteDefinition()` -/
  TemplatedIsCompleteDefinition : Bool
  Loc : SourceLocation
  /-- Text of `D->print(SO, P)` under `adjustForCPlusPlusFwdDecl` -/
  FwdDecl : String
deriving DecidableEq, Repr

/-- The non-recursive attributes of a C++ record declaration. -/
structure RecordInfo where
  ID : Nat
  Name : String
  TagKind : TagTypeKind
  DC : DeclContext
  IsCompleteDefinition : Bool
  IsStandardLayout : Bool
  Loc : SourceLocation
  /-- Text of `D->print(SO, P)` under `adjustForCPlusPlusFwdDecl` -/
  FwdDecl : String
  /-- The captures `captures_begin() .. captures_end()`, empty for a non-lambda -/
  Captures : List LambdaCapture
  /-- Value of `isPolymorphic()`: the class declares or inherits a virtual function -/
  IsPolymorphic : Bool
deriving DecidableEq, Repr

mutual
/-- A canonical qualified type: a type node and its qualifiers. -/
inductive QualType
  | mk (Ty : ClangType) (Quals : Qualifiers)
/-- The canonical type nodes the code inspects. A record type holds its
declaration; `RecordRef ID` is the record type of the declaration `ID` given
by reference, for a field whose type leads back to the record that declares
the field (`struct Node { Node *Next; }`), where the declaration cannot be
spelled out inside itself. Only `CheckSYCLType` follows field types without
bound, and it finds the declaration in `TranslationUnit.Records`. -/
inductive ClangType
  | Builtin (Kind : BuiltinKind)
  | Enum (Name : String)
  | Pointer (Pointee : QualType)
  | LValueReference (Pointee : QualType)
  | ConstantArray (Element : QualType) (Size : Nat)
  | Record (RD : CXXRecordDecl)
  | IncompleteArray (Element : QualType)
  | VariableArray (Element : QualType)
  | FunctionProto (Result : QualType) (Params : List QualType)
  | FunctionNoProto (Result : QualType)
  | RecordRef (ID : Nat)
/-- A record declaration. `Template` is the specialized template when the
record is a `ClassTemplateSpecializationDecl`, and `TemplateArgs` its
argument list. -/
inductive CXXRecordDecl
  | mk (Info : RecordInfo) (Template : Option ClassTemplateDecl)
      (TemplateArgs : List TemplateArgument) (Fields : List FieldDecl)
/-- A field with the bit offset the record layout assigns to it. -/
inductive FieldDecl
  | mk (Name : String) (Ty : QualType) (BitOffset : Nat) (Loc : SourceLocation)
/-- A template argument (`TemplateArgument::ArgKind`). -/
inductive TemplateArgument
  | Null
  | Type (T : QualType)
  | Declaration
  | NullPtr
  | Integral (V : Int)
  | Template
  | TemplateExpansion
  | Expression
  | Pack (Elems : List TemplateArgument)
end

def QualType.Ty : QualType → ClangType
  | .mk Ty _ => Ty

/-- Models `QualType::getQualifiers`. -/
def QualType.getQualifiers : QualType → Qualifiers
  | .mk _ Quals => Quals

/-- Models `QualType::getUnqualifiedType`. -/
def QualType.getUnqualifiedType : QualType → QualType
  | .mk Ty _ => .mk Ty {}

def CXXRecordDecl.Info : CXXRecordDecl → RecordInfo
  | .mk Info _ _ _ => Info

def CXXRecordDecl.Template : CXXRecordDecl → Option ClassTemplateDecl
  | .mk _ Template _ _ => Template

/-- Models `ClassTemplateSpecializationDecl::getTemplateArgs`. -/
def CXXRecordDecl.getTemplateArgs : CXXRecordDecl → List TemplateArgument
  | .mk _ _ TemplateArgs _ => TemplateArgs

/-- Models `RecordDecl::fields`. -/
def CXXRecordDecl.fields : CXXRecordDecl → List FieldDecl
  | .mk _ _ _ Fields => Fields

/-- Models `Decl::getKind` of a record: a specialization of a class template or a
plain C++ record. -/
def CXXRecordDecl.getKind (RD : CXXRecordDecl) : DeclKind :=
  match RD.Template with
  | some _ => .ClassTemplateSpecialization
  | none => .CXXRecord

/-- The record seen as a declaration context (`dyn_cast<DeclContext>(RecTy)`). -/
def CXXRecordDecl.asDeclContext (RD : CXXRecordDecl) : DeclContext :=
  .Ctx RD.getKind RD.Info.Name RD.Info.DC

def FieldDecl.Name : FieldDecl → String
  | .mk Name _ _ _ => Name

/-- Models `FieldDecl::getType`. -/
def FieldDecl.getType : FieldDecl → QualType
  | .mk _ Ty _ _ => Ty

/-- Models `Layout.getFieldOffset(Fld->getFieldIndex())` of the enclosing record. -/
def FieldDecl.BitOffset : FieldDecl → Nat
  | .mk _ _ BitOffset _ => BitOffset

def FieldDecl.Loc : FieldDecl → SourceLocation
  | .mk _ _ _ Loc => Loc

/-- Models `Type::isPointerType`. -/
def QualType.isPointerType : QualType → Bool
  | .mk (.Pointer _) _ => true
  | _ => false

/-- Models `Type::getAsCXXRecordDecl`. -/
def QualType.getAsCXXRecordDecl : QualType → Option CXXRecordDecl
  | .mk (.Record RD) _ => some RD
  | _ => none

/-- Models `Type::isStructureOrClassType`. -/
def QualType.isStructureOrClassType : QualType → Bool
  | .mk (.Record RD) _ =>
      RD.Info.TagKind == .Struct || RD.Info.TagKind == .Class
        || RD.Info.TagKind == .Interface
  | _ => false

/-- Models `Type::isScalarType` on the modelled type nodes. -/
def QualType.isScalarType : QualType → Bool
  | .mk (.Builtin Kind) _ => Kind != .Void
  | .mk (.Enum _) _ => true
  | .mk (.Pointer _) _ => true
  | _ => false

/-- Models `Type::isStandardLayoutType`, read off the record's definition data for
a record and true for the scalar types. -/
def QualType.isStandardLayoutType : QualType → Bool
  | .mk (.Record RD) _ => RD.Info.IsStandardLayout
  | .mk (.ConstantArray _ _) _ => false
  | .mk (.LValueReference _) _ => false
  | _ => true

/-- The services of `ASTContext` the code calls. -/
structure ASTContext where
  /-- Value of `getTypeSizeInChars(T).getQuantity()` -/
  getTypeSizeInChars : QualType → Nat

/-- Models `ASTContext::getQualifiedType`. -/
def getQualifiedType (T : QualType) (Quals : Qualifiers) : QualType :=
  .mk T.Ty Quals

/-- Models `ASTContext::getPointerType`. -/
def getPointerType (T : QualType) : QualType :=
  .mk (.Pointer T) {}

/-! ## Machine integers -/

/-- Models `static_cast<unsigned>` of a `uint64_t`. -/
def castUnsigned (x : Nat) : Nat := x % 2 ^ 32

/-- Conversion of a 32-bit `unsigned` value to `int` (two's complement). -/
def unsignedToInt (x : Nat) : Int :=
  if x % 2 ^ 32 < 2 ^ 31 then ((x % 2 ^ 32 : Nat) : Int)
  else ((x % 2 ^ 32 : Nat) : Int) - 2 ^ 32

/-- Conversion of a 64-bit integer to a 32-bit enumeration value and on to
`int`: the value modulo `2^32`, read as two's complement. -/
def wrapInt32 (v : Int) : Int := (v + 2 ^ 31) % 2 ^ 32 - 2 ^ 31

/-! ## Diagnostics -/

/-- The kinds of `err_sycl_restrict` (`Sema::RestrictKind` in `MarkDeviceFunction`). -/
inductive RestrictKind
  | KernelGlobalVariable
  | KernelRTTI
  | KernelNonConstStaticDataVariable
  | KernelCallVirtualFunction
  | KernelCallRecursiveFunction
  | KernelCallFunctionPointer
  | KernelAllocateStorage
  | KernelUseExceptions
  | KernelUseAssembly
deriving DecidableEq, Repr

/-- The diagnostics the code emits; a restriction diagnostic carries the
`RestrictKind` streamed into it. -/
inductive DiagID
  | err_sycl_non_std_layout_type
  | err_sycl_kernel_name_class_not_top_level
  | err_sycl_restrict (Kind : RestrictKind)
  | err_sycl_virtual_types
  | err_vla_unsupported
  | note_sycl_used_here
  | note_sycl_recursive_function_declared_here (Kind : RestrictKind)
deriving DecidableEq, Repr

structure Diagnostic where
  Loc : SourceLocation
  ID : DiagID
deriving DecidableEq, Repr

/-! ## Qualified-name matching (`Util`) -/

/-- The loop of `Util::matchQualifiedTypeName` over `llvm::reverse(Scopes)`:
the argument list is the already reversed scope list, `Ctx` the context
reached so far. After the last scope the context must be the translation
unit. -/
def matchScopes : DeclContext → List (DeclKind × String) → Except String Bool
  | Ctx, [] => .ok Ctx.isTranslationUnit
  | Ctx, Scope :: Rest =>
    if Ctx.getDeclKind ≠ Scope.1 then .ok false
    else
      match Ctx with
      | .Ctx Kind Name Parent =>
        if Kind = .ClassTemplateSpecialization ∨ Kind = .CXXRecord
            ∨ Kind = .Namespace then
          if Name ≠ Scope.2 then .ok false else matchScopes Parent Rest
        else .error "matchQualifiedTypeName: decl kind not supported"
      | .TranslationUnit =>
        .error "matchQualifiedTypeName: decl kind not supported"

/-- Models `Util::matchQualifiedTypeName`. -/
def matchQualifiedTypeName (Ty : QualType) (Scopes : List (DeclKind × String)) :
    Except String Bool :=
  match Ty.getAsCXXRecordDecl with
  | none => .ok false
  | some RecTy => matchScopes RecTy.asDeclContext Scopes.reverse

/-- Models `Util::isSyclAccessorType`. -/
def isSyclAccessorType (Ty : QualType) : Except String Bool :=
  matchQualifiedTypeName Ty
    [(.Namespace, "cl"), (.Namespace, "sycl"),
     (.ClassTemplateSpecialization, "accessor")]

/-- Models `Util::isSyclStreamType`. -/
def isSyclStreamType (Ty : QualType) : Except String Bool :=
  matchQualifiedTypeName Ty
    [(.Namespace, "cl"), (.Namespace, "sycl"), (.CXXRecord, "stream")]

/-! ## The accumulator of kernel records (`SYCLIntegrationHeader`) -/

/-- The enumeration `SYCLIntegrationHeader::kernel_param_kind_t`; its
declaration is in a header outside the sources at hand, the enumerators are
the ones `paramKind2Str` names. -/
inductive kernel_param_kind_t
  | kind_accessor
  | kind_std_layout
  | kind_sampler
deriving DecidableEq, Repr

/-- One parameter descriptor: `Info` is an `int`, `Offset` an `unsigned`. -/
structure KernelParamDesc where
  Kind : kernel_param_kind_t
  Info : Int
  Offset : Nat
deriving DecidableEq, Repr

/-- One kernel record. -/
structure KernelDesc where
  Name : String
  NameType : QualType
  Params : List KernelParamDesc

/-- The accumulator: the vector `KernelDescs`. -/
structure SYCLIntegrationHeader where
  KernelDescs : List KernelDesc

/-- Models `SYCLIntegrationHeader::startKernel`: one more record at the back,
with the given name and name type and no parameters. -/
def SYCLIntegrationHeader.startKernel (H : SYCLIntegrationHeader)
    (KernelName : String) (KernelNameType : QualType) : SYCLIntegrationHeader :=
  ⟨H.KernelDescs ++ [⟨KernelName, KernelNameType, []⟩]⟩

/-- Modelled from the spec: `getCurKernelDesc` is declared in a header
outside the sources at hand; descriptors go to the most recently started
record, so it is the last record, or nothing when there is none. -/
def SYCLIntegrationHeader.getCurKernelDesc (H : SYCLIntegrationHeader) :
    Option KernelDesc :=
  H.KernelDescs.getLast?

/-- Models `SYCLIntegrationHeader::addParamDesc`. -/
def SYCLIntegrationHeader.addParamDesc (H : SYCLIntegrationHeader)
    (Kind : kernel_param_kind_t) (Info : Int) (Offset : Nat) :
    Except String SYCLIntegrationHeader :=
  match H.getCurKernelDesc with
  | none => .error "no kernels"
  | some K =>
    .ok ⟨H.KernelDescs.dropLast ++
          [{ K with Params := K.Params ++ [⟨Kind, Info, Offset⟩] }]⟩

/-! ## Flattening a kernel object -/

/-- Models `getAccessTarget`: the fourth template argument as an integral
value, converted to the enumeration `target` and used as an `int`. -/
def getAccessTarget (AccTy : CXXRecordDecl) : Except String Int :=
  match AccTy.getTemplateArgs.get? 3 with
  | some (.Integral V) => .ok (wrapInt32 V)
  | some _ => .error "template argument is not integral"
  | none => .error "template argument index out of range"

/-- The loop of `getFieldDeclByName`: `Res` is the field found by the
previous step, `Offset` the cell `*Offset` (absent for a null pointer). -/
def getFieldDeclByNameLoop :
    Option CXXRecordDecl → List String → Option Nat → Option FieldDecl →
    Except String (Option FieldDecl × Option Nat)
  | _, [], Offset, Res => .ok (Res, Offset)
  | RD, FldName :: Rest, Offset, _ =>
    match RD with
    | none => .error "field lookup in non-struct type"
    | some RD =>
      match RD.fields.find? (fun Fld => Fld.Name == FldName) with
      | none => .error "field declaration must have been found"
      | some Fld =>
        getFieldDeclByNameLoop Fld.getType.getAsCXXRecordDecl Rest
          (Offset.map (fun O => O + Fld.BitOffset / 8)) (some Fld)

/-- Models `getFieldDeclByName`. -/
def getFieldDeclByName (RD : CXXRecordDecl) (FldExpr : List String)
    (Offset : Option Nat) : Except String (Option FieldDecl × Option Nat) :=
  getFieldDeclByNameLoop (some RD) FldExpr Offset none

/-- The value of a pointer the caller dereferences. -/
def deref {α : Type} : Option α → Except String α
  | some a => .ok a
  | none => .error "null pointer dereference"

/-- The body of the loop of `populateIntHeader` for one field. -/
def populateIntHeaderField (Ctx : ASTContext) (H : SYCLIntegrationHeader)
    (Fld : FieldDecl) : Except String SYCLIntegrationHeader := do
  let ArgTy := Fld.getType
  let Offset := Fld.BitOffset / 8
  if (← isSyclAccessorType ArgTy) then
    let AccTy ← match ArgTy.getAsCXXRecordDecl with
      | some RD => pure RD
      | none => throw "accessor must be of a record type"
    let Target ← getAccessTarget AccTy
    let H ← H.addParamDesc .kind_accessor Target (castUnsigned Offset)
    let (RngFld, Offset1) ←
      getFieldDeclByName AccTy ["__impl", "Range"] (some Offset)
    let RngFld ← deref RngFld
    let Offset1 ← deref Offset1
    let Sz := Ctx.getTypeSizeInChars RngFld.getType
    let H ← H.addParamDesc .kind_std_layout (unsignedToInt (castUnsigned Sz))
      (castUnsigned Offset1)
    let Offset := Fld.BitOffset / 8
    let (OffstFld, Offset2) ←
      getFieldDeclByName AccTy ["__impl", "Offset"] (some Offset)
    let OffstFld ← deref OffstFld
    let Offset2 ← deref Offset2
    let Sz := Ctx.getTypeSizeInChars OffstFld.getType
    H.addParamDesc .kind_std_layout (unsignedToInt (castUnsigned Sz))
      (castUnsigned Offset2)
  else if (← isSyclStreamType ArgTy) then
    throw "streams not supported yet"
  else if ArgTy.isStructureOrClassType || ArgTy.isScalarType then
    let Sz := Ctx.getTypeSizeInChars Fld.getType
    H.addParamDesc .kind_std_layout (unsignedToInt (castUnsigned Sz))
      (castUnsigned Offset)
  else
    throw "unsupported kernel parameter type"

/-- The loop of `populateIntHeader` over `KernelObjTy->fields()`. -/
def populateIntHeaderLoop (Ctx : ASTContext) :
    List FieldDecl → SYCLIntegrationHeader → Except String SYCLIntegrationHeader
  | [], H => .ok H
  | Fld :: Rest, H =>
    match populateIntHeaderField Ctx H Fld with
    | .error e => .error e
    | .ok H1 => populateIntHeaderLoop Ctx Rest H1

/-- Models `populateIntHeader`. -/
def populateIntHeader (Ctx : ASTContext) (H : SYCLIntegrationHeader)
    (Name : String) (NameType : QualType) (KernelObjTy : CXXRecordDecl) :
    Except String SYCLIntegrationHeader :=
  populateIntHeaderLoop Ctx KernelObjTy.fields (H.startKernel Name NameType)

/-- A synthesized-parameter descriptor (`ParamDesc`): the parameter type and
the identifier; the trivial type source info is determined by the type. -/
structure ParamDesc where
  Ty : QualType
  Name : String

/-- Models `makeParamDesc`. -/
def makeParamDesc (Src : FieldDecl) (Ty : QualType) : ParamDesc :=
  ⟨Ty, "_arg_" ++ Src.Name⟩

/-- What `buildArgTys` has produced so far: the descriptors and the
diagnostics reported. -/
structure ArgTysState where
  ParamDescs : List ParamDesc
  Diags : List Diagnostic

/-- The address space `buildArgTys` selects for an access target. -/
def targetAddressSpace (AccessTarget : Int) : Except String LangAS :=
  if AccessTarget = 2014 then .ok .opencl_global
  else if AccessTarget = 2015 then .ok .opencl_constant
  else if AccessTarget = 2016 then .ok .opencl_local
  else .error "Unsupported access target"

/-- The body of the loop of `buildArgTys` for one field; `Cpt` is
`KernelObj->captures_begin()`. -/
def buildArgTysField (Cpt : Option LambdaCapture) (St : ArgTysState)
    (Fld : FieldDecl) : Except String ArgTysState := do
  let ArgTy := Fld.getType
  if (← isSyclAccessorType ArgTy) then
    let RecordDecl ← match ArgTy.getAsCXXRecordDecl with
      | some RD => pure RD
      | none => throw "accessor must be of a record type"
    let PointeeType ← match RecordDecl.getTemplateArgs.get? 0 with
      | some (.Type T) => pure T
      | some _ => throw "template argument is not a type"
      | none => throw "template argument index out of range"
    let AccessTarget ← getAccessTarget RecordDecl
    let AS ← targetAddressSpace AccessTarget
    let Quals := PointeeType.getQualifiers.setAddressSpace AS
    let PointeeType := getQualifiedType PointeeType.getUnqualifiedType Quals
    let PointerType := getPointerType PointeeType
    let P0 := makeParamDesc Fld PointerType
    let (RangeFld, _) ← getFieldDeclByName RecordDecl ["__impl", "Range"] none
    let RangeFld ← match RangeFld with
      | some F => pure F
      | none => throw "The accessor must contain the Range from the __impl field"
    let P1 := makeParamDesc RangeFld RangeFld.getType
    let (OffsetFld, _) ← getFieldDeclByName RecordDecl ["__impl", "Offset"] none
    let OffsetFld ← match OffsetFld with
      | some F => pure F
      | none => throw "The accessor must contain the Offset from the __impl field"
    let P2 := makeParamDesc OffsetFld OffsetFld.getType
    pure { St with ParamDescs := St.ParamDescs ++ [P0, P1, P2] }
  else if (← isSyclStreamType ArgTy) then
    throw "streams not supported yet"
  else if ArgTy.isStructureOrClassType then
    if !ArgTy.isStandardLayoutType then
      let VLoc ← match Cpt with
        | some (.Variable VarLoc) => pure VarLoc
        | some .This => throw "capture does not capture a variable"
        | none => pure Fld.Loc
      pure ⟨St.ParamDescs ++ [makeParamDesc Fld ArgTy],
            St.Diags ++ [⟨VLoc, .err_sycl_non_std_layout_type⟩]⟩
    else
      pure { St with ParamDescs := St.ParamDescs ++ [makeParamDesc Fld ArgTy] }
  else if ArgTy.isScalarType then
    pure { St with ParamDescs := St.ParamDescs ++ [makeParamDesc Fld ArgTy] }
  else
    throw "unsupported kernel parameter type"

/-- The loop of `buildArgTys` over `KernelObj->fields()`. -/
def buildArgTysLoop (Cpt : Option LambdaCapture) :
    List FieldDecl → ArgTysState → Except String ArgTysState
  | [], St => .ok St
  | Fld :: Rest, St =>
    match buildArgTysField Cpt St Fld with
    | .error e => .error e
    | .ok St1 => buildArgTysLoop Cpt Rest St1

/-- Models `buildArgTys`, called with an empty `ParamDescs`. -/
def buildArgTys (KernelObj : CXXRecordDecl) : Except String ArgTysState :=
  buildArgTysLoop KernelObj.Info.Captures.head? KernelObj.fields ⟨[], []⟩

/-! ## Forward declarations -/

/-- The declarations `emitFwdDecl` is called with: a class template or a
record. -/
inductive Decl
  | ClassTemplate (CTD : ClassTemplateDecl)
  | CXXRecord (Info : RecordInfo)
deriving DecidableEq, Repr

/-- The identity of the declaration (its address in the source). -/
def Decl.ID : Decl → Nat
  | .ClassTemplate CTD => CTD.ID
  | .CXXRecord Info => Info.ID

/-- Models `Decl::getDeclContext`. -/
def Decl.getDeclContext : Decl → DeclContext
  | .ClassTemplate CTD => CTD.DC
  | .CXXRecord Info => Info.DC

/-- Models `D->getSourceRange().getBegin()`. -/
def Decl.Loc : Decl → SourceLocation
  | .ClassTemplate CTD => CTD.Loc
  | .CXXRecord Info => Info.Loc

/-- Models `D->print(SO, P)` under the forward-declaration policy. -/
def Decl.print : Decl → String
  | .ClassTemplate CTD => CTD.FwdDecl
  | .CXXRecord Info => Info.FwdDecl

/-- The test `TD && TD->isCompleteDefinition()` of `emitFwdDecl`, `TD` being
the templated declaration of a class template and the tag declaration
itself otherwise. -/
def Decl.isCompleteDefinition : Decl → Bool
  | .ClassTemplate CTD => CTD.TemplatedIsCompleteDefinition
  | .CXXRecord Info => Info.IsCompleteDefinition

/-- The `while (DC)` loop of `emitFwdDecl`: `NamespaceCnt` and `NSStr` are
the loop's variables; the result also carries the diagnostics reported. -/
def emitFwdDeclLoop (D : Decl) :
    DeclContext → Nat → String → Nat × String × List Diagnostic
  | .TranslationUnit, NamespaceCnt, NSStr => (NamespaceCnt, NSStr, [])
  | .Ctx Kind Name Parent, NamespaceCnt, NSStr =>
    if Kind = .Namespace then
      emitFwdDeclLoop D Parent (NamespaceCnt + 1)
        ("namespace " ++ Name ++ " \x7b " ++ NSStr)
    else
      (NamespaceCnt, NSStr,
        if !(DeclContext.Ctx Kind Name Parent).isTranslationUnit
            && D.isCompleteDefinition then
          [⟨D.Loc, .err_sycl_kernel_name_class_not_top_level⟩]
        else [])

/-- The loop `for (I = 0; I < NamespaceCnt; ++I) O << "}"`. -/
def closingBraces : Nat → String
  | 0 => ""
  | n + 1 => closingBraces n ++ "\x7d"

/-- Models `SYCLIntegrationHeader::emitFwdDecl`: the text written to `O` and
the diagnostics reported. -/
def emitFwdDecl (D : Decl) : String × List Diagnostic :=
  let R := emitFwdDeclLoop D D.getDeclContext 0 ""
  let NamespaceCnt := R.1
  let NSStr := R.2.1
  (NSStr ++ (if NamespaceCnt > 0 then "\n" else "")
      ++ D.print ++ ";\n"
      ++ closingBraces NamespaceCnt
      ++ (if NamespaceCnt > 0 then "\n" else ""),
   R.2.2)

/-- One call of `emitFwdDecl` as it shows in the output: the declaration it
was called for and the text it wrote. -/
structure FwdDeclEntry where
  ID : Nat
  Text : String
deriving DecidableEq, Repr

/-- The state the forward-declaration walk threads: the output written so
far (one entry per `emitFwdDecl` call), the set `Printed` (in insertion
order) and the diagnostics reported. -/
structure FwdState where
  O : List FwdDeclEntry
  Printed : List Nat
  Diags : List Diagnostic
deriving DecidableEq, Repr

/-- The step `if (Printed.insert(D).second) emitFwdDecl(O, D)`. -/
def insertAndEmit (D : Decl) (St : FwdState) : FwdState :=
  if D.ID ∈ St.Printed then St
  else
    ⟨St.O ++ [⟨D.ID, (emitFwdDecl D).1⟩], St.Printed ++ [D.ID],
      St.Diags ++ (emitFwdDecl D).2⟩

mutual
/-- Models `SYCLIntegrationHeader::emitForwardClassDecls`. -/
def emitForwardClassDecls : QualType → FwdState → Except String FwdState
  | .mk Ty _, St => emitForwardClassDeclsTy Ty St
/-- The pointer-peeling loop and the test of `getAsCXXRecordDecl`. -/
def emitForwardClassDeclsTy : ClangType → FwdState → Except String FwdState
  | .Pointer Pointee, St => emitForwardClassDecls Pointee St
  | .Record RD, St => emitForwardClassDeclsRD RD St
  | .Builtin _, St => .ok St
  | .Enum _, St => .ok St
  | .LValueReference _, St => .ok St
  | .ConstantArray _ _, St => .ok St
  | .IncompleteArray _, St => .ok St
  | .VariableArray _, St => .ok St
  | .FunctionProto _ _, St => .ok St
  | .FunctionNoProto _, St => .ok St
  | .RecordRef _, St => .ok St
/-- The part of `emitForwardClassDecls` that follows once `RD` is known. -/
def emitForwardClassDeclsRD : CXXRecordDecl → FwdState → Except String FwdState
  | .mk _ (some CTD) Args _, St =>
    match emitForwardClassDeclsArgs Args St with
    | .error e => .error e
    | .ok St1 => .ok (insertAndEmit (.ClassTemplate CTD) St1)
  | .mk Info none _ _, St => .ok (insertAndEmit (.CXXRecord Info) St)
/-- The loop over the template arguments `Args[I]`. -/
def emitForwardClassDeclsArgs :
    List TemplateArgument → FwdState → Except String FwdState
  | [], St => .ok St
  | Arg :: Rest, St =>
    match emitForwardClassDeclsArg Arg St with
    | .error e => .error e
    | .ok St1 => emitForwardClassDeclsArgs Rest St1
/-- The `switch (Arg.getKind())`. -/
def emitForwardClassDeclsArg :
    TemplateArgument → FwdState → Except String FwdState
  | .Type T, St => emitForwardClassDecls T St
  | .Pack Elems, St => emitForwardClassDeclsPack Elems St
  | .Template, _ => .error "template template arguments not supported"
  | .Null, St => .ok St
  | .Declaration, St => .ok St
  | .NullPtr, St => .ok St
  | .Integral _, St => .ok St
  | .TemplateExpansion, St => .ok St
  | .Expression, St => .ok St
/-- The loop over the elements of a parameter pack. -/
def emitForwardClassDeclsPack :
    List TemplateArgument → FwdState → Except String FwdState
  | [], St => .ok St
  | .Type T :: Rest, St =>
    match emitForwardClassDecls T St with
    | .error e => .error e
    | .ok St1 => emitForwardClassDeclsPack Rest St1
  | _ :: Rest, St => emitForwardClassDeclsPack Rest St
end

/-- The loop `for (const KernelDesc &K : KernelDescs)
emitForwardClassDecls(O, K.NameType, Printed)` of `emit`. -/
def emitForwardClassDeclsLoop :
    List KernelDesc → FwdState → Except String FwdState
  | [], St => .ok St
  | K :: Rest, St =>
    match emitForwardClassDecls K.NameType St with
    | .error e => .error e
    | .ok St1 => emitForwardClassDeclsLoop Rest St1

/-! ## Emission of the header (`SYCLIntegrationHeader::emit`) -/

/-- Models `paramKind2Str`. -/
def paramKind2Str : kernel_param_kind_t → String
  | .kind_accessor => "kind_accessor"
  | .kind_std_layout => "kind_std_layout"
  | .kind_sampler => "kind_sampler"

/-- The substring `eraseAnonNamespace` removes. -/
def anonNamespaceStr : List Char := "(anonymous namespace)::".toList

/-- Models `S.find(S1, Pos)` on the characters from position `Pos` on: `Rest`
is the text from position `Pos`, the result the first position not before
`Pos` at which `S1` occurs. -/
def findFrom (S1 : List Char) : List Char → Nat → Option Nat
  | [], Pos => if S1 = [] then some Pos else none
  | c :: Rest, Pos =>
    if S1.isPrefixOf (c :: Rest) then some Pos else findFrom S1 Rest (Pos + 1)

/-- Models `std::string::find(S1, Pos)`. -/
def stringFind (S S1 : List Char) (Pos : Nat) : Option Nat :=
  if Pos ≤ S.length then findFrom S1 (S.drop Pos) Pos else none

/-- Models `std::string::erase(Pos, Len)`. -/
def stringErase (S : List Char) (Pos Len : Nat) : List Char :=
  S.take Pos ++ S.drop (Pos + Len)

/-- The `for` loop of `eraseAnonNamespace`; every round removes
`sizeof(S1) - 1` characters, so `S.length` rounds always suffice and the
first argument only bounds the recursion. -/
def eraseAnonNamespaceLoop : Nat → List Char → Option Nat → List Char
  | 0, S, _ => S
  | _ + 1, S, none => S
  | n + 1, S, some Pos =>
    let S2 := stringErase S Pos anonNamespaceStr.length
    eraseAnonNamespaceLoop n S2 (stringFind S2 anonNamespaceStr Pos)

/-- Models `eraseAnonNamespace`. -/
def eraseAnonNamespace (S : String) : String :=
  String.mk (eraseAnonNamespaceLoop S.length S.toList
    (stringFind S.toList anonNamespaceStr 0))

/-- One line of the `kernel_names` initializer. -/
structure NameRow where
  Name : String
  Comma : Bool
deriving DecidableEq, Repr

def NameRow.render (R : NameRow) : String :=
  "  \"" ++ R.Name ++ "\"" ++ (if R.Comma then "," else "") ++ "\n"

/-- The loop writing `kernel_names`: `Size` is `KernelDescs.size()`, `I` the
index, the list the records from index `I` on. -/
def kernelNamesLoop (Size : Nat) : Nat → List KernelDesc → List NameRow
  | _, [] => []
  | I, K :: Rest =>
    ⟨K.Name, decide (I < Size - 1)⟩ :: kernelNamesLoop Size (I + 1) Rest

/-- One line of the `kernel_signatures` initializer: the comment heading a
kernel, one array element, or the empty line closing a kernel. -/
inductive SigRow
  | Heading (Name : String)
  | Entry (P : KernelParamDesc)
  | Blank
deriving DecidableEq, Repr

def SigRow.render : SigRow → String
  | .Heading Name => "  //--- " ++ Name ++ "\n"
  | .Entry P =>
    "  \x7b kernel_param_kind_t::" ++ paramKind2Str P.Kind ++ ", "
      ++ toString P.Info ++ ", " ++ toString P.Offset ++ " \x7d,\n"
  | .Blank => "\n"

/-- The array element a line contributes to `kernel_signatures`. -/
def SigRow.entry? : SigRow → Option KernelParamDesc
  | .Entry P => some P
  | _ => none

/-- The loop writing `kernel_signatures`. -/
def kernelSignaturesLoop : List KernelDesc → List SigRow
  | [] => []
  | K :: Rest =>
    (.Heading K.Name :: K.Params.map .Entry) ++ [.Blank]
      ++ kernelSignaturesLoop Rest

/-- One line of the `kernel_signature_start` initializer. -/
structure StartRow where
  CurStart : Nat
  Comma : Bool
  Name : String
deriving DecidableEq, Repr

def StartRow.render (R : StartRow) : String :=
  "  " ++ toString R.CurStart ++ (if R.Comma then "," else "")
    ++ " // " ++ R.Name ++ "\n"

/-- The loop writing `kernel_signature_start`, with its variables `I` and
`CurStart`. -/
def kernelSignatureStartLoop (Size : Nat) :
    Nat → Nat → List KernelDesc → List StartRow
  | _, _, [] => []
  | I, CurStart, K :: Rest =>
    ⟨CurStart, decide (I < Size - 1), K.Name⟩ ::
      kernelSignatureStartLoop Size (I + 1) (CurStart + (K.Params.length + 1))
        Rest

/-- One `KernelInfo` specialization: the printed name type, the value
returned by `getName`, the value returned by `getNumParams` and the constant
added to `i` in `getParamDesc`. -/
structure KernelInfoRow where
  NameType : String
  Name : String
  NumParams : Nat
  CurStart : Nat
deriving DecidableEq, Repr

def KernelInfoRow.render (R : KernelInfoRow) : String :=
  "template <> struct KernelInfo<" ++ R.NameType ++ "> \x7b\n"
    ++ "  static constexpr const char* getName() \x7b return \"" ++ R.Name
    ++ "\"; \x7d\n"
    ++ "  static constexpr unsigned getNumParams() \x7b return "
    ++ toString R.NumParams ++ "; \x7d\n"
    ++ "  static constexpr const kernel_param_desc_t& "
    ++ "getParamDesc(unsigned i) \x7b\n"
    ++ "    return kernel_signatures[i+" ++ toString R.CurStart ++ "];\n"
    ++ "  \x7d\n"
    ++ "\x7d;\n"

/-- The loop writing the `KernelInfo` specializations, with its variable
`CurStart`; `getAsString` is the type printer. -/
def kernelInfoLoop (getAsString : QualType → String) :
    Nat → List KernelDesc → List KernelInfoRow
  | _, [] => []
  | CurStart, K :: Rest =>
    ⟨eraseAnonNamespace (getAsString K.NameType), K.Name, K.Params.length,
      CurStart⟩ ::
      kernelInfoLoop getAsString (CurStart + K.Params.length) Rest

/-- Everything `emit` writes, section by section, and the diagnostics it
reports. -/
structure EmitOutput where
  FwdDecls : List FwdDeclEntry
  Diags : List Diagnostic
  kernel_names : List NameRow
  kernel_signatures : List SigRow
  kernel_signature_start : List StartRow
  KernelInfo : List KernelInfoRow
deriving DecidableEq, Repr

/-- Models `SYCLIntegrationHeader::emit(raw_ostream &O)`. -/
def SYCLIntegrationHeader.emit (getAsString : QualType → String)
    (H : SYCLIntegrationHeader) : Except String EmitOutput :=
  match emitForwardClassDeclsLoop H.KernelDescs ⟨[], [], []⟩ with
  | .error e => .error e
  | .ok St =>
    .ok {
      FwdDecls := St.O
      Diags := St.Diags
      kernel_names := kernelNamesLoop H.KernelDescs.length 0 H.KernelDescs
      kernel_signatures := kernelSignaturesLoop H.KernelDescs
      kernel_signature_start :=
        kernelSignatureStartLoop H.KernelDescs.length 0 0 H.KernelDescs
      KernelInfo := kernelInfoLoop getAsString 0 H.KernelDescs }

/-- The characters written to the stream. -/
def EmitOutput.text (Out : EmitOutput) : String :=
  "// This is auto-generated SYCL integration header.\n"
    ++ "\n"
    ++ "#include <CL/sycl/detail/kernel_desc.hpp>\n"
    ++ "\n"
    ++ "// Forward declarations of templated kernel function types:\n"
    ++ String.join (Out.FwdDecls.map FwdDeclEntry.Text)
    ++ "\n"
    ++ "namespace cl \x7b\n"
    ++ "namespace sycl \x7b\n"
    ++ "namespace detail \x7b\n"
    ++ "\n"
    ++ "// names of all kernels defined in the corresponding source\n"
    ++ "static constexpr\n"
    ++ "const char* const kernel_names[] = \x7b\n"
    ++ String.join (Out.kernel_names.map NameRow.render)
    ++ "\x7d;\n\n"
    ++ "// array representing signatures of all kernels defined in the\n"
    ++ "// corresponding source\n"
    ++ "static constexpr\n"
    ++ "const kernel_param_desc_t kernel_signatures[] = \x7b\n"
    ++ String.join (Out.kernel_signatures.map SigRow.render)
    ++ "\x7d;\n\n"
    ++ "// indices into the kernel_signatures array, each representing a start of\n"
    ++ "// kernel signature descriptor subarray of the kernel_signatures array;\n"
    ++ "// the index order in this array corresponds to the kernel name order in the\n"
    ++ "// kernel_names array\n"
    ++ "static constexpr\n"
    ++ "const unsigned kernel_signature_start[] = \x7b\n"
    ++ String.join (Out.kernel_signature_start.map StartRow.render)
    ++ "\x7d;\n\n"
    ++ "// Specializations of this template class encompasses information\n"
    ++ "// about a kernel. The kernel is identified by the template\n"
    ++ "// parameter type.\n"
    ++ "template <class KernelNameType> struct KernelInfo;\n"
    ++ "\n"
    ++ "// Specializations of KernelInfo for kernel function types:\n"
    ++ String.join (Out.KernelInfo.map KernelInfoRow.render)
    ++ "\n"
    ++ "\x7d // namespace detail\n"
    ++ "\x7d // namespace sycl\n"
    ++ "\x7d // namespace cl\n"
    ++ "\n"

/-- The array `kernel_signatures` the emitted initializer denotes: its
elements are the entry lines, in the order written. -/
def EmitOutput.signatureTable (Out : EmitOutput) : List KernelParamDesc :=
  Out.kernel_signatures.filterMap SigRow.entry?

/-- The array `kernel_signature_start` the emitted initializer denotes. -/
def EmitOutput.signatureStartTable (Out : EmitOutput) : List Nat :=
  Out.kernel_signature_start.map StartRow.CurStart

/-! ## Registration of kernels -/

/-- A run of `addParamDesc` calls, one per descriptor, in order. -/
def SYCLIntegrationHeader.addParamDescs :
    SYCLIntegrationHeader → List KernelParamDesc →
    Except String SYCLIntegrationHeader
  | H, [] => .ok H
  | H, P :: Rest =>
    match H.addParamDesc P.Kind P.Info P.Offset with
    | .error e => .error e
    | .ok H1 => H1.addParamDescs Rest

/-- Registration of kernels one after the other, each by `startKernel`
followed by one `addParamDesc` per descriptor (the call pattern of
`populateIntHeader`); the list gives the registrations in call order. -/
def registerKernels :
    SYCLIntegrationHeader → List KernelDesc → Except String SYCLIntegrationHeader
  | H, [] => .ok H
  | H, K :: Rest =>
    match (H.startKernel K.Name K.NameType).addParamDescs K.Params with
    | .error e => .error e
    | .ok H1 => registerKernels H1 Rest

/-! ## Kernel names (`constructKernelName`) -/

/-- The language options the code reads. -/
structure LangOptions where
  SYCLXOCCDevice : Bool

mutual
/-- Models `QualType::getBaseTypeIdentifier` on the modelled type nodes: the
identifier of the record or enumeration that the type leads to through
pointers, references and arrays; a declaration without a name, as that of a
lambda, has no identifier. -/
def QualType.getBaseTypeIdentifier : QualType → Option String
  | .mk Ty _ => getBaseTypeIdentifierTy Ty
/-- The same for a type node. -/
def getBaseTypeIdentifierTy : ClangType → Option String
  | .Pointer Pointee => Pointee.getBaseTypeIdentifier
  | .LValueReference Pointee => Pointee.getBaseTypeIdentifier
  | .ConstantArray Element _ => Element.getBaseTypeIdentifier
  | .IncompleteArray Element => Element.getBaseTypeIdentifier
  | .VariableArray Element => Element.getBaseTypeIdentifier
  | .Record RD => if RD.Info.Name = "" then none else some RD.Info.Name
  | .Enum Name => if Name = "" then none else some Name
  | .Builtin _ => none
  | .FunctionProto _ _ => none
  | .FunctionNoProto _ => none
  | .RecordRef _ => none
end

/-- Models `constructKernelName`. `mangleTypeName` is what
`MangleContext::mangleTypeName` writes for a type; reading the name of a null
identifier ends the run. -/
def constructKernelName (LangOpts : LangOptions) (mangleTypeName : QualType → String)
    (KernelNameType : QualType) : Except String String :=
  if LangOpts.SYCLXOCCDevice then
    match KernelNameType.getBaseTypeIdentifier with
    | some II => .ok II
    | none => .error "null identifier"
  else
    .ok (mangleTypeName KernelNameType)

/-! ## Syntax trees and the translation unit -/

/-- Models `ExprValueKind`. -/
inductive ExprValueKind
  | VK_RValue | VK_LValue | VK_XValue
deriving DecidableEq, Repr

/-- The cast kinds the code creates; `CK_Other` stands for every other kind. -/
inductive CastKind
  | CK_NoOp | CK_LValueToRValue | CK_Other
deriving DecidableEq, Repr

/-- The binary operators the code creates; `BO_Other` stands for every other one. -/
inductive BinaryOperatorKind
  | BO_Assign | BO_Other
deriving DecidableEq, Repr

/-- The classes of `ValueDecl` the code tells apart with `dyn_cast` and `isa`. -/
inductive ValueDeclKind
  | Var | ParmVar | Field | Function | CXXMethod | EnumConstant
deriving DecidableEq, Repr

/-- A declaration that an expression refers to. `ID` is the identity of the
declaration (its address in the compiler). -/
structure ValueDecl where
  ID : Nat
  Kind : ValueDeclKind
  Name : String
  /-- Value of `getType()` -/
  Ty : QualType
  /-- Value of `VarDecl::hasGlobalStorage()` -/
  HasGlobalStorage : Bool
  /-- Value of `VarDecl::isStaticLocal()` -/
  IsStaticLocal : Bool
  /-- Value of `VarDecl::isStaticDataMember()` -/
  IsStaticDataMember : Bool
  /-- Value of `getLocation()` -/
  Loc : SourceLocation

/-- Models `dyn_cast<VarDecl>` succeeding: a variable or a parameter. -/
def ValueDecl.isVarDecl (D : ValueDecl) : Bool :=
  D.Kind == .Var || D.Kind == .ParmVar

/-- Models `isa<ParmVarDecl>`. -/
def ValueDecl.isParmVarDecl (D : ValueDecl) : Bool :=
  D.Kind == .ParmVar

/-- Models `dyn_cast<DeclaratorDecl>` succeeding. -/
def ValueDecl.isDeclaratorDecl (D : ValueDecl) : Bool :=
  D.Kind != .EnumConstant

/-- A function declaration (the canonical one), as far as the code reads it;
the definition and its body are found in the translation unit. -/
structure FunctionDecl where
  ID : Nat
  Name : String
  /-- The declaration is a `CXXMethodDecl` and `isVirtual()` holds -/
  IsVirtualMethod : Bool
  /-- Value of `isReplaceableGlobalAllocationFunction()` -/
  IsReplaceableGlobalAllocationFunction : Bool
  ReturnType : QualType
  Params : List ValueDecl
  /-- Value of `getSourceRange().getBegin()` -/
  Loc : SourceLocation

/-- Models `FunctionDecl::getType`. -/
def FunctionDecl.getType (FD : FunctionDecl) : QualType :=
  .mk (.FunctionProto FD.ReturnType (FD.Params.map (·.Ty))) {}

/-- The member a `MemberExpr` names. -/
inductive MemberDecl
  | Field (F : FieldDecl)
  | Method (M : FunctionDecl)
  | Var (D : ValueDecl)

/-- The node classes the code creates or visits, with the data it reads from
them; `Other` stands for every other class. A declaration inside a
declaration statement is a node of its own (`VarDecl`, `TypedefNameDecl`,
`RecordDecl`), the initializer of a variable being its child. The children of a
`CallExpr` are the callee expression followed by the arguments; member calls
and operator calls are call expressions. -/
inductive StmtClass
  | CompoundStmt
  | DeclStmt
  | VarDecl (D : ValueDecl)
  | TypedefNameDecl (UnderlyingType : QualType)
  | RecordDecl (TypeForDecl : QualType)
  | DeclRefExpr (D : ValueDecl)
  | MemberExpr (Member : MemberDecl)
  | ImplicitCastExpr (Kind : CastKind)
  | BinaryOperator (Opc : BinaryOperatorKind)
  | CallExpr (DirectCallee : Option FunctionDecl)
  | CXXConstructExpr (Constructor : FunctionDecl)
      (UserDeclaredDestructor : Option FunctionDecl)
  | CXXNewExpr (OperatorNew : Option FunctionDecl)
  | CXXTypeidExpr
  | CXXDynamicCastExpr
  | CXXThrowExpr
  | CXXCatchStmt
  | CXXTryStmt
  | SEHTryStmt
  | GCCAsmStmt
  | MSAsmStmt
  | Other

/-- What a node holds besides its children. `Ty` and `VK` are the type and the
value kind of an expression; `BeginLoc` is `getBeginLoc()` (the begin of
`getSourceRange()`), `ExprLoc` is `getExprLoc()` (`getLocation()` for a
declaration or a reference to one). -/
structure StmtNode where
  Class : StmtClass
  Ty : QualType
  VK : ExprValueKind
  BeginLoc : SourceLocation
  ExprLoc : SourceLocation

/-- A statement, an expression or a declaration inside a statement. -/
inductive Stmt
  | mk (Node : StmtNode) (Children : List Stmt)

def Stmt.Node : Stmt → StmtNode
  | .mk Node _ => Node

/-- Models `Stmt::children`. -/
def Stmt.Children : Stmt → List Stmt
  | .mk _ Children => Children

/-- Models `Expr::getType`. -/
def Stmt.getType (S : Stmt) : QualType := S.Node.Ty

/-- Models `CallExpr::arguments`: the children after the callee. -/
def Stmt.arguments (S : Stmt) : List Stmt := S.Children.tail

/-- What the code reaches from the translation unit through declarations. -/
structure TranslationUnit where
  /-- The record declarations that a `RecordRef` names, by identity -/
  Records : List (Nat × CXXRecordDecl)
  /-- The functions for which `getDefinition()` is not null, each with
  `getBody()` of the definition -/
  Definitions : List (Nat × Option Stmt)
  /-- The call graph `SYCLCG`: the functions for which `getNode` is not null,
  each with the canonical declarations of the functions it calls -/
  CallGraph : List (Nat × List Nat)
  /-- Value of `methods()` for the records that declare methods -/
  Methods : List (Nat × List FunctionDecl)

/-- Models `FunctionDecl::getDefinition`, giving the body of the definition. -/
def TranslationUnit.getDefinition (TU : TranslationUnit) (FD : FunctionDecl) :
    Option (Option Stmt) :=
  TU.Definitions.lookup FD.ID

/-- Models `CallGraph::getNode`, giving the callees of the node. -/
def TranslationUnit.getNode (TU : TranslationUnit) (F : Nat) : Option (List Nat) :=
  TU.CallGraph.lookup F

/-- Models `CXXRecordDecl::methods`. -/
def TranslationUnit.methods (TU : TranslationUnit) (RD : CXXRecordDecl) :
    List FunctionDecl :=
  (TU.Methods.lookup RD.Info.ID).getD []

/-- Models `Type::getAsCXXRecordDecl` where a record type may be given by
reference. -/
def TranslationUnit.getAsCXXRecordDecl (TU : TranslationUnit) :
    ClangType → Option CXXRecordDecl
  | .Record RD => some RD
  | .RecordRef ID => TU.Records.lookup ID
  | _ => none

/-! ## Checks of types in device code (`MarkDeviceFunction::CheckSYCLType`) -/

/-- Models `CXXRecordDecl::hasDefinition` of the declaration that a record type
refers to, which is the definition whenever the class has one. -/
def CXXRecordDecl.hasDefinition (RD : CXXRecordDecl) : Bool :=
  RD.Info.IsCompleteDefinition

/-- Models `CXXRecordDecl::isPolymorphic`. -/
def CXXRecordDecl.isPolymorphic (RD : CXXRecordDecl) : Bool :=
  RD.Info.IsPolymorphic

/-- Models `Type::isVariableArrayType`. -/
def QualType.isVariableArrayType : QualType → Bool
  | .mk (.VariableArray _) _ => true
  | _ => false

mutual
/-- The loop `while (Ty->isAnyPointerType() || Ty->isArrayType())` of
`CheckSYCLType`, which replaces `Ty` by `getPointeeOrArrayElementType()` without
qualifiers: the type node it ends at. -/
def stripPointersAndArrays : QualType → ClangType
  | .mk Ty _ => stripPointersAndArraysTy Ty
/-- The same for a type node. -/
def stripPointersAndArraysTy : ClangType → ClangType
  | .Pointer Pointee => stripPointersAndArrays Pointee
  | .ConstantArray Element _ => stripPointersAndArrays Element
  | .IncompleteArray Element => stripPointersAndArrays Element
  | .VariableArray Element => stripPointersAndArrays Element
  | .Builtin Kind => .Builtin Kind
  | .Enum Name => .Enum Name
  | .LValueReference Pointee => .LValueReference Pointee
  | .Record RD => .Record RD
  | .FunctionProto Result Params => .FunctionProto Result Params
  | .FunctionNoProto Result => .FunctionNoProto Result
  | .RecordRef ID => .RecordRef ID
end

/-- The result of a check that may not return: `none` when the recursion is cut
off, otherwise the value returned and the diagnostics emitted, in order. -/
abbrev CheckResult := Option (Bool × List Diagnostic)

/-- The loop of `CheckSYCLType` over `CRD->fields()`; `Check` is the recursive
call. The first rejected field ends the loop with a note at `Loc`. -/
def CheckSYCLTypeFields (Check : QualType → SourceLocation → CheckResult)
    (Loc : SourceLocation) : List FieldDecl → CheckResult
  | [] => some (true, [])
  | Field :: Rest =>
    match Check Field.getType Field.Loc with
    | none => none
    | some (false, Ds) => some (false, Ds ++ [⟨Loc, .note_sycl_used_here⟩])
    | some (true, Ds) =>
      match CheckSYCLTypeFields Check Loc Rest with
      | none => none
      | some (R, Ds1) => some (R, Ds ++ Ds1)

/-- The loop of `CheckSYCLType` over `FPTy->param_types()`; `Check` is the
recursive call. The first rejected parameter type ends the loop. -/
def CheckSYCLTypeParams (Check : QualType → SourceLocation → CheckResult)
    (Loc : SourceLocation) : List QualType → CheckResult
  | [] => some (true, [])
  | ParamTy :: Rest =>
    match Check ParamTy Loc with
    | none => none
    | some (false, Ds) => some (false, Ds)
    | some (true, Ds) =>
      match CheckSYCLTypeParams Check Loc Rest with
      | none => none
      | some (R, Ds1) => some (R, Ds ++ Ds1)

/-- Models `MarkDeviceFunction::CheckSYCLType`; `Loc` is `Loc.getBegin()` of the
range passed. The first argument bounds the depth of the recursion: the result
is `none` when the bound is reached. In C++ every record declaration is a
`CXXRecordDecl`, so the branch on `getAsRecordDecl` is not taken. -/
def CheckSYCLType (TU : TranslationUnit) : Nat → QualType → SourceLocation → CheckResult
  | 0, _, _ => none
  | fuel + 1, Ty, Loc =>
    if Ty.isVariableArrayType then
      some (false, [⟨Loc, .err_vla_unsupported⟩])
    else
      match TU.getAsCXXRecordDecl (stripPointersAndArrays Ty) with
      | some CRD =>
        if !CRD.hasDefinition then
          some (true, [])
        else if CRD.isPolymorphic then
          some (false, [⟨CRD.Info.Loc, .err_sycl_virtual_types⟩,
            ⟨Loc, .note_sycl_used_here⟩])
        else
          CheckSYCLTypeFields (CheckSYCLType TU fuel) Loc CRD.fields
      | none =>
        match stripPointersAndArrays Ty with
        | .FunctionProto Result Params =>
          match CheckSYCLTypeParams (CheckSYCLType TU fuel) Loc Params with
          | none => none
          | some (false, Ds) => some (false, Ds)
          | some (true, Ds) =>
            match CheckSYCLType TU fuel Result Loc with
            | none => none
            | some (R, Ds1) => some (R, Ds ++ Ds1)
        | .FunctionNoProto Result => CheckSYCLType TU fuel Result Loc
        | _ => some (true, [])

/-! ## Recursion in the call graph (`MarkDeviceFunction::IsRecursive`) -/

/-- The loop of `IsRecursive` over the callees of a node; `Rec` is the
recursive call. Reaching `FD` emits the note at the begin of `FD` and ends the
search with true, the diagnostic builder being converted to `bool`. -/
def IsRecursiveCallees (Rec : Nat → CheckResult) (FD : FunctionDecl) :
    List Nat → CheckResult
  | [] => some (false, [])
  | Callee :: Rest =>
    if Callee = FD.ID then
      some (true, [⟨FD.Loc,
        .note_sycl_recursive_function_declared_here .KernelCallRecursiveFunction⟩])
    else
      match Rec Callee with
      | none => none
      | some (true, Ds) => some (true, Ds)
      | some (false, Ds) =>
        match IsRecursiveCallees Rec FD Rest with
        | none => none
        | some (R, Ds1) => some (R, Ds ++ Ds1)

/-- Models `MarkDeviceFunction::IsRecursive`. `VisitedSet` is passed by value,
so what a call inserts is seen by the calls below it only. The first argument
bounds the depth of the recursion: the result is `none` when the bound is
reached. -/
def IsRecursive (TU : TranslationUnit) :
    Nat → Nat → FunctionDecl → List Nat → CheckResult
  | 0, _, _, _ => none
  | fuel + 1, CalleeNode, FD, VisitedSet =>
    if CalleeNode ∈ VisitedSet then
      some (false, [])
    else
      match TU.getNode CalleeNode with
      | none => some (false, [])
      | some Callees =>
        IsRecursiveCallees
          (fun Callee => IsRecursive TU fuel Callee FD (CalleeNode :: VisitedSet))
          FD Callees

/-- A depth that `IsRecursive` never reaches from an empty visited set: every
call below the first one has inserted one more node of the call graph. -/
def IsRecursiveDepth (TU : TranslationUnit) : Nat := TU.CallGraph.length + 1

/-! ## The visitor of device code (`MarkDeviceFunction`) -/

/-- Models `QualType::getNonReferenceType`. -/
def QualType.getNonReferenceType : QualType → QualType
  | .mk (.LValueReference Pointee) _ => Pointee
  | T => T

/-- Models `QualType::isConstQualified`. -/
def QualType.isConstQualified (T : QualType) : Bool := T.getQualifiers.Const

/-- Models `DeclRefExpr::getDecl`. -/
def Stmt.getDecl (E : Stmt) : Option ValueDecl :=
  match E.Node.Class with
  | .DeclRefExpr D => some D
  | _ => none

/-- Models `MemberExpr::getMemberDecl`. -/
def Stmt.getMemberDecl (E : Stmt) : Option MemberDecl :=
  match E.Node.Class with
  | .MemberExpr Member => some Member
  | _ => none

/-- Models `CallExpr::getDirectCallee`, giving the canonical declaration. -/
def Stmt.getDirectCallee (E : Stmt) : Option FunctionDecl :=
  match E.Node.Class with
  | .CallExpr DirectCallee => DirectCallee
  | _ => none

/-- Models `CXXNewExpr::getOperatorNew`. -/
def Stmt.getOperatorNew (E : Stmt) : Option FunctionDecl :=
  match E.Node.Class with
  | .CXXNewExpr OperatorNew => OperatorNew
  | _ => none

/-- What the visitor has done so far. -/
structure VisitorState where
  /-- The diagnostics emitted, in order -/
  Diags : List Diagnostic
  /-- The definitions that carry `SYCLDeviceAttr`, one entry for each `addAttr` -/
  DeviceAttrs : List Nat
  /-- The definitions passed to `AddSyclKernel`, in order -/
  SyclKernels : List Nat

/-- Models `SemaRef.Diag(Loc, ID)`. -/
def VisitorState.Diag (St : VisitorState) (Loc : SourceLocation) (ID : DiagID) :
    VisitorState :=
  { St with Diags := St.Diags ++ [⟨Loc, ID⟩] }

/-- Models `Def->hasAttr<SYCLDeviceAttr>()`. -/
def VisitorState.hasAttr (St : VisitorState) (Def : FunctionDecl) : Bool :=
  St.DeviceAttrs.contains Def.ID

/-- A call of `CheckSYCLType` whose value is dropped: the diagnostics are
kept. -/
def VisitorState.check (St : VisitorState) (TU : TranslationUnit) (fuel : Nat)
    (Ty : QualType) (Loc : SourceLocation) : Option VisitorState :=
  match CheckSYCLType TU fuel Ty Loc with
  | none => none
  | some (_, Ds) => some { St with Diags := St.Diags ++ Ds }

/-- The statements `Def->addAttr(SYCLDeviceAttr::CreateImplicit(..));
this->TraverseStmt(Def->getBody()); SemaRef.AddSyclKernel(Def);`, where
`TraverseStmt` is the traversal of the visitor; traversing a null body does
nothing. -/
def markDeviceFunction (TraverseStmt : VisitorState → Stmt → Option VisitorState)
    (St : VisitorState) (Def : FunctionDecl) (Body : Option Stmt) :
    Option VisitorState :=
  let St1 := { St with DeviceAttrs := St.DeviceAttrs ++ [Def.ID] }
  let Traversed :=
    match Body with
    | none => some St1
    | some B => TraverseStmt St1 B
  match Traversed with
  | none => none
  | some St2 => some { St2 with SyclKernels := St2.SyclKernels ++ [Def.ID] }

/-- The loop of `VisitCallExpr` over `e->arguments()`. -/
def VisitCallExprArgs (TU : TranslationUnit) (fuel : Nat) :
    VisitorState → List Stmt → Option VisitorState
  | St, [] => some St
  | St, Arg :: Rest =>
    match St.check TU fuel Arg.getType Arg.Node.BeginLoc with
    | none => none
    | some St1 => VisitCallExprArgs TU fuel St1 Rest

/-- Models `MarkDeviceFunction::VisitCallExpr`. `TraverseStmt` is the traversal
of the visitor and `fuel` bounds the depth of the type checks. -/
def VisitCallExpr (TU : TranslationUnit)
    (TraverseStmt : VisitorState → Stmt → Option VisitorState) (fuel : Nat)
    (St : VisitorState) (e : Stmt) : Option VisitorState :=
  match VisitCallExprArgs TU fuel St e.arguments with
  | none => none
  | some St1 =>
    match e.getDirectCallee with
    | some Callee =>
      match IsRecursive TU (IsRecursiveDepth TU) Callee.ID Callee [] with
      | none => none
      | some (Recursive, Ds) =>
        let St2 : VisitorState := { St1 with Diags := St1.Diags ++ Ds }
        let St3 :=
          if Recursive then
            St2.Diag e.Node.ExprLoc (.err_sycl_restrict .KernelCallRecursiveFunction)
          else St2
        let St4 :=
          if Callee.IsVirtualMethod then
            St3.Diag e.Node.ExprLoc (.err_sycl_restrict .KernelCallVirtualFunction)
          else St3
        match St4.check TU fuel Callee.ReturnType Callee.Loc with
        | none => none
        | some St5 =>
          match TU.getDefinition Callee with
          | some Body =>
            if !St5.hasAttr Callee then
              markDeviceFunction TraverseStmt St5 Callee Body
            else some St5
          | none => some St5
    | none =>
      some (St1.Diag e.Node.ExprLoc (.err_sycl_restrict .KernelCallFunctionPointer))

/-- Models `MarkDeviceFunction::VisitMemberExpr`. -/
def VisitMemberExpr (St : VisitorState) (E : Stmt) : VisitorState :=
  match E.getMemberDecl with
  | some (.Var VD) =>
    if VD.isVarDecl then
      let IsConst := VD.Ty.getNonReferenceType.isConstQualified
      if VD.IsStaticDataMember && !IsConst then
        St.Diag E.Node.ExprLoc (.err_sycl_restrict .KernelNonConstStaticDataVariable)
      else St
    else St
  | _ => St

/-- Models `MarkDeviceFunction::VisitDeclRefExpr`. -/
def VisitDeclRefExpr (TU : TranslationUnit) (fuel : Nat) (St : VisitorState)
    (E : Stmt) : Option VisitorState :=
  match St.check TU fuel E.getType E.Node.BeginLoc with
  | none => none
  | some St1 =>
    match E.getDecl with
    | some VD =>
      if VD.isVarDecl then
        let IsConst := VD.Ty.getNonReferenceType.isConstQualified
        if !IsConst && VD.HasGlobalStorage && !VD.IsStaticLocal
            && !VD.IsStaticDataMember && !VD.isParmVarDecl then
          some (St1.Diag E.Node.ExprLoc (.err_sycl_restrict .KernelGlobalVariable))
        else some St1
      else some St1
    | none => some St1

/-- Models `MarkDeviceFunction::VisitCXXNewExpr`. -/
def VisitCXXNewExpr (TU : TranslationUnit)
    (TraverseStmt : VisitorState → Stmt → Option VisitorState)
    (St : VisitorState) (E : Stmt) : Option VisitorState :=
  match E.getOperatorNew with
  | some FD =>
    if FD.IsReplaceableGlobalAllocationFunction then
      some (St.Diag E.Node.ExprLoc (.err_sycl_restrict .KernelAllocateStorage))
    else
      match TU.getDefinition FD with
      | some Body =>
        if !St.hasAttr FD then
          markDeviceFunction TraverseStmt St FD Body
        else some St
      | none => some St
  | none => some St

/-- Models `CXXConstructExpr::getConstructor`. -/
def Stmt.getConstructor (E : Stmt) : Option FunctionDecl :=
  match E.Node.Class with
  | .CXXConstructExpr Constructor _ => some Constructor
  | _ => none

/-- The destructor `Ctor->getParent()->getDestructor()` of the class
constructed, when `hasUserDeclaredDestructor()` holds for the class. -/
def Stmt.getUserDeclaredDestructor (E : Stmt) : Option FunctionDecl :=
  match E.Node.Class with
  | .CXXConstructExpr _ UserDeclaredDestructor => UserDeclaredDestructor
  | _ => none

/-- Models `MarkDeviceFunction::VisitCXXConstructExpr`; the arguments of a
construct expression are its children, and the loop over them is that of
`VisitCallExpr`. The definitions of the constructor and of the destructor are
marked, traversed and registered without a look at `hasAttr`. -/
def VisitCXXConstructExpr (TU : TranslationUnit)
    (TraverseStmt : VisitorState → Stmt → Option VisitorState) (fuel : Nat)
    (St : VisitorState) (E : Stmt) : Option VisitorState :=
  match VisitCallExprArgs TU fuel St E.Children with
  | none => none
  | some St1 =>
    match E.getConstructor with
    | none => some St1
    | some Ctor =>
      let AfterCtor :=
        match TU.getDefinition Ctor with
        | some Body => markDeviceFunction TraverseStmt St1 Ctor Body
        | none => some St1
      match AfterCtor with
      | none => none
      | some St2 =>
        match E.getUserDeclaredDestructor with
        | some Dtor =>
          match TU.getDefinition Dtor with
          | some Body => markDeviceFunction TraverseStmt St2 Dtor Body
          | none => some St2
        | none => some St2

/-- Models `MarkDeviceFunction::VisitCXXTypeidExpr`. -/
def VisitCXXTypeidExpr (St : VisitorState) (E : Stmt) : VisitorState :=
  St.Diag E.Node.ExprLoc (.err_sycl_restrict .KernelRTTI)

/-- Models `MarkDeviceFunction::VisitCXXDynamicCastExpr`. -/
def VisitCXXDynamicCastExpr (St : VisitorState) (E : Stmt) : VisitorState :=
  St.Diag E.Node.ExprLoc (.err_sycl_restrict .KernelRTTI)

/-- Models `MarkDeviceFunction::VisitTypedefNameDecl`. -/
def VisitTypedefNameDecl (TU : TranslationUnit) (fuel : Nat) (St : VisitorState)
    (TD : Stmt) (UnderlyingType : QualType) : Option VisitorState :=
  St.check TU fuel UnderlyingType TD.Node.ExprLoc

/-- Models `MarkDeviceFunction::VisitRecordDecl`. -/
def VisitRecordDecl (TU : TranslationUnit) (fuel : Nat) (St : VisitorState)
    (RD : Stmt) (TypeForDecl : QualType) : Option VisitorState :=
  St.check TU fuel TypeForDecl.getUnqualifiedType RD.Node.ExprLoc

/-- Models `MarkDeviceFunction::VisitParmVarDecl`. -/
def VisitParmVarDecl (TU : TranslationUnit) (fuel : Nat) (St : VisitorState)
    (VD : ValueDecl) : Option VisitorState :=
  St.check TU fuel VD.Ty VD.Loc

/-- Models `MarkDeviceFunction::VisitVarDecl`. -/
def VisitVarDecl (TU : TranslationUnit) (fuel : Nat) (St : VisitorState)
    (VD : ValueDecl) : Option VisitorState :=
  St.check TU fuel VD.Ty VD.Loc

/-- Models `MarkDeviceFunction::VisitCXXThrowExpr`. -/
def VisitCXXThrowExpr (St : VisitorState) (E : Stmt) : VisitorState :=
  St.Diag E.Node.ExprLoc (.err_sycl_restrict .KernelUseExceptions)

/-- Models `MarkDeviceFunction::VisitCXXCatchStmt`. -/
def VisitCXXCatchStmt (St : VisitorState) (S : Stmt) : VisitorState :=
  St.Diag S.Node.BeginLoc (.err_sycl_restrict .KernelUseExceptions)

/-- Models `MarkDeviceFunction::VisitCXXTryStmt`. -/
def VisitCXXTryStmt (St : VisitorState) (S : Stmt) : VisitorState :=
  St.Diag S.Node.BeginLoc (.err_sycl_restrict .KernelUseExceptions)

/-- Models `MarkDeviceFunction::VisitSEHTryStmt`. -/
def VisitSEHTryStmt (St : VisitorState) (S : Stmt) : VisitorState :=
  St.Diag S.Node.BeginLoc (.err_sycl_restrict .KernelUseExceptions)

/-- Models `MarkDeviceFunction::VisitGCCAsmStmt`. -/
def VisitGCCAsmStmt (St : VisitorState) (S : Stmt) : VisitorState :=
  St.Diag S.Node.BeginLoc (.err_sycl_restrict .KernelUseAssembly)

/-- Models `MarkDeviceFunction::VisitMSAsmStmt`. -/
def VisitMSAsmStmt (St : VisitorState) (S : Stmt) : VisitorState :=
  St.Diag S.Node.BeginLoc (.err_sycl_restrict .KernelUseAssembly)

/-- Modelled from the spec: the dispatch of `RecursiveASTVisitor`
(`clang/AST/RecursiveASTVisitor.h`, outside the sources at hand) from a node
to the `Visit` functions that the checker defines for the class of the node
and for its base classes, base class first; every `Visit` function of the
checker returns true, so the traversal goes on. -/
def WalkUpFrom (TU : TranslationUnit)
    (TraverseStmt : VisitorState → Stmt → Option VisitorState) (fuel : Nat)
    (St : VisitorState) (S : Stmt) : Option VisitorState :=
  match S.Node.Class with
  | .CallExpr _ => VisitCallExpr TU TraverseStmt fuel St S
  | .CXXConstructExpr _ _ => VisitCXXConstructExpr TU TraverseStmt fuel St S
  | .CXXTypeidExpr => some (VisitCXXTypeidExpr St S)
  | .CXXDynamicCastExpr => some (VisitCXXDynamicCastExpr St S)
  | .TypedefNameDecl UnderlyingType => VisitTypedefNameDecl TU fuel St S UnderlyingType
  | .RecordDecl TypeForDecl => VisitRecordDecl TU fuel St S TypeForDecl
  | .VarDecl VD =>
    match VisitVarDecl TU fuel St VD with
    | none => none
    | some St1 => if VD.isParmVarDecl then VisitParmVarDecl TU fuel St1 VD else some St1
  | .MemberExpr _ => some (VisitMemberExpr St S)
  | .DeclRefExpr _ => VisitDeclRefExpr TU fuel St S
  | .CXXNewExpr _ => VisitCXXNewExpr TU TraverseStmt St S
  | .CXXThrowExpr => some (VisitCXXThrowExpr St S)
  | .CXXCatchStmt => some (VisitCXXCatchStmt St S)
  | .CXXTryStmt => some (VisitCXXTryStmt St S)
  | .SEHTryStmt => some (VisitSEHTryStmt St S)
  | .GCCAsmStmt => some (VisitGCCAsmStmt St S)
  | .MSAsmStmt => some (VisitMSAsmStmt St S)
  | .CompoundStmt => some St
  | .DeclStmt => some St
  | .ImplicitCastExpr _ => some St
  | .BinaryOperator _ => some St
  | .Other => some St

/-- Modelled from the spec: the traversal of the children of a node, in
order; `Traverse` is the traversal of one statement. -/
def TraverseStmts (Traverse : VisitorState → Stmt → Option VisitorState) :
    VisitorState → List Stmt → Option VisitorState
  | St, [] => some St
  | St, S :: Rest =>
    match Traverse St S with
    | none => none
    | some St1 => TraverseStmts Traverse St1 Rest

/-- Modelled from the spec: `MarkDeviceFunction::TraverseStmt`, the full-body
traversal that `RecursiveASTVisitor` provides: a node is visited, then its
children are traversed in order; the traversal of a body that a `Visit`
function starts is complete before the visit returns. The first argument
bounds the depth of the traversal and of the type checks: the result is
`none` when the bound is reached. -/
def TraverseStmt (TU : TranslationUnit) : Nat → VisitorState → Stmt → Option VisitorState
  | 0, _, _ => none
  | fuel + 1, St, S =>
    match WalkUpFrom TU (TraverseStmt TU fuel) fuel St S with
    | none => none
    | some St1 => TraverseStmts (TraverseStmt TU fuel) St1 S.Children

/-! ## The body of the kernel (`KernelBodyTransform`, `CreateSYCLKernelBody`) -/

/-- Models `DeclMap`: the declarations to substitute, keyed by the identity of
the declaration replaced. -/
abbrev DeclMap := List (Nat × ValueDecl)

/-- Models `KernelBodyTransform::TransformDeclRefExpr`. The reference created
keeps the name information and the value kind of `DRE` and takes the type of
the new declaration. -/
def TransformDeclRefExpr (DMap : DeclMap) (DRE : Stmt) : Stmt :=
  match DRE.getDecl with
  | some Ref =>
    if Ref.isDeclaratorDecl then
      match DMap.lookup Ref.ID with
      | some NewDecl =>
        .mk { DRE.Node with Class := .DeclRefExpr NewDecl, Ty := NewDecl.Ty } []
      | none => DRE
    else DRE
  | none => DRE

mutual
/-- Modelled from the spec: the rewrite of `TreeTransform` under
`AlwaysRebuild`, which is structure-preserving, rebuilds every node from its
rewritten children and substitutes references through
`TransformDeclRefExpr`. -/
def TransformStmt (DMap : DeclMap) : Stmt → Stmt
  | .mk Node Children =>
    match Node.Class with
    | .DeclRefExpr _ => TransformDeclRefExpr DMap (.mk Node Children)
    | _ => .mk Node (TransformStmts DMap Children)
/-- Modelled from the spec: the rewrite of the children of a node, in order. -/
def TransformStmts (DMap : DeclMap) : List Stmt → List Stmt
  | [] => []
  | S :: Rest => TransformStmt DMap S :: TransformStmts DMap Rest
end

/-- The type `Context.VoidTy`, also held by the nodes that are not expressions. -/
def VoidTy : QualType := .mk (.Builtin .Void) {}

/-- Models `CreateSYCLKernelFunction` as far as the declarations it creates are
read later: the kernel function and one parameter for each descriptor, in
order. The declarations are new, which the identities `FirstID`,
`FirstID + 1`, .. stand for. -/
def CreateSYCLKernelFunction (FirstID : Nat) (Name : String)
    (ParamDescs : List ParamDesc) : FunctionDecl :=
  { ID := FirstID
    Name := Name
    IsVirtualMethod := false
    IsReplaceableGlobalAllocationFunction := false
    ReturnType := VoidTy
    Params := ParamDescs.enum.map fun (i, PD) =>
      { ID := FirstID + 1 + i, Kind := .ParmVar, Name := PD.Name, Ty := PD.Ty,
        HasGlobalStorage := false, IsStaticLocal := false,
        IsStaticDataMember := false, Loc := 0 }
    Loc := 0 }

/-- A node created by the compiler: its locations are `SourceLocation()`. -/
def createStmt (Class : StmtClass) (Ty : QualType) (VK : ExprValueKind)
    (Children : List Stmt) : Stmt :=
  .mk ⟨Class, Ty, VK, 0, 0⟩ Children

/-- Models `DeclRefExpr::Create` on a parameter or on the clone, with the
type given and `VK_LValue`. -/
def createDeclRefExpr (D : ValueDecl) (Ty : QualType) : Stmt :=
  createStmt (.DeclRefExpr D) Ty .VK_LValue []

/-- Models `Type::isBuiltinType`. -/
def QualType.isBuiltinType : QualType → Bool
  | .mk (.Builtin _) _ => true
  | _ => false

/-- Models `Expr::getValueKindForType`. -/
def getValueKindForType : QualType → ExprValueKind
  | .mk (.LValueReference _) _ => .VK_LValue
  | _ => .VK_RValue

/-- Models `QualType::getNonLValueExprType` in C++. -/
def QualType.getNonLValueExprType : QualType → QualType
  | .mk (.LValueReference Pointee) _ => Pointee
  | .mk (.Record RD) Quals => .mk (.Record RD) Quals
  | .mk (.RecordRef ID) Quals => .mk (.RecordRef ID) Quals
  | T => T.getUnqualifiedType

/-- The lambda `getExprForPointer` of `CreateSYCLKernelBody`. -/
def getExprForPointer (paramTy : QualType) (DRE : Stmt) : Stmt :=
  let qualifiersCast := createStmt (.ImplicitCastExpr .CK_NoOp) paramTy .VK_LValue [DRE]
  createStmt (.ImplicitCastExpr .CK_LValueToRValue) paramTy .VK_RValue [qualifiersCast]

/-- The lambda `getExprForRangeOrOffset` of `CreateSYCLKernelBody`. -/
def getExprForRangeOrOffset (paramTy : QualType) (DRE : Stmt) : Stmt :=
  createStmt (.ImplicitCastExpr .CK_NoOp) paramTy .VK_RValue [DRE]

/-- The body of the loop of `CreateSYCLKernelBody` over `LC->fields()`, for the
field `Field` with the iterator `TargetFuncParam` standing at the head of the
list given: the statements pushed to `BodyStmts` and the iterator after the
`TargetFuncParam++` that ends the iteration. Reading a parameter that is not
there, and a failed assertion, give an error. -/
def CreateSYCLKernelBodyField (TU : TranslationUnit) (CloneRef : Stmt)
    (Field : FieldDecl) (TargetFuncParam : List ValueDecl) :
    Except String (List Stmt × List ValueDecl) := do
  let FieldType := Field.getType
  let CRD := FieldType.getAsCXXRecordDecl
  let IsAccessor ←
    match CRD with
    | some _ => isSyclAccessorType FieldType
    | none => .ok false
  match CRD, IsAccessor with
  | some CRD, true =>
    match TargetFuncParam with
    | P0 :: P1 :: P2 :: Rest =>
      let ParamDREs0 := createDeclRefExpr P0 P0.Ty
      let ParamDREs1 := createDeclRefExpr P1 P1.Ty
      let ParamDREs2 := createDeclRefExpr P2 P2.Ty
      let AccessorME :=
        createStmt (.MemberExpr (.Field Field)) Field.getType .VK_LValue [CloneRef]
      match (TU.methods CRD).find? (fun Method => Method.Name == "__init") with
      | none => .error "The accessor must have the __init method"
      | some InitMethod =>
        let ME := createStmt (.MemberExpr (.Method InitMethod)) InitMethod.getType
          .VK_LValue [AccessorME]
        let ResultTy := InitMethod.ReturnType
        let VK := getValueKindForType ResultTy
        let ResultTy := ResultTy.getNonLValueExprType
        match InitMethod.Params with
        | I0 :: I1 :: I2 :: _ =>
          let ParamStmts :=
            [getExprForPointer I0.Ty ParamDREs0,
             getExprForRangeOrOffset I1.Ty ParamDREs1,
             getExprForRangeOrOffset I2.Ty ParamDREs2]
          let Call := createStmt (.CallExpr (some InitMethod)) ResultTy VK
            (ME :: ParamStmts)
          .ok ([Call], Rest)
        | _ => .error "read past the parameters of __init"
    | _ => .error "read past the parameters of the kernel"
  | _, _ =>
    if CRD.isSome || FieldType.isBuiltinType then
      match TargetFuncParam with
      | P :: Rest =>
        let ParamType := P.Ty
        let DRE := createDeclRefExpr P ParamType
        let Lhs :=
          createStmt (.MemberExpr (.Field Field)) Field.getType .VK_LValue [CloneRef]
        let Rhs := createStmt (.ImplicitCastExpr .CK_LValueToRValue) ParamType
          .VK_RValue [DRE]
        let Res := createStmt (.BinaryOperator .BO_Assign) FieldType .VK_LValue
          [Lhs, Rhs]
        .ok ([Res], Rest)
      | [] => .error "read past the parameters of the kernel"
    else
      .ok ([], TargetFuncParam.tail)

/-- The loop of `CreateSYCLKernelBody` over `LC->fields()`. -/
def CreateSYCLKernelBodyLoop (TU : TranslationUnit) (CloneRef : Stmt) :
    List FieldDecl → List ValueDecl → Except String (List Stmt)
  | [], _ => .ok []
  | Field :: Fields, TargetFuncParam => do
    let (Stmts, Next) ← CreateSYCLKernelBodyField TU CloneRef Field TargetFuncParam
    let Rest ← CreateSYCLKernelBodyLoop TU CloneRef Fields Next
    .ok (Stmts ++ Rest)

/-- The variable `KernelObjClone` that `CreateSYCLKernelBody` creates with
`VarDecl::Create`: a local variable of the type of the kernel object, named
like its class; `CloneID` is the identity of the new declaration. -/
def createKernelObjClone (CloneID : Nat) (LC : CXXRecordDecl) : ValueDecl :=
  { ID := CloneID, Kind := .Var, Name := LC.Info.Name, Ty := .mk (.Record LC) {},
    HasGlobalStorage := false, IsStaticLocal := false,
    IsStaticDataMember := false, Loc := 0 }

/-- Models `CreateSYCLKernelBody`. `DC` is the kernel function created and
`CloneID` the identity of the new variable `KernelObjClone`. -/
def CreateSYCLKernelBody (TU : TranslationUnit) (CloneID : Nat)
    (KernelCallerFunc : FunctionDecl) (DC : FunctionDecl) : Except String Stmt := do
  let KernelObjParam ←
    match KernelCallerFunc.Params with
    | P :: _ => .ok P
    | [] => .error "read past the parameters of the kernel caller"
  let LC ←
    match KernelObjParam.Ty.getAsCXXRecordDecl with
    | some LC => .ok LC
    | none => .error "Kernel object must be available"
  let KernelObjClone := createKernelObjClone CloneID LC
  let DS := createStmt .DeclStmt VoidTy .VK_RValue
    [createStmt (.VarDecl KernelObjClone) VoidTy .VK_RValue []]
  let CloneRef := createDeclRefExpr KernelObjClone (.mk (.Record LC) {})
  let FieldStmts ←
    match DC.Params with
    | [] => .ok []
    | _ :: _ => CreateSYCLKernelBodyLoop TU CloneRef LC.fields DC.Params
  let FunctionBody ←
    match TU.getDefinition KernelCallerFunc with
    | some (some Body) => .ok Body
    | _ => .error "the kernel caller has no body"
  let DMap : DeclMap := [(KernelObjParam.ID, KernelObjClone)]
  let NewBody := TransformStmt DMap FunctionBody
  .ok (createStmt .CompoundStmt VoidTy .VK_RValue ([DS] ++ FieldStmts ++ [NewBody]))

/-! ## The construction of a kernel (`Sema::ConstructSYCLKernel`) -/

/-- Models `getKernelObjectType`; reading the first parameter of a function
without parameters ends the run. -/
def getKernelObjectType (Caller : FunctionDecl) : Except String (Option CXXRecordDecl) :=
  match Caller.Params with
  | P :: _ => .ok P.Ty.getAsCXXRecordDecl
  | [] => .error "read past the parameters of the kernel caller"

/-- Models `Sema::ConstructSYCLKernel`. `KernelNameType` is the first template
argument of the kernel caller, `H` the integration header and `St` the
diagnostics, marks and registered functions so far; the declarations created
get the identities from `FirstID` on; the kernel function carries
`SYCLDeviceAttr` from `CreateSYCLKernelFunction`. The call graph is that of the
translation unit. The result is `none` when the traversal of the body does
not return within the bound `fuel`. -/
def ConstructSYCLKernel (Ctx : ASTContext) (LangOpts : LangOptions)
    (mangleTypeName : QualType → String) (TU : TranslationUnit) (fuel : Nat)
    (FirstID : Nat) (H : SYCLIntegrationHeader) (St : VisitorState)
    (KernelCallerFunc : FunctionDecl) (KernelNameType : QualType) :
    Except String (Option (SYCLIntegrationHeader × VisitorState)) := do
  let LE ←
    match (← getKernelObjectType KernelCallerFunc) with
    | some LE => .ok LE
    | none => .error "invalid kernel caller"
  let Args ← buildArgTys LE
  let Name ← constructKernelName LangOpts mangleTypeName KernelNameType
  let H1 ← populateIntHeader Ctx H Name KernelNameType LE
  let SYCLKernel := CreateSYCLKernelFunction FirstID Name Args.ParamDescs
  let SYCLKernelBody ←
    CreateSYCLKernelBody TU (FirstID + 1 + Args.ParamDescs.length) KernelCallerFunc
      SYCLKernel
  let St1 : VisitorState :=
    { Diags := St.Diags ++ Args.Diags
      DeviceAttrs := St.DeviceAttrs ++ [SYCLKernel.ID]
      SyclKernels := St.SyclKernels ++ [SYCLKernel.ID] }
  .ok ((TraverseStmt TU fuel St1 SYCLKernelBody).map fun St2 => (H1, St2))

/-! ## Notions used to state the properties -/

/-- The context of a declaration that sits in the namespaces `Names`, listed
from the outermost to the innermost, the outermost being declared in `Base`. -/
def encloseInNamespaces : List String → DeclContext → DeclContext
  | [], Base => Base
  | N :: Rest, Base => encloseInNamespaces Rest (.Ctx .Namespace N Base)

/-- The openers `namespace N1 \x7b namespace N2 \x7b ...` of the given
namespaces, first name first. -/
def namespaceOpeners : List String → String
  | [] => ""
  | N :: Rest => "namespace " ++ N ++ " \x7b " ++ namespaceOpeners Rest

/-- The byte offset of a field in the layout of its record: the bit offset
divided by 8. -/
def FieldDecl.byteOffset (Fld : FieldDecl) : Nat := Fld.BitOffset / 8

/-- The type is an accessor type: `Util::isSyclAccessorType` answers true. -/
def QualType.isAccessor (Ty : QualType) : Bool :=
  match isSyclAccessorType Ty with
  | .ok b => b
  | .error _ => false

/-- The type is the stream type: `Util::isSyclStreamType` answers true. -/
def QualType.isStream (Ty : QualType) : Bool :=
  match isSyclStreamType Ty with
  | .ok b => b
  | .error _ => false

/-- The first field of the record that has the given name. -/
def lookupField (RD : CXXRecordDecl) (Name : String) : Option FieldDecl :=
  RD.fields.find? (fun Fld => Fld.Name == Name)

/-- What the flattening reads from an accessor type: the integral value of
the fourth template argument, the field `__impl`, and the fields `Range` and
`Offset` of the type of `__impl`. -/
structure AccessorParts where
  Target : Int
  Impl : FieldDecl
  Range : FieldDecl
  Offset : FieldDecl

/-- The parts of an accessor type, when it has them all. -/
def accessorParts (AccTy : CXXRecordDecl) : Option AccessorParts :=
  match AccTy.getTemplateArgs.get? 3, lookupField AccTy "__impl" with
  | some (.Integral V), some Impl =>
    match Impl.getType.getAsCXXRecordDecl with
    | some ImplRD =>
      match lookupField ImplRD "Range", lookupField ImplRD "Offset" with
      | some Range, some Offset => some ⟨V, Impl, Range, Offset⟩
      | _, _ => none
    | none => none
  | _, _ => none

/-- The descriptors the specification assigns to one captured field, with
sizes and offsets as the layout gives them (no narrowing): three for an
accessor with all its parts, one for a class or struct other than the stream
class and for a scalar, and none where the flattening is not defined. -/
def fieldSlots (Ctx : ASTContext) (Fld : FieldDecl) :
    Option (List KernelParamDesc) :=
  if Fld.getType.isAccessor then
    match Fld.getType.getAsCXXRecordDecl.bind accessorParts with
    | some P =>
      some [⟨.kind_accessor, P.Target, Fld.byteOffset⟩,
            ⟨.kind_std_layout, Ctx.getTypeSizeInChars P.Range.getType,
              Fld.byteOffset + P.Impl.byteOffset + P.Range.byteOffset⟩,
            ⟨.kind_std_layout, Ctx.getTypeSizeInChars P.Offset.getType,
              Fld.byteOffset + P.Impl.byteOffset + P.Offset.byteOffset⟩]
    | none => none
  else if Fld.getType.isStream then none
  else if Fld.getType.isStructureOrClassType || Fld.getType.isScalarType then
    some [⟨.kind_std_layout, Ctx.getTypeSizeInChars Fld.getType, Fld.byteOffset⟩]
  else none

/-- The descriptor as it is stored: `Info` narrowed to `int`, `Offset` to
`unsigned`. -/
def KernelParamDesc.narrow (P : KernelParamDesc) : KernelParamDesc :=
  ⟨P.Kind, wrapInt32 P.Info, castUnsigned P.Offset⟩

/-- The values of the descriptor are representable: `Info` as an `int`,
`Offset` as an `unsigned`. -/
def KernelParamDesc.Fits (P : KernelParamDesc) : Prop :=
  -2 ^ 31 ≤ P.Info ∧ P.Info < 2 ^ 31 ∧ P.Offset < 2 ^ 32

instance (P : KernelParamDesc) : Decidable P.Fits := by
  unfold KernelParamDesc.Fits; infer_instance

/-- The descriptors the specification assigns to the fields of a closure,
field after field in declaration order. -/
def closureSlots (Ctx : ASTContext) : List FieldDecl → Option (List KernelParamDesc)
  | [] => some []
  | Fld :: Rest =>
    match fieldSlots Ctx Fld, closureSlots Ctx Rest with
    | some ds, some dss => some (ds ++ dss)
    | _, _ => none

/-- The slots of a captured field: the pointer, the range and the offset of
an accessor, the field itself otherwise. -/
inductive SlotKind
  | Pointer
  | Range
  | Offset
  | Self
deriving DecidableEq, Repr

/-- A slot of a captured field of the closure. -/
structure Slot where
  Field : FieldDecl
  Kind : SlotKind

/-- The slots of one field, in the order of the flattening. -/
def fieldSlotList (Fld : FieldDecl) : List Slot :=
  if Fld.getType.isAccessor then
    [⟨Fld, .Pointer⟩, ⟨Fld, .Range⟩, ⟨Fld, .Offset⟩]
  else [⟨Fld, .Self⟩]

/-- The slots of a closure: those of its fields in declaration order. -/
def closureSlotList (Fields : List FieldDecl) : List Slot :=
  (Fields.map fieldSlotList).flatten

/-- The byte offset of a slot in the layout of the closure: the offset of
the field for the field itself and for the pointer slot (the accessor
object), and the offset of `__impl.Range` or `__impl.Offset` inside the
closure for the other two. -/
def Slot.byteOffset (S : Slot) : Option Nat :=
  match S.Kind with
  | .Self => some S.Field.byteOffset
  | .Pointer => some S.Field.byteOffset
  | .Range =>
    (S.Field.getType.getAsCXXRecordDecl.bind accessorParts).map
      (fun P => S.Field.byteOffset + P.Impl.byteOffset + P.Range.byteOffset)
  | .Offset =>
    (S.Field.getType.getAsCXXRecordDecl.bind accessorParts).map
      (fun P => S.Field.byteOffset + P.Impl.byteOffset + P.Offset.byteOffset)

/-- The synthesized parameter `P` stems from the slot: it is named after the
captured field and has its type for the field itself, it is the pointer
parameter named after the captured field for the pointer slot, and it is
made from the field `__impl.Range` or `__impl.Offset` of the accessor for
the other two. -/
def Slot.IsParamOf (S : Slot) (P : ParamDesc) : Prop :=
  match S.Kind with
  | .Self => P.Name = "_arg_" ++ S.Field.Name ∧ P.Ty = S.Field.getType
  | .Pointer =>
    P.Name = "_arg_" ++ S.Field.Name ∧ ∃ Pointee, P.Ty = getPointerType Pointee
  | .Range =>
    ∃ AccTy Parts, S.Field.getType.getAsCXXRecordDecl = some AccTy
      ∧ accessorParts AccTy = some Parts
      ∧ P.Name = "_arg_" ++ Parts.Range.Name ∧ P.Ty = Parts.Range.getType
  | .Offset =>
    ∃ AccTy Parts, S.Field.getType.getAsCXXRecordDecl = some AccTy
      ∧ accessorParts AccTy = some Parts
      ∧ P.Name = "_arg_" ++ Parts.Offset.Name ∧ P.Ty = Parts.Offset.getType

/-- The kind of descriptor the header records for a slot. -/
def SlotKind.descKind : SlotKind → kernel_param_kind_t
  | .Pointer => .kind_accessor
  | _ => .kind_std_layout

/-- The header descriptor `D` stems from the slot: it has the kind of the
slot, and its offset is the byte offset of the slot narrowed to `unsigned`,
hence the byte offset itself when that is below `2^32`. -/
def Slot.IsDescOf (S : Slot) (D : KernelParamDesc) : Prop :=
  D.Kind = S.Kind.descKind
    ∧ ∃ O, S.byteOffset = some O ∧ D.Offset = O % 2 ^ 32
        ∧ (O < 2 ^ 32 → D.Offset = O)

mutual
/-- The classes and class templates a type references, in the wording of the
specification: the class or class template the type names directly, looking
through any number of pointer levels, and, for a specialization, what its
type template arguments reference, also inside a parameter pack, at any
depth. Arguments that are not types contribute nothing. The list gives the
references of the arguments, in argument order, before the template itself. -/
def referencedDecls : QualType → List Decl
  | .mk Ty _ => referencedDeclsTy Ty
/-- The references of a type node. -/
def referencedDeclsTy : ClangType → List Decl
  | .Pointer Pointee => referencedDecls Pointee
  | .Record RD => referencedDeclsRD RD
  | .Builtin _ => []
  | .Enum _ => []
  | .LValueReference _ => []
  | .ConstantArray _ _ => []
  | .IncompleteArray _ => []
  | .VariableArray _ => []
  | .FunctionProto _ _ => []
  | .FunctionNoProto _ => []
  | .RecordRef _ => []
/-- The references of a record: the class itself, or for a specialization
the references of its arguments and the specialized class template. -/
def referencedDeclsRD : CXXRecordDecl → List Decl
  | .mk _ (some CTD) Args _ => referencedDeclsArgs Args ++ [.ClassTemplate CTD]
  | .mk Info none _ _ => [.CXXRecord Info]
/-- The references of a template argument list. -/
def referencedDeclsArgs : List TemplateArgument → List Decl
  | [] => []
  | Arg :: Rest => referencedDeclsArg Arg ++ referencedDeclsArgs Rest
/-- The references of one template argument. -/
def referencedDeclsArg : TemplateArgument → List Decl
  | .Type T => referencedDecls T
  | .Pack Elems => referencedDeclsPack Elems
  | .Template => []
  | .Null => []
  | .Declaration => []
  | .NullPtr => []
  | .Integral _ => []
  | .TemplateExpansion => []
  | .Expression => []
/-- The references of the elements of a parameter pack. -/
def referencedDeclsPack : List TemplateArgument → List Decl
  | [] => []
  | .Type T :: Rest => referencedDecls T ++ referencedDeclsPack Rest
  | _ :: Rest => referencedDeclsPack Rest
end

mutual
/-- No specialization met on the way through the type (through pointers,
type arguments and the type elements of packs) has a template template
argument in its argument list. -/
def noTemplateTemplateArg : QualType → Bool
  | .mk Ty _ => noTemplateTemplateArgTy Ty
/-- The same for a type node. -/
def noTemplateTemplateArgTy : ClangType → Bool
  | .Pointer Pointee => noTemplateTemplateArg Pointee
  | .Record RD => noTemplateTemplateArgRD RD
  | .Builtin _ => true
  | .Enum _ => true
  | .LValueReference _ => true
  | .ConstantArray _ _ => true
  | .IncompleteArray _ => true
  | .VariableArray _ => true
  | .FunctionProto _ _ => true
  | .FunctionNoProto _ => true
  | .RecordRef _ => true
/-- The same for a record. -/
def noTemplateTemplateArgRD : CXXRecordDecl → Bool
  | .mk _ (some _) Args _ => noTemplateTemplateArgArgs Args
  | .mk _ none _ _ => true
/-- The same for a template argument list. -/
def noTemplateTemplateArgArgs : List TemplateArgument → Bool
  | [] => true
  | Arg :: Rest => noTemplateTemplateArgArg Arg && noTemplateTemplateArgArgs Rest
/-- The same for one template argument. -/
def noTemplateTemplateArgArg : TemplateArgument → Bool
  | .Type T => noTemplateTemplateArg T
  | .Pack Elems => noTemplateTemplateArgPack Elems
  | .Template => false
  | .Null => true
  | .Declaration => true
  | .NullPtr => true
  | .Integral _ => true
  | .TemplateExpansion => true
  | .Expression => true
/-- The same for the elements of a parameter pack. -/
def noTemplateTemplateArgPack : List TemplateArgument → Bool
  | [] => true
  | .Type T :: Rest => noTemplateTemplateArg T && noTemplateTemplateArgPack Rest
  | _ :: Rest => noTemplateTemplateArgPack Rest
end

/-- The classes and class templates the name types of the kernels reference,
kernel after kernel. -/
def referencedDeclsOfKernels (Ks : List KernelDesc) : List Decl :=
  (Ks.map (fun K => referencedDecls K.NameType)).flatten

/-- The steps `if (Printed.insert(D).second) emitFwdDecl(O, D)` for a list of
declarations, in order. -/
def insertAndEmitAll : List Decl → FwdState → FwdState
  | [], St => St
  | D :: Rest, St => insertAndEmitAll Rest (insertAndEmit D St)

/-! ## The program of `test/CodeGenSYCL/integration_header.cpp`

The declarations of the test, for use as concrete inputs: the accessor
class template of the test with its `__impl` field, the three kernel name
types and the closure types of the three lambdas. Sizes and offsets are the
ones the test expects (`int` of size 4, the empty structs `range` and `id`
of size 1). -/

namespace Test

def nsCl : DeclContext := .Ctx .Namespace "cl" .TranslationUnit
def nsSycl : DeclContext := .Ctx .Namespace "sycl" nsCl
def fnMain : DeclContext := .Ctx .Function "main" .TranslationUnit
def nsSecond : DeclContext := .Ctx .Namespace "second_namespace" .TranslationUnit

def tInt : QualType := .mk (.Builtin .Int) {}
def tChar : QualType := .mk (.Builtin .Char) {}
def tFloat : QualType := .mk (.Builtin .Float) {}

def rangeRD : CXXRecordDecl :=
  .mk ⟨10, "range", .Struct, nsSycl, true, true, 85, "struct range", [], false⟩ none [] []

def idRD : CXXRecordDecl :=
  .mk ⟨11, "id", .Struct, nsSycl, true, true, 88, "struct id", [], false⟩ none [] []

def implRD : CXXRecordDecl :=
  .mk ⟨12, "_ImplT", .Struct, nsSycl, true, true, 91, "struct _ImplT", [], false⟩ none []
    [.mk "Range" (.mk (.Record rangeRD) {}) 0 92,
     .mk "Offset" (.mk (.Record idRD) {}) 8 93]

def accessorCTD : ClassTemplateDecl :=
  ⟨13, "accessor", nsSycl, true, 99, "template <typename dataT, int dimensions, access::mode accessmode, access::target accessTarget, access::placeholder isPlaceholder> class accessor"⟩

/-- The specialization `accessor<dataT, 1, mode, Target, placeholder>`. -/
def accessorRD (ID : Nat) (dataT : QualType) (Target : Int) : CXXRecordDecl :=
  .mk ⟨ID, "accessor", .Class, nsSycl, true, true, 99, "", [], false⟩ (some accessorCTD)
    [.Type dataT, .Integral 1, .Integral 1024, .Integral Target, .Integral 0]
    [.mk "__impl" (.mk (.Record implRD) {}) 0 106]

def acc1Ty : QualType := .mk (.Record (accessorRD 14 tChar 2014)) {}
def acc2Ty : QualType := .mk (.Record (accessorRD 15 tFloat 2016)) {}

/-- The size service on the types of the test. -/
def Ctx : ASTContext :=
  ⟨fun T =>
    match T with
    | .mk (.Builtin .Int) _ => 4
    | .mk (.Builtin .Float) _ => 4
    | .mk (.Builtin _) _ => 1
    | .mk (.Record RD) _ =>
      if RD.Info.ID = 12 ∨ RD.Info.ID = 14 ∨ RD.Info.ID = 15 then 2 else 1
    | _ => 8⟩

/-- The closure of the first lambda: captures `i`, `acc1`, `acc2`. -/
def closure1 : CXXRecordDecl :=
  .mk ⟨20, "", .Class, fnMain, true, true, 142, "",
      [.Variable 134, .Variable 129, .Variable 133], false⟩ none []
    [.mk "i" tInt 0 142, .mk "acc1" acc1Ty 32 142, .mk "acc2" acc2Ty 48 142]

/-- The closure of the second and of the third lambda: captures `i`, `acc2`. -/
def closure2 : CXXRecordDecl :=
  .mk ⟨21, "", .Class, fnMain, true, true, 150, "",
      [.Variable 134, .Variable 133], false⟩ none []
    [.mk "i" tInt 0 150, .mk "acc2" acc2Ty 32 150]

def firstKernelTy : QualType :=
  .mk (.Record (.mk ⟨30, "first_kernel", .Class, fnMain, false, true, 142,
    "class first_kernel", [], false⟩ none [] [])) {}

def secondKernelCTD : ClassTemplateDecl :=
  ⟨31, "second_kernel", nsSecond, false, 120,
    "template <typename T> class second_kernel"⟩

def secondKernelTy : QualType :=
  .mk (.Record (.mk ⟨32, "second_kernel", .Class, nsSecond, false, true, 120, "",
    [], false⟩ (some secondKernelCTD) [.Type tChar] [])) {}

def XRD : CXXRecordDecl :=
  .mk ⟨33, "X", .Struct, fnMain, false, true, 155, "struct X", [], false⟩ none [] []

def pointCTD : ClassTemplateDecl :=
  ⟨34, "point", .TranslationUnit, true, 117, "template <typename T> struct point"⟩

def pointXTy : QualType :=
  .mk (.Record (.mk ⟨35, "point", .Struct, .TranslationUnit, true, true, 117, "",
    [], false⟩ (some pointCTD) [.Type (.mk (.Record XRD) {})] [])) {}

def thirdKernelCTD : ClassTemplateDecl :=
  ⟨36, "third_kernel", .TranslationUnit, false, 124,
    "template <int a, typename T1, typename T2> class third_kernel"⟩

def thirdKernelTy : QualType :=
  .mk (.Record (.mk ⟨37, "third_kernel", .Class, .TranslationUnit, false, true,
    124, "", [], false⟩ (some thirdKernelCTD) [.Integral 1, .Type tInt, .Type pointXTy]
    [])) {}

/-- The records the test expects in `kernel_signatures`, kernel by kernel. -/
def kernelDescs : List KernelDesc :=
  [⟨"_ZTSZ4mainE12first_kernel", firstKernelTy,
     [⟨.kind_std_layout, 4, 0⟩, ⟨.kind_accessor, 2014, 4⟩,
      ⟨.kind_std_layout, 1, 4⟩, ⟨.kind_std_layout, 1, 5⟩,
      ⟨.kind_accessor, 2016, 6⟩, ⟨.kind_std_layout, 1, 6⟩,
      ⟨.kind_std_layout, 1, 7⟩]⟩,
   ⟨"_ZTSN16second_namespace13second_kernelIcEE", secondKernelTy,
     [⟨.kind_std_layout, 4, 0⟩, ⟨.kind_accessor, 2016, 4⟩,
      ⟨.kind_std_layout, 1, 4⟩, ⟨.kind_std_layout, 1, 5⟩]⟩,
   ⟨"_ZTS12third_kernelILi1Ei5pointIZ4mainE1XEE", thirdKernelTy,
     [⟨.kind_std_layout, 4, 0⟩, ⟨.kind_accessor, 2016, 4⟩,
      ⟨.kind_std_layout, 1, 4⟩, ⟨.kind_std_layout, 1, 5⟩]⟩]

/-- The synthesized parameters of the first kernel: the `int`, then for each
accessor the pointer into the address space of its target, the range and the
offset. -/
def closure1ParamDescs : List ParamDesc :=
  [⟨tInt, "_arg_i"⟩,
   ⟨.mk (.Pointer (.mk (.Builtin .Char) { AddressSpace := .opencl_global })) {},
     "_arg_acc1"⟩,
   ⟨.mk (.Record rangeRD) {}, "_arg_Range"⟩,
   ⟨.mk (.Record idRD) {}, "_arg_Offset"⟩,
   ⟨.mk (.Pointer (.mk (.Builtin .Float) { AddressSpace := .opencl_local })) {},
     "_arg_acc2"⟩,
   ⟨.mk (.Record rangeRD) {}, "_arg_Range"⟩,
   ⟨.mk (.Record idRD) {}, "_arg_Offset"⟩]

/-- A type printer for the name types of the test. -/
def getAsString : QualType → String
  | .mk (.Record RD) _ =>
    if RD.Info.ID = 30 then "class first_kernel"
    else if RD.Info.ID = 32 then "::second_namespace::second_kernel<char>"
    else "::third_kernel<1, int, ::point<X> >"
  | _ => ""

end Test

/-! ## Inputs outside the test program

Closures with an accessor lacking the `__impl` field, with the stream
class, with types of 2 GiB and more and with fields 4 GiB into the closure,
and a name type with a template template argument. -/

namespace Wide

/-- The kernel record under construction in the examples. -/
def K0 : KernelDesc := ⟨"kernel", Test.tInt, []⟩

/-- A size service like the one of the test, but `range` has `2^31` bytes and
the struct `Big` has `2^32`. -/
def Ctx : ASTContext :=
  ⟨fun T =>
    match T with
    | .mk (.Record RD) _ =>
      if RD.Info.ID = 10 then 2147483648
      else if RD.Info.ID = 41 then 4294967296
      else Test.Ctx.getTypeSizeInChars T
    | _ => Test.Ctx.getTypeSizeInChars T⟩

/-- The field `acc1` of the first closure of the test. -/
def acc1Field : FieldDecl := .mk "acc1" Test.acc1Ty 32 142

/-- A specialization of `cl::sycl::accessor` that has no field `__impl`. -/
def noImplRD : CXXRecordDecl :=
  .mk ⟨16, "accessor", .Class, Test.nsSycl, true, true, 99, "", [], false⟩
    (some Test.accessorCTD)
    [.Type Test.tChar, .Integral 1, .Integral 1024, .Integral 2014, .Integral 0]
    []

def noImplField : FieldDecl := .mk "acc" (.mk (.Record noImplRD) {}) 0 1

/-- An accessor whose fourth template argument has the value `2014 + 2^32`. -/
def wideTargetField : FieldDecl :=
  .mk "acc" (.mk (.Record (Test.accessorRD 17 Test.tChar 4294969310)) {}) 0 1

/-- The field `acc1`, placed `2^32 + 4` bytes into the closure. -/
def farAccField : FieldDecl := .mk "acc1" Test.acc1Ty 34359738400 142

/-- The class `cl::sycl::stream`. -/
def streamRD : CXXRecordDecl :=
  .mk ⟨40, "stream", .Class, Test.nsSycl, true, true, 1, "class stream", [], false⟩
    none [] []

/-- A closure capturing an `int` and a stream. -/
def streamClosure : CXXRecordDecl :=
  .mk ⟨22, "", .Class, Test.fnMain, true, true, 1, "", [.Variable 1, .Variable 2], false⟩
    none []
    [.mk "i" Test.tInt 0 1, .mk "s" (.mk (.Record streamRD) {}) 32 1]

/-- A struct of `2^32` bytes. -/
def bigRD : CXXRecordDecl :=
  .mk ⟨41, "Big", .Struct, .TranslationUnit, true, true, 1, "struct Big", [], false⟩
    none [] []

/-- A closure capturing a `Big` and then an `int`, which lands `2^32` bytes
into the closure. -/
def bigClosure : CXXRecordDecl :=
  .mk ⟨23, "", .Class, Test.fnMain, true, true, 1, "", [.Variable 1, .Variable 2], false⟩
    none []
    [.mk "b" (.mk (.Record bigRD) {}) 0 1, .mk "i" Test.tInt 34359738368 1]

/-- The class template `holder` with one template template parameter. -/
def holderCTD : ClassTemplateDecl :=
  ⟨50, "holder", .TranslationUnit, false, 1,
    "template <template <typename> class C> class holder"⟩

/-- The name type `holder<point>`. -/
def holderTy : QualType :=
  .mk (.Record (.mk ⟨51, "holder", .Class, .TranslationUnit, false, true, 1, "",
    [], false⟩ (some holderCTD) [.Template] [])) {}

end Wide

/-! ## Notions used to state the properties of the checks of device code -/

/-- A variable-length array that `CheckSYCLType` comes to: the type is one,
or the type leads, below its pointers and arrays, to a defined record that
has a field with such a type, the checks of the fields before it returning
true. -/
inductive ReachesVLA (TU : TranslationUnit) : QualType → Prop
  | vla (Ty : QualType) : Ty.isVariableArrayType = true → ReachesVLA TU Ty
  | field (Ty : QualType) (CRD : CXXRecordDecl) (Pre : List FieldDecl)
      (F : FieldDecl) (Post : List FieldDecl) :
      Ty.isVariableArrayType = false →
      TU.getAsCXXRecordDecl (stripPointersAndArrays Ty) = some CRD →
      CRD.hasDefinition = true →
      CRD.fields = Pre ++ F :: Post →
      (∀ G ∈ Pre, ∃ n Ds, CheckSYCLType TU n G.getType G.Loc = some (true, Ds)) →
      ReachesVLA TU F.getType → ReachesVLA TU Ty

/-- A ground on which `CheckSYCLType` rejects a type: the type is a
variable-length array; or below its pointers and arrays it is a defined
polymorphic record, or a defined record with a field of a rejected type, or a
function type with a rejected parameter type or a rejected result type. Where
a loop comes to the rejected element only after others, the checks of those
return true. -/
inductive Rejects (TU : TranslationUnit) : QualType → Prop
  | vla (Ty : QualType) : Ty.isVariableArrayType = true → Rejects TU Ty
  | polymorphic (Ty : QualType) (CRD : CXXRecordDecl) :
      Ty.isVariableArrayType = false →
      TU.getAsCXXRecordDecl (stripPointersAndArrays Ty) = some CRD →
      CRD.hasDefinition = true → CRD.isPolymorphic = true → Rejects TU Ty
  | field (Ty : QualType) (CRD : CXXRecordDecl) (Pre : List FieldDecl)
      (F : FieldDecl) (Post : List FieldDecl) :
      Ty.isVariableArrayType = false →
      TU.getAsCXXRecordDecl (stripPointersAndArrays Ty) = some CRD →
      CRD.hasDefinition = true →
      CRD.fields = Pre ++ F :: Post →
      (∀ G ∈ Pre, ∃ n Ds, CheckSYCLType TU n G.getType G.Loc = some (true, Ds)) →
      Rejects TU F.getType → Rejects TU Ty
  | param (Ty Result : QualType) (Pre : List QualType) (P : QualType)
      (Post : List QualType) :
      Ty.isVariableArrayType = false →
      stripPointersAndArrays Ty = .FunctionProto Result (Pre ++ P :: Post) →
      (∀ G ∈ Pre, ∃ n, ∀ Loc, ∃ Ds, CheckSYCLType TU n G Loc = some (true, Ds)) →
      Rejects TU P → Rejects TU Ty
  | result (Ty Result : QualType) (Params : List QualType) :
      Ty.isVariableArrayType = false →
      stripPointersAndArrays Ty = .FunctionProto Result Params →
      (∀ G ∈ Params, ∃ n, ∀ Loc, ∃ Ds, CheckSYCLType TU n G Loc = some (true, Ds)) →
      Rejects TU Result → Rejects TU Ty
  | resultNoProto (Ty Result : QualType) :
      Ty.isVariableArrayType = false →
      stripPointersAndArrays Ty = .FunctionNoProto Result →
      Rejects TU Result → Rejects TU Ty

/-- The function `A` calls the function `B` directly: `B` is among the callees of
the node of `A` in the call graph. -/
def Calls (TU : TranslationUnit) (A B : Nat) : Prop :=
  ∃ Callees, TU.getNode A = some Callees ∧ B ∈ Callees

/-- A chain of `n` direct calls from `C` to `FD` none of whose callers is in
`V`. -/
inductive CallPath (TU : TranslationUnit) (FD : Nat) (V : List Nat) : Nat → Nat → Prop
  | last (C : Nat) : C ∉ V → Calls TU C FD → CallPath TU FD V C 1
  | cons (C X n : Nat) : C ∉ V → Calls TU C X → CallPath TU FD V X n →
      CallPath TU FD V C (n + 1)

/-- The note that `IsRecursive` emits when it reaches `FD`. -/
def recursionNote (FD : FunctionDecl) : Diagnostic :=
  ⟨FD.Loc, .note_sycl_recursive_function_declared_here .KernelCallRecursiveFunction⟩

/-- The restrictions reported among the diagnostics `Ds`: the location and the
kind of each `err_sycl_restrict`, in order. -/
def restrictions (Ds : List Diagnostic) : List (SourceLocation × RestrictKind) :=
  Ds.filterMap fun D =>
    match D.ID with
    | .err_sycl_restrict K => some (D.Loc, K)
    | _ => none

mutual
/-- The declarations that the references in a statement refer to, in the order
of the references. -/
def Stmt.declRefs : Stmt → List ValueDecl
  | .mk Node Children =>
    match Node.Class with
    | .DeclRefExpr D => [D]
    | _ => declRefsOf Children
/-- The same for a list of statements. -/
def declRefsOf : List Stmt → List ValueDecl
  | [] => []
  | S :: Rest => S.declRefs ++ declRefsOf Rest
end

/-- What a reference to `D` refers to once the references to the declarator
with the identity of `Param` are redirected to `Clone`. -/
def redirect (Param Clone : ValueDecl) (D : ValueDecl) : ValueDecl :=
  if D.isDeclaratorDecl && D.ID == Param.ID then Clone else D

/-- For an assignment `Base.Field = (cast) Ref`: the declaration that `Base`
refers to, the name of `Field` and the declaration that `Ref` refers to, by
identity. -/
def Stmt.assignment? (S : Stmt) : Option (Nat × String × Nat) :=
  match S with
  | .mk ⟨.BinaryOperator .BO_Assign, _, _, _, _⟩
      [.mk ⟨.MemberExpr (.Field F), _, _, _, _⟩ [.mk ⟨.DeclRefExpr Base, _, _, _, _⟩ []],
       .mk ⟨.ImplicitCastExpr .CK_LValueToRValue, _, _, _, _⟩
         [.mk ⟨.DeclRefExpr D, _, _, _, _⟩ []]] =>
    some (Base.ID, F.Name, D.ID)
  | _ => none

/-- The state `St` after the diagnostics `A` have been emitted, the
definitions `M` marked and the definitions `K` registered, in this order. -/
def VisitorState.extend (St : VisitorState) (A : List Diagnostic) (M K : List Nat) :
    VisitorState :=
  ⟨St.Diags ++ A, St.DeviceAttrs ++ M, St.SyclKernels ++ K⟩

/-- The same definitions carry `SYCLDeviceAttr` in both states. -/
def SameMarks (St St' : VisitorState) : Prop :=
  ∀ ID : Nat, ID ∈ St.DeviceAttrs ↔ ID ∈ St'.DeviceAttrs

mutual
/-- The constructors, and the user-declared destructors, of the construct
expressions in a statement. -/
def Stmt.constructs : Stmt → List FunctionDecl
  | .mk Node Children =>
    match Node.Class with
    | .CXXConstructExpr Constructor UserDeclaredDestructor =>
      Constructor :: UserDeclaredDestructor.toList ++ constructsOf Children
    | _ => constructsOf Children
/-- The same for a list of statements. -/
def constructsOf : List Stmt → List FunctionDecl
  | [] => []
  | S :: Rest => S.constructs ++ constructsOf Rest
end

/-- No construct expression in the statement `S`, and none in a body that the
translation unit defines, has the definition `ID` as constructor or as
destructor. -/
def NotConstructed (TU : TranslationUnit) (S : Stmt) (ID : Nat) : Prop :=
  (∀ D ∈ S.constructs, D.ID ≠ ID)
  ∧ ∀ (FD : FunctionDecl) (B : Stmt), TU.getDefinition FD = some (some B) →
      ∀ D ∈ B.constructs, D.ID ≠ ID

/-- A property `C` of the steps of the visitor that holds of the step that
does not return and of the emission of diagnostics, and is kept by running
one step after another, by marking a definition around a step when the
definition is `Allowed`, and by doing so only when the definition is not
marked yet. -/
structure VisitorClosed (Allowed : FunctionDecl → Prop)
    (C : (VisitorState → Option VisitorState) → Prop) : Prop where
  fail : C (fun _ => none)
  diags : ∀ Ds : List Diagnostic,
    C (fun St => some { St with Diags := St.Diags ++ Ds })
  seq : ∀ f g : VisitorState → Option VisitorState, C f → C g →
    C (fun St => (f St).bind g)
  mark : ∀ (Def : FunctionDecl) (f : VisitorState → Option VisitorState),
    Allowed Def → C f →
    C (fun St => (f { St with DeviceAttrs := St.DeviceAttrs ++ [Def.ID] }).map
      fun St2 => { St2 with SyclKernels := St2.SyclKernels ++ [Def.ID] })
  guarded : ∀ (Def : FunctionDecl) (f : VisitorState → Option VisitorState), C f →
    C (fun St => if St.hasAttr Def then some St else
      (f { St with DeviceAttrs := St.DeviceAttrs ++ [Def.ID] }).map
        fun St2 => { St2 with SyclKernels := St2.SyclKernels ++ [Def.ID] })

/-- The step `f`, where it returns, appends to the state, and does the same
from every state in which the same definitions are marked. -/
def Uniform (f : VisitorState → Option VisitorState) : Prop :=
  ∀ St St1 : VisitorState, f St = some St1 →
    ∃ (A : List Diagnostic) (M K : List Nat), St1 = St.extend A M K
      ∧ ∀ St' : VisitorState, SameMarks St St' → f St' = some (St'.extend A M K)

/-- The step `f`, where it returns, appends to the state, marks the
definition `ID` as often as it registers it, at most once, and not at all
when the definition is marked already. -/
def MarksOnce (ID : Nat) (f : VisitorState → Option VisitorState) : Prop :=
  ∀ St St1 : VisitorState, f St = some St1 →
    ∃ (A : List Diagnostic) (M K : List Nat), St1 = St.extend A M K
      ∧ M.count ID = K.count ID ∧ M.count ID ≤ 1
      ∧ (ID ∈ St.DeviceAttrs → M.count ID = 0)

/-! ## Notions used to state the properties of names, scopes and restrictions -/

/-- The kinds and names of the declaration contexts from a context outward,
the translation unit left out: the context itself first. -/
def DeclContext.scopes : DeclContext → List (DeclKind × String)
  | .TranslationUnit => []
  | .Ctx Kind Name Parent =>
    if Kind = .TranslationUnit then [] else (Kind, Name) :: Parent.scopes

/-- The first context, from a context outward, that is not a namespace. -/
def DeclContext.firstNonNamespace : DeclContext → DeclContext
  | .TranslationUnit => .TranslationUnit
  | .Ctx Kind Name Parent =>
    if Kind = .Namespace then Parent.firstNonNamespace else .Ctx Kind Name Parent

/-- The restriction that the specification attaches to a node by its class: a
use of exceptions for a throw expression, a try statement, a catch clause and
an SEH try statement, a use of assembly for a GCC or MS assembly statement,
and a use of RTTI for a typeid expression and a dynamic cast; the location is
that of the expression, and the begin of the statement for a statement. -/
def StmtNode.restricted (N : StmtNode) : Option (SourceLocation × RestrictKind) :=
  match N.Class with
  | .CXXThrowExpr => some (N.ExprLoc, .KernelUseExceptions)
  | .CXXTryStmt => some (N.BeginLoc, .KernelUseExceptions)
  | .CXXCatchStmt => some (N.BeginLoc, .KernelUseExceptions)
  | .SEHTryStmt => some (N.BeginLoc, .KernelUseExceptions)
  | .GCCAsmStmt => some (N.BeginLoc, .KernelUseAssembly)
  | .MSAsmStmt => some (N.BeginLoc, .KernelUseAssembly)
  | .CXXTypeidExpr => some (N.ExprLoc, .KernelRTTI)
  | .CXXDynamicCastExpr => some (N.ExprLoc, .KernelRTTI)
  | _ => none

mutual
/-- The restrictions of the nodes of a statement, a node before its children
and the children in order. -/
def Stmt.restrictedNodes : Stmt → List (SourceLocation × RestrictKind)
  | .mk Node Children => Node.restricted.toList ++ restrictedNodesOf Children
/-- The same for a list of statements. -/
def restrictedNodesOf : List Stmt → List (SourceLocation × RestrictKind)
  | [] => []
  | S :: Rest => S.restrictedNodes ++ restrictedNodesOf Rest
end

/-- The restrictions among the diagnostics `Ds` that report a use of
exceptions, of assembly or of RTTI, in order. -/
def languageRestrictions (Ds : List Diagnostic) : List (SourceLocation × RestrictKind) :=
  (restrictions Ds).filter fun R =>
    R.2 = .KernelUseExceptions ∨ R.2 = .KernelUseAssembly ∨ R.2 = .KernelRTTI

/-- The identities in a list that are not in `Seen`, each once, in the order
of their first occurrence. -/
def firstOccurrences : List Nat → List Nat → List Nat
  | _, [] => []
  | Seen, ID :: Rest =>
    if ID ∈ Seen then firstOccurrences Seen Rest
    else ID :: firstOccurrences (Seen ++ [ID]) Rest

mutual
/-- The nodes of the references to declarations in a statement, in the order
of the references. -/
def Stmt.refNodes : Stmt → List StmtNode
  | .mk Node Children =>
    match Node.Class with
    | .DeclRefExpr _ => [Node]
    | _ => refNodesOf Children
/-- The same for a list of statements. -/
def refNodesOf : List Stmt → List StmtNode
  | [] => []
  | S :: Rest => S.refNodes ++ refNodesOf Rest
end

/-- A property `C` of the steps of the visitor that holds of the step that
does not return and of the emission of diagnostics that report no use of
exceptions, of assembly or of RTTI, and is kept by running one step after
another, by marking a definition around a step, and by doing so only when
the definition is not marked yet. -/
structure QuietClosed (C : (VisitorState → Option VisitorState) → Prop) : Prop where
  fail : C (fun _ => none)
  diags : ∀ Ds : List Diagnostic, languageRestrictions Ds = [] →
    C (fun St => some { St with Diags := St.Diags ++ Ds })
  seq : ∀ f g : VisitorState → Option VisitorState, C f → C g →
    C (fun St => (f St).bind g)
  mark : ∀ (Def : FunctionDecl) (f : VisitorState → Option VisitorState), C f →
    C (fun St => (f { St with DeviceAttrs := St.DeviceAttrs ++ [Def.ID] }).map
      fun St2 => { St2 with SyclKernels := St2.SyclKernels ++ [Def.ID] })
  guarded : ∀ (Def : FunctionDecl) (f : VisitorState → Option VisitorState), C f →
    C (fun St => if St.hasAttr Def then some St else
      (f { St with DeviceAttrs := St.DeviceAttrs ++ [Def.ID] }).map
        fun St2 => { St2 with SyclKernels := St2.SyclKernels ++ [Def.ID] })

/-- The step `f`, where it returns, appends to the state, and the diagnostics
it adds report no use of exceptions, of assembly or of RTTI. -/
def QuietStep (f : VisitorState → Option VisitorState) : Prop :=
  ∀ St St1 : VisitorState, f St = some St1 →
    ∃ (A : List Diagnostic) (M K : List Nat), St1 = St.extend A M K
      ∧ languageRestrictions A = []

/-- The diagnostic of a restriction. -/
def restrictionDiag (R : SourceLocation × RestrictKind) : Diagnostic :=
  ⟨R.1, .err_sycl_restrict R.2⟩

/-- The node has a class for which the visitor has no handler among those
modelled: a compound statement, a declaration statement, an implicit cast, a
binary operator or another statement. -/
def StmtNode.unhandled (N : StmtNode) : Bool :=
  match N.Class with
  | .CompoundStmt => true
  | .DeclStmt => true
  | .ImplicitCastExpr _ => true
  | .BinaryOperator _ => true
  | .Other => true
  | _ => false

mutual
/-- Every node of the statement is of a restricted class or unhandled. -/
def Stmt.plain : Stmt → Bool
  | .mk Node Children => (Node.restricted.isSome || Node.unhandled) && plainOf Children
/-- The same for a list of statements. -/
def plainOf : List Stmt → Bool
  | [] => true
  | S :: Rest => S.plain && plainOf Rest
end

mutual
/-- The number of nodes on the longest path from a statement down to a leaf. -/
def Stmt.depth : Stmt → Nat
  | .mk _ Children => depthOf Children + 1
/-- The greatest depth in a list of statements. -/
def depthOf : List Stmt → Nat
  | [] => 0
  | S :: Rest => max S.depth (depthOf Rest)
end

mutual
/-- The direct callees of the call expressions in a statement, in the order of
the call expressions. -/
def Stmt.callees : Stmt → List FunctionDecl
  | .mk Node Children =>
    match Node.Class with
    | .CallExpr (some Callee) => Callee :: calleesOf Children
    | _ => calleesOf Children
/-- The same for a list of statements. -/
def calleesOf : List Stmt → List FunctionDecl
  | [] => []
  | S :: Rest => S.callees ++ calleesOf Rest
end

/-- The function `D` is reached through call expressions from the statement
`S`: a call expression in `S` has `D` as direct callee, or one in the body of a
definition that is reached in this way and that is not among the definitions
`Marked` before the traversal. -/
inductive CallReached (TU : TranslationUnit) (Marked : List Nat) (S : Stmt) :
    FunctionDecl → Prop
  | direct (D : FunctionDecl) : D ∈ S.callees → CallReached TU Marked S D
  | step (D1 D : FunctionDecl) (B : Stmt) : CallReached TU Marked S D1 →
      D1.ID ∉ Marked → TU.getDefinition D1 = some (some B) → D ∈ B.callees →
      CallReached TU Marked S D

/-- The definitions of the direct callees of the call expressions in `S` are
marked in the state `St`. -/
def CallsMarked (TU : TranslationUnit) (S : Stmt) (St : VisitorState) : Prop :=
  ∀ D ∈ S.callees, (TU.getDefinition D).isSome = true → D.ID ∈ St.DeviceAttrs

/-- A property `C` of the steps of the visitor that holds of the step that
does not return and of the emission of diagnostics, and is kept by running
one step after another, by `markDeviceFunction` for a definition of the
translation unit when it holds of the traversal `T` of the body, and by doing
so only when the definition is not marked yet. -/
structure BodyClosed (TU : TranslationUnit)
    (T : VisitorState → Stmt → Option VisitorState)
    (C : (VisitorState → Option VisitorState) → Prop) : Prop where
  fail : C (fun _ => none)
  diags : ∀ Ds : List Diagnostic,
    C (fun St => some { St with Diags := St.Diags ++ Ds })
  seq : ∀ f g : VisitorState → Option VisitorState, C f → C g →
    C (fun St => (f St).bind g)
  mark : ∀ (Def : FunctionDecl) (Body : Option Stmt), TU.getDefinition Def = some Body →
    (∀ B, Body = some B → C (fun St => T St B)) →
    C (fun St => markDeviceFunction T St Def Body)
  guarded : ∀ (Def : FunctionDecl) (Body : Option Stmt),
    TU.getDefinition Def = some Body →
    (∀ B, Body = some B → C (fun St => T St B)) →
    C (fun St => if !St.hasAttr Def then markDeviceFunction T St Def Body else some St)

/-- The step `f`, where it returns, appends to the state, and for every
definition that it marks, the definitions of the direct callees of the call
expressions in the body of that definition are marked when it returns. -/
def ClosureStep (TU : TranslationUnit) (f : VisitorState → Option VisitorState) : Prop :=
  ∀ St St1 : VisitorState, f St = some St1 →
    ∃ (A : List Diagnostic) (M K : List Nat), St1 = St.extend A M K
      ∧ ∀ ID ∈ M, ∀ B : Stmt, TU.Definitions.lookup ID = some (some B) →
          CallsMarked TU B St1

/-! ## Programs for the checks of device code -/

namespace Device

def tInt : QualType := .mk (.Builtin .Int) {}

/-- The type of `int a[n]`. -/
def vlaTy : QualType := .mk (.VariableArray tInt) {}

/-- The type of `int (*p)[n]`. -/
def ptrToVlaTy : QualType := .mk (.Pointer vlaTy) {}

/-- The record of `struct S { int a; int v[n]; }` as the checker would read it. -/
def vlaStructRD : CXXRecordDecl :=
  .mk ⟨62, "S", .Struct, .TranslationUnit, true, true, 20, "struct S", [], false⟩
    none [] [.mk "a" tInt 0 21, .mk "v" vlaTy 32 22]

def vlaStructTy : QualType := .mk (.Record vlaStructRD) {}

/-- The record of `struct Poly { virtual void f(); }`. -/
def polyRD : CXXRecordDecl :=
  .mk ⟨60, "Poly", .Struct, .TranslationUnit, true, false, 5, "struct Poly", [], true⟩
    none [] []

def polyTy : QualType := .mk (.Record polyRD) {}

/-- The type `Node *` of the field `Next` below. -/
def nodePtrTy : QualType := .mk (.Pointer (.mk (.RecordRef 61) {})) {}

/-- The record of `struct Node { Node *Next; Poly P; }`. -/
def nodeRD : CXXRecordDecl :=
  .mk ⟨61, "Node", .Struct, .TranslationUnit, true, true, 7, "struct Node", [], false⟩
    none [] [.mk "Next" nodePtrTy 0 8, .mk "P" polyTy 64 9]

def nodeTy : QualType := .mk (.Record nodeRD) {}

/-- The record of `struct Opaque;`, which has no definition. -/
def opaqueRD : CXXRecordDecl :=
  .mk ⟨63, "Opaque", .Struct, .TranslationUnit, false, true, 24, "struct Opaque", [],
    false⟩ none [] []

/-- The type of `Opaque *a[n]`: a variable-length array of pointers. -/
def vlaOfOpaquePtrTy : QualType :=
  .mk (.VariableArray (.mk (.Pointer (.mk (.Record opaqueRD) {})) {})) {}

/-- The type of `Opaque *a[3]`. -/
def arrayOfOpaquePtrTy : QualType :=
  .mk (.ConstantArray (.mk (.Pointer (.mk (.Record opaqueRD) {})) {}) 3) {}

/-- The name type `n1::K`. -/
def nameInN1 : QualType :=
  .mk (.Record (.mk ⟨64, "K", .Class, .Ctx .Namespace "n1" .TranslationUnit, false, true,
    26, "class K", [], false⟩ none [] [])) {}

/-- The name type `n2::K`. -/
def nameInN2 : QualType :=
  .mk (.Record (.mk ⟨65, "K", .Class, .Ctx .Namespace "n2" .TranslationUnit, false, true,
    27, "class K", [], false⟩ none [] [])) {}

/-- The mangled names of the name types of the test, as its `CHECK` lines
give them. -/
def mangleTypeName : QualType → String
  | .mk (.Record RD) _ =>
    if RD.Info.ID = 30 then "_ZTSZ4mainE12first_kernel"
    else if RD.Info.ID = 32 then "_ZTSN16second_namespace13second_kernelIcEE"
    else "_ZTS12third_kernelILi1Ei5pointIZ4mainE1XEE"
  | _ => ""

/-- The translation unit that declares the records above. -/
def Types : TranslationUnit := ⟨[(61, nodeRD)], [], [], []⟩

/-- The functions `A`, `B` and `C` of the call graphs below. -/
def fnA : FunctionDecl := ⟨1, "A", false, false, tInt, [], 100⟩

def fnB : FunctionDecl := ⟨2, "B", false, false, tInt, [], 200⟩

def fnC : FunctionDecl := ⟨3, "C", false, false, tInt, [], 300⟩

/-- The call graph in which `A` calls `B` and `B` calls `A`. -/
def Cycle2 : TranslationUnit := ⟨[], [], [(1, [2]), (2, [1])], []⟩

/-- The call graph in which `A` calls `B` and `B` calls `C`, which calls nothing. -/
def Line3 : TranslationUnit := ⟨[], [], [(1, [2]), (2, [3]), (3, [])], []⟩

/-- The call graph in which `A` calls `B`, `B` calls `C` and `C` calls `A`. -/
def Cycle3 : TranslationUnit := ⟨[], [], [(1, [2]), (2, [3]), (3, [1])], []⟩

/-- A state of the visitor in which nothing has happened. -/
def St0 : VisitorState := ⟨[], [], []⟩

/-- A traversal that leaves the state as it is. -/
def skip : VisitorState → Stmt → Option VisitorState := fun St _ => some St

/-- An expression that the visitor has no check for. -/
def otherExpr : Stmt := .mk ⟨.Other, tInt, .VK_RValue, 50, 50⟩ []

/-- The call `A()` at location 51. -/
def callA : Stmt := .mk ⟨.CallExpr (some fnA), tInt, .VK_RValue, 50, 51⟩ [otherExpr]

/-- The call `(*fp)()` through a pointer to a function, at location 53. -/
def callPtr : Stmt := .mk ⟨.CallExpr none, tInt, .VK_RValue, 52, 53⟩ [otherExpr]

/-- A virtual method `V` that has no definition at hand. -/
def fnV : FunctionDecl := ⟨4, "V", true, false, tInt, [], 400⟩

/-- The call `obj.V()` at location 55. -/
def callV : Stmt := .mk ⟨.CallExpr (some fnV), tInt, .VK_RValue, 54, 55⟩ [otherExpr]

/-- The variable of `int g;` at namespace scope. -/
def gVar : ValueDecl := ⟨70, .Var, "g", tInt, true, false, false, 30⟩

/-- The reference `g` at location 40. -/
def refG : Stmt := .mk ⟨.DeclRefExpr gVar, tInt, .VK_LValue, 40, 40⟩ []

/-- The static data member of `struct T { static int counter; };`. -/
def counterVar : ValueDecl := ⟨71, .Var, "counter", tInt, true, false, true, 31⟩

/-- The reference `T::counter`, which begins at location 41 and names the
member at location 44. -/
def refCounter : Stmt := .mk ⟨.DeclRefExpr counterVar, tInt, .VK_LValue, 41, 44⟩ []

/-- The member access `obj.counter` at location 47. -/
def memberCounter : Stmt :=
  .mk ⟨.MemberExpr (.Var counterVar), tInt, .VK_LValue, 45, 47⟩ [otherExpr]

/-- The replaceable `operator new(size_t)`. -/
def opNew : FunctionDecl := ⟨80, "operator new", false, true, tInt, [], 0⟩

/-- A placement `operator new(size_t, void *)` that the program defines. -/
def opPlacementNew : FunctionDecl := ⟨81, "operator new", false, false, tInt, [], 60⟩

/-- The expression `new int` at location 62. -/
def newExpr : Stmt := .mk ⟨.CXXNewExpr (some opNew), tInt, .VK_RValue, 62, 62⟩ []

/-- The expression `new (p) int` at location 64. -/
def placementNewExpr : Stmt :=
  .mk ⟨.CXXNewExpr (some opPlacementNew), tInt, .VK_RValue, 64, 64⟩ []

/-- The translation unit that defines the placement operator with the body
`otherExpr`. -/
def Placement : TranslationUnit := ⟨[], [(81, some otherExpr)], [], []⟩

end Device

/-! ## Programs for the body of the kernel -/

namespace Device

/-- The type `char *` of the first parameter of `accessor<char, ..>::__init`. -/
def charPtrTy : QualType := .mk (.Pointer Test.tChar) {}

/-- The type `float *` of the first parameter of `accessor<float, ..>::__init`. -/
def floatPtrTy : QualType := .mk (.Pointer Test.tFloat) {}

/-- A parameter declared at location 103 of the test. -/
def parm (ID : Nat) (Name : String) (Ty : QualType) : ValueDecl :=
  ⟨ID, .ParmVar, Name, Ty, false, false, false, 103⟩

/-- The method `use` of an accessor. -/
def useMethod (ID : Nat) : FunctionDecl := ⟨ID, "use", false, false, VoidTy, [], 102⟩

/-- The method `__init` of an accessor with the data pointer type `PtrTy`. -/
def initMethod (ID : Nat) (PtrTy : QualType) : FunctionDecl :=
  ⟨ID, "__init", false, false, VoidTy,
    [parm (ID + 1) "Ptr" PtrTy, parm (ID + 2) "Range" (.mk (.Record Test.rangeRD) {}),
     parm (ID + 3) "Offset" (.mk (.Record Test.idRD) {})], 103⟩

/-- The parameter `kernelFunc` of `kernel_single_task` for the closure `LC`. -/
def kernelFunc (LC : CXXRecordDecl) : ValueDecl :=
  ⟨111, .ParmVar, "kernelFunc", .mk (.Record LC) {}, false, false, false, 113⟩

/-- The specialization of `kernel_single_task` for the closure `LC`. -/
def kernelCaller (LC : CXXRecordDecl) : FunctionDecl :=
  ⟨110, "kernel_single_task", false, false, VoidTy, [kernelFunc LC], 113⟩

/-- The call operator of the closure `LC`. -/
def callOperator : FunctionDecl := ⟨120, "operator()", false, false, VoidTy, [], 142⟩

/-- The call operator as a declaration referred to. -/
def callOperatorDecl : ValueDecl :=
  ⟨120, .CXXMethod, "operator()", callOperator.getType, false, false, false, 142⟩

/-- The body `{ kernelFunc(); }` of `kernel_single_task`: a call of the call
operator on the parameter. -/
def callerBody (LC : CXXRecordDecl) : Stmt :=
  .mk ⟨.CompoundStmt, VoidTy, .VK_RValue, 113, 113⟩
    [.mk ⟨.CallExpr (some callOperator), VoidTy, .VK_RValue, 114, 114⟩
      [.mk ⟨.ImplicitCastExpr .CK_Other, callOperator.getType, .VK_RValue, 114, 114⟩
         [.mk ⟨.DeclRefExpr callOperatorDecl, callOperator.getType, .VK_LValue, 114, 114⟩
            []],
       .mk ⟨.DeclRefExpr (kernelFunc LC), .mk (.Record LC) {}, .VK_LValue, 114, 114⟩ []]]

/-- The translation unit of the test as far as the body of a kernel needs it. -/
def Kernels (LC : CXXRecordDecl) : TranslationUnit :=
  ⟨[], [(110, some (callerBody LC))], [],
    [(14, [useMethod 89, initMethod 90 charPtrTy]),
     (15, [useMethod 94, initMethod 95 floatPtrTy])]⟩

/-- The kernel function of the first kernel of the test. -/
def kernel1 : FunctionDecl :=
  CreateSYCLKernelFunction 200 "_ZTSZ4mainE12first_kernel" Test.closure1ParamDescs

/-- The closure of `[=]() { *p = i; }` with `int *p` and `int i`. -/
def ptrClosure : CXXRecordDecl :=
  .mk ⟨24, "", .Class, Test.fnMain, true, true, 1, "", [.Variable 1, .Variable 2], false⟩
    none []
    [.mk "p" (.mk (.Pointer tInt) {}) 0 1, .mk "i" tInt 64 1]

/-- The kernel function for `ptrClosure`. -/
def ptrKernel : FunctionDecl :=
  CreateSYCLKernelFunction 200 "_ZTS3ptr"
    [⟨.mk (.Pointer tInt) {}, "_arg_p"⟩, ⟨tInt, "_arg_i"⟩]

end Device

/-! ## Programs for the parameters of the kernel -/

namespace Device

/-- The record of `struct Mixed { int a; private: int b; }`, which is not a
standard-layout class. -/
def mixedRD : CXXRecordDecl :=
  .mk ⟨66, "Mixed", .Struct, .TranslationUnit, true, false, 150, "struct Mixed", [],
    false⟩ none [] [.mk "a" tInt 0 151, .mk "b" tInt 32 152]

def mixedTy : QualType := .mk (.Record mixedRD) {}

/-- The field of a closure for a captured variable `Mixed m`. -/
def mixedField : FieldDecl := .mk "m" mixedTy 64 160

/-- A class `cl::sycl::stream` that is not a standard-layout class. -/
def streamRD : CXXRecordDecl :=
  .mk ⟨67, "stream", .Class, Test.nsSycl, true, false, 1, "class stream", [], false⟩
    none [] []

/-- The field of a closure for a captured stream. -/
def streamField : FieldDecl := .mk "s" (.mk (.Record streamRD) {}) 0 160

/-- The class `Widget` in whose member function the lambda below stands. -/
def widgetRD : CXXRecordDecl :=
  .mk ⟨68, "Widget", .Struct, .TranslationUnit, true, true, 155, "struct Widget", [],
    false⟩ none [] []

/-- The closure of `[this, m]() { .. }` in a member function of `Widget`,
`m` being a variable `Mixed m` declared at location 158. -/
def thisClosure : CXXRecordDecl :=
  .mk ⟨25, "", .Class, .TranslationUnit, true, false, 160, "",
      [.This, .Variable 158], false⟩ none []
    [.mk "this" (.mk (.Pointer (.mk (.Record widgetRD) {})) {}) 0 160, mixedField]

/-- The closure of `[m]() { .. }`. -/
def mixedClosure : CXXRecordDecl :=
  .mk ⟨26, "", .Class, .TranslationUnit, true, false, 160, "",
      [.Variable 158], false⟩ none [] [mixedField]

end Device

/-! ## Programs for the traversal of the kernel -/

namespace Device

/-- The closure of `[]() { throw 1; }`, which captures nothing. -/
def emptyClosure : CXXRecordDecl :=
  .mk ⟨27, "", .Class, Test.fnMain, true, true, 170, "", [], false⟩ none [] []

/-- The body `{ throw 1; }`, the throw expression at location 171. -/
def throwBody : Stmt :=
  .mk ⟨.CompoundStmt, VoidTy, .VK_RValue, 170, 170⟩
    [.mk ⟨.CXXThrowExpr, VoidTy, .VK_RValue, 171, 171⟩ [otherExpr]]

/-- The translation unit of a kernel `[]() { throw 1; }`: the body of
`kernel_single_task` and the body of the call operator of the closure. -/
def Throwing : TranslationUnit :=
  ⟨[], [(110, some (callerBody emptyClosure)), (120, some throwBody)],
    [(110, [120]), (120, [])], []⟩

/-- The closure of `[v]() { }` with `Poly v`. -/
def polyClosure : CXXRecordDecl :=
  .mk ⟨28, "", .Class, Test.fnMain, true, false, 180, "", [.Variable 178], false⟩
    none [] [.mk "v" polyTy 0 180]

/-- The body `{ }` at location 180. -/
def emptyBody : Stmt := .mk ⟨.CompoundStmt, VoidTy, .VK_RValue, 180, 180⟩ []

/-- The translation unit of a kernel `[v]() { }`. -/
def Virtual : TranslationUnit :=
  ⟨[], [(110, some (callerBody polyClosure)), (120, some emptyBody)],
    [(110, [120]), (120, [])], []⟩

/-- The record of `struct W { W() { } };`. -/
def wRD : CXXRecordDecl :=
  .mk ⟨69, "W", .Struct, .TranslationUnit, true, true, 189, "struct W", [], false⟩
    none [] []

/-- The constructor `W::W()`, defined with the body `{ }`. -/
def ctorW : FunctionDecl := ⟨130, "W", false, false, VoidTy, [], 190⟩

/-- The expression `W()` at the location given; `W` has no user-declared
destructor. -/
def constructW (Loc : SourceLocation) : Stmt :=
  .mk ⟨.CXXConstructExpr ctorW none, .mk (.Record wRD) {}, .VK_RValue, Loc, Loc⟩ []

/-- The body `{ W(); W(); }`. -/
def twoObjects : Stmt :=
  .mk ⟨.CompoundStmt, VoidTy, .VK_RValue, 191, 191⟩ [constructW 192, constructW 193]

/-- The translation unit that defines `W::W()` and a function `A` with the
body `{ throw 1; }`. -/
def Objects : TranslationUnit :=
  ⟨[], [(130, some emptyBody), (1, some throwBody)], [(1, []), (130, [])], []⟩

/-- The body `{ A(); A(); }` of a kernel. -/
def twoCalls : Stmt :=
  .mk ⟨.CompoundStmt, VoidTy, .VK_RValue, 194, 194⟩ [callA, callA]

end Device

/-! ## Programs for termination, scopes and locations -/

namespace Device

/-- The call graph in which `A` calls `B`, `B` calls `C` and `C` calls `B`: a
cycle that does not pass through `A`. -/
def CycleAside : TranslationUnit := ⟨[], [], [(1, [2]), (2, [3]), (3, [2])], []⟩

/-- The type `List *` of the field `Next` below. -/
def listPtrTy : QualType := .mk (.Pointer (.mk (.RecordRef 71) {})) {}

/-- The record of `struct List { List *Next; int V; }`. -/
def listRD : CXXRecordDecl :=
  .mk ⟨71, "List", .Struct, .TranslationUnit, true, true, 210, "struct List", [], false⟩
    none [] [.mk "Next" listPtrTy 0 211, .mk "V" tInt 64 212]

def listTy : QualType := .mk (.Record listRD) {}

/-- The type `Pong *` of the field of `Ping` below. -/
def pongPtrTy : QualType := .mk (.Pointer (.mk (.RecordRef 73) {})) {}

/-- The type `Ping *` of the field of `Pong` below. -/
def pingPtrTy : QualType := .mk (.Pointer (.mk (.RecordRef 72) {})) {}

/-- The record of `struct Ping { Pong *P; }`. -/
def pingRD : CXXRecordDecl :=
  .mk ⟨72, "Ping", .Struct, .TranslationUnit, true, true, 214, "struct Ping", [], false⟩
    none [] [.mk "P" pongPtrTy 0 215]

/-- The record of `struct Pong { Ping *P; }`. -/
def pongRD : CXXRecordDecl :=
  .mk ⟨73, "Pong", .Struct, .TranslationUnit, true, true, 216, "struct Pong", [], false⟩
    none [] [.mk "P" pingPtrTy 0 217]

def pingTy : QualType := .mk (.Record pingRD) {}

/-- The translation unit that declares `List`, `Ping` and `Pong`. -/
def Lists : TranslationUnit := ⟨[(71, listRD), (72, pingRD), (73, pongRD)], [], [], []⟩

/-- The closure of `[i, m]() { .. }` with `int i` declared at location 201 and
`Mixed m` declared at location 202. -/
def twoCaptures : CXXRecordDecl :=
  .mk ⟨29, "", .Class, .TranslationUnit, true, false, 205, "",
      [.Variable 201, .Variable 202], false⟩ none []
    [.mk "i" tInt 0 205, .mk "m" mixedTy 32 205]

/-- The records of `struct CA { CA() { CB(); } };` and
`struct CB { CB() { CA(); } };`. -/
def caRD : CXXRecordDecl :=
  .mk ⟨74, "CA", .Struct, .TranslationUnit, true, true, 220, "struct CA", [], false⟩
    none [] []

def cbRD : CXXRecordDecl :=
  .mk ⟨75, "CB", .Struct, .TranslationUnit, true, true, 224, "struct CB", [], false⟩
    none [] []

/-- The constructor `CA::CA()`. -/
def ctorCA : FunctionDecl := ⟨131, "CA", false, false, VoidTy, [], 221⟩

/-- The constructor `CB::CB()`. -/
def ctorCB : FunctionDecl := ⟨132, "CB", false, false, VoidTy, [], 225⟩

/-- The expression `CA()` at location 226. -/
def constructCA : Stmt :=
  .mk ⟨.CXXConstructExpr ctorCA none, .mk (.Record caRD) {}, .VK_RValue, 226, 226⟩ []

/-- The expression `CB()` at location 222. -/
def constructCB : Stmt :=
  .mk ⟨.CXXConstructExpr ctorCB none, .mk (.Record cbRD) {}, .VK_RValue, 222, 222⟩ []

/-- The functions `F` and `G`: `F` has the body `{ G(); }` and `G` the body
`{ F(); }`. -/
def fnF : FunctionDecl := ⟨5, "F", false, false, VoidTy, [], 230⟩

def fnG : FunctionDecl := ⟨6, "G", false, false, VoidTy, [], 233⟩

/-- The call `F()` at location 234. -/
def callF : Stmt := .mk ⟨.CallExpr (some fnF), VoidTy, .VK_RValue, 234, 234⟩ [otherExpr]

/-- The call `G()` at location 231. -/
def callG : Stmt := .mk ⟨.CallExpr (some fnG), VoidTy, .VK_RValue, 231, 231⟩ [otherExpr]

/-- A body that consists of the one statement given. -/
def bodyOf (S : Stmt) : Stmt := .mk ⟨.CompoundStmt, VoidTy, .VK_RValue, 219, 219⟩ [S]

/-- The translation unit that defines the two constructors and the two
functions. -/
def Mutual : TranslationUnit :=
  ⟨[], [(131, some (bodyOf constructCB)), (132, some (bodyOf constructCA)),
        (5, some (bodyOf callG)), (6, some (bodyOf callF))],
    [(5, [6]), (6, [5]), (131, [132]), (132, [131])], []⟩

/-- The parameter `const KernelType kernelFunc` of a kernel caller. -/
def constKernelFunc (LC : CXXRecordDecl) : ValueDecl :=
  ⟨111, .ParmVar, "kernelFunc", .mk (.Record LC) { Const := true }, false, false, false,
    113⟩

/-- The reference `kernelFunc` to that parameter, at location 114. -/
def constKernelFuncRef (LC : CXXRecordDecl) : Stmt :=
  .mk ⟨.DeclRefExpr (constKernelFunc LC), .mk (.Record LC) { Const := true }, .VK_LValue,
    114, 114⟩ []

/-- The kernel caller `kernel_single_task(const KernelType kernelFunc)`. -/
def constKernelCaller (LC : CXXRecordDecl) : FunctionDecl :=
  ⟨110, "kernel_single_task", false, false, VoidTy, [constKernelFunc LC], 113⟩

/-- The body `{ kernelFunc(); }` of that caller. -/
def constCallerBody (LC : CXXRecordDecl) : Stmt :=
  .mk ⟨.CompoundStmt, VoidTy, .VK_RValue, 113, 113⟩
    [.mk ⟨.CallExpr (some callOperator), VoidTy, .VK_RValue, 114, 114⟩
      [.mk ⟨.ImplicitCastExpr .CK_Other, callOperator.getType, .VK_RValue, 114, 114⟩
         [.mk ⟨.DeclRefExpr callOperatorDecl, callOperator.getType, .VK_LValue, 114, 114⟩
            []],
       constKernelFuncRef LC]]

/-- The translation unit of that caller. -/
def ConstKernels (LC : CXXRecordDecl) : TranslationUnit :=
  ⟨[], [(110, some (constCallerBody LC))], [], []⟩

/-- A node of the class given with the begin location and the expression
location given, and with the children given. -/
def node (Class : StmtClass) (BeginLoc ExprLoc : SourceLocation) (Children : List Stmt) :
    Stmt :=
  .mk ⟨Class, VoidTy, .VK_RValue, BeginLoc, ExprLoc⟩ Children

/-- The body
`{ try { throw 1; } catch (...) { } __try { } __except (1) { } asm(""); __asm nop;
typeid(x); dynamic_cast<B *>(p); }`. -/
def restrictedBody : Stmt :=
  node .CompoundStmt 240 240
    [node .CXXTryStmt 241 241
      [node .CompoundStmt 242 242 [node .CXXThrowExpr 243 244 [otherExpr]],
       node .CXXCatchStmt 245 245 [node .CompoundStmt 246 246 []]],
     node .SEHTryStmt 247 247 [node .CompoundStmt 248 248 []],
     node .GCCAsmStmt 249 249 [],
     node .MSAsmStmt 250 250 [],
     node .CXXTypeidExpr 251 252 [otherExpr],
     node .CXXDynamicCastExpr 253 254 [otherExpr]]

end Device

/-! ## Programs for the reports that a check keeps from being made -/

namespace Device

/-- The variable of `List *head;` at namespace scope, declared at location
260. -/
def headVar : ValueDecl := ⟨76, .Var, "head", listPtrTy, true, false, false, 260⟩

/-- The reference `head` at location 261. -/
def refHead : Stmt := .mk ⟨.DeclRefExpr headVar, listPtrTy, .VK_LValue, 261, 261⟩ []

/-- The call `fp(head)` through a pointer to a function, at location 263: the
argument is the value of `head`. -/
def callPtrHead : Stmt :=
  .mk ⟨.CallExpr none, tInt, .VK_RValue, 262, 263⟩
    [otherExpr,
     .mk ⟨.ImplicitCastExpr .CK_LValueToRValue, listPtrTy, .VK_RValue, 264, 264⟩ [refHead]]

/-- The diagnostics of the traversal of `{ F(); }`, with `F` calling `G` at
location 231 and `G` calling `F` at location 234: each of the three calls
visited is reported as recursive, after the note at the function called. -/
def mutualDiags : List Diagnostic :=
  [⟨230, .note_sycl_recursive_function_declared_here .KernelCallRecursiveFunction⟩,
   ⟨234, .err_sycl_restrict .KernelCallRecursiveFunction⟩,
   ⟨233, .note_sycl_recursive_function_declared_here .KernelCallRecursiveFunction⟩,
   ⟨231, .err_sycl_restrict .KernelCallRecursiveFunction⟩,
   ⟨230, .note_sycl_recursive_function_declared_here .KernelCallRecursiveFunction⟩,
   ⟨234, .err_sycl_restrict .KernelCallRecursiveFunction⟩]

end Device

/-! ## Theorems -/

/-! ### The accumulator -/

theorem addParamDesc_concat (Ks : List KernelDesc) (K : KernelDesc)
    (Kind : kernel_param_kind_t) (Info : Int) (Offset : Nat) :
    (SYCLIntegrationHeader.mk (Ks ++ [K])).addParamDesc Kind Info Offset
      = .ok ⟨Ks ++ [{ K with Params := K.Params ++ [⟨Kind, Info, Offset⟩] }]⟩ := by
  simp [SYCLIntegrationHeader.addParamDesc, SYCLIntegrationHeader.getCurKernelDesc]

theorem addParamDescs_concat (Ps : List KernelParamDesc) :
    ∀ (Ks : List KernelDesc) (K : KernelDesc),
      (SYCLIntegrationHeader.mk (Ks ++ [K])).addParamDescs Ps
        = .ok ⟨Ks ++ [{ K with Params := K.Params ++ Ps }]⟩ := by
  induction Ps with
  | nil => intro Ks K; simp [SYCLIntegrationHeader.addParamDescs]
  | cons P Rest ih =>
    intro Ks K
    rw [SYCLIntegrationHeader.addParamDescs, addParamDesc_concat]
    simp only []
    rw [ih]
    simp

theorem registerKernels_eq (Ks : List KernelDesc) :
    ∀ (H : SYCLIntegrationHeader),
      registerKernels H Ks = .ok ⟨H.KernelDescs ++ Ks⟩ := by
  induction Ks with
  | nil => intro H; simp [registerKernels]
  | cons K Rest ih =>
    intro H
    rw [registerKernels, SYCLIntegrationHeader.startKernel, addParamDescs_concat]
    simp only []
    rw [ih]
    simp

/-! ### The tables of `emit` -/

theorem emit_ok {getAsString : QualType → String} {H : SYCLIntegrationHeader}
    {Out : EmitOutput} (hOut : H.emit getAsString = .ok Out) :
    (∃ St, emitForwardClassDeclsLoop H.KernelDescs ⟨[], [], []⟩ = .ok St
        ∧ Out.FwdDecls = St.O ∧ Out.Diags = St.Diags)
    ∧ Out.kernel_names = kernelNamesLoop H.KernelDescs.length 0 H.KernelDescs
    ∧ Out.kernel_signatures = kernelSignaturesLoop H.KernelDescs
    ∧ Out.kernel_signature_start
        = kernelSignatureStartLoop H.KernelDescs.length 0 0 H.KernelDescs
    ∧ Out.KernelInfo = kernelInfoLoop getAsString 0 H.KernelDescs := by
  unfold SYCLIntegrationHeader.emit at hOut
  split at hOut
  · cases hOut
  · next St hSt =>
    injection hOut with hOut
    subst hOut
    exact ⟨⟨St, hSt, rfl, rfl⟩, rfl, rfl, rfl, rfl⟩

theorem signatureTable_loop (Ks : List KernelDesc) :
    (kernelSignaturesLoop Ks).filterMap SigRow.entry?
      = (Ks.map KernelDesc.Params).flatten := by
  induction Ks with
  | nil => simp [kernelSignaturesLoop]
  | cons K Rest ih =>
    have hmap : ∀ Ps : List KernelParamDesc,
        (Ps.map SigRow.Entry).filterMap SigRow.entry? = Ps := by
      intro Ps
      induction Ps with
      | nil => rfl
      | cons P Ps ihp => simp [SigRow.entry?] at ihp ⊢; exact ihp
    simp only [kernelSignaturesLoop, List.cons_append, List.filterMap_cons,
      List.filterMap_append, SigRow.entry?, hmap, ih, List.map_cons,
      List.flatten_cons, List.filterMap_nil, List.nil_append, List.append_nil]

theorem kernelInfoLoop_get (getAsString : QualType → String)
    (Ks : List KernelDesc) :
    ∀ (CurStart i : Nat) (hi : i < Ks.length),
      (kernelInfoLoop getAsString CurStart Ks)[i]?
        = some ⟨eraseAnonNamespace (getAsString (Ks[i]).NameType), (Ks[i]).Name,
            (Ks[i]).Params.length,
            CurStart + ((Ks.take i).map (fun K => K.Params.length)).sum⟩ := by
  induction Ks with
  | nil => intro _ i hi; simp at hi
  | cons K Rest ih =>
    intro CurStart i hi
    cases i with
    | zero => simp [kernelInfoLoop]
    | succ i =>
      have hi' : i < Rest.length := by simpa using hi
      simp only [kernelInfoLoop, List.getElem?_cons_succ, ih _ i hi',
        List.getElem_cons_succ, List.take_succ_cons, List.map_cons,
        List.sum_cons, Nat.add_assoc]

theorem flatten_get_at_base {α : Type} (Ls : List (List α)) :
    ∀ (i : Nat) (hi : i < Ls.length) (j : Nat) (hj : j < (Ls[i]).length),
      Ls.flatten[j + ((Ls.take i).map List.length).sum]? = some ((Ls[i])[j]) := by
  induction Ls with
  | nil => intro i hi; simp at hi
  | cons L Rest ih =>
    intro i hi j hj
    cases i with
    | zero =>
      simp only [List.getElem_cons_zero] at hj
      simp [List.getElem?_append_left hj]
    | succ i =>
      have hi' : i < Rest.length := by simpa using hi
      simp only [List.getElem_cons_succ] at hj ⊢
      have := ih i hi' j hj
      simp only [List.flatten_cons, List.take_succ_cons, List.map_cons,
        List.sum_cons]
      rw [List.getElem?_append_right (by omega)]
      rw [show j + (L.length + ((Rest.take i).map List.length).sum) - L.length
            = j + ((Rest.take i).map List.length).sum by omega]
      exact this

/-- C1: in the output of `emit`, the array `kernel_signatures` is the
descriptor lists of the registered kernels laid end to end, kernel after
kernel with nothing in between; hence for every kernel `i` and every
`j` below its descriptor count, the element at position `j + base`, where
`base` is the constant written into `getParamDesc` of the `i`-th `KernelInfo`
specialization (the sum of the descriptor counts of the kernels before
`i`), is the `j`-th descriptor of kernel `i`. -/
theorem kernel_signatures_indexed_by_getParamDesc
    (getAsString : QualType → String) (H : SYCLIntegrationHeader)
    (Out : EmitOutput) (hOut : H.emit getAsString = .ok Out) :
    Out.signatureTable = (H.KernelDescs.map KernelDesc.Params).flatten
    ∧ ∀ (i : Nat) (hi : i < H.KernelDescs.length) (j : Nat)
        (hj : j < (H.KernelDescs[i]).Params.length),
        ∃ R : KernelInfoRow, Out.KernelInfo[i]? = some R
          ∧ R.CurStart
              = ((H.KernelDescs.take i).map (fun K => K.Params.length)).sum
          ∧ Out.signatureTable[j + R.CurStart]?
              = some ((H.KernelDescs[i]).Params[j]) := by
  obtain ⟨_, _, hSig, _, hInfo⟩ := emit_ok hOut
  have hTable : Out.signatureTable
      = (H.KernelDescs.map KernelDesc.Params).flatten := by
    rw [EmitOutput.signatureTable, hSig, signatureTable_loop]
  refine ⟨hTable, ?_⟩
  intro i hi j hj
  refine ⟨_, by rw [hInfo]; exact kernelInfoLoop_get getAsString _ 0 i hi, ?_, ?_⟩
  · simp
  · rw [hTable]
    have hi' : i < (H.KernelDescs.map KernelDesc.Params).length := by simpa using hi
    have hj' : j < ((H.KernelDescs.map KernelDesc.Params)[i]).length := by
      simpa using hj
    have h := flatten_get_at_base (H.KernelDescs.map KernelDesc.Params) i hi' j hj'
    simp only [List.map_take, List.map_map, List.getElem_map, Nat.zero_add] at h ⊢
    exact h

/-- Witness for C1 on the header of the test: the second kernel's first
descriptor sits at position `0 + 7` of `kernel_signatures`. -/
theorem kernel_signatures_indexed_by_getParamDesc_witness :
    ∃ Out : EmitOutput,
      SYCLIntegrationHeader.emit Test.getAsString ⟨Test.kernelDescs⟩ = .ok Out
      ∧ ∃ R : KernelInfoRow, Out.KernelInfo[1]? = some R
          ∧ R.CurStart = 7
          ∧ Out.signatureTable[0 + R.CurStart]?
              = some ⟨.kind_std_layout, 4, 0⟩ :=
  ⟨_, rfl,
    (kernel_signatures_indexed_by_getParamDesc Test.getAsString
      ⟨Test.kernelDescs⟩ _ rfl).2 1 (by decide) 0 (by decide)⟩

theorem kernelSignatureStartLoop_get (Size : Nat) (Ks : List KernelDesc) :
    ∀ (I CurStart i : Nat) (hi : i < Ks.length),
      (kernelSignatureStartLoop Size I CurStart Ks)[i]?
        = some ⟨CurStart + ((Ks.take i).map (fun K => K.Params.length + 1)).sum,
            decide (I + i < Size - 1), (Ks[i]).Name⟩ := by
  induction Ks with
  | nil => intro _ _ i hi; simp at hi
  | cons K Rest ih =>
    intro I CurStart i hi
    cases i with
    | zero => simp [kernelSignatureStartLoop]
    | succ i =>
      have hi' : i < Rest.length := by simpa using hi
      simp only [kernelSignatureStartLoop, List.getElem?_cons_succ,
        ih _ _ i hi', List.getElem_cons_succ, List.take_succ_cons,
        List.map_cons, List.sum_cons, Nat.add_assoc,
        Nat.add_comm 1 i]

/-- C2 (what the code does): on the header of the test, whose kernels have
7, 4 and 4 descriptors, `emit` writes `kernel_signature_start` as 0, 8, 13,
while the 15 descriptors lie contiguously in `kernel_signatures` and the
`KernelInfo` specializations use the bases 0, 7, 11: the loop adds
`K.Params.size() + 1` per kernel, so consecutive entries differ by the
descriptor count plus one and the entries after the first are not the starts
of the kernels' subarrays. -/
theorem kernel_signature_start_adds_one_per_kernel :
    ∃ Out : EmitOutput,
      SYCLIntegrationHeader.emit Test.getAsString ⟨Test.kernelDescs⟩ = .ok Out
      ∧ Test.kernelDescs.map (fun K => K.Params.length) = [7, 4, 4]
      ∧ Out.signatureStartTable = [0, 8, 13]
      ∧ Out.KernelInfo.map KernelInfoRow.CurStart = [0, 7, 11]
      ∧ Out.signatureTable.length = 15 :=
  ⟨_, rfl, by decide, by decide, by decide, by decide⟩

theorem kernelNamesLoop_get (Size : Nat) (Ks : List KernelDesc) :
    ∀ (I i : Nat) (hi : i < Ks.length),
      (kernelNamesLoop Size I Ks)[i]?
        = some ⟨(Ks[i]).Name, decide (I + i < Size - 1)⟩ := by
  induction Ks with
  | nil => intro _ i hi; simp at hi
  | cons K Rest ih =>
    intro I i hi
    cases i with
    | zero => simp [kernelNamesLoop]
    | succ i =>
      have hi' : i < Rest.length := by simpa using hi
      simp only [kernelNamesLoop, List.getElem?_cons_succ, ih _ i hi',
        List.getElem_cons_succ, Nat.add_assoc, Nat.add_comm 1 i]

theorem kernelNamesLoop_length (Size : Nat) (Ks : List KernelDesc) :
    ∀ I : Nat, (kernelNamesLoop Size I Ks).length = Ks.length := by
  induction Ks with
  | nil => intro I; rfl
  | cons K Rest ih => intro I; simp [kernelNamesLoop, ih]

theorem kernelInfoLoop_length (getAsString : QualType → String)
    (Ks : List KernelDesc) :
    ∀ CurStart : Nat, (kernelInfoLoop getAsString CurStart Ks).length = Ks.length := by
  induction Ks with
  | nil => intro _; rfl
  | cons K Rest ih => intro _; simp [kernelInfoLoop, ih]

/-- C7: when the kernels `Ks` are registered in this order (one `startKernel`
call each, followed by its `addParamDesc` calls) and the header is emitted,
`kernel_names` has exactly one line per kernel, the `i`-th line carrying the
`i`-th registered name, with a comma after it exactly when it is not the last
line; the `KernelInfo` specializations come one per kernel in the same order,
the `i`-th with `getName` returning the `i`-th name and `getNumParams`
returning the number of descriptors registered for that kernel. -/
theorem kernel_names_in_registration_order
    (getAsString : QualType → String) (Ks : List KernelDesc)
    (H : SYCLIntegrationHeader) (Out : EmitOutput)
    (hReg : registerKernels ⟨[]⟩ Ks = .ok H)
    (hOut : H.emit getAsString = .ok Out) :
    Out.kernel_names.length = Ks.length
    ∧ Out.KernelInfo.length = Ks.length
    ∧ ∀ (i : Nat) (hi : i < Ks.length),
        Out.kernel_names[i]? = some ⟨(Ks[i]).Name, decide (i + 1 < Ks.length)⟩
        ∧ (Out.kernel_names[i]?.map NameRow.render
            = some ("  \"" ++ (Ks[i]).Name ++ "\""
                ++ (if i + 1 < Ks.length then "," else "") ++ "\n"))
        ∧ ∃ R : KernelInfoRow, Out.KernelInfo[i]? = some R
            ∧ R.Name = (Ks[i]).Name
            ∧ R.NumParams = (Ks[i]).Params.length := by
  rw [registerKernels_eq] at hReg
  injection hReg with hReg
  subst hReg
  obtain ⟨_, hNames, _, _, hInfo⟩ := emit_ok hOut
  simp only [List.nil_append] at hNames hInfo
  refine ⟨by rw [hNames, kernelNamesLoop_length],
    by rw [hInfo, kernelInfoLoop_length], ?_⟩
  intro i hi
  have hrow : Out.kernel_names[i]?
      = some ⟨(Ks[i]).Name, decide (i + 1 < Ks.length)⟩ := by
    rw [hNames, kernelNamesLoop_get _ _ 0 i hi]
    have : decide (0 + i < Ks.length - 1) = decide (i + 1 < Ks.length) :=
      decide_eq_decide.mpr (by omega)
    rw [this]
  refine ⟨hrow, ?_, ?_⟩
  · rw [hrow]
    by_cases hc : i + 1 < Ks.length <;> simp [NameRow.render, hc]
  · exact ⟨_, by rw [hInfo]; exact kernelInfoLoop_get getAsString _ 0 i hi,
      rfl, rfl⟩

/-- Witness for C7 on the three kernels of the test. -/
theorem kernel_names_in_registration_order_witness :
    ∃ (H : SYCLIntegrationHeader) (Out : EmitOutput),
      registerKernels ⟨[]⟩ Test.kernelDescs = .ok H
      ∧ H.emit Test.getAsString = .ok Out
      ∧ Out.kernel_names.length = 3
      ∧ Out.KernelInfo.length = 3 :=
  ⟨⟨Test.kernelDescs⟩, _, registerKernels_eq _ _, rfl,
    (kernel_names_in_registration_order Test.getAsString Test.kernelDescs
      ⟨Test.kernelDescs⟩ _ (registerKernels_eq _ _) rfl).1,
    (kernel_names_in_registration_order Test.getAsString Test.kernelDescs
      ⟨Test.kernelDescs⟩ _ (registerKernels_eq _ _) rfl).2.1⟩

/-! ### Forward declarations: the namespace wrappers -/

theorem emitFwdDeclLoop_not_namespace (D : Decl) (Base : DeclContext)
    (hBase : Base.getDeclKind ≠ .Namespace) (Cnt : Nat) (NSStr : String) :
    (emitFwdDeclLoop D Base Cnt NSStr).1 = Cnt
    ∧ (emitFwdDeclLoop D Base Cnt NSStr).2.1 = NSStr := by
  cases Base with
  | TranslationUnit => simp [emitFwdDeclLoop]
  | Ctx Kind Name Parent =>
    have hK : Kind ≠ .Namespace := by simpa [DeclContext.getDeclKind] using hBase
    simp [emitFwdDeclLoop, hK]

theorem emitFwdDeclLoop_enclose (D : Decl) (Names : List String) :
    ∀ (Base : DeclContext) (Cnt : Nat) (NSStr : String),
      emitFwdDeclLoop D (encloseInNamespaces Names Base) Cnt NSStr
        = emitFwdDeclLoop D Base (Cnt + Names.length)
            (namespaceOpeners Names ++ NSStr) := by
  induction Names with
  | nil => intro Base Cnt NSStr; simp [encloseInNamespaces, namespaceOpeners]
  | cons N Rest ih =>
    intro Base Cnt NSStr
    rw [encloseInNamespaces, ih, emitFwdDeclLoop]
    simp only [if_true, namespaceOpeners, String.append_assoc, List.length_cons]
    rw [show Cnt + Rest.length + 1 = Cnt + (Rest.length + 1) by omega]

theorem closingBraces_eq (n : Nat) :
    closingBraces n = String.mk (List.replicate n '\x7d') := by
  induction n with
  | zero => rfl
  | succ n ih =>
    rw [closingBraces, ih]
    apply String.ext
    simp [List.replicate_succ']

/-- C10: for a declaration `D` declared inside the namespaces `Names`
(outermost first) whose outermost namespace sits in a context `Base` that is
not a namespace, `emitFwdDecl` writes the openers `namespace N \x7b ` of these
namespaces, outermost first, then (if there is any namespace) a line break,
the declaration followed by `;` and a line break, then exactly as many
closing braces as there were openers and (if there is any) a line break; with
no enclosing namespace it writes the declaration line alone. -/
theorem emitFwdDecl_namespace_wrappers (D : Decl) (Names : List String)
    (Base : DeclContext)
    (hDC : D.getDeclContext = encloseInNamespaces Names Base)
    (hBase : Base.getDeclKind ≠ .Namespace) :
    (emitFwdDecl D).1
        = namespaceOpeners Names ++ (if Names.length > 0 then "\n" else "")
            ++ D.print ++ ";\n"
            ++ String.mk (List.replicate Names.length '\x7d')
            ++ (if Names.length > 0 then "\n" else "")
    ∧ (Names = [] → (emitFwdDecl D).1 = D.print ++ ";\n") := by
  have hloop := emitFwdDeclLoop_enclose D Names Base 0 ""
  simp only [String.append_empty, Nat.zero_add] at hloop
  have hb := emitFwdDeclLoop_not_namespace D Base hBase Names.length
    (namespaceOpeners Names)
  have h1 : (emitFwdDecl D).1
        = namespaceOpeners Names ++ (if Names.length > 0 then "\n" else "")
            ++ D.print ++ ";\n"
            ++ String.mk (List.replicate Names.length '\x7d')
            ++ (if Names.length > 0 then "\n" else "") := by
    simp only [emitFwdDecl, hDC, hloop, hb.1, hb.2, String.append_empty,
      Nat.zero_add, closingBraces_eq]
  refine ⟨h1, ?_⟩
  intro hNil
  rw [h1, hNil]
  simp [namespaceOpeners]

/-- Witness for C10: the class template `second_kernel` of the test, declared
in the namespace `second_namespace`. -/
theorem emitFwdDecl_namespace_wrappers_witness :
    (Decl.ClassTemplate Test.secondKernelCTD).getDeclContext
        = encloseInNamespaces ["second_namespace"] .TranslationUnit
    ∧ DeclContext.TranslationUnit.getDeclKind ≠ .Namespace
    ∧ (emitFwdDecl (.ClassTemplate Test.secondKernelCTD)).1
        = "namespace second_namespace \x7b \ntemplate <typename T> class second_kernel;\n\x7d\n" :=
  ⟨rfl, by decide,
    (emitFwdDecl_namespace_wrappers (.ClassTemplate Test.secondKernelCTD)
      ["second_namespace"] .TranslationUnit rfl (by decide)).1⟩

/-! ### Flattening: helper lemmas -/

theorem matchScopes_ok (Scopes : List (DeclKind × String))
    (hS : ∀ S ∈ Scopes, S.1 = .ClassTemplateSpecialization ∨ S.1 = .CXXRecord
      ∨ S.1 = .Namespace) :
    ∀ Ctx : DeclContext, ∃ b, matchScopes Ctx Scopes = .ok b := by
  induction Scopes with
  | nil => intro Ctx; exact ⟨Ctx.isTranslationUnit, by simp [matchScopes]⟩
  | cons S Rest ih =>
    intro Ctx
    have hS0 := hS S (List.mem_cons_self _ _)
    have ih' := ih (fun S' h => hS S' (List.mem_cons_of_mem _ h))
    unfold matchScopes
    by_cases hk : Ctx.getDeclKind ≠ S.1
    · exact ⟨false, by simp [hk]⟩
    · have hk' : Ctx.getDeclKind = S.1 := by simpa using hk
      cases Ctx with
      | TranslationUnit =>
        simp [DeclContext.getDeclKind] at hk'
        rcases hS0 with h | h | h <;> rw [← hk'] at h <;> cases h
      | Ctx Kind Name Parent =>
        simp only [DeclContext.getDeclKind] at hk'
        subst hk'
        simp only [DeclContext.getDeclKind, ne_eq, not_true_eq_false, if_false,
          hS0, if_true]
        by_cases hn : Name ≠ S.2
        · exact ⟨false, by simp [hn]⟩
        · obtain ⟨b, hb⟩ := ih' Parent
          exact ⟨b, by simp [hn, hb]⟩

theorem isSyclAccessorType_ok (Ty : QualType) :
    isSyclAccessorType Ty = .ok Ty.isAccessor := by
  have : ∃ b, isSyclAccessorType Ty = .ok b := by
    unfold isSyclAccessorType matchQualifiedTypeName
    cases Ty.getAsCXXRecordDecl with
    | none => exact ⟨_, rfl⟩
    | some RD => exact matchScopes_ok _ (by simp) _
  obtain ⟨b, hb⟩ := this
  simp [QualType.isAccessor, hb]

theorem isSyclStreamType_ok (Ty : QualType) :
    isSyclStreamType Ty = .ok Ty.isStream := by
  have : ∃ b, isSyclStreamType Ty = .ok b := by
    unfold isSyclStreamType matchQualifiedTypeName
    cases Ty.getAsCXXRecordDecl with
    | none => exact ⟨_, rfl⟩
    | some RD => exact matchScopes_ok _ (by simp) _
  obtain ⟨b, hb⟩ := this
  simp [QualType.isStream, hb]

theorem unsignedToInt_castUnsigned (x : Nat) :
    unsignedToInt (castUnsigned x) = wrapInt32 (x : Int) := by
  unfold unsignedToInt castUnsigned wrapInt32
  split <;> omega

theorem wrapInt32_wrapInt32 (v : Int) : wrapInt32 (wrapInt32 v) = wrapInt32 v := by
  unfold wrapInt32; omega

theorem wrapInt32_of_fits (v : Int) (h1 : -2 ^ 31 ≤ v) (h2 : v < 2 ^ 31) :
    wrapInt32 v = v := by
  unfold wrapInt32; omega

theorem castUnsigned_of_fits (x : Nat) (h : x < 2 ^ 32) : castUnsigned x = x := by
  unfold castUnsigned; omega

theorem narrow_of_fits (P : KernelParamDesc) (h : P.Fits) : P.narrow = P := by
  obtain ⟨h1, h2, h3⟩ := h
  cases P
  simp only [KernelParamDesc.narrow, KernelParamDesc.mk.injEq, true_and]
  exact ⟨wrapInt32_of_fits _ h1 h2, castUnsigned_of_fits _ h3⟩

theorem getFieldDeclByName_impl (AccTy ImplRD : CXXRecordDecl) (Name : String)
    (Impl F : FieldDecl) (Offset : Option Nat)
    (hImpl : lookupField AccTy "__impl" = some Impl)
    (hRD : Impl.getType.getAsCXXRecordDecl = some ImplRD)
    (hF : lookupField ImplRD Name = some F) :
    getFieldDeclByName AccTy ["__impl", Name] Offset
      = .ok (some F,
          Offset.map (fun O => O + Impl.byteOffset + F.byteOffset)) := by
  unfold lookupField at hImpl hF
  simp only [getFieldDeclByName, getFieldDeclByNameLoop, hImpl, hRD, hF]
  cases Offset <;> simp [FieldDecl.byteOffset]

theorem getFieldDeclByName_impl_inv (AccTy : CXXRecordDecl) (Name : String)
    (Offset : Option Nat) (R : Option FieldDecl × Option Nat)
    (h : getFieldDeclByName AccTy ["__impl", Name] Offset = .ok R) :
    ∃ Impl ImplRD F, lookupField AccTy "__impl" = some Impl
      ∧ Impl.getType.getAsCXXRecordDecl = some ImplRD
      ∧ lookupField ImplRD Name = some F := by
  simp only [getFieldDeclByName, getFieldDeclByNameLoop] at h
  split at h
  · cases h
  · next Impl hImpl =>
    split at h
    · cases h
    · next ImplRD hRD =>
      split at h
      · cases h
      · next F hF => exact ⟨Impl, ImplRD, F, hImpl, hRD, hF⟩

theorem accessorParts_some (AccTy : CXXRecordDecl) (P : AccessorParts)
    (h : accessorParts AccTy = some P) :
    AccTy.getTemplateArgs.get? 3 = some (.Integral P.Target)
    ∧ lookupField AccTy "__impl" = some P.Impl
    ∧ ∃ ImplRD, P.Impl.getType.getAsCXXRecordDecl = some ImplRD
        ∧ lookupField ImplRD "Range" = some P.Range
        ∧ lookupField ImplRD "Offset" = some P.Offset := by
  unfold accessorParts at h
  split at h
  · next V Impl hV hImpl =>
    split at h
    · next ImplRD hRD =>
      split at h
      · next Range Offset hR hO =>
        injection h with h
        subst h
        exact ⟨hV, hImpl, ImplRD, hRD, hR, hO⟩
      · cases h
    · cases h
  · cases h

theorem accessorParts_of_parts (AccTy ImplRD : CXXRecordDecl) (V : Int)
    (Impl Range Offset : FieldDecl)
    (hV : AccTy.getTemplateArgs.get? 3 = some (.Integral V))
    (hImpl : lookupField AccTy "__impl" = some Impl)
    (hRD : Impl.getType.getAsCXXRecordDecl = some ImplRD)
    (hR : lookupField ImplRD "Range" = some Range)
    (hO : lookupField ImplRD "Offset" = some Offset) :
    accessorParts AccTy = some ⟨V, Impl, Range, Offset⟩ := by
  unfold accessorParts
  rw [hV, hImpl]
  simp only [hRD, hR, hO]

theorem getAccessTarget_ok (AccTy : CXXRecordDecl) (V : Int)
    (hV : AccTy.getTemplateArgs.get? 3 = some (.Integral V)) :
    getAccessTarget AccTy = .ok (wrapInt32 V) := by
  unfold getAccessTarget
  rw [hV]

theorem getAccessTarget_inv (AccTy : CXXRecordDecl) (T : Int)
    (h : getAccessTarget AccTy = .ok T) :
    ∃ V, AccTy.getTemplateArgs.get? 3 = some (.Integral V) ∧ T = wrapInt32 V := by
  unfold getAccessTarget at h
  split at h
  · next V hV => injection h with h; exact ⟨V, hV, h.symm⟩
  · cases h
  · cases h

/-- What `populateIntHeaderField` does when the field has descriptors
according to `fieldSlots`: it appends them, narrowed, to the current kernel. -/
theorem populateIntHeaderField_eq (Ctx : ASTContext) (Ks : List KernelDesc)
    (K : KernelDesc) (Fld : FieldDecl) (ds : List KernelParamDesc)
    (h : fieldSlots Ctx Fld = some ds) :
    populateIntHeaderField Ctx ⟨Ks ++ [K]⟩ Fld
      = .ok ⟨Ks ++ [{ K with Params := K.Params ++ ds.map KernelParamDesc.narrow }]⟩ := by
  unfold populateIntHeaderField
  unfold fieldSlots at h
  simp only [isSyclAccessorType_ok, isSyclStreamType_ok, bind, Except.bind]
  by_cases hA : Fld.getType.isAccessor = true
  · simp only [hA, if_true] at h ⊢
    cases hRD : Fld.getType.getAsCXXRecordDecl with
    | none => simp [hRD] at h
    | some AccTy =>
      simp only [hRD, Option.bind] at h
      cases hP : accessorParts AccTy with
      | none => simp [hP] at h
      | some P =>
        simp only [hP, Option.some.injEq] at h
        subst h
        obtain ⟨hV, hImpl, ImplRD, hIRD, hR, hO⟩ := accessorParts_some AccTy P hP
        simp only [pure, Except.pure, getAccessTarget_ok AccTy _ hV,
          addParamDesc_concat,
          getFieldDeclByName_impl AccTy ImplRD "Range" _ _ _ hImpl hIRD hR,
          getFieldDeclByName_impl AccTy ImplRD "Offset" _ _ _ hImpl hIRD hO,
          deref, Option.map, unsignedToInt_castUnsigned, List.map_cons,
          List.map_nil, KernelParamDesc.narrow, List.append_assoc,
          List.singleton_append, FieldDecl.byteOffset, List.cons_append,
          List.nil_append]
  · simp only [hA, if_false, Bool.false_eq_true] at h ⊢
    by_cases hS : Fld.getType.isStream = true
    · simp [hS] at h
    · simp only [hS, if_false, Bool.false_eq_true] at h ⊢
      by_cases hC : (Fld.getType.isStructureOrClassType || Fld.getType.isScalarType) = true
      · simp only [hC, if_true, Option.some.injEq] at h ⊢
        subst h
        simp only [addParamDesc_concat, unsignedToInt_castUnsigned, List.map_cons,
          List.map_nil, KernelParamDesc.narrow, FieldDecl.byteOffset]
      · simp [hC] at h


theorem populateIntHeaderField_inv (Ctx : ASTContext) (Ks : List KernelDesc)
    (K : KernelDesc) (Fld : FieldDecl) (H1 : SYCLIntegrationHeader)
    (h : populateIntHeaderField Ctx ⟨Ks ++ [K]⟩ Fld = .ok H1) :
    ∃ ds, fieldSlots Ctx Fld = some ds := by
  unfold populateIntHeaderField at h
  simp only [isSyclAccessorType_ok, isSyclStreamType_ok, bind, Except.bind] at h
  unfold fieldSlots
  by_cases hA : Fld.getType.isAccessor = true
  · simp only [hA, if_true] at h ⊢
    cases hRD : Fld.getType.getAsCXXRecordDecl with
    | none => simp [hRD] at h
    | some AccTy =>
      simp only [hRD, pure, Except.pure] at h
      cases hT : getAccessTarget AccTy with
      | error e => simp [hT] at h
      | ok T =>
        obtain ⟨V, hV, _⟩ := getAccessTarget_inv AccTy T hT
        simp only [hT, addParamDesc_concat] at h
        cases hG1 : getFieldDeclByName AccTy ["__impl", "Range"]
            (some (Fld.BitOffset / 8)) with
        | error e => simp [hG1] at h
        | ok R1 =>
          obtain ⟨Impl, ImplRD, Range, hImpl, hIRD, hR⟩ :=
            getFieldDeclByName_impl_inv AccTy "Range" _ R1 hG1
          cases hG2 : getFieldDeclByName AccTy ["__impl", "Offset"]
              (some (Fld.BitOffset / 8)) with
          | error e =>
            rw [getFieldDeclByName_impl AccTy ImplRD "Range" Impl Range _ hImpl hIRD hR]
              at h
            simp [hG2, deref, addParamDesc_concat] at h
          | ok R2 =>
            obtain ⟨Impl2, ImplRD2, Offset, hImpl2, hIRD2, hO⟩ :=
              getFieldDeclByName_impl_inv AccTy "Offset" _ R2 hG2
            rw [hImpl] at hImpl2
            injection hImpl2 with hImpl2
            subst hImpl2
            rw [hIRD] at hIRD2
            injection hIRD2 with hIRD2
            subst hIRD2
            simp [Option.bind, accessorParts_of_parts AccTy ImplRD V Impl Range Offset
              hV hImpl hIRD hR hO]
  · simp only [hA, if_false, Bool.false_eq_true] at h ⊢
    by_cases hS : Fld.getType.isStream = true
    · simp [hS, throw, throwThe, MonadExceptOf.throw] at h
    · simp only [hS, if_false, Bool.false_eq_true] at h ⊢
      by_cases hC : (Fld.getType.isStructureOrClassType || Fld.getType.isScalarType) = true
      · simp [hC]
      · simp [hC, throw, throwThe, MonadExceptOf.throw] at h

theorem populateIntHeaderLoop_eq (Ctx : ASTContext) (Fields : List FieldDecl) :
    ∀ (Ks : List KernelDesc) (K : KernelDesc) (ds : List KernelParamDesc),
      closureSlots Ctx Fields = some ds →
      populateIntHeaderLoop Ctx Fields ⟨Ks ++ [K]⟩
        = .ok ⟨Ks ++ [{ K with Params := K.Params ++ ds.map KernelParamDesc.narrow }]⟩ := by
  induction Fields with
  | nil =>
    intro Ks K ds h
    simp only [closureSlots, Option.some.injEq] at h
    subst h
    simp [populateIntHeaderLoop]
  | cons Fld Rest ih =>
    intro Ks K ds h
    unfold closureSlots at h
    cases hF : fieldSlots Ctx Fld with
    | none => simp [hF] at h
    | some d1 =>
      cases hR : closureSlots Ctx Rest with
      | none => simp [hF, hR] at h
      | some d2 =>
        simp only [hF, hR, Option.some.injEq] at h
        subst h
        rw [populateIntHeaderLoop, populateIntHeaderField_eq Ctx Ks K Fld d1 hF]
        simp only []
        rw [ih Ks _ d2 hR]
        simp

theorem populateIntHeaderLoop_inv (Ctx : ASTContext) (Fields : List FieldDecl) :
    ∀ (Ks : List KernelDesc) (K : KernelDesc) (H1 : SYCLIntegrationHeader),
      populateIntHeaderLoop Ctx Fields ⟨Ks ++ [K]⟩ = .ok H1 →
      ∃ ds, closureSlots Ctx Fields = some ds := by
  induction Fields with
  | nil => intro _ _ _ _; exact ⟨[], rfl⟩
  | cons Fld Rest ih =>
    intro Ks K H1 h
    unfold populateIntHeaderLoop at h
    cases hF : populateIntHeaderField Ctx ⟨Ks ++ [K]⟩ Fld with
    | error e => simp [hF] at h
    | ok H2 =>
      rw [hF] at h
      simp only [] at h
      obtain ⟨d1, hd1⟩ := populateIntHeaderField_inv Ctx Ks K Fld H2 hF
      rw [populateIntHeaderField_eq Ctx Ks K Fld d1 hd1] at hF
      injection hF with hF
      subst hF
      obtain ⟨d2, hd2⟩ := ih Ks _ H1 h
      exact ⟨d1 ++ d2, by simp [closureSlots, hd1, hd2]⟩


/-! ### Flattening: the descriptors of an accessor field (C3, C4) -/

theorem populateIntHeaderField_accessor (Ctx : ASTContext)
    (Ks : List KernelDesc) (K : KernelDesc) (Fld : FieldDecl)
    (AccTy : CXXRecordDecl) (P : AccessorParts)
    (hAcc : isSyclAccessorType Fld.getType = .ok true)
    (hTy : Fld.getType.getAsCXXRecordDecl = some AccTy)
    (hP : accessorParts AccTy = some P) :
    populateIntHeaderField Ctx ⟨Ks ++ [K]⟩ Fld
      = .ok ⟨Ks ++ [{ K with Params := K.Params ++
          [⟨.kind_accessor, wrapInt32 P.Target, castUnsigned Fld.byteOffset⟩,
           ⟨.kind_std_layout, wrapInt32 (Ctx.getTypeSizeInChars P.Range.getType),
             castUnsigned
               (Fld.byteOffset + P.Impl.byteOffset + P.Range.byteOffset)⟩,
           ⟨.kind_std_layout, wrapInt32 (Ctx.getTypeSizeInChars P.Offset.getType),
             castUnsigned
               (Fld.byteOffset + P.Impl.byteOffset + P.Offset.byteOffset)⟩] }]⟩ := by
  have hA : Fld.getType.isAccessor = true := by
    rw [isSyclAccessorType_ok] at hAcc
    injection hAcc
  have hS : fieldSlots Ctx Fld = some
      [⟨.kind_accessor, P.Target, Fld.byteOffset⟩,
       ⟨.kind_std_layout, Ctx.getTypeSizeInChars P.Range.getType,
         Fld.byteOffset + P.Impl.byteOffset + P.Range.byteOffset⟩,
       ⟨.kind_std_layout, Ctx.getTypeSizeInChars P.Offset.getType,
         Fld.byteOffset + P.Impl.byteOffset + P.Offset.byteOffset⟩] := by
    simp [fieldSlots, hA, hTy, hP]
  rw [populateIntHeaderField_eq Ctx Ks K Fld _ hS]
  rfl

/-- C3 as stated fails: (1) for an accessor whose `Range` type has `2^31`
bytes the second descriptor's info is `-2147483648`, not the byte size;
(2) for an accessor whose fourth template argument has the value
`2014 + 2^32` the first descriptor's info is `2014`, not that value. -/
theorem accessor_infos_counterexample :
    (Wide.acc1Field.getType.isAccessor = true
      ∧ Wide.Ctx.getTypeSizeInChars (.mk (.Record Test.rangeRD) {}) = 2147483648
      ∧ (populateIntHeaderField Wide.Ctx ⟨[Wide.K0]⟩ Wide.acc1Field).toOption.map
            (fun H => H.KernelDescs.map KernelDesc.Params)
          = some [[⟨.kind_accessor, 2014, 4⟩, ⟨.kind_std_layout, -2147483648, 4⟩,
              ⟨.kind_std_layout, 1, 5⟩]])
    ∧ (Wide.wideTargetField.getType.isAccessor = true
      ∧ (Wide.wideTargetField.getType.getAsCXXRecordDecl.map
            (fun RD => RD.getTemplateArgs.get? 3 matches some (.Integral 4294969310)))
          = some true
      ∧ (populateIntHeaderField Test.Ctx ⟨[Wide.K0]⟩ Wide.wideTargetField).toOption.map
            (fun H => H.KernelDescs.map KernelDesc.Params)
          = some [[⟨.kind_accessor, 2014, 0⟩, ⟨.kind_std_layout, 1, 0⟩,
              ⟨.kind_std_layout, 1, 1⟩]]) := by
  refine ⟨⟨by decide, by decide, by decide⟩, by decide, by decide, by decide⟩

/-- C3 (amended): for every accessor-typed captured field whose accessor type
has an integral fourth template argument and the fields `__impl.Range` and
`__impl.Offset`, provided the value of that argument is representable as an
`int` and the byte sizes of the types of `__impl.Range` and `__impl.Offset`
are below `2^31`, the loop body of `populateIntHeader` appends to the kernel
being described exactly three consecutive descriptors, in this order:
(`kind_accessor`, the value of the fourth template argument), then
(`kind_std_layout`, the byte size of the type of `__impl.Range`), then
(`kind_std_layout`, the byte size of the type of `__impl.Offset`). -/
theorem accessor_field_three_descriptors (Ctx : ASTContext)
    (Ks : List KernelDesc) (K : KernelDesc) (Fld : FieldDecl)
    (AccTy : CXXRecordDecl) (P : AccessorParts)
    (hAcc : isSyclAccessorType Fld.getType = .ok true)
    (hTy : Fld.getType.getAsCXXRecordDecl = some AccTy)
    (hP : accessorParts AccTy = some P)
    (hT : -2 ^ 31 ≤ P.Target ∧ P.Target < 2 ^ 31)
    (hR : Ctx.getTypeSizeInChars P.Range.getType < 2 ^ 31)
    (hO : Ctx.getTypeSizeInChars P.Offset.getType < 2 ^ 31) :
    ∃ O1 O2 O3 : Nat,
      populateIntHeaderField Ctx ⟨Ks ++ [K]⟩ Fld
        = .ok ⟨Ks ++ [{ K with Params := K.Params ++
            [⟨.kind_accessor, P.Target, O1⟩,
             ⟨.kind_std_layout, Ctx.getTypeSizeInChars P.Range.getType, O2⟩,
             ⟨.kind_std_layout, Ctx.getTypeSizeInChars P.Offset.getType, O3⟩] }]⟩ := by
  refine ⟨castUnsigned Fld.byteOffset,
    castUnsigned (Fld.byteOffset + P.Impl.byteOffset + P.Range.byteOffset),
    castUnsigned (Fld.byteOffset + P.Impl.byteOffset + P.Offset.byteOffset), ?_⟩
  rw [populateIntHeaderField_accessor Ctx Ks K Fld AccTy P hAcc hTy hP,
    wrapInt32_of_fits _ hT.1 hT.2,
    wrapInt32_of_fits _ (by omega) (by exact_mod_cast hR),
    wrapInt32_of_fits _ (by omega) (by exact_mod_cast hO)]

/-- Witness for C3: the field `acc1` of the first closure of the test. -/
theorem accessor_field_three_descriptors_witness :
    isSyclAccessorType Wide.acc1Field.getType = .ok true
    ∧ ∃ O1 O2 O3 : Nat,
      populateIntHeaderField Test.Ctx ⟨[] ++ [Wide.K0]⟩ Wide.acc1Field
        = .ok ⟨[] ++ [{ Wide.K0 with Params := Wide.K0.Params ++
            [⟨.kind_accessor, 2014, O1⟩, ⟨.kind_std_layout, (1 : Nat), O2⟩,
             ⟨.kind_std_layout, (1 : Nat), O3⟩] }]⟩ :=
  ⟨rfl,
    accessor_field_three_descriptors Test.Ctx [] Wide.K0 Wide.acc1Field
      (Test.accessorRD 14 Test.tChar 2014)
      ⟨2014, .mk "__impl" (.mk (.Record Test.implRD) {}) 0 106,
        .mk "Range" (.mk (.Record Test.rangeRD) {}) 0 92,
        .mk "Offset" (.mk (.Record Test.idRD) {}) 8 93⟩
      rfl rfl rfl (by decide) (by decide) (by decide)⟩

/-- C4 as stated fails: for the accessor field `acc1` placed `2^32 + 4` bytes
into the closure the three descriptors carry the offsets 4, 4 and 5. -/
theorem accessor_offsets_counterexample :
    Wide.farAccField.getType.isAccessor = true
    ∧ Wide.farAccField.BitOffset / 8 = 4294967300
    ∧ (populateIntHeaderField Test.Ctx ⟨[Wide.K0]⟩ Wide.farAccField).toOption.map
          (fun H => H.KernelDescs.map KernelDesc.Params)
        = some [[⟨.kind_accessor, 2014, 4⟩, ⟨.kind_std_layout, 1, 4⟩,
            ⟨.kind_std_layout, 1, 5⟩]] := by
  refine ⟨by decide, by decide, by decide⟩

/-- C4 (amended): for every accessor-typed captured field at byte offset `F`
in the closure layout, provided `F + off(__impl) + off(Range)` and
`F + off(__impl) + off(Offset)` are below `2^32`, the three descriptors carry
the offsets `F`, `F + off(__impl within the accessor) + off(Range within the
type of __impl)` and `F + off(__impl within the accessor) + off(Offset within
the type of __impl)`, each `off` being the field's bit offset divided by 8;
the third offset has no contribution from the `Range` lookup. -/
theorem accessor_field_offsets (Ctx : ASTContext)
    (Ks : List KernelDesc) (K : KernelDesc) (Fld : FieldDecl)
    (AccTy : CXXRecordDecl) (P : AccessorParts)
    (hAcc : isSyclAccessorType Fld.getType = .ok true)
    (hTy : Fld.getType.getAsCXXRecordDecl = some AccTy)
    (hP : accessorParts AccTy = some P)
    (hR : Fld.BitOffset / 8 + P.Impl.BitOffset / 8 + P.Range.BitOffset / 8 < 2 ^ 32)
    (hO : Fld.BitOffset / 8 + P.Impl.BitOffset / 8 + P.Offset.BitOffset / 8 < 2 ^ 32) :
    ∃ I1 I2 I3 : Int,
      populateIntHeaderField Ctx ⟨Ks ++ [K]⟩ Fld
        = .ok ⟨Ks ++ [{ K with Params := K.Params ++
            [⟨.kind_accessor, I1, Fld.BitOffset / 8⟩,
             ⟨.kind_std_layout, I2,
               Fld.BitOffset / 8 + P.Impl.BitOffset / 8 + P.Range.BitOffset / 8⟩,
             ⟨.kind_std_layout, I3,
               Fld.BitOffset / 8 + P.Impl.BitOffset / 8
                 + P.Offset.BitOffset / 8⟩] }]⟩ := by
  refine ⟨wrapInt32 P.Target, wrapInt32 (Ctx.getTypeSizeInChars P.Range.getType),
    wrapInt32 (Ctx.getTypeSizeInChars P.Offset.getType), ?_⟩
  rw [populateIntHeaderField_accessor Ctx Ks K Fld AccTy P hAcc hTy hP]
  simp only [FieldDecl.byteOffset]
  rw [castUnsigned_of_fits _ hR, castUnsigned_of_fits _ hO,
    castUnsigned_of_fits (Fld.BitOffset / 8) (by omega)]

/-- Witness for C4: the field `acc2` of the first closure of the test, at
byte offset 6, with the offsets 6, 6 and 7 the test expects. -/
theorem accessor_field_offsets_witness :
    isSyclAccessorType Test.acc2Ty = .ok true
    ∧ ∃ I1 I2 I3 : Int,
      populateIntHeaderField Test.Ctx ⟨[] ++ [Wide.K0]⟩ (.mk "acc2" Test.acc2Ty 48 142)
        = .ok ⟨[] ++ [{ Wide.K0 with Params := Wide.K0.Params ++
            [⟨.kind_accessor, I1, 6⟩, ⟨.kind_std_layout, I2, 6⟩,
             ⟨.kind_std_layout, I3, 7⟩] }]⟩ :=
  ⟨rfl,
    accessor_field_offsets Test.Ctx [] Wide.K0 (.mk "acc2" Test.acc2Ty 48 142)
      (Test.accessorRD 15 Test.tFloat 2016)
      ⟨2016, .mk "__impl" (.mk (.Record Test.implRD) {}) 0 106,
        .mk "Range" (.mk (.Record Test.rangeRD) {}) 0 92,
        .mk "Offset" (.mk (.Record Test.idRD) {}) 8 93⟩
      rfl rfl rfl (by decide) (by decide)⟩


/-! ### Flattening: the descriptors of a closure (C5) -/

theorem closureSlots_eq (Ctx : ASTContext) (Fields : List FieldDecl)
    (h : ∀ Fld ∈ Fields, ∃ ds, fieldSlots Ctx Fld = some ds) :
    closureSlots Ctx Fields
      = some (Fields.map (fun Fld => (fieldSlots Ctx Fld).getD [])).flatten := by
  induction Fields with
  | nil => rfl
  | cons Fld Rest ih =>
    obtain ⟨ds, hds⟩ := h Fld (List.mem_cons_self _ _)
    have ih' := ih (fun F hF => h F (List.mem_cons_of_mem _ hF))
    simp [closureSlots, hds, ih']

/-- The condition under which the flattening of a field is defined: an
accessor with all its parts, or a class or struct other than the stream
class, or a scalar. -/
theorem fieldSlots_isSome (Ctx : ASTContext) (Fld : FieldDecl)
    (h : (Fld.getType.isAccessor = true
          ∧ (Fld.getType.getAsCXXRecordDecl.bind accessorParts).isSome = true)
        ∨ (Fld.getType.isAccessor = false ∧ Fld.getType.isStream = false
          ∧ (Fld.getType.isStructureOrClassType = true
              ∨ Fld.getType.isScalarType = true))) :
    ∃ ds, fieldSlots Ctx Fld = some ds
      ∧ (Fld.getType.isAccessor = true →
          ds.map KernelParamDesc.Kind
            = [.kind_accessor, .kind_std_layout, .kind_std_layout])
      ∧ (Fld.getType.isAccessor = false →
          ds = [⟨.kind_std_layout, Ctx.getTypeSizeInChars Fld.getType,
                  Fld.byteOffset⟩]) := by
  rcases h with ⟨hA, hP⟩ | ⟨hA, hS, hC⟩
  · cases hB : Fld.getType.getAsCXXRecordDecl.bind accessorParts with
    | none => rw [hB] at hP; cases hP
    | some P =>
      refine ⟨[⟨.kind_accessor, P.Target, Fld.byteOffset⟩,
          ⟨.kind_std_layout, Ctx.getTypeSizeInChars P.Range.getType,
            Fld.byteOffset + P.Impl.byteOffset + P.Range.byteOffset⟩,
          ⟨.kind_std_layout, Ctx.getTypeSizeInChars P.Offset.getType,
            Fld.byteOffset + P.Impl.byteOffset + P.Offset.byteOffset⟩],
        by simp [fieldSlots, hA, hB], fun _ => rfl, ?_⟩
      intro h
      rw [hA] at h
      cases h
  · have hC' : (Fld.getType.isStructureOrClassType || Fld.getType.isScalarType)
        = true := by
      rcases hC with h | h <;> simp [h]
    refine ⟨[⟨.kind_std_layout, Ctx.getTypeSizeInChars Fld.getType,
        Fld.byteOffset⟩], by simp [fieldSlots, hA, hS, hC'], ?_, fun _ => rfl⟩
    intro h
    rw [hA] at h
    cases h

theorem flatten_length_by_kind {α β : Type} (p : α → Bool) (f : α → List β)
    (L : List α)
    (h3 : ∀ a ∈ L, p a = true → (f a).length = 3)
    (h1 : ∀ a ∈ L, p a = false → (f a).length = 1) :
    (L.map f).flatten.length
      = (L.filter (fun a => !p a)).length + 3 * (L.filter p).length := by
  induction L with
  | nil => rfl
  | cons a Rest ih =>
    have ih' := ih (fun b hb => h3 b (List.mem_cons_of_mem _ hb))
      (fun b hb => h1 b (List.mem_cons_of_mem _ hb))
    cases hp : p a with
    | true =>
      have := h3 a (List.mem_cons_self _ _) hp
      simp [List.filter_cons, hp, this, ih']
      omega
    | false =>
      have := h1 a (List.mem_cons_self _ _) hp
      simp [List.filter_cons, hp, this, ih']
      omega

/-- C5 as stated fails: (1) a closure capturing an `int` and an object of the
class `cl::sycl::stream` (a class, and no accessor) ends the run in
`llvm_unreachable("streams not supported yet")`, and no descriptor list of
two entries is registered; (2) a closure with an accessor field whose type
has no field `__impl` ends the run in an assertion; (3) for a closure
capturing a struct of `2^32` bytes and an `int` placed `2^32` bytes into the
closure, the descriptors carry info 0 and offset 0 where size and offset are
`2^32`. -/
theorem populateIntHeader_counterexample :
    (Wide.streamClosure.fields.map
          (fun Fld => (Fld.getType.isAccessor, Fld.getType.isStructureOrClassType,
            Fld.getType.isScalarType))
        = [(false, false, true), (false, true, false)]
      ∧ (populateIntHeader Test.Ctx ⟨[]⟩ "k" Test.firstKernelTy
            Wide.streamClosure).toOption.isSome = false)
    ∧ (Wide.noImplField.getType.isAccessor = true
      ∧ (populateIntHeader Test.Ctx ⟨[]⟩ "k" Test.firstKernelTy
            (.mk Wide.streamClosure.Info none [] [Wide.noImplField])).toOption.isSome
          = false)
    ∧ (Wide.bigClosure.fields.map
          (fun Fld => (Fld.getType.isAccessor, Wide.Ctx.getTypeSizeInChars Fld.getType,
            Fld.BitOffset / 8))
        = [(false, 4294967296, 0), (false, 4, 4294967296)]
      ∧ (populateIntHeader Wide.Ctx ⟨[]⟩ "k" Test.firstKernelTy
            Wide.bigClosure).toOption.map
            (fun H => H.KernelDescs.map KernelDesc.Params)
          = some [[⟨.kind_std_layout, 0, 0⟩, ⟨.kind_std_layout, 4, 0⟩]]) := by
  refine ⟨⟨by decide, by decide⟩, ⟨by decide, by decide⟩, by decide, by decide⟩

/-- C5 (amended): for every closure type whose fields are each an accessor
that has an integral fourth template argument and the fields `__impl.Range`
and `__impl.Offset` (`accessorParts` is defined on it), or a class or struct other than `cl::sycl::stream`, or a
scalar, `populateIntHeader` completes and registers for the kernel one block
of descriptors per field, in field declaration order: three descriptors of
kinds accessor, std_layout, std_layout for an accessor field, and for any
other field one `kind_std_layout` descriptor whose info is the field type's
byte size when that size is below `2^31` and whose offset is the field's byte
offset when that offset is below `2^32`. The number of descriptors is the
number of non-accessor fields plus three times the number of accessor
fields, so `K` when the closure has `K` fields and no accessor. -/
theorem populateIntHeader_descriptors (Ctx : ASTContext)
    (H : SYCLIntegrationHeader) (Name : String) (NameType : QualType)
    (KernelObjTy : CXXRecordDecl)
    (hSup : ∀ Fld ∈ KernelObjTy.fields,
        (Fld.getType.isAccessor = true
          ∧ (Fld.getType.getAsCXXRecordDecl.bind accessorParts).isSome = true)
        ∨ (Fld.getType.isAccessor = false ∧ Fld.getType.isStream = false
          ∧ (Fld.getType.isStructureOrClassType = true
              ∨ Fld.getType.isScalarType = true))) :
    ∃ Blocks : List (List KernelParamDesc),
      populateIntHeader Ctx H Name NameType KernelObjTy
        = .ok ⟨H.KernelDescs ++ [⟨Name, NameType, Blocks.flatten⟩]⟩
      ∧ List.Forall₂
          (fun Fld ds =>
            (Fld.getType.isAccessor = true →
              ds.map KernelParamDesc.Kind
                = [.kind_accessor, .kind_std_layout, .kind_std_layout])
            ∧ (Fld.getType.isAccessor = false →
              ∃ (I : Int) (O : Nat), ds = [⟨.kind_std_layout, I, O⟩]
                ∧ (Ctx.getTypeSizeInChars Fld.getType < 2 ^ 31 →
                    I = Ctx.getTypeSizeInChars Fld.getType)
                ∧ (Fld.BitOffset / 8 < 2 ^ 32 → O = Fld.BitOffset / 8)))
          KernelObjTy.fields Blocks
      ∧ Blocks.flatten.length
          = (KernelObjTy.fields.filter (fun Fld => !Fld.getType.isAccessor)).length
            + 3 * (KernelObjTy.fields.filter
                (fun Fld => Fld.getType.isAccessor)).length
      ∧ ((∀ Fld ∈ KernelObjTy.fields, Fld.getType.isAccessor = false) →
          Blocks.flatten.length = KernelObjTy.fields.length) := by
  have hSome : ∀ Fld ∈ KernelObjTy.fields, ∃ ds, fieldSlots Ctx Fld = some ds :=
    fun Fld hF => let ⟨ds, h, _⟩ := fieldSlots_isSome Ctx Fld (hSup Fld hF); ⟨ds, h⟩
  let block : FieldDecl → List KernelParamDesc :=
    fun Fld => ((fieldSlots Ctx Fld).getD []).map KernelParamDesc.narrow
  have hBlock : ∀ Fld ∈ KernelObjTy.fields,
      (Fld.getType.isAccessor = true →
          (block Fld).map KernelParamDesc.Kind
            = [.kind_accessor, .kind_std_layout, .kind_std_layout])
      ∧ (Fld.getType.isAccessor = false →
          block Fld = [⟨.kind_std_layout,
            wrapInt32 (Ctx.getTypeSizeInChars Fld.getType),
            castUnsigned Fld.byteOffset⟩]) := by
    intro Fld hF
    obtain ⟨ds, hds, hA, hN⟩ := fieldSlots_isSome Ctx Fld (hSup Fld hF)
    constructor
    · intro h
      have := hA h
      simp only [block, hds, Option.getD_some, List.map_map]
      rw [← this]
      apply List.map_congr_left
      intro P _
      rfl
    · intro h
      simp only [block, hds, Option.getD_some, hN h, List.map_cons, List.map_nil,
        KernelParamDesc.narrow]
  have hLen : (KernelObjTy.fields.map block).flatten.length
      = (KernelObjTy.fields.filter (fun Fld => !Fld.getType.isAccessor)).length
        + 3 * (KernelObjTy.fields.filter
            (fun Fld => Fld.getType.isAccessor)).length := by
    apply flatten_length_by_kind (fun Fld : FieldDecl => Fld.getType.isAccessor)
    · intro Fld hF hA
      have := congrArg List.length ((hBlock Fld hF).1 hA)
      simpa using this
    · intro Fld hF hA
      rw [(hBlock Fld hF).2 hA]
      rfl
  refine ⟨KernelObjTy.fields.map block, ?_, ?_, hLen, ?_⟩
  · unfold populateIntHeader SYCLIntegrationHeader.startKernel
    rw [populateIntHeaderLoop_eq Ctx _ _ _ _ (closureSlots_eq Ctx _ hSome)]
    simp [block, List.map_flatten, Function.comp_def]
  · rw [List.forall₂_map_right_iff, List.forall₂_same]
    intro Fld hF
    refine ⟨(hBlock Fld hF).1, fun hA => ⟨_, _, (hBlock Fld hF).2 hA, ?_, ?_⟩⟩
    · intro hlt
      exact wrapInt32_of_fits _ (by omega) (by exact_mod_cast hlt)
    · intro hlt
      exact castUnsigned_of_fits _ hlt
  · intro hNone
    rw [hLen, List.filter_eq_self.mpr (fun Fld hF => by simp [hNone Fld hF]),
      List.filter_eq_nil_iff.mpr (fun Fld hF => by simp [hNone Fld hF])]
    simp

/-- Witness for C5: the second closure of the test, capturing one `int` and
one accessor, yields four descriptors of kinds std_layout, accessor,
std_layout, std_layout. -/
theorem populateIntHeader_descriptors_witness :
    (populateIntHeader Test.Ctx ⟨[]⟩ "k" Test.secondKernelTy Test.closure2).toOption.map
        (fun H => H.KernelDescs.map
          (fun K => K.Params.map KernelParamDesc.Kind))
      = some [[.kind_std_layout, .kind_accessor, .kind_std_layout, .kind_std_layout]]
    ∧ ∃ Blocks : List (List KernelParamDesc),
      populateIntHeader Test.Ctx ⟨[]⟩ "k" Test.secondKernelTy Test.closure2
        = .ok ⟨[] ++ [⟨"k", Test.secondKernelTy, Blocks.flatten⟩]⟩
      ∧ Blocks.flatten.length = 1 + 3 * 1 :=
  ⟨by decide,
    let ⟨Blocks, h1, _, h3, _⟩ :=
      populateIntHeader_descriptors Test.Ctx ⟨[]⟩ "k" Test.secondKernelTy
        Test.closure2 (by decide)
    ⟨Blocks, h1, h3⟩⟩


/-! ### Synthesized parameters against header descriptors (C6) -/

theorem buildArgTysField_inv (Cpt : Option LambdaCapture) (St St1 : ArgTysState)
    (Fld : FieldDecl) (h : buildArgTysField Cpt St Fld = .ok St1) :
    ∃ Ps, St1.ParamDescs = St.ParamDescs ++ Ps
      ∧ List.Forall₂ Slot.IsParamOf (fieldSlotList Fld) Ps := by
  unfold buildArgTysField at h
  simp only [isSyclAccessorType_ok, isSyclStreamType_ok, bind, Except.bind] at h
  unfold fieldSlotList
  by_cases hA : Fld.getType.isAccessor = true
  · simp only [hA, if_true] at h ⊢
    cases hRD : Fld.getType.getAsCXXRecordDecl with
    | none => simp [hRD] at h
    | some AccTy =>
      simp only [hRD, pure, Except.pure] at h
      cases hArg : AccTy.getTemplateArgs.get? 0 with
      | none => rw [hArg] at h; simp at h
      | some A =>
        rw [hArg] at h
        rcases A with _ | Pointee | _ | _ | _ | _ | _ | _ | _
        all_goals try (simp at h; done)
        · simp only [] at h
          cases hT : getAccessTarget AccTy with
          | error e => rw [hT] at h; simp at h
          | ok T =>
            obtain ⟨V, hV, _⟩ := getAccessTarget_inv AccTy T hT
            rw [hT] at h
            simp only [] at h
            cases hAS : targetAddressSpace T with
            | error e => rw [hAS] at h; simp at h
            | ok AS =>
              rw [hAS] at h
              simp only [] at h
              cases hG1 : getFieldDeclByName AccTy ["__impl", "Range"] none with
              | error e => rw [hG1] at h; simp at h
              | ok R1 =>
                obtain ⟨Impl, ImplRD, Range, hImpl, hIRD, hR⟩ :=
                  getFieldDeclByName_impl_inv AccTy "Range" _ R1 hG1
                cases hG2 : getFieldDeclByName AccTy ["__impl", "Offset"] none with
                | error e =>
                  rw [getFieldDeclByName_impl AccTy ImplRD "Range" Impl Range _
                    hImpl hIRD hR, hG2] at h
                  simp at h
                | ok R2 =>
                  obtain ⟨Impl2, ImplRD2, Offset, hImpl2, hIRD2, hO⟩ :=
                    getFieldDeclByName_impl_inv AccTy "Offset" _ R2 hG2
                  rw [hImpl] at hImpl2
                  injection hImpl2 with hImpl2
                  subst hImpl2
                  rw [hIRD] at hIRD2
                  injection hIRD2 with hIRD2
                  subst hIRD2
                  have hParts := accessorParts_of_parts AccTy ImplRD V Impl Range
                    Offset hV hImpl hIRD hR hO
                  rw [getFieldDeclByName_impl AccTy ImplRD "Range" Impl Range _
                      hImpl hIRD hR,
                    getFieldDeclByName_impl AccTy ImplRD "Offset" Impl Offset _
                      hImpl hIRD hO] at h
                  simp only [Except.ok.injEq] at h
                  subst h
                  refine ⟨_, rfl, ?_⟩
                  exact List.Forall₂.cons ⟨rfl, _, rfl⟩
                    (List.Forall₂.cons ⟨AccTy, _, hRD, hParts, rfl, rfl⟩
                      (List.Forall₂.cons ⟨AccTy, _, hRD, hParts, rfl, rfl⟩
                        List.Forall₂.nil))
  · simp only [hA, if_false, Bool.false_eq_true] at h ⊢
    by_cases hS : Fld.getType.isStream = true
    · simp [hS, throw, throwThe, MonadExceptOf.throw] at h
    · simp only [hS, if_false, Bool.false_eq_true] at h
      have hOne : List.Forall₂ Slot.IsParamOf [⟨Fld, .Self⟩]
          [makeParamDesc Fld Fld.getType] :=
        List.Forall₂.cons ⟨rfl, rfl⟩ List.Forall₂.nil
      by_cases hC : Fld.getType.isStructureOrClassType = true
      · simp only [hC, if_true] at h
        by_cases hL : Fld.getType.isStandardLayoutType = true
        · simp only [hL, Bool.not_true, Bool.false_eq_true, if_false, pure,
            Except.pure, Except.ok.injEq] at h
          subst h
          exact ⟨_, rfl, hOne⟩
        · simp only [hL, Bool.not_false, if_true, Bool.not_eq_true] at h
          cases Cpt with
          | none =>
            simp only [pure, Except.pure, Except.ok.injEq] at h
            subst h
            exact ⟨_, rfl, hOne⟩
          | some C =>
            cases C with
            | This => simp [throw, throwThe, MonadExceptOf.throw] at h
            | Variable VarLoc =>
              simp only [pure, Except.pure, Except.ok.injEq] at h
              subst h
              exact ⟨_, rfl, hOne⟩
      · simp only [hC, if_false, Bool.false_eq_true] at h
        by_cases hSc : Fld.getType.isScalarType = true
        · simp only [hSc, if_true, pure, Except.pure, Except.ok.injEq] at h
          subst h
          exact ⟨_, rfl, hOne⟩
        · simp [hSc, throw, throwThe, MonadExceptOf.throw] at h

theorem buildArgTysLoop_inv (Cpt : Option LambdaCapture) (Fields : List FieldDecl) :
    ∀ (St St1 : ArgTysState), buildArgTysLoop Cpt Fields St = .ok St1 →
      ∃ Ps, St1.ParamDescs = St.ParamDescs ++ Ps
        ∧ List.Forall₂ Slot.IsParamOf (closureSlotList Fields) Ps := by
  induction Fields with
  | nil =>
    intro St St1 h
    simp only [buildArgTysLoop, Except.ok.injEq] at h
    subst h
    exact ⟨[], by simp, List.Forall₂.nil⟩
  | cons Fld Rest ih =>
    intro St St1 h
    unfold buildArgTysLoop at h
    cases hF : buildArgTysField Cpt St Fld with
    | error e => rw [hF] at h; cases h
    | ok St2 =>
      rw [hF] at h
      simp only [] at h
      obtain ⟨P1, hP1, hR1⟩ := buildArgTysField_inv Cpt St St2 Fld hF
      obtain ⟨P2, hP2, hR2⟩ := ih St2 St1 h
      refine ⟨P1 ++ P2, by rw [hP2, hP1, List.append_assoc], ?_⟩
      simp only [closureSlotList, List.map_cons, List.flatten_cons]
      exact List.rel_append hR1 hR2

theorem fieldSlots_isDescOf (Ctx : ASTContext) (Fld : FieldDecl)
    (ds : List KernelParamDesc) (h : fieldSlots Ctx Fld = some ds) :
    List.Forall₂ Slot.IsDescOf (fieldSlotList Fld)
      (ds.map KernelParamDesc.narrow) := by
  have hfit : ∀ O : Nat, castUnsigned O = O % 2 ^ 32
      ∧ (O < 2 ^ 32 → castUnsigned O = O) :=
    fun O => ⟨rfl, castUnsigned_of_fits O⟩
  unfold fieldSlots at h
  unfold fieldSlotList
  by_cases hA : Fld.getType.isAccessor = true
  · simp only [hA, if_true] at h ⊢
    cases hB : Fld.getType.getAsCXXRecordDecl.bind accessorParts with
    | none => simp [hB] at h
    | some P =>
      simp only [hB, Option.some.injEq] at h
      subst h
      exact List.Forall₂.cons ⟨rfl, _, rfl, hfit _⟩
        (List.Forall₂.cons
          ⟨rfl, _, by simp only [Slot.byteOffset, hB, Option.map], hfit _⟩
          (List.Forall₂.cons
            ⟨rfl, _, by simp only [Slot.byteOffset, hB, Option.map], hfit _⟩
            List.Forall₂.nil))
  · simp only [hA, if_false, Bool.false_eq_true] at h ⊢
    by_cases hS : Fld.getType.isStream = true
    · simp [hS] at h
    · simp only [hS, if_false, Bool.false_eq_true] at h
      by_cases hC : (Fld.getType.isStructureOrClassType
          || Fld.getType.isScalarType) = true
      · simp only [hC, if_true, Option.some.injEq] at h
        subst h
        exact List.Forall₂.cons ⟨rfl, _, rfl, hfit _⟩ List.Forall₂.nil
      · simp [hC] at h

theorem closureSlots_isDescOf (Ctx : ASTContext) (Fields : List FieldDecl) :
    ∀ ds, closureSlots Ctx Fields = some ds →
      List.Forall₂ Slot.IsDescOf (closureSlotList Fields)
        (ds.map KernelParamDesc.narrow) := by
  induction Fields with
  | nil =>
    intro ds h
    simp only [closureSlots, Option.some.injEq] at h
    subst h
    exact List.Forall₂.nil
  | cons Fld Rest ih =>
    intro ds h
    unfold closureSlots at h
    cases hF : fieldSlots Ctx Fld with
    | none => simp [hF] at h
    | some d1 =>
      cases hR : closureSlots Ctx Rest with
      | none => simp [hF, hR] at h
      | some d2 =>
        simp only [hF, hR, Option.some.injEq] at h
        subst h
        simp only [closureSlotList, List.map_cons, List.flatten_cons,
          List.map_append]
        exact List.rel_append (fieldSlots_isDescOf Ctx Fld d1 hF) (ih d2 hR)

/-- C6 as stated fails: on the closure capturing a struct of `2^32` bytes and
an `int`, both `buildArgTys` and `populateIntHeader` complete, the second
slot (the field `i` itself) lies `2^32` bytes into the closure, and the
second header descriptor records the offset 0. -/
theorem header_offset_counterexample :
    (buildArgTys Wide.bigClosure).toOption.map
        (fun St => St.ParamDescs.map ParamDesc.Name) = some ["_arg_b", "_arg_i"]
    ∧ (closureSlotList Wide.bigClosure.fields).map Slot.byteOffset
        = [some 0, some 4294967296]
    ∧ (populateIntHeader Wide.Ctx ⟨[]⟩ "k" Test.firstKernelTy
          Wide.bigClosure).toOption.map
          (fun H => H.KernelDescs.map
            (fun K => K.Params.map KernelParamDesc.Offset))
        = some [[0, 0]] := by
  refine ⟨by decide, by decide, by decide⟩

/-- C6 (amended): for every closure type on which both `buildArgTys` and
`populateIntHeader` complete, the synthesized parameter descriptors and the
header descriptors registered for the kernel have the same length, and
position by position both stem from the same slot of the same captured field
(pointer, `Range`, `Offset` for an accessor, the field itself otherwise), in
the order of the closure's slots; the header descriptor's offset is the byte
offset of that slot in the closure layout modulo `2^32`, hence that byte
offset whenever it is below `2^32`. -/
theorem params_match_header_descriptors (Ctx : ASTContext)
    (H H1 : SYCLIntegrationHeader) (Name : String) (NameType : QualType)
    (KernelObj : CXXRecordDecl) (St : ArgTysState)
    (hB : buildArgTys KernelObj = .ok St)
    (hP : populateIntHeader Ctx H Name NameType KernelObj = .ok H1) :
    ∃ Params : List KernelParamDesc,
      H1.KernelDescs = H.KernelDescs ++ [⟨Name, NameType, Params⟩]
      ∧ St.ParamDescs.length = Params.length
      ∧ List.Forall₂ Slot.IsParamOf (closureSlotList KernelObj.fields)
          St.ParamDescs
      ∧ List.Forall₂ Slot.IsDescOf (closureSlotList KernelObj.fields) Params := by
  unfold populateIntHeader SYCLIntegrationHeader.startKernel at hP
  obtain ⟨ds, hds⟩ := populateIntHeaderLoop_inv Ctx _ _ _ _ hP
  rw [populateIntHeaderLoop_eq Ctx _ _ _ ds hds] at hP
  injection hP with hP
  subst hP
  obtain ⟨Ps, hPs, hRel⟩ := buildArgTysLoop_inv _ _ _ _ hB
  simp only [List.nil_append] at hPs
  have hDesc := closureSlots_isDescOf Ctx _ ds hds
  refine ⟨ds.map KernelParamDesc.narrow, by simp, ?_, hPs ▸ hRel, hDesc⟩
  rw [hPs, ← hRel.length_eq, hDesc.length_eq]

/-- Witness for C6: the first closure of the test, with seven parameters and
seven descriptors. -/
theorem params_match_header_descriptors_witness :
    buildArgTys Test.closure1 = .ok ⟨Test.closure1ParamDescs, []⟩
    ∧ populateIntHeader Test.Ctx ⟨[]⟩ "_ZTSZ4mainE12first_kernel"
          Test.firstKernelTy Test.closure1
        = .ok ⟨Test.kernelDescs.take 1⟩
    ∧ ∃ Params : List KernelParamDesc,
        Test.kernelDescs.take 1
          = [] ++ [⟨"_ZTSZ4mainE12first_kernel", Test.firstKernelTy, Params⟩]
        ∧ Test.closure1ParamDescs.length = Params.length :=
  ⟨rfl, rfl,
    let ⟨Params, h1, h2, _⟩ :=
      params_match_header_descriptors Test.Ctx ⟨[]⟩ ⟨Test.kernelDescs.take 1⟩
        "_ZTSZ4mainE12first_kernel" Test.firstKernelTy Test.closure1
        ⟨Test.closure1ParamDescs, []⟩ rfl rfl
    ⟨Params, h1, h2⟩⟩


/-! ### The forward-declaration walk -/

theorem insertAndEmitAll_append (Ds1 Ds2 : List Decl) :
    ∀ St, insertAndEmitAll (Ds1 ++ Ds2) St
      = insertAndEmitAll Ds2 (insertAndEmitAll Ds1 St) := by
  induction Ds1 with
  | nil => intro St; rfl
  | cons D Rest ih => intro St; simp [insertAndEmitAll, ih]

mutual
theorem emitForwardClassDecls_eq : ∀ (T : QualType) (St : FwdState),
    noTemplateTemplateArg T = true →
    emitForwardClassDecls T St = .ok (insertAndEmitAll (referencedDecls T) St)
  | .mk Ty _, St, h => by
    rw [emitForwardClassDecls, referencedDecls]
    rw [noTemplateTemplateArg] at h
    exact emitForwardClassDeclsTy_eq Ty St h
theorem emitForwardClassDeclsTy_eq : ∀ (Ty : ClangType) (St : FwdState),
    noTemplateTemplateArgTy Ty = true →
    emitForwardClassDeclsTy Ty St = .ok (insertAndEmitAll (referencedDeclsTy Ty) St)
  | .Pointer Pointee, St, h => by
    rw [emitForwardClassDeclsTy, referencedDeclsTy]
    rw [noTemplateTemplateArgTy] at h
    exact emitForwardClassDecls_eq Pointee St h
  | .Record RD, St, h => by
    rw [emitForwardClassDeclsTy, referencedDeclsTy]
    rw [noTemplateTemplateArgTy] at h
    exact emitForwardClassDeclsRD_eq RD St h
  | .Builtin _, St, _ => by rw [emitForwardClassDeclsTy, referencedDeclsTy]; rfl
  | .Enum _, St, _ => by rw [emitForwardClassDeclsTy, referencedDeclsTy]; rfl
  | .LValueReference _, St, _ => by
    rw [emitForwardClassDeclsTy, referencedDeclsTy]; rfl
  | .ConstantArray _ _, St, _ => by
    rw [emitForwardClassDeclsTy, referencedDeclsTy]; rfl
  | .IncompleteArray _, St, _ => by
    rw [emitForwardClassDeclsTy, referencedDeclsTy]; rfl
  | .VariableArray _, St, _ => by
    rw [emitForwardClassDeclsTy, referencedDeclsTy]; rfl
  | .FunctionProto _ _, St, _ => by
    rw [emitForwardClassDeclsTy, referencedDeclsTy]; rfl
  | .FunctionNoProto _, St, _ => by
    rw [emitForwardClassDeclsTy, referencedDeclsTy]; rfl
  | .RecordRef _, St, _ => by
    rw [emitForwardClassDeclsTy, referencedDeclsTy]; rfl
theorem emitForwardClassDeclsRD_eq : ∀ (RD : CXXRecordDecl) (St : FwdState),
    noTemplateTemplateArgRD RD = true →
    emitForwardClassDeclsRD RD St = .ok (insertAndEmitAll (referencedDeclsRD RD) St)
  | .mk _ (some CTD) Args _, St, h => by
    rw [emitForwardClassDeclsRD, referencedDeclsRD]
    rw [noTemplateTemplateArgRD] at h
    rw [emitForwardClassDeclsArgs_eq Args St h, insertAndEmitAll_append]
    rfl
  | .mk Info none _ _, St, _ => by
    rw [emitForwardClassDeclsRD, referencedDeclsRD]; rfl
theorem emitForwardClassDeclsArgs_eq : ∀ (Args : List TemplateArgument)
    (St : FwdState), noTemplateTemplateArgArgs Args = true →
    emitForwardClassDeclsArgs Args St
      = .ok (insertAndEmitAll (referencedDeclsArgs Args) St)
  | [], St, _ => by rw [emitForwardClassDeclsArgs, referencedDeclsArgs]; rfl
  | Arg :: Rest, St, h => by
    rw [emitForwardClassDeclsArgs, referencedDeclsArgs]
    rw [noTemplateTemplateArgArgs, Bool.and_eq_true] at h
    rw [emitForwardClassDeclsArg_eq Arg St h.1]
    simp only []
    rw [emitForwardClassDeclsArgs_eq Rest _ h.2, insertAndEmitAll_append]
theorem emitForwardClassDeclsArg_eq : ∀ (Arg : TemplateArgument)
    (St : FwdState), noTemplateTemplateArgArg Arg = true →
    emitForwardClassDeclsArg Arg St
      = .ok (insertAndEmitAll (referencedDeclsArg Arg) St)
  | .Type T, St, h => by
    rw [emitForwardClassDeclsArg, referencedDeclsArg]
    rw [noTemplateTemplateArgArg] at h
    exact emitForwardClassDecls_eq T St h
  | .Pack Elems, St, h => by
    rw [emitForwardClassDeclsArg, referencedDeclsArg]
    rw [noTemplateTemplateArgArg] at h
    exact emitForwardClassDeclsPack_eq Elems St h
  | .Template, St, h => by rw [noTemplateTemplateArgArg] at h; cases h
  | .Null, St, _ => by rw [emitForwardClassDeclsArg, referencedDeclsArg]; rfl
  | .Declaration, St, _ => by rw [emitForwardClassDeclsArg, referencedDeclsArg]; rfl
  | .NullPtr, St, _ => by rw [emitForwardClassDeclsArg, referencedDeclsArg]; rfl
  | .Integral _, St, _ => by rw [emitForwardClassDeclsArg, referencedDeclsArg]; rfl
  | .TemplateExpansion, St, _ => by
    rw [emitForwardClassDeclsArg, referencedDeclsArg]; rfl
  | .Expression, St, _ => by rw [emitForwardClassDeclsArg, referencedDeclsArg]; rfl
theorem emitForwardClassDeclsPack_eq : ∀ (Elems : List TemplateArgument)
    (St : FwdState), noTemplateTemplateArgPack Elems = true →
    emitForwardClassDeclsPack Elems St
      = .ok (insertAndEmitAll (referencedDeclsPack Elems) St)
  | [], St, _ => by rw [emitForwardClassDeclsPack, referencedDeclsPack]; rfl
  | .Type T :: Rest, St, h => by
    rw [emitForwardClassDeclsPack, referencedDeclsPack]
    rw [noTemplateTemplateArgPack, Bool.and_eq_true] at h
    rw [emitForwardClassDecls_eq T St h.1]
    simp only []
    rw [emitForwardClassDeclsPack_eq Rest _ h.2, insertAndEmitAll_append]
  | .Null :: Rest, St, h => by
    simp only [emitForwardClassDeclsPack, referencedDeclsPack]
    simp only [noTemplateTemplateArgPack] at h
    exact emitForwardClassDeclsPack_eq Rest St h
  | .Declaration :: Rest, St, h => by
    simp only [emitForwardClassDeclsPack, referencedDeclsPack]
    simp only [noTemplateTemplateArgPack] at h
    exact emitForwardClassDeclsPack_eq Rest St h
  | .NullPtr :: Rest, St, h => by
    simp only [emitForwardClassDeclsPack, referencedDeclsPack]
    simp only [noTemplateTemplateArgPack] at h
    exact emitForwardClassDeclsPack_eq Rest St h
  | .Integral _ :: Rest, St, h => by
    simp only [emitForwardClassDeclsPack, referencedDeclsPack]
    simp only [noTemplateTemplateArgPack] at h
    exact emitForwardClassDeclsPack_eq Rest St h
  | .Template :: Rest, St, h => by
    simp only [emitForwardClassDeclsPack, referencedDeclsPack]
    simp only [noTemplateTemplateArgPack] at h
    exact emitForwardClassDeclsPack_eq Rest St h
  | .TemplateExpansion :: Rest, St, h => by
    simp only [emitForwardClassDeclsPack, referencedDeclsPack]
    simp only [noTemplateTemplateArgPack] at h
    exact emitForwardClassDeclsPack_eq Rest St h
  | .Expression :: Rest, St, h => by
    simp only [emitForwardClassDeclsPack, referencedDeclsPack]
    simp only [noTemplateTemplateArgPack] at h
    exact emitForwardClassDeclsPack_eq Rest St h
  | .Pack _ :: Rest, St, h => by
    simp only [emitForwardClassDeclsPack, referencedDeclsPack]
    simp only [noTemplateTemplateArgPack] at h
    exact emitForwardClassDeclsPack_eq Rest St h
end

mutual
theorem emitForwardClassDecls_ok : ∀ (T : QualType) (St St1 : FwdState),
    emitForwardClassDecls T St = .ok St1 → noTemplateTemplateArg T = true
  | .mk Ty _, St, St1, h => by
    rw [emitForwardClassDecls] at h
    rw [noTemplateTemplateArg]
    exact emitForwardClassDeclsTy_ok Ty St St1 h
theorem emitForwardClassDeclsTy_ok : ∀ (Ty : ClangType) (St St1 : FwdState),
    emitForwardClassDeclsTy Ty St = .ok St1 → noTemplateTemplateArgTy Ty = true
  | .Pointer Pointee, St, St1, h => by
    rw [emitForwardClassDeclsTy] at h
    rw [noTemplateTemplateArgTy]
    exact emitForwardClassDecls_ok Pointee St St1 h
  | .Record RD, St, St1, h => by
    rw [emitForwardClassDeclsTy] at h
    rw [noTemplateTemplateArgTy]
    exact emitForwardClassDeclsRD_ok RD St St1 h
  | .Builtin _, _, _, _ => by rw [noTemplateTemplateArgTy]
  | .Enum _, _, _, _ => by rw [noTemplateTemplateArgTy]
  | .LValueReference _, _, _, _ => by rw [noTemplateTemplateArgTy]
  | .ConstantArray _ _, _, _, _ => by rw [noTemplateTemplateArgTy]
  | .IncompleteArray _, _, _, _ => by rw [noTemplateTemplateArgTy]
  | .VariableArray _, _, _, _ => by rw [noTemplateTemplateArgTy]
  | .FunctionProto _ _, _, _, _ => by rw [noTemplateTemplateArgTy]
  | .FunctionNoProto _, _, _, _ => by rw [noTemplateTemplateArgTy]
  | .RecordRef _, _, _, _ => by rw [noTemplateTemplateArgTy]
theorem emitForwardClassDeclsRD_ok : ∀ (RD : CXXRecordDecl) (St St1 : FwdState),
    emitForwardClassDeclsRD RD St = .ok St1 → noTemplateTemplateArgRD RD = true
  | .mk _ (some CTD) Args _, St, St1, h => by
    rw [emitForwardClassDeclsRD] at h
    rw [noTemplateTemplateArgRD]
    cases hA : emitForwardClassDeclsArgs Args St with
    | error e => rw [hA] at h; cases h
    | ok St2 => exact emitForwardClassDeclsArgs_ok Args St St2 hA
  | .mk Info none _ _, _, _, _ => by rw [noTemplateTemplateArgRD]
theorem emitForwardClassDeclsArgs_ok : ∀ (Args : List TemplateArgument)
    (St St1 : FwdState), emitForwardClassDeclsArgs Args St = .ok St1 →
    noTemplateTemplateArgArgs Args = true
  | [], _, _, _ => by rw [noTemplateTemplateArgArgs]
  | Arg :: Rest, St, St1, h => by
    rw [emitForwardClassDeclsArgs] at h
    rw [noTemplateTemplateArgArgs, Bool.and_eq_true]
    cases hA : emitForwardClassDeclsArg Arg St with
    | error e => rw [hA] at h; cases h
    | ok St2 =>
      rw [hA] at h
      exact ⟨emitForwardClassDeclsArg_ok Arg St St2 hA,
        emitForwardClassDeclsArgs_ok Rest St2 St1 h⟩
theorem emitForwardClassDeclsArg_ok : ∀ (Arg : TemplateArgument)
    (St St1 : FwdState), emitForwardClassDeclsArg Arg St = .ok St1 →
    noTemplateTemplateArgArg Arg = true
  | .Type T, St, St1, h => by
    rw [emitForwardClassDeclsArg] at h
    rw [noTemplateTemplateArgArg]
    exact emitForwardClassDecls_ok T St St1 h
  | .Pack Elems, St, St1, h => by
    rw [emitForwardClassDeclsArg] at h
    rw [noTemplateTemplateArgArg]
    exact emitForwardClassDeclsPack_ok Elems St St1 h
  | .Template, St, St1, h => by rw [emitForwardClassDeclsArg] at h; cases h
  | .Null, _, _, _ => by rw [noTemplateTemplateArgArg]
  | .Declaration, _, _, _ => by rw [noTemplateTemplateArgArg]
  | .NullPtr, _, _, _ => by rw [noTemplateTemplateArgArg]
  | .Integral _, _, _, _ => by rw [noTemplateTemplateArgArg]
  | .TemplateExpansion, _, _, _ => by rw [noTemplateTemplateArgArg]
  | .Expression, _, _, _ => by rw [noTemplateTemplateArgArg]
theorem emitForwardClassDeclsPack_ok : ∀ (Elems : List TemplateArgument)
    (St St1 : FwdState), emitForwardClassDeclsPack Elems St = .ok St1 →
    noTemplateTemplateArgPack Elems = true
  | [], _, _, _ => by rw [noTemplateTemplateArgPack]
  | .Type T :: Rest, St, St1, h => by
    rw [emitForwardClassDeclsPack] at h
    rw [noTemplateTemplateArgPack, Bool.and_eq_true]
    cases hA : emitForwardClassDecls T St with
    | error e => rw [hA] at h; cases h
    | ok St2 =>
      rw [hA] at h
      exact ⟨emitForwardClassDecls_ok T St St2 hA,
        emitForwardClassDeclsPack_ok Rest St2 St1 h⟩
  | .Null :: Rest, St, St1, h => by
    simp only [emitForwardClassDeclsPack] at h
    simp only [noTemplateTemplateArgPack]
    exact emitForwardClassDeclsPack_ok Rest St St1 h
  | .Declaration :: Rest, St, St1, h => by
    simp only [emitForwardClassDeclsPack] at h
    simp only [noTemplateTemplateArgPack]
    exact emitForwardClassDeclsPack_ok Rest St St1 h
  | .NullPtr :: Rest, St, St1, h => by
    simp only [emitForwardClassDeclsPack] at h
    simp only [noTemplateTemplateArgPack]
    exact emitForwardClassDeclsPack_ok Rest St St1 h
  | .Integral _ :: Rest, St, St1, h => by
    simp only [emitForwardClassDeclsPack] at h
    simp only [noTemplateTemplateArgPack]
    exact emitForwardClassDeclsPack_ok Rest St St1 h
  | .Template :: Rest, St, St1, h => by
    simp only [emitForwardClassDeclsPack] at h
    simp only [noTemplateTemplateArgPack]
    exact emitForwardClassDeclsPack_ok Rest St St1 h
  | .TemplateExpansion :: Rest, St, St1, h => by
    simp only [emitForwardClassDeclsPack] at h
    simp only [noTemplateTemplateArgPack]
    exact emitForwardClassDeclsPack_ok Rest St St1 h
  | .Expression :: Rest, St, St1, h => by
    simp only [emitForwardClassDeclsPack] at h
    simp only [noTemplateTemplateArgPack]
    exact emitForwardClassDeclsPack_ok Rest St St1 h
  | .Pack _ :: Rest, St, St1, h => by
    simp only [emitForwardClassDeclsPack] at h
    simp only [noTemplateTemplateArgPack]
    exact emitForwardClassDeclsPack_ok Rest St St1 h
end

theorem emitForwardClassDeclsLoop_eq (Ks : List KernelDesc) :
    ∀ St, (∀ K ∈ Ks, noTemplateTemplateArg K.NameType = true) →
      emitForwardClassDeclsLoop Ks St
        = .ok (insertAndEmitAll (referencedDeclsOfKernels Ks) St) := by
  induction Ks with
  | nil => intro St _; rfl
  | cons K Rest ih =>
    intro St h
    rw [emitForwardClassDeclsLoop,
      emitForwardClassDecls_eq K.NameType St (h K (List.mem_cons_self _ _))]
    simp only []
    rw [ih _ (fun K' hK => h K' (List.mem_cons_of_mem _ hK))]
    simp [referencedDeclsOfKernels, insertAndEmitAll_append]

theorem emitForwardClassDeclsLoop_ok (Ks : List KernelDesc) :
    ∀ St St1, emitForwardClassDeclsLoop Ks St = .ok St1 →
      ∀ K ∈ Ks, noTemplateTemplateArg K.NameType = true := by
  induction Ks with
  | nil => intro _ _ _ K hK; cases hK
  | cons K Rest ih =>
    intro St St1 h K' hK'
    rw [emitForwardClassDeclsLoop] at h
    cases hA : emitForwardClassDecls K.NameType St with
    | error e => rw [hA] at h; cases h
    | ok St2 =>
      rw [hA] at h
      rcases List.mem_cons.mp hK' with rfl | hR
      · exact emitForwardClassDecls_ok _ St St2 hA
      · exact ih St2 St1 h K' hR

/-- The invariant of the walk: the output has one entry per member of
`Printed`, in insertion order, and `Printed` has no duplicate. -/
theorem insertAndEmitAll_invariant (Ds : List Decl) :
    ∀ St : FwdState, St.O.map FwdDeclEntry.ID = St.Printed → St.Printed.Nodup →
      (insertAndEmitAll Ds St).O.map FwdDeclEntry.ID
          = (insertAndEmitAll Ds St).Printed
        ∧ (insertAndEmitAll Ds St).Printed.Nodup := by
  induction Ds with
  | nil => intro St h1 h2; exact ⟨h1, h2⟩
  | cons D Rest ih =>
    intro St h1 h2
    rw [insertAndEmitAll]
    apply ih
    · unfold insertAndEmit
      split
      · exact h1
      · simp [h1]
    · unfold insertAndEmit
      split
      · exact h2
      · next hn =>
        simp only []
        rw [List.nodup_append]
        exact ⟨h2, List.nodup_singleton _, by
          intro a ha hb
          simp only [List.mem_singleton] at hb
          subst hb
          exact hn ha⟩

theorem insertAndEmit_printed_mono (D : Decl) (St : FwdState) (id : Nat)
    (h : id ∈ St.Printed) : id ∈ (insertAndEmit D St).Printed := by
  unfold insertAndEmit
  split
  · exact h
  · simp [h]

theorem insertAndEmitAll_printed_mono (Ds : List Decl) :
    ∀ (St : FwdState) (id : Nat), id ∈ St.Printed →
      id ∈ (insertAndEmitAll Ds St).Printed := by
  induction Ds with
  | nil => intro St id h; exact h
  | cons D Rest ih =>
    intro St id h
    rw [insertAndEmitAll]
    exact ih _ id (insertAndEmit_printed_mono D St id h)

theorem insertAndEmitAll_printed_mem (Ds : List Decl) :
    ∀ (St : FwdState), ∀ D ∈ Ds, D.ID ∈ (insertAndEmitAll Ds St).Printed := by
  induction Ds with
  | nil => intro _ D hD; cases hD
  | cons D0 Rest ih =>
    intro St D hD
    rw [insertAndEmitAll]
    rcases List.mem_cons.mp hD with rfl | hR
    · apply insertAndEmitAll_printed_mono
      unfold insertAndEmit
      split
      · assumption
      · simp
    · exact ih _ D hR

theorem insertAndEmitAll_entries (Ds : List Decl) :
    ∀ (St : FwdState), ∀ E ∈ (insertAndEmitAll Ds St).O,
      E ∈ St.O ∨ ∃ D ∈ Ds, E = ⟨D.ID, (emitFwdDecl D).1⟩ := by
  induction Ds with
  | nil => intro St E hE; exact Or.inl hE
  | cons D0 Rest ih =>
    intro St E hE
    rw [insertAndEmitAll] at hE
    rcases ih _ E hE with h | ⟨D, hD, hEq⟩
    · unfold insertAndEmit at h
      split at h
      · exact Or.inl h
      · simp only [List.mem_append, List.mem_singleton] at h
        rcases h with h | h
        · exact Or.inl h
        · exact Or.inr ⟨D0, List.mem_cons_self _ _, h⟩
    · exact Or.inr ⟨D, List.mem_cons_of_mem _ hD, hEq⟩

/-- C8: in the output of `emit`, the forward-declaration section holds at
most one forward declaration per declaration (class or class template),
whatever the number of kernels and of specializations that reference it; and
every class or class template referenced by the name type of some kernel,
directly or as a template argument at any depth, is forward-declared exactly
once. -/
theorem forward_declarations_deduplicated (getAsString : QualType → String)
    (H : SYCLIntegrationHeader) (Out : EmitOutput)
    (hOut : H.emit getAsString = .ok Out) :
    (Out.FwdDecls.map FwdDeclEntry.ID).Nodup
    ∧ ∀ K ∈ H.KernelDescs, ∀ D ∈ referencedDecls K.NameType,
        (Out.FwdDecls.map FwdDeclEntry.ID).count D.ID = 1 := by
  obtain ⟨⟨St, hSt, hO, _⟩, _⟩ := emit_ok hOut
  have hNo := emitForwardClassDeclsLoop_ok _ _ _ hSt
  rw [emitForwardClassDeclsLoop_eq _ _ hNo] at hSt
  injection hSt with hSt
  obtain ⟨hInv, hNodup⟩ := insertAndEmitAll_invariant
    (referencedDeclsOfKernels H.KernelDescs) ⟨[], [], []⟩ rfl List.nodup_nil
  rw [hSt] at hInv hNodup
  rw [hO, hInv]
  refine ⟨hNodup, ?_⟩
  intro K hK D hD
  apply List.count_eq_one_of_mem hNodup
  rw [← hSt]
  apply insertAndEmitAll_printed_mem
  exact List.mem_flatten.mpr ⟨_, List.mem_map.mpr ⟨K, hK, rfl⟩, hD⟩

/-- Witness for C8 on the header of the test: five forward declarations, for
`first_kernel`, `second_kernel`, `X`, `point` and `third_kernel`. -/
theorem forward_declarations_deduplicated_witness :
    ∃ Out : EmitOutput,
      SYCLIntegrationHeader.emit Test.getAsString ⟨Test.kernelDescs⟩ = .ok Out
      ∧ (Out.FwdDecls.map FwdDeclEntry.ID).Nodup
      ∧ Out.FwdDecls.map FwdDeclEntry.ID = [30, 31, 33, 34, 36] :=
  ⟨_, rfl,
    (forward_declarations_deduplicated Test.getAsString ⟨Test.kernelDescs⟩ _
      rfl).1, by decide⟩

/-- C9 as stated fails: for the kernel name type `holder<point>`, whose
argument is a template template argument, the walk ends in
`llvm_unreachable("template template arguments not supported")` before the
class template `holder`, which the type names directly, has received its
forward declaration; no artifact is produced. -/
theorem forward_declarations_counterexample :
    referencedDecls Wide.holderTy = [.ClassTemplate Wide.holderCTD]
    ∧ emitForwardClassDecls Wide.holderTy ⟨[], [], []⟩
        = .error "template template arguments not supported"
    ∧ (SYCLIntegrationHeader.emit Test.getAsString
          ⟨[⟨"k", Wide.holderTy, []⟩]⟩).toOption.isSome = false := by
  refine ⟨by decide, rfl, by decide⟩

/-- C9 (amended): for kernel name types in which no specialization met by the
walk has a template template argument in its argument list, `emit` completes
and every class or class template that a name type references, directly or
as a type template argument (also inside a parameter pack), at any depth and
through any number of pointer levels, has a forward declaration in the
artifact, with the text `emitFwdDecl` writes for it; and every forward
declaration in the artifact is the one of such a reference, so arguments
that are not types contribute none. -/
theorem forward_declarations_cover_references
    (getAsString : QualType → String) (H : SYCLIntegrationHeader)
    (hNo : ∀ K ∈ H.KernelDescs, noTemplateTemplateArg K.NameType = true) :
    ∃ Out : EmitOutput, H.emit getAsString = .ok Out
      ∧ (∀ K ∈ H.KernelDescs, ∀ D ∈ referencedDecls K.NameType,
          ∃ E ∈ Out.FwdDecls, E.ID = D.ID)
      ∧ (∀ E ∈ Out.FwdDecls, ∃ K ∈ H.KernelDescs,
          ∃ D ∈ referencedDecls K.NameType,
            E = ⟨D.ID, (emitFwdDecl D).1⟩) := by
  have hLoop := emitForwardClassDeclsLoop_eq H.KernelDescs ⟨[], [], []⟩ hNo
  refine ⟨_, by rw [SYCLIntegrationHeader.emit, hLoop], ?_, ?_⟩
  · intro K hK D hD
    obtain ⟨hInv, _⟩ := insertAndEmitAll_invariant
      (referencedDeclsOfKernels H.KernelDescs) ⟨[], [], []⟩ rfl List.nodup_nil
    have hMem : D.ID ∈ (insertAndEmitAll (referencedDeclsOfKernels H.KernelDescs)
        ⟨[], [], []⟩).Printed :=
      insertAndEmitAll_printed_mem _ _ D
        (List.mem_flatten.mpr ⟨_, List.mem_map.mpr ⟨K, hK, rfl⟩, hD⟩)
    rw [← hInv] at hMem
    obtain ⟨E, hE, hID⟩ := List.mem_map.mp hMem
    exact ⟨E, hE, hID⟩
  · intro E hE
    rcases insertAndEmitAll_entries _ _ E hE with h | ⟨D, hD, hEq⟩
    · cases h
    · obtain ⟨L, hL, hDL⟩ := List.mem_flatten.mp hD
      obtain ⟨K, hK, rfl⟩ := List.mem_map.mp hL
      exact ⟨K, hK, D, hDL, hEq⟩

/-- Witness for C9 on the header of the test. -/
theorem forward_declarations_cover_references_witness :
    (∀ K ∈ Test.kernelDescs, noTemplateTemplateArg K.NameType = true)
    ∧ ∃ Out : EmitOutput,
      SYCLIntegrationHeader.emit Test.getAsString ⟨Test.kernelDescs⟩ = .ok Out
      ∧ ∀ D ∈ referencedDecls Test.thirdKernelTy, ∃ E ∈ Out.FwdDecls, E.ID = D.ID :=
  ⟨by decide,
    let ⟨Out, h1, h2, _⟩ :=
      forward_declarations_cover_references Test.getAsString
        ⟨Test.kernelDescs⟩ (by decide)
    ⟨Out, h1, h2 (Test.kernelDescs.get ⟨2, by decide⟩) (List.get_mem _ _ _)⟩⟩


/-! ### `CheckSYCLType` -/

theorem CheckSYCLTypeFields_mono
    (Check Check1 : QualType → SourceLocation → CheckResult)
    (h : ∀ Ty Loc R, Check Ty Loc = some R → Check1 Ty Loc = some R)
    (Loc : SourceLocation) :
    ∀ (Fs : List FieldDecl) (R : Bool × List Diagnostic),
      CheckSYCLTypeFields Check Loc Fs = some R →
      CheckSYCLTypeFields Check1 Loc Fs = some R
  | [], R, hR => by simpa [CheckSYCLTypeFields] using hR
  | F :: Fs, R, hR => by
    unfold CheckSYCLTypeFields at hR ⊢
    cases hF : Check F.getType F.Loc with
    | none => rw [hF] at hR; simp at hR
    | some RF =>
      rw [hF] at hR
      rw [h _ _ _ hF]
      obtain ⟨B, Ds⟩ := RF
      cases B with
      | false => simpa using hR
      | true =>
        simp only [] at hR ⊢
        cases hRest : CheckSYCLTypeFields Check Loc Fs with
        | none => rw [hRest] at hR; simp at hR
        | some RR =>
          rw [hRest] at hR
          rw [CheckSYCLTypeFields_mono Check Check1 h Loc Fs RR hRest]
          exact hR

theorem CheckSYCLTypeParams_mono
    (Check Check1 : QualType → SourceLocation → CheckResult)
    (h : ∀ Ty Loc R, Check Ty Loc = some R → Check1 Ty Loc = some R)
    (Loc : SourceLocation) :
    ∀ (Ps : List QualType) (R : Bool × List Diagnostic),
      CheckSYCLTypeParams Check Loc Ps = some R →
      CheckSYCLTypeParams Check1 Loc Ps = some R
  | [], R, hR => by simpa [CheckSYCLTypeParams] using hR
  | P :: Ps, R, hR => by
    unfold CheckSYCLTypeParams at hR ⊢
    cases hF : Check P Loc with
    | none => rw [hF] at hR; simp at hR
    | some RF =>
      rw [hF] at hR
      rw [h _ _ _ hF]
      obtain ⟨B, Ds⟩ := RF
      cases B with
      | false => simpa using hR
      | true =>
        simp only [] at hR ⊢
        cases hRest : CheckSYCLTypeParams Check Loc Ps with
        | none => rw [hRest] at hR; simp at hR
        | some RR =>
          rw [hRest] at hR
          rw [CheckSYCLTypeParams_mono Check Check1 h Loc Ps RR hRest]
          exact hR

/-- A result of `CheckSYCLType` stays when the bound on the depth grows. -/
theorem CheckSYCLType_succ (TU : TranslationUnit) :
    ∀ (n : Nat) (Ty : QualType) (Loc : SourceLocation) (R : Bool × List Diagnostic),
      CheckSYCLType TU n Ty Loc = some R → CheckSYCLType TU (n + 1) Ty Loc = some R
  | 0, _, _, _, h => by simp [CheckSYCLType] at h
  | n + 1, Ty, Loc, R, h => by
    have ih := CheckSYCLType_succ TU n
    rw [CheckSYCLType] at h ⊢
    split
    · rename_i hV; simpa [hV] using h
    · rename_i hV
      simp only [hV] at h
      cases hC : TU.getAsCXXRecordDecl (stripPointersAndArrays Ty) with
      | some CRD =>
        rw [hC] at h
        simp only [] at h ⊢
        split
        · rename_i hD; simpa [hD] using h
        · rename_i hD
          simp only [hD] at h
          split
          · rename_i hP; simpa [hP] using h
          · rename_i hP
            simp only [hP] at h
            exact CheckSYCLTypeFields_mono _ _ ih Loc _ R h
      | none =>
        rw [hC] at h
        simp only [] at h ⊢
        cases hS : stripPointersAndArrays Ty with
        | FunctionProto Result Params =>
          rw [hS] at h
          simp only [] at h ⊢
          cases hPs : CheckSYCLTypeParams (CheckSYCLType TU n) Loc Params with
          | none => rw [hPs] at h; simp at h
          | some RP =>
            rw [hPs] at h
            rw [CheckSYCLTypeParams_mono _ _ ih Loc _ RP hPs]
            obtain ⟨B, Ds⟩ := RP
            cases B with
            | false => simpa using h
            | true =>
              simp only [] at h ⊢
              cases hRes : CheckSYCLType TU n Result Loc with
              | none => rw [hRes] at h; simp at h
              | some RR => rw [hRes] at h; rw [ih _ _ _ hRes]; exact h
        | FunctionNoProto Result =>
          rw [hS] at h
          simp only [] at h ⊢
          exact ih _ _ _ h
        | _ => rw [hS] at h; simpa using h


theorem CheckSYCLType_mono (TU : TranslationUnit) (n m : Nat) (hnm : n ≤ m)
    (Ty : QualType) (Loc : SourceLocation) (R : Bool × List Diagnostic)
    (h : CheckSYCLType TU n Ty Loc = some R) : CheckSYCLType TU m Ty Loc = some R := by
  induction hnm with
  | refl => exact h
  | step _ ih => exact CheckSYCLType_succ TU _ Ty Loc R ih

/-- The loop over the fields ends with false at the first rejected field. -/
theorem CheckSYCLTypeFields_rejected
    (Check : QualType → SourceLocation → CheckResult) (Loc : SourceLocation)
    (F : FieldDecl) (Post : List FieldDecl) (DsF : List Diagnostic)
    (hF : Check F.getType F.Loc = some (false, DsF)) :
    ∀ (Pre : List FieldDecl),
      (∀ G ∈ Pre, ∃ Ds, Check G.getType G.Loc = some (true, Ds)) →
      ∃ Ds, CheckSYCLTypeFields Check Loc (Pre ++ F :: Post) = some (false, Ds)
  | [], _ => by
    refine ⟨DsF ++ [⟨Loc, .note_sycl_used_here⟩], ?_⟩
    simp [CheckSYCLTypeFields, hF]
  | G :: Pre, hPre => by
    obtain ⟨DsG, hG⟩ := hPre G (List.mem_cons_self _ _)
    obtain ⟨Ds, hRest⟩ := CheckSYCLTypeFields_rejected Check Loc F Post DsF hF Pre
      (fun G1 hG1 => hPre G1 (List.mem_cons_of_mem _ hG1))
    refine ⟨DsG ++ Ds, ?_⟩
    simp [CheckSYCLTypeFields, hG, hRest]

/-- One bound on the depth serves finitely many checks that return. -/
theorem CheckSYCLType_common_bound (TU : TranslationUnit) :
    ∀ (Pre : List FieldDecl),
      (∀ G ∈ Pre, ∃ n Ds, CheckSYCLType TU n G.getType G.Loc = some (true, Ds)) →
      ∃ N, ∀ G ∈ Pre, ∃ Ds, CheckSYCLType TU N G.getType G.Loc = some (true, Ds)
  | [], _ => ⟨0, fun _ h => by simp at h⟩
  | G :: Pre, hPre => by
    obtain ⟨n, Ds, hG⟩ := hPre G (List.mem_cons_self _ _)
    obtain ⟨N, hN⟩ := CheckSYCLType_common_bound TU Pre
      (fun G1 hG1 => hPre G1 (List.mem_cons_of_mem _ hG1))
    refine ⟨max n N, fun G1 hG1 => ?_⟩
    rcases List.mem_cons.mp hG1 with rfl | hG1
    · exact ⟨Ds, CheckSYCLType_mono TU n _ (le_max_left _ _) _ _ _ hG⟩
    · obtain ⟨Ds1, h1⟩ := hN G1 hG1
      exact ⟨Ds1, CheckSYCLType_mono TU N _ (le_max_right _ _) _ _ _ h1⟩

/-- C19 as stated fails: a pointer to a variable-length array, the type of
`int (*p)[n]`, is accepted with no diagnostic, whatever the bound on the
depth. -/
theorem CheckSYCLType_nested_vla_counterexample :
    Device.ptrToVlaTy.isVariableArrayType = false
    ∧ stripPointersAndArrays Device.ptrToVlaTy = .Builtin .Int
    ∧ ∀ fuel Loc, CheckSYCLType Device.Types (fuel + 1) Device.ptrToVlaTy Loc
        = some (true, []) := by
  refine ⟨rfl, rfl, fun fuel Loc => rfl⟩

/-- C19 (amended): `CheckSYCLType` returns false for every type that is a
variable-length array, and for every type that below its pointers and arrays
is a defined record with a field whose type it rejects in this way, when the
checks of the fields before that field return true: from some bound on the
depth on, the result is false. -/
theorem CheckSYCLType_rejects_vla (TU : TranslationUnit) (Ty : QualType)
    (h : ReachesVLA TU Ty) :
    ∃ n, ∀ m, n ≤ m → ∀ Loc, ∃ Ds, CheckSYCLType TU m Ty Loc = some (false, Ds) := by
  induction h with
  | vla Ty hV =>
    refine ⟨1, fun m hm Loc => ?_⟩
    obtain ⟨k, rfl⟩ : ∃ k, m = k + 1 := ⟨m - 1, by omega⟩
    exact ⟨[⟨Loc, .err_vla_unsupported⟩], by rw [CheckSYCLType]; simp [hV]⟩
  | field Ty CRD Pre F Post hV hC hD hFs hPre _ ih =>
    by_cases hP : CRD.isPolymorphic = true
    · refine ⟨1, fun m hm Loc => ?_⟩
      obtain ⟨k, rfl⟩ : ∃ k, m = k + 1 := ⟨m - 1, by omega⟩
      exact ⟨[⟨CRD.Info.Loc, .err_sycl_virtual_types⟩, ⟨Loc, .note_sycl_used_here⟩], by
        rw [CheckSYCLType]; simp [hV, hC, hD, hP]⟩
    have hP : CRD.isPolymorphic = false := by simpa using hP
    obtain ⟨nF, hF⟩ := ih
    obtain ⟨N, hN⟩ := CheckSYCLType_common_bound TU Pre hPre
    refine ⟨max nF N + 1, fun m hm Loc => ?_⟩
    obtain ⟨k, rfl⟩ : ∃ k, m = k + 1 := ⟨m - 1, by omega⟩
    have hk : max nF N ≤ k := by omega
    obtain ⟨DsF, hFk⟩ := hF k (le_trans (le_max_left _ _) hk) F.Loc
    obtain ⟨Ds, hL⟩ := CheckSYCLTypeFields_rejected (CheckSYCLType TU k) Loc F Post DsF
      hFk Pre (fun G hG => by
        obtain ⟨DsG, hG1⟩ := hN G hG
        exact ⟨DsG, CheckSYCLType_mono TU N k (le_trans (le_max_right _ _) hk) _ _ _ hG1⟩)
    refine ⟨Ds, ?_⟩
    rw [CheckSYCLType]
    simp only [hV, hC, hD, hP, hFs]
    simpa using hL

theorem CheckSYCLType_rejects_vla_witness :
    ReachesVLA Device.Types Device.vlaStructTy
    ∧ ∃ n, ∀ m, n ≤ m → ∀ Loc, ∃ Ds,
        CheckSYCLType Device.Types m Device.vlaStructTy Loc = some (false, Ds) :=
  have h : ReachesVLA Device.Types Device.vlaStructTy :=
    ReachesVLA.field Device.vlaStructTy Device.vlaStructRD [.mk "a" Device.tInt 0 21]
      (.mk "v" Device.vlaTy 32 22) [] rfl rfl rfl rfl
      (fun G hG => by
        rw [List.mem_singleton] at hG
        subst hG
        exact ⟨1, [], rfl⟩)
      (ReachesVLA.vla _ rfl)
  ⟨h, CheckSYCLType_rejects_vla Device.Types Device.vlaStructTy h⟩

theorem CheckSYCLType_nodePtr_never_returns :
    ∀ (fuel : Nat) (Loc : SourceLocation),
      CheckSYCLType Device.Types fuel Device.nodePtrTy Loc = none
  | 0, _ => rfl
  | fuel + 1, Loc => by
    have ih := CheckSYCLType_nodePtr_never_returns fuel 8
    rw [CheckSYCLType]
    have h1 : Device.nodePtrTy.isVariableArrayType = false := rfl
    have h2 : Device.Types.getAsCXXRecordDecl (stripPointersAndArrays Device.nodePtrTy)
        = some Device.nodeRD := rfl
    have h3 : Device.nodeRD.hasDefinition = true := rfl
    have h4 : Device.nodeRD.isPolymorphic = false := rfl
    have h5 : Device.nodeRD.fields
        = [.mk "Next" Device.nodePtrTy 0 8, .mk "P" Device.polyTy 64 9] := rfl
    simp only [h1, h2, h3, h4, h5]
    simp [CheckSYCLTypeFields, FieldDecl.getType, FieldDecl.Loc, ih]

/-- C20 at `struct Node { Node *Next; Poly P; }`: the record is defined and not
polymorphic, its field `P` has the type of the defined polymorphic record
`Poly`, which alone is rejected, and the check of `Node` returns no result
under any bound on the depth: the check of the field `Next` leads back to
`Node` before the field `P` is looked at. -/
theorem CheckSYCLType_polymorphic_field_not_reached :
    Device.nodeRD.hasDefinition = true
    ∧ Device.nodeRD.isPolymorphic = false
    ∧ Device.nodeRD.fields.map FieldDecl.Name = ["Next", "P"]
    ∧ Device.polyRD.hasDefinition = true
    ∧ Device.polyRD.isPolymorphic = true
    ∧ (∀ fuel Loc, CheckSYCLType Device.Types (fuel + 1) Device.polyTy Loc
        = some (false, [⟨5, .err_sycl_virtual_types⟩, ⟨Loc, .note_sycl_used_here⟩]))
    ∧ (∀ fuel Loc, CheckSYCLType Device.Types fuel Device.nodeTy Loc = none) := by
  refine ⟨rfl, rfl, rfl, rfl, rfl, fun _ _ => rfl, fun fuel Loc => ?_⟩
  cases fuel with
  | zero => rfl
  | succ fuel =>
    rw [CheckSYCLType]
    have h1 : Device.nodeTy.isVariableArrayType = false := rfl
    have h2 : Device.Types.getAsCXXRecordDecl (stripPointersAndArrays Device.nodeTy)
        = some Device.nodeRD := rfl
    have h3 : Device.nodeRD.hasDefinition = true := rfl
    have h4 : Device.nodeRD.isPolymorphic = false := rfl
    have h5 : Device.nodeRD.fields
        = [.mk "Next" Device.nodePtrTy 0 8, .mk "P" Device.polyTy 64 9] := rfl
    simp only [h1, h2, h3, h4, h5]
    simp [CheckSYCLTypeFields, FieldDecl.getType, FieldDecl.Loc,
      CheckSYCLType_nodePtr_never_returns]


/-! ### `IsRecursive` -/

theorem lookup_mem_keys {β : Type} :
    ∀ (L : List (Nat × β)) (k : Nat) (v : β), L.lookup k = some v → k ∈ L.map Prod.fst
  | [], _, _, h => by simp [List.lookup] at h
  | (k1, v1) :: L, k, v, h => by
    rw [List.lookup] at h
    by_cases hk : k = k1
    · simp [hk]
    · have : (k == k1) = false := by simpa using hk
      rw [this] at h
      simp only [] at h
      exact List.mem_cons_of_mem _ (lookup_mem_keys L k v h)

theorem IsRecursiveCallees_total (Rec : Nat → CheckResult) (FD : FunctionDecl)
    (hRec : ∀ X, ∃ R, Rec X = some R) :
    ∀ Cs : List Nat, ∃ R, IsRecursiveCallees Rec FD Cs = some R
  | [] => ⟨_, rfl⟩
  | C :: Cs => by
    unfold IsRecursiveCallees
    split
    · exact ⟨_, rfl⟩
    · obtain ⟨⟨B, Ds⟩, hR⟩ := hRec C
      rw [hR]
      cases B with
      | true => exact ⟨_, rfl⟩
      | false =>
        obtain ⟨R1, h1⟩ := IsRecursiveCallees_total Rec FD hRec Cs
        simp only [h1]
        exact ⟨_, rfl⟩

theorem IsRecursiveCallees_sound (Rec : Nat → CheckResult) (FD : FunctionDecl) :
    ∀ (Cs : List Nat) (Ds : List Diagnostic),
      IsRecursiveCallees Rec FD Cs = some (true, Ds) →
      FD.ID ∈ Cs ∨ ∃ X ∈ Cs, ∃ Ds1, Rec X = some (true, Ds1)
  | [], _, h => by simp [IsRecursiveCallees] at h
  | C :: Cs, Ds, h => by
    unfold IsRecursiveCallees at h
    split at h
    · rename_i hC; exact Or.inl (by simp [hC])
    · cases hR : Rec C with
      | none => rw [hR] at h; simp at h
      | some R =>
        obtain ⟨B, Ds1⟩ := R
        rw [hR] at h
        cases B with
        | true => exact Or.inr ⟨C, List.mem_cons_self _ _, Ds1, hR⟩
        | false =>
          simp only [] at h
          cases hRest : IsRecursiveCallees Rec FD Cs with
          | none => rw [hRest] at h; simp at h
          | some R1 =>
            obtain ⟨B1, Ds2⟩ := R1
            rw [hRest] at h
            simp only [Option.some.injEq, Prod.mk.injEq] at h
            obtain ⟨hB, _⟩ := h
            subst hB
            rcases IsRecursiveCallees_sound Rec FD Cs Ds2 hRest with h1 | ⟨X, hX, h2⟩
            · exact Or.inl (List.mem_cons_of_mem _ h1)
            · exact Or.inr ⟨X, List.mem_cons_of_mem _ hX, h2⟩

theorem IsRecursiveCallees_complete (Rec : Nat → CheckResult) (FD : FunctionDecl) :
    ∀ (Cs : List Nat) (R : Bool) (Ds : List Diagnostic),
      IsRecursiveCallees Rec FD Cs = some (R, Ds) →
      (FD.ID ∈ Cs ∨ ∃ X ∈ Cs, ∀ R1 Ds1, Rec X = some (R1, Ds1) → R1 = true) →
      R = true
  | [], _, _, _, hex => by simp at hex
  | C :: Cs, R, Ds, h, hex => by
    unfold IsRecursiveCallees at h
    split at h
    · simp only [Option.some.injEq, Prod.mk.injEq] at h; exact h.1.symm
    · rename_i hC
      cases hR : Rec C with
      | none => rw [hR] at h; simp at h
      | some R0 =>
        obtain ⟨B, Ds1⟩ := R0
        rw [hR] at h
        cases B with
        | true =>
          simp only [Option.some.injEq, Prod.mk.injEq] at h; exact h.1.symm
        | false =>
          simp only [] at h
          cases hRest : IsRecursiveCallees Rec FD Cs with
          | none => rw [hRest] at h; simp at h
          | some R1 =>
            obtain ⟨B1, Ds2⟩ := R1
            rw [hRest] at h
            simp only [Option.some.injEq, Prod.mk.injEq] at h
            obtain ⟨hB, _⟩ := h
            subst hB
            refine IsRecursiveCallees_complete Rec FD Cs B1 Ds2 hRest ?_
            rcases hex with h1 | ⟨X, hX, h2⟩
            · rcases List.mem_cons.mp h1 with h1 | h1
              · exact absurd h1.symm hC
              · exact Or.inl h1
            · rcases List.mem_cons.mp hX with rfl | hX
              · exact absurd (h2 _ _ hR) (by simp)
              · exact Or.inr ⟨X, hX, h2⟩

theorem IsRecursiveCallees_diags (Rec : Nat → CheckResult) (FD : FunctionDecl)
    (hRec : ∀ X R Ds, Rec X = some (R, Ds) → Ds = if R then [recursionNote FD] else []) :
    ∀ (Cs : List Nat) (R : Bool) (Ds : List Diagnostic),
      IsRecursiveCallees Rec FD Cs = some (R, Ds) →
      Ds = if R then [recursionNote FD] else []
  | [], R, Ds, h => by
    simp only [IsRecursiveCallees, Option.some.injEq, Prod.mk.injEq] at h
    obtain ⟨rfl, rfl⟩ := h
    rfl
  | C :: Cs, R, Ds, h => by
    unfold IsRecursiveCallees at h
    split at h
    · simp only [Option.some.injEq, Prod.mk.injEq] at h
      obtain ⟨rfl, rfl⟩ := h
      rfl
    · cases hR : Rec C with
      | none => rw [hR] at h; simp at h
      | some R0 =>
        obtain ⟨B, Ds1⟩ := R0
        rw [hR] at h
        have hD := hRec _ _ _ hR
        cases B with
        | true =>
          simp only [Option.some.injEq, Prod.mk.injEq] at h
          obtain ⟨rfl, rfl⟩ := h
          exact hD
        | false =>
          simp only [] at h
          cases hRest : IsRecursiveCallees Rec FD Cs with
          | none => rw [hRest] at h; simp at h
          | some R1 =>
            obtain ⟨B1, Ds2⟩ := R1
            rw [hRest] at h
            simp only [Option.some.injEq, Prod.mk.injEq] at h
            obtain ⟨rfl, rfl⟩ := h
            have h2 := IsRecursiveCallees_diags Rec FD hRec Cs _ _ hRest
            simp only [Bool.false_eq_true, if_false] at hD
            rw [hD, h2]
            rfl

/-- The diagnostics of a search: the one note where `FD` was reached, and
nothing when it was not. -/
theorem IsRecursive_diags (TU : TranslationUnit) (FD : FunctionDecl) :
    ∀ (fuel C : Nat) (V : List Nat) (R : Bool) (Ds : List Diagnostic),
      IsRecursive TU fuel C FD V = some (R, Ds) →
      Ds = if R then [recursionNote FD] else []
  | 0, _, _, _, _, h => by simp [IsRecursive] at h
  | fuel + 1, C, V, R, Ds, h => by
    rw [IsRecursive] at h
    split at h
    · simp only [Option.some.injEq, Prod.mk.injEq] at h
      obtain ⟨rfl, rfl⟩ := h
      rfl
    · cases hN : TU.getNode C with
      | none =>
        rw [hN] at h
        simp only [Option.some.injEq, Prod.mk.injEq] at h
        obtain ⟨rfl, rfl⟩ := h
        rfl
      | some Cs =>
        rw [hN] at h
        exact IsRecursiveCallees_diags _ FD
          (fun X R1 Ds1 h1 => IsRecursive_diags TU FD fuel X (C :: V) R1 Ds1 h1) Cs R Ds h

/-- The search returns as soon as the bound on the depth exceeds the number of
nodes of the call graph that are not in the visited set. -/
theorem IsRecursive_total (TU : TranslationUnit) (FD : FunctionDecl) :
    ∀ (fuel C : Nat) (V : List Nat),
      ((TU.CallGraph.map Prod.fst).toFinset \ V.toFinset).card < fuel →
      ∃ R, IsRecursive TU fuel C FD V = some R
  | 0, _, _, h => by omega
  | fuel + 1, C, V, h => by
    rw [IsRecursive]
    split
    · exact ⟨_, rfl⟩
    · rename_i hCV
      cases hN : TU.getNode C with
      | none => exact ⟨_, rfl⟩
      | some Cs =>
        simp only []
        apply IsRecursiveCallees_total
        intro X
        apply IsRecursive_total TU FD fuel X (C :: V)
        have hK : C ∈ (TU.CallGraph.map Prod.fst).toFinset \ V.toFinset := by
          rw [Finset.mem_sdiff]
          exact ⟨List.mem_toFinset.mpr (lookup_mem_keys _ _ _ hN),
            fun hc => hCV (List.mem_toFinset.mp hc)⟩
        have hlt := Finset.card_erase_lt_of_mem hK
        have heq : (TU.CallGraph.map Prod.fst).toFinset \ (C :: V).toFinset
            = ((TU.CallGraph.map Prod.fst).toFinset \ V.toFinset).erase C := by
          rw [List.toFinset_cons, Finset.sdiff_insert]
        rw [heq]
        omega

theorem IsRecursive_sound (TU : TranslationUnit) (FD : FunctionDecl) :
    ∀ (fuel C : Nat) (V : List Nat) (Ds : List Diagnostic),
      IsRecursive TU fuel C FD V = some (true, Ds) →
      Relation.TransGen (Calls TU) C FD.ID
  | 0, _, _, _, h => by simp [IsRecursive] at h
  | fuel + 1, C, V, Ds, h => by
    rw [IsRecursive] at h
    split at h
    · simp at h
    · cases hN : TU.getNode C with
      | none => rw [hN] at h; simp at h
      | some Cs =>
        rw [hN] at h
        rcases IsRecursiveCallees_sound _ FD Cs Ds h with h1 | ⟨X, hX, Ds1, h2⟩
        · exact Relation.TransGen.single ⟨Cs, hN, h1⟩
        · exact Relation.TransGen.head ⟨Cs, hN, hX⟩
            (IsRecursive_sound TU FD fuel X (C :: V) Ds1 h2)

/-- A chain that avoids `V` either avoids `C` as well or passes through `C`,
from where a chain that is not longer goes on. -/
theorem CallPath_split (TU : TranslationUnit) (FD : Nat) (V : List Nat) (C : Nat) :
    ∀ (X n : Nat), CallPath TU FD V X n →
      CallPath TU FD (C :: V) X n ∨ ∃ k, k ≤ n ∧ CallPath TU FD V C k := by
  intro X n h
  induction h with
  | last X hX hc =>
    by_cases hXC : X = C
    · subst hXC; exact Or.inr ⟨1, le_refl _, .last X hX hc⟩
    · exact Or.inl (.last X (by simp [hXC, hX]) hc)
  | cons X Y n hX hc hp ih =>
    by_cases hXC : X = C
    · subst hXC; exact Or.inr ⟨n + 1, le_refl _, .cons X Y n hX hc hp⟩
    · rcases ih with ih | ⟨k, hk, ih⟩
      · exact Or.inl (.cons X Y n (by simp [hXC, hX]) hc ih)
      · exact Or.inr ⟨k, by omega, ih⟩

theorem IsRecursive_complete (TU : TranslationUnit) (FD : FunctionDecl) :
    ∀ (n C : Nat) (V : List Nat), CallPath TU FD.ID V C n →
      ∀ (fuel : Nat) (R : Bool) (Ds : List Diagnostic),
        IsRecursive TU fuel C FD V = some (R, Ds) → R = true := by
  intro n
  induction n using Nat.strong_induction_on with
  | _ n ih =>
    intro C V hp fuel R Ds h
    cases fuel with
    | zero => simp [IsRecursive] at h
    | succ fuel =>
      have hCV : C ∉ V := by cases hp <;> assumption
      rw [IsRecursive] at h
      simp only [hCV, if_false] at h
      cases hp with
      | last _ _ hc =>
        obtain ⟨Cs, hN, hFD⟩ := hc
        rw [hN] at h
        exact IsRecursiveCallees_complete _ FD Cs R Ds h (Or.inl hFD)
      | cons _ X m _ hc hp1 =>
        obtain ⟨Cs, hN, hX⟩ := hc
        rw [hN] at h
        rcases CallPath_split TU FD.ID V C X m hp1 with h1 | ⟨k, hk, h1⟩
        · exact IsRecursiveCallees_complete _ FD Cs R Ds h
            (Or.inr ⟨X, hX, fun R1 Ds1 hR1 =>
              ih m (by omega) X (C :: V) h1 fuel R1 Ds1 hR1⟩)
        · have h0 : IsRecursive TU (fuel + 1) C FD V = some (R, Ds) := by
            rw [IsRecursive]
            simp only [hCV, if_false, hN]
            exact h
          exact ih k (by omega) C V h1 (fuel + 1) R Ds h0

theorem CallPath_of_transGen (TU : TranslationUnit) (FD C : Nat)
    (h : Relation.TransGen (Calls TU) C FD) : ∃ n, CallPath TU FD [] C n := by
  induction h using Relation.TransGen.head_induction_on with
  | base hc => exact ⟨1, .last _ (by simp) hc⟩
  | ih hc _ ih =>
    obtain ⟨n, hn⟩ := ih
    exact ⟨n + 1, .cons _ _ n (by simp) hc hn⟩

/-- C13: on every call graph and for every function `F`, the search
`IsRecursive(F, F, {})` returns, and it returns true exactly when a non-empty
chain of direct calls leads from `F` back to `F`. -/
theorem IsRecursive_iff_call_chain (TU : TranslationUnit) (F : FunctionDecl) :
    ∃ R Ds, IsRecursive TU (IsRecursiveDepth TU) F.ID F [] = some (R, Ds)
      ∧ (R = true ↔ Relation.TransGen (Calls TU) F.ID F.ID) := by
  obtain ⟨⟨R, Ds⟩, h⟩ := IsRecursive_total TU F (IsRecursiveDepth TU) F.ID [] (by
    have := List.toFinset_card_le (TU.CallGraph.map Prod.fst)
    simp only [List.toFinset_nil, Finset.sdiff_empty, IsRecursiveDepth]
    simp only [List.length_map] at this
    omega)
  refine ⟨R, Ds, h, ?_, ?_⟩
  · intro hR
    subst hR
    exact IsRecursive_sound TU F _ _ _ _ h
  · intro hT
    obtain ⟨n, hn⟩ := CallPath_of_transGen TU F.ID F.ID hT
    exact IsRecursive_complete TU F n F.ID [] hn _ R Ds h

/-- The two examples of C13: with `A` calling `B` and `B` calling `A` the
search from `A` returns true, and with `A` calling `B` and `B` calling `C` it
returns false. -/
theorem IsRecursive_examples :
    IsRecursive Device.Cycle2 (IsRecursiveDepth Device.Cycle2) 1 Device.fnA []
      = some (true, [recursionNote Device.fnA])
    ∧ IsRecursive Device.Line3 (IsRecursiveDepth Device.Line3) 1 Device.fnA []
      = some (false, []) := by
  constructor <;> rfl


/-! ### The visitors -/

theorem restrictions_append (A B : List Diagnostic) :
    restrictions (A ++ B) = restrictions A ++ restrictions B := by
  simp [restrictions, List.filterMap_append]

theorem CheckSYCLTypeFields_restrictions
    (Check : QualType → SourceLocation → CheckResult)
    (h : ∀ Ty Loc R Ds, Check Ty Loc = some (R, Ds) → restrictions Ds = [])
    (Loc : SourceLocation) :
    ∀ (Fs : List FieldDecl) (R : Bool) (Ds : List Diagnostic),
      CheckSYCLTypeFields Check Loc Fs = some (R, Ds) → restrictions Ds = []
  | [], R, Ds, hR => by
    simp only [CheckSYCLTypeFields, Option.some.injEq, Prod.mk.injEq] at hR
    rw [← hR.2]; rfl
  | F :: Fs, R, Ds, hR => by
    unfold CheckSYCLTypeFields at hR
    cases hF : Check F.getType F.Loc with
    | none => rw [hF] at hR; simp at hR
    | some RF =>
      obtain ⟨B, DsF⟩ := RF
      rw [hF] at hR
      have h1 := h _ _ _ _ hF
      cases B with
      | false =>
        simp only [Option.some.injEq, Prod.mk.injEq] at hR
        rw [← hR.2, restrictions_append, h1]; rfl
      | true =>
        simp only [] at hR
        cases hRest : CheckSYCLTypeFields Check Loc Fs with
        | none => rw [hRest] at hR; simp at hR
        | some RR =>
          obtain ⟨B1, Ds1⟩ := RR
          rw [hRest] at hR
          simp only [Option.some.injEq, Prod.mk.injEq] at hR
          rw [← hR.2, restrictions_append, h1,
            CheckSYCLTypeFields_restrictions Check h Loc Fs B1 Ds1 hRest]; rfl

theorem CheckSYCLTypeParams_restrictions
    (Check : QualType → SourceLocation → CheckResult)
    (h : ∀ Ty Loc R Ds, Check Ty Loc = some (R, Ds) → restrictions Ds = [])
    (Loc : SourceLocation) :
    ∀ (Ps : List QualType) (R : Bool) (Ds : List Diagnostic),
      CheckSYCLTypeParams Check Loc Ps = some (R, Ds) → restrictions Ds = []
  | [], R, Ds, hR => by
    simp only [CheckSYCLTypeParams, Option.some.injEq, Prod.mk.injEq] at hR
    rw [← hR.2]; rfl
  | P :: Ps, R, Ds, hR => by
    unfold CheckSYCLTypeParams at hR
    cases hF : Check P Loc with
    | none => rw [hF] at hR; simp at hR
    | some RF =>
      obtain ⟨B, DsF⟩ := RF
      rw [hF] at hR
      have h1 := h _ _ _ _ hF
      cases B with
      | false =>
        simp only [Option.some.injEq, Prod.mk.injEq] at hR
        rw [← hR.2, h1]
      | true =>
        simp only [] at hR
        cases hRest : CheckSYCLTypeParams Check Loc Ps with
        | none => rw [hRest] at hR; simp at hR
        | some RR =>
          obtain ⟨B1, Ds1⟩ := RR
          rw [hRest] at hR
          simp only [Option.some.injEq, Prod.mk.injEq] at hR
          rw [← hR.2, restrictions_append, h1,
            CheckSYCLTypeParams_restrictions Check h Loc Ps B1 Ds1 hRest]; rfl

/-- `CheckSYCLType` reports no restriction. -/
theorem CheckSYCLType_restrictions (TU : TranslationUnit) :
    ∀ (n : Nat) (Ty : QualType) (Loc : SourceLocation) (R : Bool) (Ds : List Diagnostic),
      CheckSYCLType TU n Ty Loc = some (R, Ds) → restrictions Ds = []
  | 0, _, _, _, _, h => by simp [CheckSYCLType] at h
  | n + 1, Ty, Loc, R, Ds, h => by
    have ih := CheckSYCLType_restrictions TU n
    rw [CheckSYCLType] at h
    split at h
    · simp only [Option.some.injEq, Prod.mk.injEq] at h
      rw [← h.2]; rfl
    · cases hC : TU.getAsCXXRecordDecl (stripPointersAndArrays Ty) with
      | some CRD =>
        rw [hC] at h
        simp only [] at h
        split at h
        · simp only [Option.some.injEq, Prod.mk.injEq] at h
          rw [← h.2]; rfl
        · split at h
          · simp only [Option.some.injEq, Prod.mk.injEq] at h
            rw [← h.2]; rfl
          · exact CheckSYCLTypeFields_restrictions _ ih Loc _ R Ds h
      | none =>
        rw [hC] at h
        simp only [] at h
        cases hS : stripPointersAndArrays Ty with
        | FunctionProto Result Params =>
          rw [hS] at h
          simp only [] at h
          cases hPs : CheckSYCLTypeParams (CheckSYCLType TU n) Loc Params with
          | none => rw [hPs] at h; simp at h
          | some RP =>
            obtain ⟨B, DsP⟩ := RP
            rw [hPs] at h
            have h1 := CheckSYCLTypeParams_restrictions _ ih Loc _ B DsP hPs
            cases B with
            | false =>
              simp only [Option.some.injEq, Prod.mk.injEq] at h
              rw [← h.2, h1]
            | true =>
              simp only [] at h
              cases hRes : CheckSYCLType TU n Result Loc with
              | none => rw [hRes] at h; simp at h
              | some RR =>
                obtain ⟨B1, Ds1⟩ := RR
                rw [hRes] at h
                simp only [Option.some.injEq, Prod.mk.injEq] at h
                rw [← h.2, restrictions_append, h1, ih _ _ _ _ hRes]; rfl
        | FunctionNoProto Result =>
          rw [hS] at h
          exact ih _ _ _ _ h
        | _ =>
          rw [hS] at h
          simp only [Option.some.injEq, Prod.mk.injEq] at h
          rw [← h.2]; rfl

/-- A call of `CheckSYCLType` from a visitor adds diagnostics that report no
restriction, and changes nothing else. -/
theorem VisitorState.check_eq (St St1 : VisitorState) (TU : TranslationUnit) (fuel : Nat)
    (Ty : QualType) (Loc : SourceLocation) (h : St.check TU fuel Ty Loc = some St1) :
    ∃ Ds, St1 = { St with Diags := St.Diags ++ Ds } ∧ restrictions Ds = [] := by
  unfold VisitorState.check at h
  cases hC : CheckSYCLType TU fuel Ty Loc with
  | none => rw [hC] at h; simp at h
  | some R =>
    obtain ⟨B, Ds⟩ := R
    rw [hC] at h
    simp only [Option.some.injEq] at h
    exact ⟨Ds, h.symm, CheckSYCLType_restrictions TU fuel Ty Loc B Ds hC⟩

/-- When the check of the type of the reference returns, `VisitDeclRefExpr`
returns, and what it adds to the diagnostics reports one restriction,
`KernelGlobalVariable` at the location of the reference, if the declaration
referred to is a variable with global storage whose type with the reference
stripped is not const-qualified, which is no static local variable, no static
data member and no parameter, and no restriction otherwise. -/
theorem VisitDeclRefExpr_reports_global_variable (TU : TranslationUnit) (fuel : Nat)
    (St : VisitorState) (E : Stmt) (VD : ValueDecl) (R : Bool) (Ds : List Diagnostic)
    (hD : E.getDecl = some VD)
    (hC : CheckSYCLType TU fuel E.getType E.Node.BeginLoc = some (R, Ds)) :
    ∃ St1 New, VisitDeclRefExpr TU fuel St E = some St1
      ∧ St1 = { St with Diags := St.Diags ++ New }
      ∧ restrictions New =
          if VD.isVarDecl = true ∧ VD.HasGlobalStorage = true
              ∧ VD.Ty.getNonReferenceType.isConstQualified = false
              ∧ VD.IsStaticLocal = false ∧ VD.IsStaticDataMember = false
              ∧ VD.isParmVarDecl = false
          then [(E.Node.ExprLoc, .KernelGlobalVariable)] else [] := by
  have hR := CheckSYCLType_restrictions TU fuel _ _ R Ds hC
  unfold VisitDeclRefExpr VisitorState.check
  rw [hC, hD]
  simp only []
  by_cases hV : VD.isVarDecl = true
  · by_cases hcond : (!VD.Ty.getNonReferenceType.isConstQualified && VD.HasGlobalStorage
        && !VD.IsStaticLocal && !VD.IsStaticDataMember && !VD.isParmVarDecl) = true
    · refine ⟨VisitorState.Diag { St with Diags := St.Diags ++ Ds } E.Node.ExprLoc
          (.err_sycl_restrict .KernelGlobalVariable),
        Ds ++ [⟨E.Node.ExprLoc, .err_sycl_restrict .KernelGlobalVariable⟩], ?_, ?_, ?_⟩
      · simp only [hV, hcond, if_true]
      · simp [VisitorState.Diag, List.append_assoc]
      · rw [restrictions_append, hR]
        simp only [Bool.and_eq_true, Bool.not_eq_true'] at hcond
        simp [hV, hcond, restrictions]
    · refine ⟨{ St with Diags := St.Diags ++ Ds }, Ds, ?_, rfl, ?_⟩
      · simp only [hV, hcond, if_true]; rfl
      · rw [hR]
        simp only [Bool.and_eq_true, Bool.not_eq_true'] at hcond
        rw [if_neg]
        intro hc
        exact hcond ⟨⟨⟨⟨hc.2.2.1, hc.2.1⟩, hc.2.2.2.1⟩, hc.2.2.2.2.1⟩, hc.2.2.2.2.2⟩
  · refine ⟨{ St with Diags := St.Diags ++ Ds }, Ds, ?_, rfl, ?_⟩
    · simp only [hV]; rfl
    · rw [hR, if_neg]
      intro hc
      exact hV hc.1

theorem VisitDeclRefExpr_reports_global_variable_witness :
    Device.refG.getDecl = some Device.gVar
    ∧ CheckSYCLType Device.Types 1 Device.refG.getType Device.refG.Node.BeginLoc
        = some (true, [])
    ∧ ∃ St1 New, VisitDeclRefExpr Device.Types 1 Device.St0 Device.refG = some St1
        ∧ St1 = { Device.St0 with Diags := Device.St0.Diags ++ New }
        ∧ restrictions New =
            if Device.gVar.isVarDecl = true ∧ Device.gVar.HasGlobalStorage = true
                ∧ Device.gVar.Ty.getNonReferenceType.isConstQualified = false
                ∧ Device.gVar.IsStaticLocal = false
                ∧ Device.gVar.IsStaticDataMember = false
                ∧ Device.gVar.isParmVarDecl = false
            then [(Device.refG.Node.ExprLoc, .KernelGlobalVariable)] else [] :=
  ⟨rfl, rfl,
    VisitDeclRefExpr_reports_global_variable Device.Types 1 Device.St0 Device.refG
      Device.gVar true [] rfl rfl⟩

/-- C16 at the reference `T::counter` to the static data member `counter` of
type `int`: the member access `obj.counter` is reported as
`KernelNonConstStaticDataVariable`, and for the reference written with the
qualified name `VisitDeclRefExpr` reports nothing. -/
theorem VisitDeclRefExpr_static_member_not_reported :
    Device.counterVar.IsStaticDataMember = true
    ∧ Device.counterVar.Ty.getNonReferenceType.isConstQualified = false
    ∧ Device.refCounter.getDecl.map ValueDecl.ID = some 71
    ∧ (VisitMemberExpr Device.St0 Device.memberCounter).Diags
        = [⟨47, .err_sycl_restrict .KernelNonConstStaticDataVariable⟩]
    ∧ (VisitDeclRefExpr Device.Types 1 Device.St0 Device.refCounter).map
        VisitorState.Diags = some [] := by
  refine ⟨rfl, rfl, rfl, rfl, rfl⟩


theorem VisitCallExprArgs_eq (TU : TranslationUnit) (fuel : Nat) :
    ∀ (Args : List Stmt) (St St1 : VisitorState),
      VisitCallExprArgs TU fuel St Args = some St1 →
      ∃ Ds, St1 = { St with Diags := St.Diags ++ Ds } ∧ restrictions Ds = []
  | [], St, St1, h => by
    simp only [VisitCallExprArgs, Option.some.injEq] at h
    exact ⟨[], by simp [← h], rfl⟩
  | Arg :: Rest, St, St1, h => by
    unfold VisitCallExprArgs at h
    cases hA : St.check TU fuel Arg.getType Arg.Node.BeginLoc with
    | none => rw [hA] at h; simp at h
    | some St2 =>
      rw [hA] at h
      obtain ⟨Ds, rfl, hDs⟩ := VisitorState.check_eq St St2 TU fuel _ _ hA
      obtain ⟨Ds1, rfl, hDs1⟩ := VisitCallExprArgs_eq TU fuel Rest _ St1 h
      exact ⟨Ds ++ Ds1, by simp [List.append_assoc], by
        rw [restrictions_append, hDs, hDs1]; rfl⟩

theorem IsRecursive_restrictions (TU : TranslationUnit) (FD : FunctionDecl)
    (fuel C : Nat) (V : List Nat) (R : Bool) (Ds : List Diagnostic)
    (h : IsRecursive TU fuel C FD V = some (R, Ds)) : restrictions Ds = [] := by
  rw [IsRecursive_diags TU FD fuel C V R Ds h]
  cases R <;> rfl

/-- What a run of `VisitCallExpr` that returns has done: `Own` is what the
visit itself adds to the diagnostics before any body is traversed. -/
theorem VisitCallExpr_eq (TU : TranslationUnit)
    (TraverseStmt : VisitorState → Stmt → Option VisitorState) (fuel : Nat)
    (St St1 : VisitorState) (e : Stmt)
    (h : VisitCallExpr TU TraverseStmt fuel St e = some St1) :
    ∃ (Own : List Diagnostic) (Recursive : Bool),
      restrictions Own =
        (match e.getDirectCallee with
         | none => [(e.Node.ExprLoc, .KernelCallFunctionPointer)]
         | some Callee =>
           (if Recursive then [(e.Node.ExprLoc, .KernelCallRecursiveFunction)] else [])
             ++ (if Callee.IsVirtualMethod then
                  [(e.Node.ExprLoc, .KernelCallVirtualFunction)] else []))
      ∧ (e.getDirectCallee = none →
          St1 = { St with Diags := St.Diags ++ Own }
          ∧ VisitCallExpr TU (fun _ _ => none) fuel St e = some St1)
      ∧ (∀ Callee, e.getDirectCallee = some Callee →
          St1 = { St with Diags := St.Diags ++ Own }
          ∨ ∃ Body, TU.getDefinition Callee = some Body
              ∧ St.hasAttr Callee = false
              ∧ markDeviceFunction TraverseStmt { St with Diags := St.Diags ++ Own }
                  Callee Body = some St1) := by
  unfold VisitCallExpr at h
  cases hA : VisitCallExprArgs TU fuel St e.arguments with
  | none => rw [hA] at h; simp at h
  | some StA =>
    rw [hA] at h
    obtain ⟨DsA, rfl, hDsA⟩ := VisitCallExprArgs_eq TU fuel _ St StA hA
    cases hCal : e.getDirectCallee with
    | none =>
      rw [hCal] at h
      simp only [Option.some.injEq] at h
      refine ⟨DsA ++ [⟨e.Node.ExprLoc, .err_sycl_restrict .KernelCallFunctionPointer⟩],
        false, ?_, ?_, ?_⟩
      · rw [restrictions_append, hDsA]; rfl
      · intro _
        refine ⟨?_, ?_⟩
        · rw [← h]; simp [VisitorState.Diag, List.append_assoc]
        · unfold VisitCallExpr
          rw [hA, hCal, ← h]
      · intro Callee hc; simp at hc
    | some Callee =>
      rw [hCal] at h
      simp only [] at h
      cases hRec : IsRecursive TU (IsRecursiveDepth TU) Callee.ID Callee [] with
      | none => rw [hRec] at h; simp at h
      | some RR =>
        obtain ⟨Rec, DsR⟩ := RR
        rw [hRec] at h
        simp only [] at h
        have hDsR := IsRecursive_restrictions TU Callee _ _ _ Rec DsR hRec
        cases hRet : VisitorState.check
            (if Callee.IsVirtualMethod = true then
              VisitorState.Diag
                (if Rec = true then
                  VisitorState.Diag
                    { Diags := St.Diags ++ DsA ++ DsR, DeviceAttrs := St.DeviceAttrs,
                      SyclKernels := St.SyclKernels }
                    e.Node.ExprLoc (.err_sycl_restrict .KernelCallRecursiveFunction)
                else
                  { Diags := St.Diags ++ DsA ++ DsR, DeviceAttrs := St.DeviceAttrs,
                    SyclKernels := St.SyclKernels })
                e.Node.ExprLoc (.err_sycl_restrict .KernelCallVirtualFunction)
            else
              (if Rec = true then
                VisitorState.Diag
                  { Diags := St.Diags ++ DsA ++ DsR, DeviceAttrs := St.DeviceAttrs,
                    SyclKernels := St.SyclKernels }
                  e.Node.ExprLoc (.err_sycl_restrict .KernelCallRecursiveFunction)
              else
                { Diags := St.Diags ++ DsA ++ DsR, DeviceAttrs := St.DeviceAttrs,
                  SyclKernels := St.SyclKernels }))
            TU fuel Callee.ReturnType Callee.Loc with
        | none => rw [hRet] at h; simp at h
        | some St5 =>
          rw [hRet] at h
          simp only [] at h
          obtain ⟨DsT, hSt5, hDsT⟩ := VisitorState.check_eq _ St5 TU fuel _ _ hRet
          refine ⟨DsA ++ DsR
              ++ (if Rec then
                    [⟨e.Node.ExprLoc, .err_sycl_restrict .KernelCallRecursiveFunction⟩]
                  else [])
              ++ (if Callee.IsVirtualMethod then
                    [⟨e.Node.ExprLoc, .err_sycl_restrict .KernelCallVirtualFunction⟩]
                  else [])
              ++ DsT, Rec, ?_, ?_, ?_⟩
          · simp only [restrictions_append, hDsA, hDsR, hDsT]
            cases Rec <;> cases Callee.IsVirtualMethod <;> rfl
          · intro hc; simp at hc
          · intro Callee1 hc
            simp only [Option.some.injEq] at hc
            subst hc
            have hSt5' : St5 = { St with Diags := St.Diags ++ (DsA ++ DsR
                ++ (if Rec then
                      [⟨e.Node.ExprLoc, .err_sycl_restrict .KernelCallRecursiveFunction⟩]
                    else [])
                ++ (if Callee.IsVirtualMethod then
                      [⟨e.Node.ExprLoc, .err_sycl_restrict .KernelCallVirtualFunction⟩]
                    else [])
                ++ DsT) } := by
              rw [hSt5]
              cases Rec <;> cases Callee.IsVirtualMethod <;>
                simp [VisitorState.Diag, List.append_assoc]
            cases hDef : TU.getDefinition Callee with
            | none =>
              rw [hDef] at h
              simp only [Option.some.injEq] at h
              exact Or.inl (by rw [← h, hSt5'])
            | some Body =>
              rw [hDef] at h
              simp only [] at h
              by_cases hAttr : St5.hasAttr Callee = true
              · simp only [hAttr, Bool.not_true, Bool.false_eq_true, if_false,
                  Option.some.injEq] at h
                exact Or.inl (by rw [← h, hSt5'])
              · have hAttr1 : St5.hasAttr Callee = false := by simpa using hAttr
                simp only [hAttr1, Bool.not_false, if_true] at h
                refine Or.inr ⟨Body, rfl, ?_, ?_⟩
                · rw [hSt5'] at hAttr1; exact hAttr1
                · rw [← hSt5']; exact h

theorem VisitCallExprArgs_returns (TU : TranslationUnit) (fuel : Nat) :
    ∀ (Args : List Stmt) (St : VisitorState),
      (∀ Arg ∈ Args, ∃ R, CheckSYCLType TU fuel Arg.getType Arg.Node.BeginLoc = some R) →
      ∃ St1, VisitCallExprArgs TU fuel St Args = some St1
  | [], St, _ => ⟨St, rfl⟩
  | Arg :: Rest, St, h => by
    obtain ⟨⟨B, Ds⟩, hA⟩ := h Arg (List.mem_cons_self _ _)
    obtain ⟨St1, h1⟩ := VisitCallExprArgs_returns TU fuel Rest
      { St with Diags := St.Diags ++ Ds } (fun A hA1 => h A (List.mem_cons_of_mem _ hA1))
    refine ⟨St1, ?_⟩
    rw [VisitCallExprArgs]
    simp only [VisitorState.check, hA]
    exact h1

theorem markDeviceFunction_returns
    (TraverseStmt : VisitorState → Stmt → Option VisitorState) (St : VisitorState)
    (Def : FunctionDecl) (Body : Option Stmt)
    (h : ∀ B, Body = some B → ∀ S, ∃ S1, TraverseStmt S B = some S1) :
    ∃ St1, markDeviceFunction TraverseStmt St Def Body = some St1 := by
  unfold markDeviceFunction
  cases Body with
  | none => exact ⟨_, rfl⟩
  | some B =>
    obtain ⟨S1, hS1⟩ := h B rfl { St with DeviceAttrs := St.DeviceAttrs ++ [Def.ID] }
    simp only [hS1]
    exact ⟨_, rfl⟩

/-- The search for recursion that `VisitCallExpr` starts returns. -/
theorem IsRecursive_returns (TU : TranslationUnit) (F : FunctionDecl) :
    ∃ R, IsRecursive TU (IsRecursiveDepth TU) F.ID F [] = some R :=
  IsRecursive_total TU F (IsRecursiveDepth TU) F.ID [] (by
    have := List.toFinset_card_le (TU.CallGraph.map Prod.fst)
    simp only [List.toFinset_nil, Finset.sdiff_empty, IsRecursiveDepth]
    simp only [List.length_map] at this
    omega)

theorem VisitCallExpr_mark_returns (TU : TranslationUnit)
    (TraverseStmt : VisitorState → Stmt → Option VisitorState) (Callee : FunctionDecl)
    (S5 : VisitorState)
    (h : ∀ B, TU.getDefinition Callee = some (some B) →
      ∀ S, ∃ S1, TraverseStmt S B = some S1) :
    ∃ St1,
      (match TU.getDefinition Callee with
       | some Body =>
         if !S5.hasAttr Callee then markDeviceFunction TraverseStmt S5 Callee Body
         else some S5
       | none => some S5) = some St1 := by
  cases hDef : TU.getDefinition Callee with
  | none => exact ⟨_, rfl⟩
  | some Body =>
    simp only []
    by_cases hA : S5.hasAttr Callee = true
    · simp only [hA, Bool.not_true, Bool.false_eq_true, if_false]
      exact ⟨_, rfl⟩
    · have hA1 : S5.hasAttr Callee = false := by simpa using hA
      simp only [hA1, Bool.not_false, if_true]
      exact markDeviceFunction_returns TraverseStmt S5 Callee Body
        (fun B hB S => h B (by rw [hDef, hB]) S)

theorem VisitCallExpr_returns (TU : TranslationUnit)
    (TraverseStmt : VisitorState → Stmt → Option VisitorState) (fuel : Nat)
    (St : VisitorState) (e : Stmt)
    (hArgs : ∀ Arg ∈ e.arguments,
      ∃ R, CheckSYCLType TU fuel Arg.getType Arg.Node.BeginLoc = some R)
    (hRet : ∀ Callee, e.getDirectCallee = some Callee →
      ∃ R, CheckSYCLType TU fuel Callee.ReturnType Callee.Loc = some R)
    (hBody : ∀ Callee B, e.getDirectCallee = some Callee →
      TU.getDefinition Callee = some (some B) → ∀ S, ∃ S1, TraverseStmt S B = some S1) :
    ∃ St1, VisitCallExpr TU TraverseStmt fuel St e = some St1 := by
  obtain ⟨StA, hA⟩ := VisitCallExprArgs_returns TU fuel e.arguments St hArgs
  unfold VisitCallExpr
  rw [hA]
  cases hCal : e.getDirectCallee with
  | none => exact ⟨_, rfl⟩
  | some Callee =>
    simp only []
    obtain ⟨⟨Rec, DsR⟩, hRec⟩ := IsRecursive_returns TU Callee
    rw [hRec]
    simp only []
    obtain ⟨⟨BR, DsT⟩, hT⟩ := hRet Callee hCal
    simp only [VisitorState.check, hT]
    exact VisitCallExpr_mark_returns TU TraverseStmt Callee _
      (fun B hB S => hBody Callee B hCal hB S)

/-- When the checks of the types of the arguments and of the result type
of the callee return, and the traversal of the body of the callee returns,
`VisitCallExpr` returns. What the visit itself adds to the diagnostics,
before any body is traversed, reports `KernelCallFunctionPointer` at the
call, and nothing else, when the call has no direct callee, and when it has
one it reports `KernelCallVirtualFunction` at the call exactly if the callee
is a virtual method (after `KernelCallRecursiveFunction` if the search for
recursion returned true). Without a direct callee the visit ends there: no
function is marked or registered, and the result is the same under a
traversal that never returns. With a direct callee the visit ends there too,
or goes on to mark the definition of the callee, which was not marked, and to
traverse its body. -/
theorem VisitCallExpr_reports (TU : TranslationUnit)
    (TraverseStmt : VisitorState → Stmt → Option VisitorState) (fuel : Nat)
    (St : VisitorState) (e : Stmt)
    (hArgs : ∀ Arg ∈ e.arguments,
      ∃ R, CheckSYCLType TU fuel Arg.getType Arg.Node.BeginLoc = some R)
    (hRet : ∀ Callee, e.getDirectCallee = some Callee →
      ∃ R, CheckSYCLType TU fuel Callee.ReturnType Callee.Loc = some R)
    (hBody : ∀ Callee B, e.getDirectCallee = some Callee →
      TU.getDefinition Callee = some (some B) → ∀ S, ∃ S1, TraverseStmt S B = some S1) :
    ∃ (St1 : VisitorState) (Own : List Diagnostic) (Recursive : Bool),
      VisitCallExpr TU TraverseStmt fuel St e = some St1
      ∧ restrictions Own =
        (match e.getDirectCallee with
         | none => [(e.Node.ExprLoc, .KernelCallFunctionPointer)]
         | some Callee =>
           (if Recursive then [(e.Node.ExprLoc, .KernelCallRecursiveFunction)] else [])
             ++ (if Callee.IsVirtualMethod then
                  [(e.Node.ExprLoc, .KernelCallVirtualFunction)] else []))
      ∧ (e.getDirectCallee = none →
          St1 = { St with Diags := St.Diags ++ Own }
          ∧ VisitCallExpr TU (fun _ _ => none) fuel St e = some St1)
      ∧ (∀ Callee, e.getDirectCallee = some Callee →
          St1 = { St with Diags := St.Diags ++ Own }
          ∨ ∃ Body, TU.getDefinition Callee = some Body
              ∧ St.hasAttr Callee = false
              ∧ markDeviceFunction TraverseStmt { St with Diags := St.Diags ++ Own }
                  Callee Body = some St1) := by
  obtain ⟨St1, h⟩ := VisitCallExpr_returns TU TraverseStmt fuel St e hArgs hRet hBody
  obtain ⟨Own, Recursive, h1, h2, h3⟩ := VisitCallExpr_eq TU TraverseStmt fuel St St1 e h
  exact ⟨St1, Own, Recursive, h, h1, h2, h3⟩

theorem VisitCallExpr_reports_witness :
    (∀ Arg ∈ Device.callV.arguments,
      ∃ R, CheckSYCLType Device.Cycle3 1 Arg.getType Arg.Node.BeginLoc = some R)
    ∧ (∀ Callee, Device.callV.getDirectCallee = some Callee →
      ∃ R, CheckSYCLType Device.Cycle3 1 Callee.ReturnType Callee.Loc = some R)
    ∧ ∃ (St1 : VisitorState) (Own : List Diagnostic) (Recursive : Bool),
      VisitCallExpr Device.Cycle3 Device.skip 1 Device.St0 Device.callV = some St1
      ∧ restrictions Own =
        (match Device.callV.getDirectCallee with
         | none => [(Device.callV.Node.ExprLoc, .KernelCallFunctionPointer)]
         | some Callee =>
           (if Recursive then
              [(Device.callV.Node.ExprLoc, .KernelCallRecursiveFunction)] else [])
             ++ (if Callee.IsVirtualMethod then
                  [(Device.callV.Node.ExprLoc, .KernelCallVirtualFunction)] else []))
      ∧ (Device.callV.getDirectCallee = none →
          St1 = { Device.St0 with Diags := Device.St0.Diags ++ Own }
          ∧ VisitCallExpr Device.Cycle3 (fun _ _ => none) 1 Device.St0 Device.callV
            = some St1)
      ∧ (∀ Callee, Device.callV.getDirectCallee = some Callee →
          St1 = { Device.St0 with Diags := Device.St0.Diags ++ Own }
          ∨ ∃ Body, Device.Cycle3.getDefinition Callee = some Body
              ∧ Device.St0.hasAttr Callee = false
              ∧ markDeviceFunction Device.skip
                  { Device.St0 with Diags := Device.St0.Diags ++ Own } Callee Body
                = some St1) :=
  have hArgs : ∀ Arg ∈ Device.callV.arguments,
      ∃ R, CheckSYCLType Device.Cycle3 1 Arg.getType Arg.Node.BeginLoc = some R :=
    fun _ hA => absurd hA (by simp [Device.callV, Stmt.arguments, Stmt.Children])
  have hRet : ∀ Callee, Device.callV.getDirectCallee = some Callee →
      ∃ R, CheckSYCLType Device.Cycle3 1 Callee.ReturnType Callee.Loc = some R :=
    fun Callee hC => by
      have hE : Callee = Device.fnV := (Option.some.inj hC).symm
      subst hE
      exact ⟨(true, []), rfl⟩
  ⟨hArgs, hRet,
    VisitCallExpr_reports Device.Cycle3 Device.skip 1 Device.St0 Device.callV hArgs hRet
      (fun _ _ _ _ S => ⟨S, rfl⟩)⟩

/-- The visit of a call through a pointer to a function, and of a call of a
function that is not virtual. -/
theorem VisitCallExpr_examples :
    (VisitCallExpr Device.Cycle3 Device.skip 1 Device.St0 Device.callPtr).map
        VisitorState.Diags
      = some [⟨53, .err_sycl_restrict .KernelCallFunctionPointer⟩]
    ∧ (VisitCallExpr Device.Line3 Device.skip 1 Device.St0 Device.callA).map
        VisitorState.Diags = some [] := by
  constructor <;> rfl

/-- C14 at the cycle `A` calls `B`, `B` calls `C`, `C` calls `A`: the search
from `A`, which closes the cycle three calls deep, emits the one note at the
declaration of `A`, and the visit of a call of `A` adds the error at the call,
two diagnostics for a cycle through three functions. -/
theorem IsRecursive_one_note_for_cycle_of_three :
    IsRecursive Device.Cycle3 (IsRecursiveDepth Device.Cycle3) 1 Device.fnA []
      = some (true, [⟨100,
          .note_sycl_recursive_function_declared_here .KernelCallRecursiveFunction⟩])
    ∧ (VisitCallExpr Device.Cycle3 Device.skip 1 Device.St0 Device.callA).map
        VisitorState.Diags
      = some [⟨100,
          .note_sycl_recursive_function_declared_here .KernelCallRecursiveFunction⟩,
        ⟨51, .err_sycl_restrict .KernelCallRecursiveFunction⟩] := by
  constructor <;> rfl

/-- C18: for a new-expression with the operator `FD`, `VisitCXXNewExpr` reports
`KernelAllocateStorage` at the expression, and does nothing else, when `FD`
is a replaceable global allocation function. For any other operator it adds
no diagnostic of its own: when the operator has a definition that is not
marked it marks the definition, traverses the body from there and registers
the definition, and otherwise it leaves the state as it is. -/
theorem VisitCXXNewExpr_reports (TU : TranslationUnit)
    (TraverseStmt : VisitorState → Stmt → Option VisitorState)
    (St : VisitorState) (E : Stmt) (FD : FunctionDecl)
    (hN : E.getOperatorNew = some FD) :
    (FD.IsReplaceableGlobalAllocationFunction = true →
      VisitCXXNewExpr TU TraverseStmt St E
        = some { St with Diags := St.Diags
            ++ [⟨E.Node.ExprLoc, .err_sycl_restrict .KernelAllocateStorage⟩] })
    ∧ (FD.IsReplaceableGlobalAllocationFunction = false →
      VisitCXXNewExpr TU TraverseStmt St E =
        match TU.getDefinition FD with
        | none => some St
        | some Body =>
          if St.DeviceAttrs.contains FD.ID then some St
          else
            (match Body with
             | none => some { St with DeviceAttrs := St.DeviceAttrs ++ [FD.ID] }
             | some B =>
               TraverseStmt { St with DeviceAttrs := St.DeviceAttrs ++ [FD.ID] } B).map
              fun St2 : VisitorState =>
                { St2 with SyclKernels := St2.SyclKernels ++ [FD.ID] }) := by
  unfold VisitCXXNewExpr
  rw [hN]
  constructor
  · intro hR
    simp [hR, VisitorState.Diag]
  · intro hR
    simp only [hR, Bool.false_eq_true, if_false]
    cases hDef : TU.getDefinition FD with
    | none => rfl
    | some Body =>
      simp only [VisitorState.hasAttr]
      by_cases hA : St.DeviceAttrs.contains FD.ID = true
      · simp only [hA, Bool.not_true, Bool.false_eq_true, if_false, if_true]
      · have hA1 : St.DeviceAttrs.contains FD.ID = false := by simpa using hA
        simp only [hA1, Bool.not_false, if_true, Bool.false_eq_true, if_false,
          markDeviceFunction]
        cases Body with
        | none => rfl
        | some B =>
          simp only []
          cases TraverseStmt { St with DeviceAttrs := St.DeviceAttrs ++ [FD.ID] } B <;> rfl

theorem VisitCXXNewExpr_reports_witness :
    Device.placementNewExpr.getOperatorNew.map FunctionDecl.ID = some 81
    ∧ (Device.opPlacementNew.IsReplaceableGlobalAllocationFunction = true →
      VisitCXXNewExpr Device.Placement Device.skip Device.St0 Device.placementNewExpr
        = some { Device.St0 with Diags := Device.St0.Diags
            ++ [⟨Device.placementNewExpr.Node.ExprLoc,
                .err_sycl_restrict .KernelAllocateStorage⟩] })
    ∧ (Device.opPlacementNew.IsReplaceableGlobalAllocationFunction = false →
      VisitCXXNewExpr Device.Placement Device.skip Device.St0 Device.placementNewExpr =
        match Device.Placement.getDefinition Device.opPlacementNew with
        | none => some Device.St0
        | some Body =>
          if Device.St0.DeviceAttrs.contains Device.opPlacementNew.ID then some Device.St0
          else
            (match Body with
             | none => some { Device.St0 with
                 DeviceAttrs := Device.St0.DeviceAttrs ++ [Device.opPlacementNew.ID] }
             | some B =>
               Device.skip { Device.St0 with
                 DeviceAttrs := Device.St0.DeviceAttrs ++ [Device.opPlacementNew.ID] } B).map
              fun St2 : VisitorState => { St2 with
                SyclKernels := St2.SyclKernels ++ [Device.opPlacementNew.ID] }) :=
  ⟨rfl, VisitCXXNewExpr_reports Device.Placement Device.skip Device.St0
    Device.placementNewExpr Device.opPlacementNew rfl⟩

/-- The visit of `new int` and of `new (p) int` with a defined placement
operator. -/
theorem VisitCXXNewExpr_examples :
    (VisitCXXNewExpr Device.Placement Device.skip Device.St0 Device.newExpr).map
        (fun St => (St.Diags, St.DeviceAttrs, St.SyclKernels))
      = some ([⟨62, .err_sycl_restrict .KernelAllocateStorage⟩], [], [])
    ∧ (VisitCXXNewExpr Device.Placement Device.skip Device.St0
          Device.placementNewExpr).map
        (fun St => (St.Diags, St.DeviceAttrs, St.SyclKernels))
      = some ([], [81], [81]) := by
  constructor <;> rfl


/-! ### The body of the kernel -/

mutual
theorem TransformStmt_declRefs (DMap : DeclMap) : ∀ S : Stmt,
    (TransformStmt DMap S).declRefs
      = S.declRefs.map fun D =>
          if D.isDeclaratorDecl then (DMap.lookup D.ID).getD D else D
  | .mk Node Children => by
    rw [TransformStmt]
    cases hC : Node.Class with
    | DeclRefExpr D =>
      simp only []
      have hS : (Stmt.mk Node Children).declRefs = [D] := by
        rw [Stmt.declRefs]; simp only [hC]
      have hG : (Stmt.mk Node Children).getDecl = some D := by
        simp only [Stmt.getDecl, Stmt.Node, hC]
      rw [hS, TransformDeclRefExpr, hG]
      simp only [List.map_cons, List.map_nil]
      by_cases hDD : D.isDeclaratorDecl = true
      · simp only [hDD, if_true]
        cases hL : List.lookup D.ID DMap with
        | none => simp only [Option.getD_none]; exact hS
        | some NewDecl =>
          simp only [Option.getD_some]
          rw [Stmt.declRefs]
      · simp only [hDD, Bool.false_eq_true, if_false]
        exact hS
    | _ =>
      simp only []
      rw [Stmt.declRefs, Stmt.declRefs]
      simp only [hC]
      exact TransformStmts_declRefs DMap Children
theorem TransformStmts_declRefs (DMap : DeclMap) : ∀ Ss : List Stmt,
    declRefsOf (TransformStmts DMap Ss)
      = (declRefsOf Ss).map fun D =>
          if D.isDeclaratorDecl then (DMap.lookup D.ID).getD D else D
  | [] => by rw [TransformStmts, declRefsOf]; rfl
  | S :: Rest => by
    rw [TransformStmts, declRefsOf, declRefsOf, List.map_append,
      TransformStmt_declRefs DMap S, TransformStmts_declRefs DMap Rest]
end

/-- C11: in the body that `CreateSYCLKernelBody` builds, the first statement
declares the local closure object and the last statement is the copy of the
body of the kernel caller, whose references are those of the original body in
the same order, each one to the same declaration, except that every reference
to the closure parameter of the caller refers to the local closure object. -/
theorem CreateSYCLKernelBody_redirects_references (TU : TranslationUnit)
    (CloneID : Nat) (KernelCallerFunc DC : FunctionDecl) (Body : Stmt)
    (h : CreateSYCLKernelBody TU CloneID KernelCallerFunc DC = .ok Body) :
    ∃ (KernelObjParam : ValueDecl) (LC : CXXRecordDecl) (FunctionBody : Stmt)
      (FieldStmts : List Stmt) (NewBody : Stmt),
      KernelCallerFunc.Params.head? = some KernelObjParam
      ∧ KernelObjParam.Ty.getAsCXXRecordDecl = some LC
      ∧ TU.getDefinition KernelCallerFunc = some (some FunctionBody)
      ∧ Body.Children
          = [createStmt .DeclStmt VoidTy .VK_RValue
              [createStmt (.VarDecl (createKernelObjClone CloneID LC)) VoidTy .VK_RValue []]]
            ++ FieldStmts ++ [NewBody]
      ∧ NewBody.declRefs
          = FunctionBody.declRefs.map
              (redirect KernelObjParam (createKernelObjClone CloneID LC)) := by
  unfold CreateSYCLKernelBody at h
  cases hP : KernelCallerFunc.Params with
  | nil => rw [hP] at h; simp [bind, Except.bind] at h
  | cons Param Rest =>
    rw [hP] at h
    simp only [bind, Except.bind] at h
    cases hLC : Param.Ty.getAsCXXRecordDecl with
    | none => rw [hLC] at h; simp at h
    | some LC =>
      rw [hLC] at h
      simp only [] at h
      have key : ∃ (FieldStmts : List Stmt) (FunctionBody : Stmt),
          TU.getDefinition KernelCallerFunc = some (some FunctionBody)
          ∧ Body = createStmt .CompoundStmt VoidTy .VK_RValue
              ([createStmt .DeclStmt VoidTy .VK_RValue
                  [createStmt (.VarDecl (createKernelObjClone CloneID LC)) VoidTy
                    .VK_RValue []]]
                ++ FieldStmts
                ++ [TransformStmt [(Param.ID, createKernelObjClone CloneID LC)]
                    FunctionBody]) := by
        split at h
        · split at h
          · rename_i FB hB
            exact ⟨[], FB, hB, (Except.ok.inj h).symm⟩
          · simp at h
        · split at h
          · simp at h
          · rename_i FieldStmts _
            split at h
            · rename_i FB hB
              exact ⟨FieldStmts, FB, hB, (Except.ok.inj h).symm⟩
            · simp at h
      obtain ⟨FieldStmts, FunctionBody, hB, hBody⟩ := key
      refine ⟨Param, LC, FunctionBody, FieldStmts,
        TransformStmt [(Param.ID, createKernelObjClone CloneID LC)] FunctionBody,
        rfl, hLC, hB, ?_, ?_⟩
      · rw [hBody]; rfl
      · rw [TransformStmt_declRefs]
        apply List.map_congr_left
        intro D _
        simp only [redirect, List.lookup]
        by_cases hDD : D.isDeclaratorDecl = true
        · by_cases hID : D.ID = Param.ID
          · simp [hDD, hID]
          · have : (D.ID == Param.ID) = false := by simpa using hID
            simp [hDD, this]
        · simp [hDD]

theorem CreateSYCLKernelBody_redirects_references_witness :
    ∃ Body, CreateSYCLKernelBody (Device.Kernels Test.closure1) 300
        (Device.kernelCaller Test.closure1) Device.kernel1 = .ok Body
      ∧ ∃ (KernelObjParam : ValueDecl) (LC : CXXRecordDecl) (FunctionBody : Stmt)
        (FieldStmts : List Stmt) (NewBody : Stmt),
        (Device.kernelCaller Test.closure1).Params.head? = some KernelObjParam
        ∧ KernelObjParam.Ty.getAsCXXRecordDecl = some LC
        ∧ (Device.Kernels Test.closure1).getDefinition (Device.kernelCaller Test.closure1)
            = some (some FunctionBody)
        ∧ Body.Children
            = [createStmt .DeclStmt VoidTy .VK_RValue
                [createStmt (.VarDecl (createKernelObjClone 300 LC)) VoidTy .VK_RValue []]]
              ++ FieldStmts ++ [NewBody]
        ∧ NewBody.declRefs
            = FunctionBody.declRefs.map
                (redirect KernelObjParam (createKernelObjClone 300 LC)) := by
  cases h : CreateSYCLKernelBody (Device.Kernels Test.closure1) 300
      (Device.kernelCaller Test.closure1) Device.kernel1 with
  | error e =>
    have h1 : (CreateSYCLKernelBody (Device.Kernels Test.closure1) 300
        (Device.kernelCaller Test.closure1) Device.kernel1).toOption.isSome = true := rfl
    rw [h] at h1
    exact absurd h1 (by simp [Except.toOption])
  | ok Body =>
    exact ⟨Body, rfl, CreateSYCLKernelBody_redirects_references _ _ _ _ Body h⟩

/-- The body of the first kernel of the test: the declaration of the clone, the
assignment of `i`, the two calls of `__init`, and the copy of the body of
`kernel_single_task` in which the call operator is applied to the clone. -/
theorem CreateSYCLKernelBody_first_kernel :
    (CreateSYCLKernelBody (Device.Kernels Test.closure1) 300
        (Device.kernelCaller Test.closure1) Device.kernel1).toOption.map
      (fun B => B.Children.map fun S => (S.assignment?, S.declRefs.map ValueDecl.ID))
    = some [(none, []), (some (300, "i", 201), [300, 201]),
        (none, [300, 202, 203, 204]), (none, [300, 205, 206, 207]),
        (none, [120, 300])] := by
  rfl

/-- C12 at the closure that captures `int *p` and `int i`: both fields are
scalar and `buildArgTys` creates the parameters `_arg_p` and `_arg_i` for
them, and the body of the kernel is the declaration of the clone, the
assignment of `_arg_i` to the field `i` of the clone and the copy of the body
of the caller: no statement assigns `_arg_p` to the field `p`. -/
theorem CreateSYCLKernelBody_pointer_field_not_assigned :
    Device.ptrClosure.fields.map (fun F => (F.Name, F.getType.isScalarType))
      = [("p", true), ("i", true)]
    ∧ (buildArgTys Device.ptrClosure).toOption.map
        (fun A => A.ParamDescs.map ParamDesc.Name) = some ["_arg_p", "_arg_i"]
    ∧ Device.ptrKernel.Params.map (fun P => (P.ID, P.Name))
        = [(201, "_arg_p"), (202, "_arg_i")]
    ∧ (CreateSYCLKernelBody (Device.Kernels Device.ptrClosure) 300
        (Device.kernelCaller Device.ptrClosure) Device.ptrKernel).toOption.map
      (fun B => B.Children.map fun S => (S.assignment?, S.declRefs.map ValueDecl.ID))
    = some [(none, []), (some (300, "i", 202), [300, 202]), (none, [120, 300])] := by
  refine ⟨rfl, rfl, rfl, rfl⟩


theorem CheckSYCLTypeParams_rejected
    (Check : QualType → SourceLocation → CheckResult) (Loc : SourceLocation)
    (P : QualType) (Post : List QualType) (DsP : List Diagnostic)
    (hP : Check P Loc = some (false, DsP)) :
    ∀ (Pre : List QualType),
      (∀ G ∈ Pre, ∃ Ds, Check G Loc = some (true, Ds)) →
      ∃ Ds, CheckSYCLTypeParams Check Loc (Pre ++ P :: Post) = some (false, Ds)
  | [], _ => by
    refine ⟨DsP, ?_⟩
    simp [CheckSYCLTypeParams, hP]
  | G :: Pre, hPre => by
    obtain ⟨DsG, hG⟩ := hPre G (List.mem_cons_self _ _)
    obtain ⟨Ds, hRest⟩ := CheckSYCLTypeParams_rejected Check Loc P Post DsP hP Pre
      (fun G1 hG1 => hPre G1 (List.mem_cons_of_mem _ hG1))
    refine ⟨DsG ++ Ds, ?_⟩
    simp [CheckSYCLTypeParams, hG, hRest]

theorem CheckSYCLTypeParams_accepted
    (Check : QualType → SourceLocation → CheckResult) (Loc : SourceLocation) :
    ∀ (Ps : List QualType),
      (∀ G ∈ Ps, ∃ Ds, Check G Loc = some (true, Ds)) →
      ∃ Ds, CheckSYCLTypeParams Check Loc Ps = some (true, Ds)
  | [], _ => ⟨[], rfl⟩
  | G :: Ps, hPs => by
    obtain ⟨DsG, hG⟩ := hPs G (List.mem_cons_self _ _)
    obtain ⟨Ds, hRest⟩ := CheckSYCLTypeParams_accepted Check Loc Ps
      (fun G1 hG1 => hPs G1 (List.mem_cons_of_mem _ hG1))
    refine ⟨DsG ++ Ds, ?_⟩
    simp [CheckSYCLTypeParams, hG, hRest]

theorem CheckSYCLType_common_bound_params (TU : TranslationUnit) :
    ∀ (Pre : List QualType),
      (∀ G ∈ Pre, ∃ n, ∀ Loc, ∃ Ds, CheckSYCLType TU n G Loc = some (true, Ds)) →
      ∃ N, ∀ G ∈ Pre, ∀ Loc, ∃ Ds, CheckSYCLType TU N G Loc = some (true, Ds)
  | [], _ => ⟨0, fun _ h => by simp at h⟩
  | G :: Pre, hPre => by
    obtain ⟨n, hG⟩ := hPre G (List.mem_cons_self _ _)
    obtain ⟨N, hN⟩ := CheckSYCLType_common_bound_params TU Pre
      (fun G1 hG1 => hPre G1 (List.mem_cons_of_mem _ hG1))
    refine ⟨max n N, fun G1 hG1 Loc => ?_⟩
    rcases List.mem_cons.mp hG1 with rfl | hG1
    · obtain ⟨Ds, h1⟩ := hG Loc
      exact ⟨Ds, CheckSYCLType_mono TU n _ (le_max_left _ _) _ _ _ h1⟩
    · obtain ⟨Ds1, h1⟩ := hN G1 hG1 Loc
      exact ⟨Ds1, CheckSYCLType_mono TU N _ (le_max_right _ _) _ _ _ h1⟩

theorem getAsCXXRecordDecl_function (TU : TranslationUnit) (T : ClangType)
    (h : (∃ R Ps, T = .FunctionProto R Ps) ∨ ∃ R, T = .FunctionNoProto R) :
    TU.getAsCXXRecordDecl T = none := by
  rcases h with ⟨R, Ps, rfl⟩ | ⟨R, rfl⟩ <;> rfl

/-- Wherever the checks that come before the rejected element return true,
`CheckSYCLType` returns false on a type that has a ground for rejection: a
polymorphic record, a field of a rejected type at any depth, a rejected
parameter type or result type. -/
theorem CheckSYCLType_rejects (TU : TranslationUnit) (Ty : QualType)
    (h : Rejects TU Ty) :
    ∃ n, ∀ m, n ≤ m → ∀ Loc, ∃ Ds, CheckSYCLType TU m Ty Loc = some (false, Ds) := by
  induction h with
  | vla Ty hV =>
    refine ⟨1, fun m hm Loc => ?_⟩
    obtain ⟨k, rfl⟩ : ∃ k, m = k + 1 := ⟨m - 1, by omega⟩
    exact ⟨[⟨Loc, .err_vla_unsupported⟩], by rw [CheckSYCLType]; simp [hV]⟩
  | polymorphic Ty CRD hV hC hD hP =>
    refine ⟨1, fun m hm Loc => ?_⟩
    obtain ⟨k, rfl⟩ : ∃ k, m = k + 1 := ⟨m - 1, by omega⟩
    exact ⟨[⟨CRD.Info.Loc, .err_sycl_virtual_types⟩, ⟨Loc, .note_sycl_used_here⟩], by
      rw [CheckSYCLType]; simp [hV, hC, hD, hP]⟩
  | field Ty CRD Pre F Post hV hC hD hFs hPre _ ih =>
    by_cases hP : CRD.isPolymorphic = true
    · refine ⟨1, fun m hm Loc => ?_⟩
      obtain ⟨k, rfl⟩ : ∃ k, m = k + 1 := ⟨m - 1, by omega⟩
      exact ⟨[⟨CRD.Info.Loc, .err_sycl_virtual_types⟩, ⟨Loc, .note_sycl_used_here⟩], by
        rw [CheckSYCLType]; simp [hV, hC, hD, hP]⟩
    have hP : CRD.isPolymorphic = false := by simpa using hP
    obtain ⟨nF, hF⟩ := ih
    obtain ⟨N, hN⟩ := CheckSYCLType_common_bound TU Pre hPre
    refine ⟨max nF N + 1, fun m hm Loc => ?_⟩
    obtain ⟨k, rfl⟩ : ∃ k, m = k + 1 := ⟨m - 1, by omega⟩
    have hk : max nF N ≤ k := by omega
    obtain ⟨DsF, hFk⟩ := hF k (le_trans (le_max_left _ _) hk) F.Loc
    obtain ⟨Ds, hL⟩ := CheckSYCLTypeFields_rejected (CheckSYCLType TU k) Loc F Post DsF
      hFk Pre (fun G hG => by
        obtain ⟨DsG, hG1⟩ := hN G hG
        exact ⟨DsG, CheckSYCLType_mono TU N k (le_trans (le_max_right _ _) hk) _ _ _ hG1⟩)
    refine ⟨Ds, ?_⟩
    rw [CheckSYCLType]
    simp only [hV, hC, hD, hP, hFs]
    simpa using hL
  | param Ty Result Pre P Post hV hS hPre _ ih =>
    obtain ⟨nP, hP⟩ := ih
    obtain ⟨N, hN⟩ := CheckSYCLType_common_bound_params TU Pre hPre
    have hC := getAsCXXRecordDecl_function TU _ (Or.inl ⟨_, _, hS⟩)
    refine ⟨max nP N + 1, fun m hm Loc => ?_⟩
    obtain ⟨k, rfl⟩ : ∃ k, m = k + 1 := ⟨m - 1, by omega⟩
    have hk : max nP N ≤ k := by omega
    obtain ⟨DsP, hPk⟩ := hP k (le_trans (le_max_left _ _) hk) Loc
    obtain ⟨Ds, hL⟩ := CheckSYCLTypeParams_rejected (CheckSYCLType TU k) Loc P Post DsP
      hPk Pre (fun G hG => by
        obtain ⟨DsG, hG1⟩ := hN G hG Loc
        exact ⟨DsG, CheckSYCLType_mono TU N k (le_trans (le_max_right _ _) hk) _ _ _ hG1⟩)
    refine ⟨Ds, ?_⟩
    rw [CheckSYCLType]
    simp only [hV, hC, hS, hL]
    rfl
  | result Ty Result Params hV hS hPs _ ih =>
    obtain ⟨nR, hR⟩ := ih
    obtain ⟨N, hN⟩ := CheckSYCLType_common_bound_params TU Params hPs
    have hC := getAsCXXRecordDecl_function TU _ (Or.inl ⟨_, _, hS⟩)
    refine ⟨max nR N + 1, fun m hm Loc => ?_⟩
    obtain ⟨k, rfl⟩ : ∃ k, m = k + 1 := ⟨m - 1, by omega⟩
    have hk : max nR N ≤ k := by omega
    obtain ⟨DsR, hRk⟩ := hR k (le_trans (le_max_left _ _) hk) Loc
    obtain ⟨Ds, hL⟩ := CheckSYCLTypeParams_accepted (CheckSYCLType TU k) Loc Params
      (fun G hG => by
        obtain ⟨DsG, hG1⟩ := hN G hG Loc
        exact ⟨DsG, CheckSYCLType_mono TU N k (le_trans (le_max_right _ _) hk) _ _ _ hG1⟩)
    refine ⟨Ds ++ DsR, ?_⟩
    rw [CheckSYCLType]
    simp only [hV, hC, hS, hL, hRk]
    rfl
  | resultNoProto Ty Result hV hS _ ih =>
    obtain ⟨nR, hR⟩ := ih
    have hC := getAsCXXRecordDecl_function TU _ (Or.inr ⟨_, hS⟩)
    refine ⟨nR + 1, fun m hm Loc => ?_⟩
    obtain ⟨k, rfl⟩ : ∃ k, m = k + 1 := ⟨m - 1, by omega⟩
    obtain ⟨DsR, hRk⟩ := hR k (by omega) Loc
    refine ⟨DsR, ?_⟩
    rw [CheckSYCLType]
    simp only [hV, hC, hS, hRk]
    rfl


/-! ### Types without a definition, names, the accumulator -/

/-- C21 as stated fails: `Opaque *a[n]` has an array type built over the
record `Opaque`, which has no definition, and it is rejected as a
variable-length array, with a diagnostic. -/
theorem CheckSYCLType_undefined_record_counterexample :
    Device.opaqueRD.hasDefinition = false
    ∧ stripPointersAndArrays Device.vlaOfOpaquePtrTy = .Record Device.opaqueRD
    ∧ ∀ fuel Loc, CheckSYCLType Device.Types (fuel + 1) Device.vlaOfOpaquePtrTy Loc
        = some (false, [⟨Loc, .err_vla_unsupported⟩]) := by
  refine ⟨rfl, rfl, fun fuel Loc => rfl⟩

/-- C21 (amended): for every type that is not itself a variable-length array
and that below its pointers and arrays is a record without a definition,
`CheckSYCLType` returns true and emits no diagnostic. -/
theorem CheckSYCLType_undefined_record (TU : TranslationUnit) (Ty : QualType)
    (CRD : CXXRecordDecl) (fuel : Nat) (Loc : SourceLocation)
    (hV : Ty.isVariableArrayType = false)
    (hC : TU.getAsCXXRecordDecl (stripPointersAndArrays Ty) = some CRD)
    (hD : CRD.hasDefinition = false) :
    CheckSYCLType TU (fuel + 1) Ty Loc = some (true, []) := by
  rw [CheckSYCLType]
  simp [hV, hC, hD]

theorem CheckSYCLType_undefined_record_witness :
    Device.arrayOfOpaquePtrTy.isVariableArrayType = false
    ∧ Device.Types.getAsCXXRecordDecl (stripPointersAndArrays Device.arrayOfOpaquePtrTy)
        = some Device.opaqueRD
    ∧ Device.opaqueRD.hasDefinition = false
    ∧ CheckSYCLType Device.Types (0 + 1) Device.arrayOfOpaquePtrTy 7 = some (true, []) :=
  ⟨rfl, rfl, rfl,
    CheckSYCLType_undefined_record Device.Types Device.arrayOfOpaquePtrTy Device.opaqueRD
      0 7 rfl rfl rfl⟩

/-- C27 at the text `(anonymous (anonymous namespace)::namespace)::K`: the one
occurrence is erased at position 11, the search goes on from position 11, and
the occurrence that the erasure has formed at position 0 stays in the
result. -/
theorem eraseAnonNamespace_leaves_occurrence :
    stringFind "(anonymous (anonymous namespace)::namespace)::K".toList
        anonNamespaceStr 0 = some 11
    ∧ eraseAnonNamespace "(anonymous (anonymous namespace)::namespace)::K"
        = "(anonymous namespace)::K"
    ∧ stringFind
        (eraseAnonNamespace "(anonymous (anonymous namespace)::namespace)::K").toList
        anonNamespaceStr 0 = some 0 := by
  refine ⟨by decide, by decide, by decide⟩

/-- C28 as stated fails: for a target with `SYCLXOCCDevice` the two name types
`n1::K` and `n2::K` are different and get the same kernel name `K`; the
mangler is not called. -/
theorem constructKernelName_counterexample :
    Device.nameInN1 ≠ Device.nameInN2
    ∧ constructKernelName ⟨true⟩ Device.mangleTypeName Device.nameInN1 = .ok "K"
    ∧ constructKernelName ⟨true⟩ Device.mangleTypeName Device.nameInN2 = .ok "K" := by
  refine ⟨fun h => ?_, rfl, rfl⟩
  have h1 := congrArg (fun T => T.getAsCXXRecordDecl.map (fun RD => RD.Info.ID)) h
  simp [Device.nameInN1, Device.nameInN2, QualType.getAsCXXRecordDecl,
    CXXRecordDecl.Info] at h1

/-- C28 (amended): where names are mangled, two different kernel name types
get different names, the mangler being injective; where the target uses the
bare identifier of the name type, the names of two name types are equal
exactly if their identifiers are. -/
theorem constructKernelName_unique (LangOpts : LangOptions)
    (mangleTypeName : QualType → String) (T1 T2 : QualType) (N1 N2 : String)
    (h1 : constructKernelName LangOpts mangleTypeName T1 = .ok N1)
    (h2 : constructKernelName LangOpts mangleTypeName T2 = .ok N2) :
    (LangOpts.SYCLXOCCDevice = false → Function.Injective mangleTypeName →
      T1 ≠ T2 → N1 ≠ N2)
    ∧ (LangOpts.SYCLXOCCDevice = true →
      (N1 = N2 ↔ T1.getBaseTypeIdentifier = T2.getBaseTypeIdentifier)) := by
  unfold constructKernelName at h1 h2
  constructor
  · intro hX hInj hT hN
    simp only [hX, Bool.false_eq_true, if_false, Except.ok.injEq] at h1 h2
    exact hT (hInj (by rw [h1, h2, hN]))
  · intro hX
    simp only [hX, if_true] at h1 h2
    cases hI1 : T1.getBaseTypeIdentifier with
    | none => rw [hI1] at h1; simp at h1
    | some I1 =>
      cases hI2 : T2.getBaseTypeIdentifier with
      | none => rw [hI2] at h2; simp at h2
      | some I2 =>
        rw [hI1] at h1
        rw [hI2] at h2
        simp only [Except.ok.injEq] at h1 h2
        subst h1 h2
        simp

theorem constructKernelName_unique_witness :
    constructKernelName ⟨false⟩ Device.mangleTypeName Test.firstKernelTy
        = .ok "_ZTSZ4mainE12first_kernel"
    ∧ constructKernelName ⟨false⟩ Device.mangleTypeName Test.secondKernelTy
        = .ok "_ZTSN16second_namespace13second_kernelIcEE"
    ∧ (((⟨false⟩ : LangOptions).SYCLXOCCDevice = false →
        Function.Injective Device.mangleTypeName →
        Test.firstKernelTy ≠ Test.secondKernelTy →
        "_ZTSZ4mainE12first_kernel" ≠ "_ZTSN16second_namespace13second_kernelIcEE")
      ∧ ((⟨false⟩ : LangOptions).SYCLXOCCDevice = true →
        ("_ZTSZ4mainE12first_kernel" = "_ZTSN16second_namespace13second_kernelIcEE" ↔
          Test.firstKernelTy.getBaseTypeIdentifier
            = Test.secondKernelTy.getBaseTypeIdentifier))) :=
  ⟨rfl, rfl,
    constructKernelName_unique ⟨false⟩ Device.mangleTypeName Test.firstKernelTy
      Test.secondKernelTy "_ZTSZ4mainE12first_kernel"
      "_ZTSN16second_namespace13second_kernelIcEE" rfl rfl⟩

/-- C29: `startKernel` appends one record with the given name and name type and
no descriptors, and leaves the records before it as they are; `addParamDesc`
on an accumulator whose last record is `K` appends the descriptor given to the
descriptors of `K`, and leaves the records before `K` and the descriptors
already in `K` as they are. -/
theorem accumulator_append_only (Ks : List KernelDesc) (K : KernelDesc)
    (KernelName : String) (KernelNameType : QualType)
    (Kind : kernel_param_kind_t) (Info : Int) (Offset : Nat) :
    ((SYCLIntegrationHeader.mk Ks).startKernel KernelName KernelNameType).KernelDescs
        = Ks ++ [⟨KernelName, KernelNameType, []⟩]
    ∧ (SYCLIntegrationHeader.mk (Ks ++ [K])).addParamDesc Kind Info Offset
        = .ok ⟨Ks ++ [⟨K.Name, K.NameType, K.Params ++ [⟨Kind, Info, Offset⟩]⟩]⟩ := by
  refine ⟨rfl, ?_⟩
  rw [addParamDesc_concat]


/-! ### The parameters of the kernel (`buildArgTys`) -/

theorem buildArgTysField_class (Cpt : Option LambdaCapture) (St : ArgTysState)
    (Fld : FieldDecl)
    (hA : Fld.getType.isAccessor = false) (hS : Fld.getType.isStream = false)
    (hC : Fld.getType.isStructureOrClassType = true) :
    buildArgTysField Cpt St Fld
      = if Fld.getType.isStandardLayoutType then
          .ok ⟨St.ParamDescs ++ [makeParamDesc Fld Fld.getType], St.Diags⟩
        else
          match Cpt with
          | some (.Variable VarLoc) =>
            .ok ⟨St.ParamDescs ++ [makeParamDesc Fld Fld.getType],
              St.Diags ++ [⟨VarLoc, .err_sycl_non_std_layout_type⟩]⟩
          | some .This => .error "capture does not capture a variable"
          | none =>
            .ok ⟨St.ParamDescs ++ [makeParamDesc Fld Fld.getType],
              St.Diags ++ [⟨Fld.Loc, .err_sycl_non_std_layout_type⟩]⟩ := by
  unfold buildArgTysField
  simp only [isSyclAccessorType_ok, isSyclStreamType_ok, bind, Except.bind, hA, hS, hC,
    if_true, Bool.false_eq_true, if_false]
  by_cases hL : Fld.getType.isStandardLayoutType = true
  · simp [hL, pure, Except.pure]
  · simp only [hL, Bool.not_false, if_true, Bool.not_eq_true, Bool.false_eq_true,
      if_false]
    rcases Cpt with _ | _ | VarLoc <;> rfl

/-- C25: the claim fails on two fields of class type that are not of a
standard-layout type. On a captured `cl::sycl::stream` the loop of
`buildArgTys` ends in `llvm_unreachable("streams not supported yet")` before
it looks at the layout. On the field for `Mixed m` in the closure of
`[this, m]() { .. }` the loop reads the captured variable of the first
capture, which is `this` and captures no variable, so that `buildArgTys`
ends there; for the closure of `[m]() { .. }` it reports the diagnostic and
appends the parameter. -/
theorem buildArgTys_non_standard_layout_counterexample :
    (Device.streamField.getType.isStructureOrClassType = true
      ∧ Device.streamField.getType.isStandardLayoutType = false
      ∧ buildArgTysField none ⟨[], []⟩ Device.streamField
          = .error "streams not supported yet")
    ∧ (Device.mixedField ∈ Device.thisClosure.fields
      ∧ Device.mixedField.getType.isStructureOrClassType = true
      ∧ Device.mixedField.getType.isStandardLayoutType = false
      ∧ Device.thisClosure.Info.Captures = [.This, .Variable 158]
      ∧ buildArgTys Device.thisClosure = .error "capture does not capture a variable"
      ∧ buildArgTys Device.mixedClosure
          = .ok ⟨[⟨Device.mixedTy, "_arg_m"⟩],
                 [⟨158, .err_sycl_non_std_layout_type⟩]⟩) := by
  refine ⟨⟨rfl, rfl, rfl⟩, ?_, rfl, rfl, rfl, rfl, rfl⟩
  simp [Device.thisClosure, CXXRecordDecl.fields]

/-- C25 (amended): for every captured field of class or struct type, other
than `cl::sycl::accessor` and `cl::sycl::stream`, that is not of a
standard-layout type, where the first capture of the closure is not `this`,
the loop body of `buildArgTys` reports exactly one
`err_sycl_non_std_layout_type`, does not abort and appends exactly one
parameter of the type of the field; it appends the same parameter, and
reports nothing, for such a field of a standard-layout type. -/
theorem buildArgTys_non_standard_layout_field (Cpt : Option LambdaCapture)
    (St : ArgTysState) (Fld : FieldDecl)
    (hA : Fld.getType.isAccessor = false) (hS : Fld.getType.isStream = false)
    (hC : Fld.getType.isStructureOrClassType = true)
    (hL : Fld.getType.isStandardLayoutType = false)
    (hCpt : Cpt ≠ some .This) :
    (∃ Loc, buildArgTysField Cpt St Fld
        = .ok ⟨St.ParamDescs ++ [⟨Fld.getType, "_arg_" ++ Fld.Name⟩],
               St.Diags ++ [⟨Loc, .err_sycl_non_std_layout_type⟩]⟩)
    ∧ (∀ Fld2 : FieldDecl, Fld2.getType.isAccessor = false →
        Fld2.getType.isStream = false → Fld2.getType.isStructureOrClassType = true →
        Fld2.getType.isStandardLayoutType = true →
        buildArgTysField Cpt St Fld2
          = .ok ⟨St.ParamDescs ++ [⟨Fld2.getType, "_arg_" ++ Fld2.Name⟩], St.Diags⟩) := by
  refine ⟨?_, ?_⟩
  · rw [buildArgTysField_class Cpt St Fld hA hS hC]
    simp only [hL, Bool.false_eq_true, if_false]
    rcases Cpt with _ | _ | VarLoc
    · exact ⟨_, rfl⟩
    · exact absurd rfl hCpt
    · exact ⟨_, rfl⟩
  · intro Fld2 hA2 hS2 hC2 hL2
    rw [buildArgTysField_class Cpt St Fld2 hA2 hS2 hC2]
    simp only [hL2, if_true]
    rfl

/-- The amended C25 at the field for `Mixed m` of the closure of
`[m]() { .. }`. -/
theorem buildArgTys_non_standard_layout_field_witness :
    ∃ Loc, buildArgTysField (some (.Variable 158)) ⟨[], []⟩ Device.mixedField
        = .ok ⟨[] ++ [⟨Device.mixedField.getType, "_arg_" ++ Device.mixedField.Name⟩],
               [] ++ [⟨Loc, .err_sycl_non_std_layout_type⟩]⟩ :=
  (buildArgTys_non_standard_layout_field (some (.Variable 158)) ⟨[], []⟩
    Device.mixedField (by decide) (by decide) (by decide) (by decide)
    (by decide)).1


/-! ### The layout of the body of the kernel -/

theorem CreateSYCLKernelBody_inv (TU : TranslationUnit) (CloneID : Nat)
    (KernelCallerFunc DC : FunctionDecl) (Body : Stmt)
    (h : CreateSYCLKernelBody TU CloneID KernelCallerFunc DC = .ok Body) :
    ∃ (KernelObjParam : ValueDecl) (Rest : List ValueDecl) (LC : CXXRecordDecl)
      (FunctionBody : Stmt) (FieldStmts : List Stmt),
      KernelCallerFunc.Params = KernelObjParam :: Rest
      ∧ KernelObjParam.Ty.getAsCXXRecordDecl = some LC
      ∧ TU.getDefinition KernelCallerFunc = some (some FunctionBody)
      ∧ ((DC.Params = [] ∧ FieldStmts = [])
          ∨ (DC.Params ≠ []
            ∧ CreateSYCLKernelBodyLoop TU
                (createDeclRefExpr (createKernelObjClone CloneID LC)
                  (createKernelObjClone CloneID LC).Ty) LC.fields DC.Params
              = .ok FieldStmts))
      ∧ Body = createStmt .CompoundStmt VoidTy .VK_RValue
          ([createStmt .DeclStmt VoidTy .VK_RValue
              [createStmt (.VarDecl (createKernelObjClone CloneID LC)) VoidTy
                .VK_RValue []]]
            ++ FieldStmts
            ++ [TransformStmt [(KernelObjParam.ID, createKernelObjClone CloneID LC)]
                FunctionBody]) := by
  unfold CreateSYCLKernelBody at h
  cases hP : KernelCallerFunc.Params with
  | nil => rw [hP] at h; simp [bind, Except.bind] at h
  | cons Param Rest =>
    rw [hP] at h
    simp only [bind, Except.bind] at h
    cases hLC : Param.Ty.getAsCXXRecordDecl with
    | none => rw [hLC] at h; simp at h
    | some LC =>
      rw [hLC] at h
      simp only [] at h
      refine ⟨Param, Rest, LC, ?_⟩
      cases hD : DC.Params with
      | nil =>
        rw [hD] at h
        simp only [] at h
        split at h
        · rename_i FB hB
          exact ⟨FB, [], rfl, hLC, hB, Or.inl ⟨rfl, rfl⟩, (Except.ok.inj h).symm⟩
        · simp at h
      | cons D Ds =>
        rw [hD] at h
        simp only [] at h
        split at h
        · simp at h
        · rename_i FieldStmts hL
          split at h
          · rename_i FB hB
            exact ⟨FB, FieldStmts, rfl, hLC, hB, Or.inr ⟨by simp, hL⟩,
              (Except.ok.inj h).symm⟩
          · simp at h

theorem VisitorClosed.ret {Allowed : FunctionDecl → Prop}
    {C : (VisitorState → Option VisitorState) → Prop} (hC : VisitorClosed Allowed C) :
    C (fun St => some St) := by
  have h := hC.diags []
  have e : (fun St : VisitorState => some { St with Diags := St.Diags ++ [] })
      = (fun St => some St) := by
    funext St; simp
  rwa [e] at h

theorem VisitorClosed.diag {Allowed : FunctionDecl → Prop}
    {C : (VisitorState → Option VisitorState) → Prop} (hC : VisitorClosed Allowed C)
    (Loc : SourceLocation) (ID : DiagID) : C (fun St => some (St.Diag Loc ID)) :=
  hC.diags [⟨Loc, ID⟩]

theorem VisitorClosed.check {Allowed : FunctionDecl → Prop}
    {C : (VisitorState → Option VisitorState) → Prop} (hC : VisitorClosed Allowed C)
    (TU : TranslationUnit) (fuel : Nat) (Ty : QualType) (Loc : SourceLocation) :
    C (fun St => St.check TU fuel Ty Loc) := by
  cases h : CheckSYCLType TU fuel Ty Loc with
  | none =>
    have e : (fun St : VisitorState => St.check TU fuel Ty Loc) = (fun _ => none) := by
      funext St; simp [VisitorState.check, h]
    rw [e]; exact hC.fail
  | some R =>
    obtain ⟨b, Ds⟩ := R
    have e : (fun St : VisitorState => St.check TU fuel Ty Loc)
        = (fun St => some { St with Diags := St.Diags ++ Ds }) := by
      funext St; simp [VisitorState.check, h]
    rw [e]; exact hC.diags Ds

theorem VisitorClosed.args {Allowed : FunctionDecl → Prop}
    {C : (VisitorState → Option VisitorState) → Prop} (hC : VisitorClosed Allowed C)
    (TU : TranslationUnit) (fuel : Nat) :
    ∀ Args : List Stmt, C (fun St => VisitCallExprArgs TU fuel St Args)
  | [] => hC.ret
  | Arg :: Rest => by
    have h := hC.seq _ _ (hC.check TU fuel Arg.getType Arg.Node.BeginLoc)
      (VisitorClosed.args hC TU fuel Rest)
    have e : (fun St => VisitCallExprArgs TU fuel St (Arg :: Rest))
        = (fun St => (St.check TU fuel Arg.getType Arg.Node.BeginLoc).bind
            fun St => VisitCallExprArgs TU fuel St Rest) := by
      funext St
      rw [VisitCallExprArgs]
      cases St.check TU fuel Arg.getType Arg.Node.BeginLoc <;> rfl
    rw [e]; exact h

theorem markDeviceFunction_eq (T : VisitorState → Stmt → Option VisitorState)
    (St : VisitorState) (Def : FunctionDecl) (Body : Option Stmt) :
    markDeviceFunction T St Def Body
      = ((fun St => Body.elim (some St) (fun B => T St B))
            { St with DeviceAttrs := St.DeviceAttrs ++ [Def.ID] }).map
          fun St2 : VisitorState =>
            { St2 with SyclKernels := St2.SyclKernels ++ [Def.ID] } := by
  unfold markDeviceFunction
  cases Body with
  | none => rfl
  | some B =>
    simp only [Option.elim]
    cases T { St with DeviceAttrs := St.DeviceAttrs ++ [Def.ID] } B <;> rfl

theorem VisitorClosed.body {Allowed : FunctionDecl → Prop}
    {C : (VisitorState → Option VisitorState) → Prop} (hC : VisitorClosed Allowed C)
    (T : VisitorState → Stmt → Option VisitorState) (Body : Option Stmt)
    (hT : ∀ B, Body = some B → C (fun St => T St B)) :
    C (fun St => Body.elim (some St) (fun B => T St B)) := by
  cases Body with
  | none => exact hC.ret
  | some B => exact hT B rfl

theorem VisitorClosed.markDeviceFunction {Allowed : FunctionDecl → Prop}
    {C : (VisitorState → Option VisitorState) → Prop} (hC : VisitorClosed Allowed C)
    (T : VisitorState → Stmt → Option VisitorState) (Def : FunctionDecl)
    (Body : Option Stmt) (hA : Allowed Def)
    (hT : ∀ B, Body = some B → C (fun St => T St B)) :
    C (fun St => SemaSYCL.markDeviceFunction T St Def Body) := by
  have h := hC.mark Def _ hA (hC.body T Body hT)
  have e : (fun St => SemaSYCL.markDeviceFunction T St Def Body) = _ :=
    funext fun St => markDeviceFunction_eq T St Def Body
  rw [e]; exact h

theorem VisitorClosed.guardedMark {Allowed : FunctionDecl → Prop}
    {C : (VisitorState → Option VisitorState) → Prop} (hC : VisitorClosed Allowed C)
    (T : VisitorState → Stmt → Option VisitorState) (Def : FunctionDecl)
    (Body : Option Stmt)
    (hT : ∀ B, Body = some B → C (fun St => T St B)) :
    C (fun St => if !St.hasAttr Def then SemaSYCL.markDeviceFunction T St Def Body
        else some St) := by
  have h := hC.guarded Def _ (hC.body T Body hT)
  have e : (fun St : VisitorState => if !St.hasAttr Def then
        SemaSYCL.markDeviceFunction T St Def Body else some St)
      = (fun St => if St.hasAttr Def then some St else
          ((fun St => Body.elim (some St) (fun B => T St B))
            { St with DeviceAttrs := St.DeviceAttrs ++ [Def.ID] }).map
          fun St2 : VisitorState =>
            { St2 with SyclKernels := St2.SyclKernels ++ [Def.ID] }) := by
    funext St
    rw [markDeviceFunction_eq T St Def Body]
    cases hH : St.hasAttr Def <;> simp
  rw [e]; exact h

theorem VisitorClosed.of_eq {Allowed : FunctionDecl → Prop}
    {C : (VisitorState → Option VisitorState) → Prop} (_hC : VisitorClosed Allowed C)
    (f g : VisitorState → Option VisitorState) (hf : C f) (h : ∀ St, g St = f St) :
    C g := by
  have e : g = f := funext h
  rw [e]; exact hf

theorem VisitorClosed.cond {Allowed : FunctionDecl → Prop}
    {C : (VisitorState → Option VisitorState) → Prop} (hC : VisitorClosed Allowed C)
    (b : Bool) (Loc : SourceLocation) (ID : DiagID) :
    C (fun St => some (if b then St.Diag Loc ID else St)) := by
  cases b
  · exact hC.ret
  · exact hC.diag Loc ID

theorem VisitorClosed.VisitCallExpr {Allowed : FunctionDecl → Prop}
    {C : (VisitorState → Option VisitorState) → Prop} (hC : VisitorClosed Allowed C)
    (TU : TranslationUnit) (T : VisitorState → Stmt → Option VisitorState)
    (fuel : Nat) (e : Stmt)
    (hT : ∀ FD B, TU.getDefinition FD = some (some B) → C (fun St => T St B)) :
    C (fun St => SemaSYCL.VisitCallExpr TU T fuel St e) := by
  cases hCallee : e.getDirectCallee with
  | none =>
    refine hC.of_eq _ _ (hC.seq _ _ (hC.args TU fuel e.arguments)
      (hC.diag e.Node.ExprLoc (.err_sycl_restrict .KernelCallFunctionPointer))) ?_
    intro St
    simp only [SemaSYCL.VisitCallExpr, hCallee]
    cases VisitCallExprArgs TU fuel St e.arguments <;> rfl
  | some Callee =>
    cases hRec : IsRecursive TU (IsRecursiveDepth TU) Callee.ID Callee [] with
    | none =>
      refine hC.of_eq _ _ (hC.seq _ _ (hC.args TU fuel e.arguments) hC.fail) ?_
      intro St
      simp only [SemaSYCL.VisitCallExpr, hCallee, hRec]
      cases VisitCallExprArgs TU fuel St e.arguments <;> rfl
    | some R =>
      obtain ⟨Recursive, Ds⟩ := R
      have hLast : C (fun St =>
          match TU.getDefinition Callee with
          | some Body =>
            if !St.hasAttr Callee then SemaSYCL.markDeviceFunction T St Callee Body
            else some St
          | none => some St) := by
        cases hDef : TU.getDefinition Callee with
        | none => exact hC.ret
        | some Body =>
          exact hC.guardedMark T Callee Body (fun B hB => hT Callee B (by rw [hDef, hB]))
      refine hC.of_eq _ _
        (hC.seq _ _ (hC.args TU fuel e.arguments)
          (hC.seq _ _ (hC.diags Ds)
            (hC.seq _ _ (hC.cond Recursive e.Node.ExprLoc
                (.err_sycl_restrict .KernelCallRecursiveFunction))
              (hC.seq _ _ (hC.cond Callee.IsVirtualMethod e.Node.ExprLoc
                  (.err_sycl_restrict .KernelCallVirtualFunction))
                (hC.seq _ _ (hC.check TU fuel Callee.ReturnType Callee.Loc) hLast))))) ?_
      intro St
      simp only [SemaSYCL.VisitCallExpr, hCallee, hRec]
      cases VisitCallExprArgs TU fuel St e.arguments with
      | none => rfl
      | some St1 =>
        simp only [Option.bind]
        split <;> simp_all

theorem VisitorClosed.VisitCXXNewExpr {Allowed : FunctionDecl → Prop}
    {C : (VisitorState → Option VisitorState) → Prop} (hC : VisitorClosed Allowed C)
    (TU : TranslationUnit) (T : VisitorState → Stmt → Option VisitorState) (E : Stmt)
    (hT : ∀ FD B, TU.getDefinition FD = some (some B) → C (fun St => T St B)) :
    C (fun St => SemaSYCL.VisitCXXNewExpr TU T St E) := by
  unfold SemaSYCL.VisitCXXNewExpr
  cases E.getOperatorNew with
  | none => exact hC.ret
  | some FD =>
    simp only []
    cases FD.IsReplaceableGlobalAllocationFunction with
    | true => exact hC.diag _ _
    | false =>
      simp only [Bool.false_eq_true, if_false]
      cases hDef : TU.getDefinition FD with
      | none => exact hC.ret
      | some Body =>
        exact hC.guardedMark T FD Body (fun B hB => hT FD B (by rw [hDef, hB]))

theorem VisitorClosed.VisitCXXConstructExpr {Allowed : FunctionDecl → Prop}
    {C : (VisitorState → Option VisitorState) → Prop} (hC : VisitorClosed Allowed C)
    (TU : TranslationUnit) (T : VisitorState → Stmt → Option VisitorState)
    (fuel : Nat) (E : Stmt)
    (hA : ∀ D, E.getConstructor = some D ∨ E.getUserDeclaredDestructor = some D →
      Allowed D)
    (hT : ∀ FD B, TU.getDefinition FD = some (some B) → C (fun St => T St B)) :
    C (fun St => SemaSYCL.VisitCXXConstructExpr TU T fuel St E) := by
  have hMark : ∀ D, Allowed D → C (fun St =>
      match TU.getDefinition D with
      | some Body => SemaSYCL.markDeviceFunction T St D Body
      | none => some St) := by
    intro D hD
    cases hDef : TU.getDefinition D with
    | none => exact hC.ret
    | some Body =>
      exact hC.markDeviceFunction T D Body hD (fun B hB => hT D B (by rw [hDef, hB]))
  cases hCtor : E.getConstructor with
  | none =>
    refine hC.of_eq _ _ (hC.args TU fuel E.Children) ?_
    intro St
    simp only [SemaSYCL.VisitCXXConstructExpr, hCtor]
    cases VisitCallExprArgs TU fuel St E.Children <;> rfl
  | some Ctor =>
    have hDt : C (fun St =>
        match E.getUserDeclaredDestructor with
        | some Dtor =>
          match TU.getDefinition Dtor with
          | some Body => SemaSYCL.markDeviceFunction T St Dtor Body
          | none => some St
        | none => some St) := by
      cases hDtor : E.getUserDeclaredDestructor with
      | none => exact hC.ret
      | some Dtor => exact hMark Dtor (hA Dtor (Or.inr hDtor))
    refine hC.of_eq _ _
      (hC.seq _ _ (hC.args TU fuel E.Children)
        (hC.seq _ _ (hMark Ctor (hA Ctor (Or.inl hCtor))) hDt)) ?_
    intro St
    simp only [SemaSYCL.VisitCXXConstructExpr, hCtor]
    cases VisitCallExprArgs TU fuel St E.Children with
    | none => rfl
    | some St1 =>
      simp only [Option.bind]
      split <;> simp_all

theorem VisitorClosed.VisitDeclRefExpr {Allowed : FunctionDecl → Prop}
    {C : (VisitorState → Option VisitorState) → Prop} (hC : VisitorClosed Allowed C)
    (TU : TranslationUnit) (fuel : Nat) (E : Stmt) :
    C (fun St => SemaSYCL.VisitDeclRefExpr TU fuel St E) := by
  have hLast : ∃ b : Bool, ∀ St1 : VisitorState,
      (match E.getDecl with
        | some VD =>
          if VD.isVarDecl then
            if !VD.Ty.getNonReferenceType.isConstQualified && VD.HasGlobalStorage
                && !VD.IsStaticLocal && !VD.IsStaticDataMember && !VD.isParmVarDecl then
              some (St1.Diag E.Node.ExprLoc (.err_sycl_restrict .KernelGlobalVariable))
            else some St1
          else some St1
        | none => some St1)
      = some (if b then
          St1.Diag E.Node.ExprLoc (.err_sycl_restrict .KernelGlobalVariable) else St1) := by
    cases E.getDecl with
    | none => exact ⟨false, fun _ => rfl⟩
    | some VD =>
      by_cases h1 : VD.isVarDecl = true
      · by_cases h2 : (!VD.Ty.getNonReferenceType.isConstQualified && VD.HasGlobalStorage
                && !VD.IsStaticLocal && !VD.IsStaticDataMember && !VD.isParmVarDecl) = true
        · exact ⟨true, fun _ => by simp only [h1, h2, if_true]⟩
        · exact ⟨false, fun _ => by simp only [h1, h2, if_true, if_false, Bool.false_eq_true]⟩
      · exact ⟨false, fun _ => by simp only [h1, if_false, Bool.false_eq_true]⟩
  obtain ⟨b, hb⟩ := hLast
  refine hC.of_eq _ _
    (hC.seq _ _ (hC.check TU fuel E.getType E.Node.BeginLoc)
      (hC.cond b E.Node.ExprLoc (.err_sycl_restrict .KernelGlobalVariable))) ?_
  intro St
  simp only [SemaSYCL.VisitDeclRefExpr]
  cases St.check TU fuel E.getType E.Node.BeginLoc with
  | none => rfl
  | some St1 => exact hb St1

theorem VisitorClosed.VisitMemberExpr {Allowed : FunctionDecl → Prop}
    {C : (VisitorState → Option VisitorState) → Prop} (hC : VisitorClosed Allowed C)
    (E : Stmt) : C (fun St => some (SemaSYCL.VisitMemberExpr St E)) := by
  have hb : ∃ b : Bool, ∀ St : VisitorState, SemaSYCL.VisitMemberExpr St E
      = if b then
          St.Diag E.Node.ExprLoc (.err_sycl_restrict .KernelNonConstStaticDataVariable)
        else St := by
    unfold SemaSYCL.VisitMemberExpr
    cases E.getMemberDecl with
    | none => exact ⟨false, fun _ => rfl⟩
    | some MD =>
      cases MD with
      | Field F => exact ⟨false, fun _ => rfl⟩
      | Method M => exact ⟨false, fun _ => rfl⟩
      | Var VD =>
        by_cases h1 : VD.isVarDecl = true
        · by_cases h2 : (VD.IsStaticDataMember
              && !VD.Ty.getNonReferenceType.isConstQualified) = true
          · exact ⟨true, fun _ => by simp only [h1, h2, if_true]⟩
          · exact ⟨false, fun _ => by
              simp only [h1, h2, if_true, if_false, Bool.false_eq_true]⟩
        · exact ⟨false, fun _ => by simp only [h1, if_false, Bool.false_eq_true]⟩
  obtain ⟨b, hb⟩ := hb
  refine hC.of_eq _ _ (hC.cond b E.Node.ExprLoc
    (.err_sycl_restrict .KernelNonConstStaticDataVariable)) ?_
  intro St
  rw [hb St]

theorem VisitorClosed.TraverseStmts {Allowed : FunctionDecl → Prop}
    {C : (VisitorState → Option VisitorState) → Prop} (hC : VisitorClosed Allowed C)
    (T : VisitorState → Stmt → Option VisitorState) :
    ∀ Ss : List Stmt, (∀ S ∈ Ss, C (fun St => T St S)) →
      C (fun St => SemaSYCL.TraverseStmts T St Ss)
  | [], _ => hC.ret
  | S :: Rest, h => by
    refine hC.of_eq _ _
      (hC.seq _ _ (h S (List.mem_cons_self _ _))
        (VisitorClosed.TraverseStmts hC T Rest
          (fun S2 hS2 => h S2 (List.mem_cons_of_mem _ hS2)))) ?_
    intro St
    rw [SemaSYCL.TraverseStmts]
    cases T St S <;> rfl

theorem constructsOf_mem (D : FunctionDecl) :
    ∀ (Ss : List Stmt) (S : Stmt), S ∈ Ss → D ∈ S.constructs → D ∈ constructsOf Ss
  | [], _, h, _ => absurd h (List.not_mem_nil _)
  | S0 :: Rest, S, h, hD => by
    rw [constructsOf]
    rcases List.mem_cons.mp h with rfl | h
    · exact List.mem_append_left _ hD
    · exact List.mem_append_right _ (constructsOf_mem D Rest S h hD)

theorem constructs_child (S Child : Stmt) (D : FunctionDecl)
    (hC : Child ∈ S.Children) (hD : D ∈ Child.constructs) : D ∈ S.constructs := by
  obtain ⟨Node, Children⟩ := S
  have h := constructsOf_mem D Children Child hC hD
  rw [Stmt.constructs]
  split
  · exact List.mem_cons_of_mem _ (List.mem_append_right _ h)
  · exact h

theorem constructs_own (S : Stmt) (D : FunctionDecl)
    (h : S.getConstructor = some D ∨ S.getUserDeclaredDestructor = some D) :
    D ∈ S.constructs := by
  obtain ⟨Node, Children⟩ := S
  rw [Stmt.constructs]
  simp only [Stmt.getConstructor, Stmt.getUserDeclaredDestructor, Stmt.Node] at h
  split
  · next Ctor Dtor hCl =>
    rw [hCl] at h
    rcases h with h | h
    · simp only [Option.some.injEq] at h
      subst h
      exact List.mem_cons_self _ _
    · simp only [] at h
      subst h
      exact List.mem_cons_of_mem _ (List.mem_append_left _ (by simp))
  · next hCl =>
    rcases h with h | h
    · split at h
      · next C2 D2 h2 => exact absurd h2 (hCl C2 D2)
      · cases h
    · split at h
      · next C2 D2 h2 => exact absurd h2 (hCl C2 D2)
      · cases h

theorem VisitorClosed.WalkUpFrom {Allowed : FunctionDecl → Prop}
    {C : (VisitorState → Option VisitorState) → Prop} (hC : VisitorClosed Allowed C)
    (TU : TranslationUnit) (T : VisitorState → Stmt → Option VisitorState)
    (fuel : Nat) (S : Stmt)
    (hA : ∀ D ∈ S.constructs, Allowed D)
    (hT : ∀ FD B, TU.getDefinition FD = some (some B) → C (fun St => T St B)) :
    C (fun St => SemaSYCL.WalkUpFrom TU T fuel St S) := by
  unfold SemaSYCL.WalkUpFrom
  cases hCl : S.Node.Class with
  | CallExpr _ => exact hC.VisitCallExpr TU T fuel S hT
  | CXXConstructExpr _ _ =>
    exact hC.VisitCXXConstructExpr TU T fuel S
      (fun D hD => hA D (constructs_own S D hD)) hT
  | CXXTypeidExpr => exact hC.diag _ _
  | CXXDynamicCastExpr => exact hC.diag _ _
  | TypedefNameDecl UnderlyingType => exact hC.check TU fuel _ _
  | RecordDecl TypeForDecl => exact hC.check TU fuel _ _
  | VarDecl VD =>
    simp only []
    cases hP : VD.isParmVarDecl with
    | false =>
      refine hC.of_eq _ _ (hC.check TU fuel VD.Ty VD.Loc) ?_
      intro St
      simp only [SemaSYCL.VisitVarDecl, Bool.false_eq_true, if_false]
      cases St.check TU fuel VD.Ty VD.Loc <;> rfl
    | true =>
      refine hC.of_eq _ _
        (hC.seq _ _ (hC.check TU fuel VD.Ty VD.Loc) (hC.check TU fuel VD.Ty VD.Loc)) ?_
      intro St
      simp only [SemaSYCL.VisitVarDecl, SemaSYCL.VisitParmVarDecl, if_true]
      cases St.check TU fuel VD.Ty VD.Loc <;> rfl
  | MemberExpr _ => exact hC.VisitMemberExpr S
  | DeclRefExpr _ => exact hC.VisitDeclRefExpr TU fuel S
  | CXXNewExpr _ => exact hC.VisitCXXNewExpr TU T S hT
  | CXXThrowExpr => exact hC.diag _ _
  | CXXCatchStmt => exact hC.diag _ _
  | CXXTryStmt => exact hC.diag _ _
  | SEHTryStmt => exact hC.diag _ _
  | GCCAsmStmt => exact hC.diag _ _
  | MSAsmStmt => exact hC.diag _ _
  | CompoundStmt => exact hC.ret
  | DeclStmt => exact hC.ret
  | ImplicitCastExpr _ => exact hC.ret
  | BinaryOperator _ => exact hC.ret
  | Other => exact hC.ret

theorem VisitorClosed.TraverseStmt {Allowed : FunctionDecl → Prop}
    {C : (VisitorState → Option VisitorState) → Prop} (hC : VisitorClosed Allowed C)
    (TU : TranslationUnit)
    (hTU : ∀ FD B, TU.getDefinition FD = some (some B) → ∀ D ∈ B.constructs, Allowed D) :
    ∀ (fuel : Nat) (S : Stmt), (∀ D ∈ S.constructs, Allowed D) →
      C (fun St => SemaSYCL.TraverseStmt TU fuel St S)
  | 0, _, _ => hC.fail
  | fuel + 1, S, hA => by
    have ih := VisitorClosed.TraverseStmt hC TU hTU fuel
    refine hC.of_eq _ _
      (hC.seq _ _
        (hC.WalkUpFrom TU (SemaSYCL.TraverseStmt TU fuel) fuel S hA
          (fun FD B hB => ih B (hTU FD B hB)))
        (hC.TraverseStmts (SemaSYCL.TraverseStmt TU fuel) S.Children
          (fun Child hChild => ih Child
            (fun D hD => hA D (constructs_child S Child D hChild hD))))) ?_
    intro St
    rw [SemaSYCL.TraverseStmt]
    cases SemaSYCL.WalkUpFrom TU (SemaSYCL.TraverseStmt TU fuel) fuel St S <;> rfl


theorem VisitorState.extend_extend (St : VisitorState) (A A2 : List Diagnostic)
    (M M2 K K2 : List Nat) :
    (St.extend A M K).extend A2 M2 K2 = St.extend (A ++ A2) (M ++ M2) (K ++ K2) := by
  simp [VisitorState.extend, List.append_assoc]

theorem VisitorState.extend_nil (St : VisitorState) : St.extend [] [] [] = St := by
  simp [VisitorState.extend]

theorem VisitorState.marked_extend (St : VisitorState) (Def : FunctionDecl)
    (A : List Diagnostic) (M K : List Nat) :
    ({ ({ St with DeviceAttrs := St.DeviceAttrs ++ [Def.ID] } : VisitorState).extend A M K
        with SyclKernels :=
          (({ St with DeviceAttrs := St.DeviceAttrs ++ [Def.ID] } : VisitorState).extend
            A M K).SyclKernels ++ [Def.ID] } : VisitorState)
      = St.extend A (Def.ID :: M) (K ++ [Def.ID]) := by
  simp [VisitorState.extend, List.append_assoc]

theorem SameMarks.extend {St St' : VisitorState} (h : SameMarks St St')
    (A A' : List Diagnostic) (M K K' : List Nat) :
    SameMarks (St.extend A M K) (St'.extend A' M K') := by
  intro ID
  simp only [VisitorState.extend, List.mem_append]
  rw [h ID]

theorem SameMarks.marked {St St' : VisitorState} (h : SameMarks St St')
    (Def : FunctionDecl) :
    SameMarks { St with DeviceAttrs := St.DeviceAttrs ++ [Def.ID] }
      { St' with DeviceAttrs := St'.DeviceAttrs ++ [Def.ID] } := by
  intro ID
  simp only [List.mem_append]
  rw [h ID]

theorem SameMarks.hasAttr {St St' : VisitorState} (h : SameMarks St St')
    (Def : FunctionDecl) : St'.hasAttr Def = St.hasAttr Def := by
  have := h Def.ID
  simp only [VisitorState.hasAttr]
  cases h1 : St.DeviceAttrs.contains Def.ID <;> cases h2 : St'.DeviceAttrs.contains Def.ID
    <;> simp_all

theorem VisitorState.hasAttr_iff (St : VisitorState) (Def : FunctionDecl) :
    St.hasAttr Def = true ↔ Def.ID ∈ St.DeviceAttrs := by
  simp [VisitorState.hasAttr]

theorem Uniform_closed : VisitorClosed (fun _ => True) Uniform where
  fail := by intro St St1 h; cases h
  diags := by
    intro Ds St St1 h
    dsimp only at h ⊢
    injection h with h
    subst h
    exact ⟨Ds, [], [], by simp [VisitorState.extend],
      fun St' _ => by simp [VisitorState.extend]⟩
  seq := by
    intro f g hf hg St St1 h
    dsimp only at h ⊢
    cases hfs : f St with
    | none => rw [hfs] at h; cases h
    | some Sa =>
      rw [hfs] at h
      simp only [Option.bind] at h
      obtain ⟨A, M, K, rfl, hA⟩ := hf St Sa hfs
      obtain ⟨A2, M2, K2, rfl, hA2⟩ := hg _ St1 h
      refine ⟨A ++ A2, M ++ M2, K ++ K2, VisitorState.extend_extend _ _ _ _ _ _ _, ?_⟩
      intro St' hS
      rw [hA St' hS]
      simp only [Option.bind]
      rw [hA2 _ (hS.extend A A M K K), VisitorState.extend_extend]
  mark := by
    intro Def f _ hf St St1 h
    dsimp only at h ⊢
    cases hfs : f { St with DeviceAttrs := St.DeviceAttrs ++ [Def.ID] } with
    | none => rw [hfs] at h; cases h
    | some St2 =>
      rw [hfs] at h
      simp only [Option.map, Option.some.injEq] at h
      subst h
      obtain ⟨A, M, K, rfl, hA⟩ := hf _ St2 hfs
      refine ⟨A, Def.ID :: M, K ++ [Def.ID], VisitorState.marked_extend St Def A M K, ?_⟩
      intro St' hS
      rw [hA _ (hS.marked Def)]
      simp only [Option.map]
      rw [VisitorState.marked_extend]
  guarded := by
    intro Def f hf St St1 h
    dsimp only at h ⊢
    by_cases hH : St.hasAttr Def = true
    · simp only [hH, if_true, Option.some.injEq] at h
      subst h
      refine ⟨[], [], [], (VisitorState.extend_nil _).symm, ?_⟩
      intro St' hS
      simp only [hS.hasAttr Def, hH, if_true, VisitorState.extend_nil]
    · simp only [hH, if_false, Bool.false_eq_true] at h
      cases hfs : f { St with DeviceAttrs := St.DeviceAttrs ++ [Def.ID] } with
      | none => rw [hfs] at h; cases h
      | some St2 =>
        rw [hfs] at h
        simp only [Option.map, Option.some.injEq] at h
        subst h
        obtain ⟨A, M, K, rfl, hA⟩ := hf _ St2 hfs
        refine ⟨A, Def.ID :: M, K ++ [Def.ID], VisitorState.marked_extend St Def A M K, ?_⟩
        intro St' hS
        simp only [hS.hasAttr Def, hH, if_false, Bool.false_eq_true]
        rw [hA _ (hS.marked Def)]
        simp only [Option.map]
        rw [VisitorState.marked_extend]

theorem TraverseStmt_uniform (TU : TranslationUnit) (fuel : Nat) (S : Stmt) :
    Uniform (fun St => TraverseStmt TU fuel St S) :=
  Uniform_closed.TraverseStmt TU (fun _ _ _ _ _ => trivial) fuel S (fun _ _ => trivial)

theorem TraverseStmts_uniform (TU : TranslationUnit) (fuel : Nat) (Ss : List Stmt) :
    Uniform (fun St => TraverseStmts (TraverseStmt TU fuel) St Ss) :=
  Uniform_closed.TraverseStmts _ Ss (fun S _ => TraverseStmt_uniform TU fuel S)

theorem MarksOnce_closed (ID : Nat) :
    VisitorClosed (fun D => D.ID ≠ ID) (MarksOnce ID) where
  fail := by intro St St1 h; cases h
  diags := by
    intro Ds St St1 h
    dsimp only at h ⊢
    injection h with h
    subst h
    exact ⟨Ds, [], [], by simp [VisitorState.extend], rfl, by simp, fun _ => rfl⟩
  seq := by
    intro f g hf hg St St1 h
    dsimp only at h ⊢
    cases hfs : f St with
    | none => rw [hfs] at h; cases h
    | some Sa =>
      rw [hfs] at h
      simp only [Option.bind] at h
      obtain ⟨A, M, K, rfl, h1, h2, h3⟩ := hf St Sa hfs
      obtain ⟨A2, M2, K2, rfl, h4, h5, h6⟩ := hg _ St1 h
      refine ⟨A ++ A2, M ++ M2, K ++ K2, VisitorState.extend_extend _ _ _ _ _ _ _, ?_, ?_, ?_⟩
      · simp only [List.count_append, h1, h4]
      · simp only [List.count_append]
        by_cases hM : ID ∈ M
        · have := h6 (by simp [VisitorState.extend, hM])
          omega
        · have := List.count_eq_zero_of_not_mem hM
          omega
      · intro hID
        have := h3 hID
        have := h6 (by simp [VisitorState.extend, hID])
        simp only [List.count_append]
        omega
  mark := by
    intro Def f hDef hf St St1 h
    dsimp only at h ⊢
    cases hfs : f { St with DeviceAttrs := St.DeviceAttrs ++ [Def.ID] } with
    | none => rw [hfs] at h; cases h
    | some St2 =>
      rw [hfs] at h
      simp only [Option.map, Option.some.injEq] at h
      subst h
      obtain ⟨A, M, K, rfl, h1, h2, h3⟩ := hf _ St2 hfs
      have hne : (Def.ID == ID) = false := by simpa using hDef
      refine ⟨A, Def.ID :: M, K ++ [Def.ID], VisitorState.marked_extend St Def A M K,
        ?_, ?_, ?_⟩
      · simp [List.count_cons, List.count_append, hne, h1]
      · simp [List.count_cons, hne, h2]
      · intro hID
        have := h3 (by simp [hID])
        simp [List.count_cons, hne, this]
  guarded := by
    intro Def f hf St St1 h
    dsimp only at h ⊢
    by_cases hH : St.hasAttr Def = true
    · simp only [hH, if_true, Option.some.injEq] at h
      subst h
      exact ⟨[], [], [], (VisitorState.extend_nil _).symm, rfl, by simp, fun _ => rfl⟩
    · simp only [hH, if_false, Bool.false_eq_true] at h
      cases hfs : f { St with DeviceAttrs := St.DeviceAttrs ++ [Def.ID] } with
      | none => rw [hfs] at h; cases h
      | some St2 =>
        rw [hfs] at h
        simp only [Option.map, Option.some.injEq] at h
        subst h
        obtain ⟨A, M, K, rfl, h1, h2, h3⟩ := hf _ St2 hfs
        refine ⟨A, Def.ID :: M, K ++ [Def.ID], VisitorState.marked_extend St Def A M K, ?_⟩
        by_cases hDef : Def.ID = ID
        · have h0 := h3 (by simp [hDef])
          have hK : K.count ID = 0 := by omega
          have hNot : ID ∉ St.DeviceAttrs := by
            intro hID
            exact hH ((VisitorState.hasAttr_iff St Def).mpr (hDef ▸ hID))
          refine ⟨?_, ?_, fun hID => absurd hID hNot⟩
          · simp [List.count_cons, List.count_append, hDef, h0, hK]
          · simp [List.count_cons, hDef, h0]
        · have hne : (Def.ID == ID) = false := by simpa using hDef
          refine ⟨?_, ?_, ?_⟩
          · simp [List.count_cons, List.count_append, hne, h1]
          · simp [List.count_cons, hne, h2]
          · intro hID
            have := h3 (by simp [hID])
            simp [List.count_cons, hne, this]


/-- C22: the claim fails on the kernel of `[]() { throw 1; }`. The first run of
the traversal over the body built for the kernel marks the call operator of
the closure, traverses its body and reports the throw expression at location
171; the second run over the same body finds the call operator marked, does
not traverse its body and reports nothing. -/
theorem TraverseStmt_twice_counterexample :
    ((CreateSYCLKernelBody Device.Throwing 201 (Device.kernelCaller Device.emptyClosure)
        (CreateSYCLKernelFunction 200 "k" [])).toOption.bind fun Body =>
      (TraverseStmt Device.Throwing 20 ⟨[], [200], [200]⟩ Body).bind fun St1 =>
        (TraverseStmt Device.Throwing 20 ⟨[], St1.DeviceAttrs, St1.SyclKernels⟩ Body).map
          fun St2 => (St1.Diags, St1.DeviceAttrs, St2.Diags))
      = some ([⟨171, .err_sycl_restrict .KernelUseExceptions⟩], [200, 120], []) := by
  rfl

/-- C22 (amended): when a run of the traversal over a statement returns and
marks no definition that was not marked before it, a second run over the same
statement returns as well and adds the same diagnostics, in the same order.
(A definition that the first run marks at a call is not traversed by the
second run.) -/
theorem TraverseStmt_twice (TU : TranslationUnit) (fuel : Nat) (St St1 : VisitorState)
    (S : Stmt) (h1 : TraverseStmt TU fuel St S = some St1)
    (hM : ∀ ID ∈ St1.DeviceAttrs, ID ∈ St.DeviceAttrs) :
    ∃ (A : List Diagnostic) (St2 : VisitorState),
      St1.Diags = St.Diags ++ A
      ∧ TraverseStmt TU fuel St1 S = some St2
      ∧ St2.Diags = St1.Diags ++ A := by
  obtain ⟨A, M, K, rfl, hU⟩ := TraverseStmt_uniform TU fuel S St St1 h1
  have hS : SameMarks St (St.extend A M K) := by
    intro ID
    constructor
    · intro h; simp [VisitorState.extend, h]
    · intro h; exact hM ID h
  exact ⟨A, _, rfl, hU _ hS, rfl⟩

/-- The amended C22 at the body `{ throw 1; }`: both runs report the throw
expression. -/
theorem TraverseStmt_twice_witness :
    ∃ (A : List Diagnostic) (St2 : VisitorState),
      [⟨171, .err_sycl_restrict .KernelUseExceptions⟩] = Device.St0.Diags ++ A
      ∧ TraverseStmt Device.Objects 5
          ⟨[⟨171, .err_sycl_restrict .KernelUseExceptions⟩], [], []⟩ Device.throwBody
        = some St2
      ∧ St2.Diags = [⟨171, .err_sycl_restrict .KernelUseExceptions⟩] ++ A :=
  TraverseStmt_twice Device.Objects 5 Device.St0
    ⟨[⟨171, .err_sycl_restrict .KernelUseExceptions⟩], [], []⟩ Device.throwBody rfl
    (fun _ h => h)

theorem VisitCallExpr_marks (TU : TranslationUnit)
    (T : VisitorState → Stmt → Option VisitorState) (fuel : Nat)
    (St Sw : VisitorState) (e : Stmt) (Callee : FunctionDecl) (Body : Option Stmt)
    (hCal : e.getDirectCallee = some Callee)
    (hDef : TU.getDefinition Callee = some Body)
    (hT : ∀ S B S1, T S B = some S1 → ∀ ID ∈ S.DeviceAttrs, ID ∈ S1.DeviceAttrs)
    (h : VisitCallExpr TU T fuel St e = some Sw) : Callee.ID ∈ Sw.DeviceAttrs := by
  have hAttr : ∀ S : VisitorState, S.hasAttr Callee = true → Callee.ID ∈ S.DeviceAttrs :=
    fun S hS => (VisitorState.hasAttr_iff S Callee).mp hS
  unfold VisitCallExpr at h
  cases hA : VisitCallExprArgs TU fuel St e.arguments with
  | none => rw [hA] at h; cases h
  | some StA =>
    rw [hA, hCal] at h
    simp only [] at h
    cases hR : IsRecursive TU (IsRecursiveDepth TU) Callee.ID Callee [] with
    | none => rw [hR] at h; cases h
    | some R =>
      obtain ⟨Recursive, Ds⟩ := R
      rw [hR] at h
      simp only [] at h
      split at h
      · cases h
      · next St5 _ =>
        rw [hDef] at h
        simp only [] at h
        by_cases hH : St5.hasAttr Callee = true
        · simp only [hH, Bool.not_true, Bool.false_eq_true, if_false,
            Option.some.injEq] at h
          subst h
          exact hAttr _ hH
        · simp only [hH, Bool.not_false, if_true] at h
          rw [markDeviceFunction_eq] at h
          cases Body with
          | none =>
            simp only [Option.elim, Option.map, Option.some.injEq] at h
            subst h
            simp
          | some B =>
            simp only [Option.elim] at h
            cases hB : T { St5 with DeviceAttrs := St5.DeviceAttrs ++ [Callee.ID] } B with
            | none => rw [hB] at h; cases h
            | some S2 =>
              rw [hB] at h
              simp only [Option.map, Option.some.injEq] at h
              subst h
              exact hT _ B S2 hB Callee.ID (by simp)

/-- C23: the claim fails on two programs. The traversal of `{ W(); W(); }`
marks and registers the constructor `W::W()` twice, once for each construct
expression. A pass over `{ A(); A(); }` marks and registers `A` once and
reports the throw expression in its body; a second pass over the same
statement changes nothing and reports nothing: it does not traverse the body
of `A`. -/
theorem marked_once_counterexample :
    TraverseStmt Device.Objects 20 Device.St0 Device.twoObjects
        = some ⟨[], [130, 130], [130, 130]⟩
    ∧ TraverseStmt Device.Objects 20 Device.St0 Device.twoCalls
        = some ⟨[⟨171, .err_sycl_restrict .KernelUseExceptions⟩], [1], [1]⟩
    ∧ TraverseStmt Device.Objects 20 ⟨[], [1], [1]⟩ Device.twoCalls
        = some ⟨[], [1], [1]⟩ := by
  refine ⟨rfl, rfl, rfl⟩

theorem Objects_not_constructed (S : Stmt) (hS : S.constructs = []) :
    NotConstructed Device.Objects S 1 := by
  refine ⟨(by rw [hS]; intro D hD; cases hD), ?_⟩
  intro FD B hB D hD
  simp only [TranslationUnit.getDefinition, Device.Objects, List.lookup] at hB
  split at hB
  · injection hB with hB
    injection hB with hB
    subst hB
    simp [Device.emptyBody, Stmt.constructs, constructsOf] at hD
  · split at hB
    · injection hB with hB
      injection hB with hB
      subst hB
      simp [Device.throwBody, Device.otherExpr, Stmt.constructs, constructsOf] at hD
    · cases hB

/-! ### Virtual types in the kernel object -/

theorem CheckSYCLTypeFields_rejected_mem
    (Check : QualType → SourceLocation → CheckResult) (Loc : SourceLocation)
    (F : FieldDecl) (Post : List FieldDecl) (DsF : List Diagnostic)
    (hF : Check F.getType F.Loc = some (false, DsF)) :
    ∀ (Pre : List FieldDecl),
      (∀ G ∈ Pre, ∃ Ds, Check G.getType G.Loc = some (true, Ds)) →
      ∃ Ds, CheckSYCLTypeFields Check Loc (Pre ++ F :: Post) = some (false, Ds)
        ∧ ∀ D ∈ DsF, D ∈ Ds
  | [], _ => by
    refine ⟨DsF ++ [⟨Loc, .note_sycl_used_here⟩], ?_, fun D hD => by simp [hD]⟩
    simp [CheckSYCLTypeFields, hF]
  | G :: Pre, hPre => by
    obtain ⟨DsG, hG⟩ := hPre G (List.mem_cons_self _ _)
    obtain ⟨Ds, hRest, hMem⟩ := CheckSYCLTypeFields_rejected_mem Check Loc F Post DsF hF Pre
      (fun G1 hG1 => hPre G1 (List.mem_cons_of_mem _ hG1))
    refine ⟨DsG ++ Ds, ?_, fun D hD => by simp [hMem D hD]⟩
    simp [CheckSYCLTypeFields, hG, hRest]

/-- The check of the type of a closure that has a field of a polymorphic class
type, the checks of the fields before it returning true, returns false and
reports the virtual type. -/
theorem CheckSYCLType_closure_virtual (TU : TranslationUnit) (LC CRD : CXXRecordDecl)
    (Pre Post : List FieldDecl) (F : FieldDecl)
    (hDef : LC.hasDefinition = true)
    (hFields : LC.fields = Pre ++ F :: Post)
    (hPre : ∀ G ∈ Pre, ∃ n Ds, CheckSYCLType TU n G.getType G.Loc = some (true, Ds))
    (hF : F.getType.getAsCXXRecordDecl = some CRD)
    (hCD : CRD.hasDefinition = true) (hCP : CRD.isPolymorphic = true) :
    ∃ n, ∀ m, n ≤ m → ∀ Loc, ∃ Ds L,
      CheckSYCLType TU m (.mk (.Record LC) {}) Loc = some (false, Ds)
      ∧ (⟨L, .err_sycl_virtual_types⟩ : Diagnostic) ∈ Ds := by
  by_cases hLP : LC.isPolymorphic = true
  · refine ⟨1, fun m hm Loc => ?_⟩
    obtain ⟨k, rfl⟩ : ∃ k, m = k + 1 := ⟨m - 1, by omega⟩
    refine ⟨[⟨LC.Info.Loc, .err_sycl_virtual_types⟩, ⟨Loc, .note_sycl_used_here⟩],
      LC.Info.Loc, ?_, by simp⟩
    rw [CheckSYCLType]
    simp [QualType.isVariableArrayType, stripPointersAndArrays, stripPointersAndArraysTy,
      TranslationUnit.getAsCXXRecordDecl, hDef, hLP]
  · obtain ⟨N, hN⟩ := CheckSYCLType_common_bound TU Pre hPre
    refine ⟨max N 1 + 1, fun m hm Loc => ?_⟩
    obtain ⟨k, rfl⟩ : ∃ k, m = k + 1 := ⟨m - 1, by omega⟩
    have hk : max N 1 ≤ k := by omega
    obtain ⟨j, rfl⟩ : ∃ j, k = j + 1 := ⟨k - 1, by omega⟩
    have hFk : CheckSYCLType TU (j + 1) F.getType F.Loc
        = some (false, [⟨CRD.Info.Loc, .err_sycl_virtual_types⟩,
            ⟨F.Loc, .note_sycl_used_here⟩]) := by
      rcases hFT : F.getType with ⟨FTy, FQ⟩
      rw [hFT] at hF
      cases FTy <;> simp only [QualType.getAsCXXRecordDecl] at hF <;> try cases hF
      rw [CheckSYCLType]
      simp [QualType.isVariableArrayType, stripPointersAndArrays, stripPointersAndArraysTy,
        TranslationUnit.getAsCXXRecordDecl, hCD, hCP]
    obtain ⟨Ds, hDs, hMem⟩ := CheckSYCLTypeFields_rejected_mem (CheckSYCLType TU (j + 1)) Loc
      F Post _ hFk Pre (fun G hG => by
        obtain ⟨DsG, hG1⟩ := hN G hG
        exact ⟨DsG, CheckSYCLType_mono TU N _ (by omega) _ _ _ hG1⟩)
    refine ⟨Ds, CRD.Info.Loc, ?_, hMem _ (by simp)⟩
    rw [CheckSYCLType]
    simp [QualType.isVariableArrayType, stripPointersAndArrays, stripPointersAndArraysTy,
      TranslationUnit.getAsCXXRecordDecl, hDef, hLP, hFields, hDs]

/-- The traversal of the statement that declares a local variable is the check
of the type of the variable. -/
theorem TraverseStmt_local_declaration (TU : TranslationUnit) (fuel : Nat)
    (St : VisitorState) (VD : ValueDecl) (hK : VD.isParmVarDecl = false) :
    TraverseStmt TU (fuel + 2) St
        (createStmt .DeclStmt VoidTy .VK_RValue
          [createStmt (.VarDecl VD) VoidTy .VK_RValue []])
      = St.check TU fuel VD.Ty VD.Loc := by
  simp only [TraverseStmt, WalkUpFrom, createStmt, Stmt.Node, Stmt.Children, TraverseStmts,
    VisitVarDecl, hK, Bool.false_eq_true, if_false]
  cases St.check TU fuel VD.Ty VD.Loc <;> rfl

/-- C26: the claim fails on the kernel of `[v]() { }` with `Poly v`, a class
with a virtual function: the construction of the kernel returns and the
traversal of the body built reports `err_sycl_virtual_types` five times, for
the declaration of the local closure object, for the two references of the
statement that assigns the field, for the object argument of the call of the
call operator and for the reference to the local closure object in it. -/
theorem virtual_types_counterexample :
    ((ConstructSYCLKernel Test.Ctx ⟨false⟩ Device.mangleTypeName Device.Virtual 20 200 ⟨[]⟩
        Device.St0 (Device.kernelCaller Device.polyClosure) Test.firstKernelTy).toOption.bind
      fun R => R.map fun P =>
        (P.2.Diags.filter fun D => D.ID = .err_sycl_virtual_types).map Diagnostic.Loc)
      = some [5, 5, 5, 5, 5] := by
  rfl

/-- C26 (amended): for a closure with a definition that has a field of a
class type with a virtual function, the checks of the types of the fields
before it returning true, the traversal of the body built by
`CreateSYCLKernelBody` reports at least one `err_sycl_virtual_types`: the
traversal of the first statement, which declares the local closure object,
returns and reports one, and every traversal of the body that returns has it
among the diagnostics it adds. -/
theorem virtual_types_reported (TU : TranslationUnit) (CloneID : Nat)
    (KernelCallerFunc DC : FunctionDecl) (Body : Stmt) (KernelObjParam : ValueDecl)
    (LC CRD : CXXRecordDecl) (Pre Post : List FieldDecl) (F : FieldDecl)
    (hBody : CreateSYCLKernelBody TU CloneID KernelCallerFunc DC = .ok Body)
    (hP : KernelCallerFunc.Params.head? = some KernelObjParam)
    (hLC : KernelObjParam.Ty.getAsCXXRecordDecl = some LC)
    (hDef : LC.hasDefinition = true)
    (hFields : LC.fields = Pre ++ F :: Post)
    (hPre : ∀ G ∈ Pre, ∃ n Ds, CheckSYCLType TU n G.getType G.Loc = some (true, Ds))
    (hF : F.getType.getAsCXXRecordDecl = some CRD)
    (hCD : CRD.hasDefinition = true) (hCP : CRD.isPolymorphic = true) :
    (∃ (DS : Stmt) (Rest : List Stmt) (n : Nat), Body.Children = DS :: Rest
      ∧ ∀ St : VisitorState, ∃ Ds L,
          TraverseStmt TU n St DS = some { St with Diags := St.Diags ++ Ds }
          ∧ (⟨L, .err_sycl_virtual_types⟩ : Diagnostic) ∈ Ds)
    ∧ ∀ (fuel : Nat) (St St2 : VisitorState),
        TraverseStmt TU fuel St Body = some St2 →
        ∃ Ds L, St2.Diags = St.Diags ++ Ds
          ∧ (⟨L, .err_sycl_virtual_types⟩ : Diagnostic) ∈ Ds := by
  obtain ⟨Param, PRest, LC1, FunctionBody, FieldStmts, hP1, hLC1, _, _, hB⟩ :=
    CreateSYCLKernelBody_inv TU CloneID KernelCallerFunc DC Body hBody
  rw [hP1] at hP
  simp only [List.head?_cons, Option.some.injEq] at hP
  subst hP
  rw [hLC] at hLC1
  injection hLC1 with hLC1
  subst hLC1
  obtain ⟨n, hn⟩ := CheckSYCLType_closure_virtual TU LC CRD Pre Post F hDef hFields hPre
    hF hCD hCP
  have hK : (createKernelObjClone CloneID LC).isParmVarDecl = false := rfl
  refine ⟨⟨_, FieldStmts ++ [TransformStmt [(Param.ID, createKernelObjClone CloneID LC)]
      FunctionBody], n + 2, by rw [hB]; rfl, ?_⟩, ?_⟩
  · intro St
    obtain ⟨Ds, L, hC, hL⟩ := hn n (Nat.le_refl _) (createKernelObjClone CloneID LC).Loc
    refine ⟨Ds, L, ?_, hL⟩
    rw [TraverseStmt_local_declaration TU n St _ hK]
    simp only [VisitorState.check]
    rw [show (createKernelObjClone CloneID LC).Ty = .mk (.Record LC) {} from rfl, hC]
  · intro fuel St St2 hT
    subst hB
    cases fuel with
    | zero => simp [TraverseStmt] at hT
    | succ f =>
      simp only [TraverseStmt, WalkUpFrom, createStmt, Stmt.Node, Stmt.Children,
        List.singleton_append, List.cons_append, TraverseStmts] at hT
      cases hD : TraverseStmt TU f St
          (Stmt.mk ⟨.DeclStmt, VoidTy, .VK_RValue, 0, 0⟩
            [Stmt.mk ⟨.VarDecl (createKernelObjClone CloneID LC), VoidTy, .VK_RValue, 0, 0⟩
              []]) with
      | none => rw [hD] at hT; cases hT
      | some Sa =>
        rw [hD] at hT
        simp only [] at hT
        obtain ⟨A2, M2, K2, rfl, _⟩ := TraverseStmts_uniform TU f _ Sa St2 hT
        rcases f with _ | _ | g
        · simp [TraverseStmt] at hD
        · simp [TraverseStmt, WalkUpFrom, TraverseStmts, Stmt.Node, Stmt.Children] at hD
        · have hD1 := TraverseStmt_local_declaration TU g St _ hK
          simp only [createStmt] at hD1
          rw [hD1] at hD
          simp only [VisitorState.check] at hD
          cases hC : CheckSYCLType TU g (createKernelObjClone CloneID LC).Ty
              (createKernelObjClone CloneID LC).Loc with
          | none => rw [hC] at hD; cases hD
          | some R =>
            obtain ⟨b, Ds⟩ := R
            rw [hC] at hD
            simp only [Option.some.injEq] at hD
            subst hD
            obtain ⟨Ds1, L, hC1, hL⟩ := hn (max n g) (le_max_left _ _)
              (createKernelObjClone CloneID LC).Loc
            have hC2 := CheckSYCLType_mono TU g (max n g) (le_max_right _ _) _ _ _ hC
            rw [show (createKernelObjClone CloneID LC).Ty = .mk (.Record LC) {} from rfl,
              hC1] at hC2
            simp only [Option.some.injEq, Prod.mk.injEq] at hC2
            obtain ⟨_, rfl⟩ := hC2
            refine ⟨Ds1 ++ A2, L, by simp [VisitorState.extend], by simp [hL]⟩

/-- The amended C26 at the kernel of `[v]() { }` with `Poly v`. -/
theorem virtual_types_reported_witness :
    ∃ Body, CreateSYCLKernelBody Device.Virtual 202 (Device.kernelCaller Device.polyClosure)
        (CreateSYCLKernelFunction 200 "k" [⟨Device.polyTy, "_arg_v"⟩]) = .ok Body
      ∧ (∃ (DS : Stmt) (Rest : List Stmt) (n : Nat), Body.Children = DS :: Rest
          ∧ ∀ St : VisitorState, ∃ Ds L,
              TraverseStmt Device.Virtual n St DS = some { St with Diags := St.Diags ++ Ds }
              ∧ (⟨L, .err_sycl_virtual_types⟩ : Diagnostic) ∈ Ds)
      ∧ ∀ (fuel : Nat) (St St2 : VisitorState),
          TraverseStmt Device.Virtual fuel St Body = some St2 →
          ∃ Ds L, St2.Diags = St.Diags ++ Ds
            ∧ (⟨L, .err_sycl_virtual_types⟩ : Diagnostic) ∈ Ds := by
  cases h : CreateSYCLKernelBody Device.Virtual 202 (Device.kernelCaller Device.polyClosure)
      (CreateSYCLKernelFunction 200 "k" [⟨Device.polyTy, "_arg_v"⟩]) with
  | error e =>
    have h1 : (CreateSYCLKernelBody Device.Virtual 202
        (Device.kernelCaller Device.polyClosure)
        (CreateSYCLKernelFunction 200 "k" [⟨Device.polyTy, "_arg_v"⟩])).toOption.isSome
          = true := rfl
    rw [h] at h1
    exact absurd h1 (by simp [Except.toOption])
  | ok Body =>
    exact ⟨Body, rfl,
      virtual_types_reported Device.Virtual 202 (Device.kernelCaller Device.polyClosure) _
        Body (Device.kernelFunc Device.polyClosure) Device.polyClosure Device.polyRD [] []
        (.mk "v" Device.polyTy 0 180) h rfl rfl rfl rfl
        (fun G hG => absurd hG (List.not_mem_nil _)) rfl rfl rfl⟩


/-! ### Termination -/

theorem IsRecursiveCallees_mono (Rec Rec1 : Nat → CheckResult) (FD : FunctionDecl)
    (h : ∀ X R, Rec X = some R → Rec1 X = some R) :
    ∀ (Cs : List Nat) (R : Bool × List Diagnostic),
      IsRecursiveCallees Rec FD Cs = some R → IsRecursiveCallees Rec1 FD Cs = some R
  | [], R, hR => by simpa [IsRecursiveCallees] using hR
  | C :: Cs, R, hR => by
    unfold IsRecursiveCallees at hR ⊢
    split
    · next hC => simpa [hC] using hR
    · next hC =>
      simp only [hC, if_false] at hR
      cases hX : Rec C with
      | none => rw [hX] at hR; cases hR
      | some RX =>
        obtain ⟨B, Ds⟩ := RX
        rw [hX] at hR
        rw [h C _ hX]
        cases B with
        | true => exact hR
        | false =>
          simp only [] at hR ⊢
          cases hRest : IsRecursiveCallees Rec FD Cs with
          | none => rw [hRest] at hR; cases hR
          | some RR =>
            rw [hRest] at hR
            rw [IsRecursiveCallees_mono Rec Rec1 FD h Cs RR hRest]
            exact hR

/-- A result of `IsRecursive` stays when the bound on the depth grows. -/
theorem IsRecursive_succ (TU : TranslationUnit) (FD : FunctionDecl) :
    ∀ (n C : Nat) (V : List Nat) (R : Bool × List Diagnostic),
      IsRecursive TU n C FD V = some R → IsRecursive TU (n + 1) C FD V = some R
  | 0, _, _, _, h => by simp [IsRecursive] at h
  | n + 1, C, V, R, h => by
    rw [IsRecursive] at h ⊢
    split
    · next hV => simpa [hV] using h
    · next hV =>
      simp only [hV, if_false] at h
      cases hN : TU.getNode C with
      | none => rw [hN] at h; exact h
      | some Cs =>
        rw [hN] at h
        simp only [] at h ⊢
        exact IsRecursiveCallees_mono _ _ FD
          (fun X R1 h1 => IsRecursive_succ TU FD n X (C :: V) R1 h1) Cs R h

theorem IsRecursive_add (TU : TranslationUnit) (FD : FunctionDecl) (n C : Nat)
    (V : List Nat) (R : Bool × List Diagnostic)
    (h : IsRecursive TU n C FD V = some R) :
    ∀ k, IsRecursive TU (n + k) C FD V = some R
  | 0 => h
  | k + 1 => IsRecursive_succ TU FD (n + k) C V R (IsRecursive_add TU FD n C V R h k)

/-- C32: on every call graph, for every node to start from, every function
`FD` to look for and every visited set, `IsRecursive` returns: a depth of one
more than the number of nodes of the call graph is enough, and every larger
bound gives the same result. So does the search from `A` in the call graph in
which `A` calls `B`, `B` calls `C` and `C` calls `B`, a cycle that does not
pass through `A`: it returns false. -/
theorem IsRecursive_terminates (TU : TranslationUnit) (CalleeNode : Nat)
    (FD : FunctionDecl) (VisitedSet : List Nat) :
    (∃ R, ∀ n, IsRecursive TU (IsRecursiveDepth TU + n) CalleeNode FD VisitedSet = some R)
    ∧ ∀ n, IsRecursive Device.CycleAside (IsRecursiveDepth Device.CycleAside + n) 1
        Device.fnA [] = some (false, []) := by
  constructor
  · obtain ⟨R, hR⟩ := IsRecursive_total TU FD (IsRecursiveDepth TU) CalleeNode VisitedSet (by
      have h1 := List.toFinset_card_le (TU.CallGraph.map Prod.fst)
      have h2 := Finset.card_le_card
        (Finset.sdiff_subset (s := (TU.CallGraph.map Prod.fst).toFinset)
          (t := VisitedSet.toFinset))
      simp only [List.length_map] at h1
      simp only [IsRecursiveDepth]
      omega)
    exact ⟨R, IsRecursive_add TU FD _ _ _ R hR⟩
  · exact IsRecursive_add Device.CycleAside Device.fnA _ 1 [] _ rfl

theorem CheckSYCLType_listPtr_never_returns :
    ∀ (fuel : Nat) (Loc : SourceLocation),
      CheckSYCLType Device.Lists fuel Device.listPtrTy Loc = none
  | 0, _ => rfl
  | fuel + 1, Loc => by
    have ih := CheckSYCLType_listPtr_never_returns fuel 211
    rw [CheckSYCLType]
    have h1 : Device.listPtrTy.isVariableArrayType = false := rfl
    have h2 : Device.Lists.getAsCXXRecordDecl (stripPointersAndArrays Device.listPtrTy)
        = some Device.listRD := rfl
    have h3 : Device.listRD.hasDefinition = true := rfl
    have h4 : Device.listRD.isPolymorphic = false := rfl
    have h5 : Device.listRD.fields
        = [.mk "Next" Device.listPtrTy 0 211, .mk "V" Device.tInt 64 212] := rfl
    simp only [h1, h2, h3, h4, h5]
    simp [CheckSYCLTypeFields, FieldDecl.getType, FieldDecl.Loc, ih]

theorem CheckSYCLType_pingPtr_never_returns :
    ∀ (fuel : Nat) (Loc : SourceLocation),
      CheckSYCLType Device.Lists fuel Device.pingPtrTy Loc = none
      ∧ CheckSYCLType Device.Lists fuel Device.pongPtrTy Loc = none
  | 0, _ => ⟨rfl, rfl⟩
  | fuel + 1, Loc => by
    have ih1 := (CheckSYCLType_pingPtr_never_returns fuel 217).1
    have ih2 := (CheckSYCLType_pingPtr_never_returns fuel 215).2
    have a1 : Device.pingPtrTy.isVariableArrayType = false := rfl
    have a2 : Device.Lists.getAsCXXRecordDecl (stripPointersAndArrays Device.pingPtrTy)
        = some Device.pingRD := rfl
    have a3 : Device.pingRD.hasDefinition = true := rfl
    have a4 : Device.pingRD.isPolymorphic = false := rfl
    have a5 : Device.pingRD.fields = [.mk "P" Device.pongPtrTy 0 215] := rfl
    have b1 : Device.pongPtrTy.isVariableArrayType = false := rfl
    have b2 : Device.Lists.getAsCXXRecordDecl (stripPointersAndArrays Device.pongPtrTy)
        = some Device.pongRD := rfl
    have b3 : Device.pongRD.hasDefinition = true := rfl
    have b4 : Device.pongRD.isPolymorphic = false := rfl
    have b5 : Device.pongRD.fields = [.mk "P" Device.pingPtrTy 0 217] := rfl
    constructor
    · rw [CheckSYCLType]
      simp only [a1, a2, a3, a4, a5]
      simp [CheckSYCLTypeFields, FieldDecl.getType, FieldDecl.Loc, ih2]
    · rw [CheckSYCLType]
      simp only [b1, b2, b3, b4, b5]
      simp [CheckSYCLTypeFields, FieldDecl.getType, FieldDecl.Loc, ih1]

/-- C39 at `struct List { List *Next; int V; }` and at
`struct Ping { Pong *P; }; struct Pong { Ping *P; };`: the records are defined
and not polymorphic, and the check of `List` and the check of `Ping` return no
result under any bound on the depth: the check of the field that points back
comes to the record again. -/
theorem CheckSYCLType_linked_list_never_returns :
    Device.listRD.hasDefinition = true
    ∧ Device.listRD.fields.map FieldDecl.Name = ["Next", "V"]
    ∧ stripPointersAndArrays Device.listPtrTy = .RecordRef 71
    ∧ Device.Lists.getAsCXXRecordDecl (.RecordRef 71) = some Device.listRD
    ∧ (∀ fuel Loc, CheckSYCLType Device.Lists fuel Device.listTy Loc = none)
    ∧ (∀ fuel Loc, CheckSYCLType Device.Lists fuel Device.pingTy Loc = none) := by
  refine ⟨rfl, rfl, rfl, rfl, ?_, ?_⟩
  · intro fuel Loc
    cases fuel with
    | zero => rfl
    | succ f =>
      have ih := CheckSYCLType_listPtr_never_returns f 211
      rw [CheckSYCLType]
      have h1 : Device.listTy.isVariableArrayType = false := rfl
      have h2 : Device.Lists.getAsCXXRecordDecl (stripPointersAndArrays Device.listTy)
          = some Device.listRD := rfl
      have h3 : Device.listRD.hasDefinition = true := rfl
      have h4 : Device.listRD.isPolymorphic = false := rfl
      have h5 : Device.listRD.fields
          = [.mk "Next" Device.listPtrTy 0 211, .mk "V" Device.tInt 64 212] := rfl
      simp only [h1, h2, h3, h4, h5]
      simp [CheckSYCLTypeFields, FieldDecl.getType, FieldDecl.Loc, ih]
  · intro fuel Loc
    cases fuel with
    | zero => rfl
    | succ f =>
      have ih := (CheckSYCLType_pingPtr_never_returns f 215).2
      rw [CheckSYCLType]
      have h1 : Device.pingTy.isVariableArrayType = false := rfl
      have h2 : Device.Lists.getAsCXXRecordDecl (stripPointersAndArrays Device.pingTy)
          = some Device.pingRD := rfl
      have h3 : Device.pingRD.hasDefinition = true := rfl
      have h4 : Device.pingRD.isPolymorphic = false := rfl
      have h5 : Device.pingRD.fields = [.mk "P" Device.pongPtrTy 0 215] := rfl
      simp only [h1, h2, h3, h4, h5]
      simp [CheckSYCLTypeFields, FieldDecl.getType, FieldDecl.Loc, ih]

theorem TraverseStmt_constructors_none :
    ∀ (fuel : Nat) (St : VisitorState),
      TraverseStmt Device.Mutual fuel St Device.constructCA = none
      ∧ TraverseStmt Device.Mutual fuel St Device.constructCB = none
      ∧ TraverseStmt Device.Mutual fuel St (Device.bodyOf Device.constructCA) = none
      ∧ TraverseStmt Device.Mutual fuel St (Device.bodyOf Device.constructCB) = none
  | 0, _ => ⟨rfl, rfl, rfl, rfl⟩
  | fuel + 1, St => by
    have ih := TraverseStmt_constructors_none fuel
    have dA : Device.Mutual.getDefinition Device.ctorCA
        = some (some (Device.bodyOf Device.constructCB)) := rfl
    have dB : Device.Mutual.getDefinition Device.ctorCB
        = some (some (Device.bodyOf Device.constructCA)) := rfl
    refine ⟨?_, ?_, ?_, ?_⟩
    · rw [TraverseStmt]
      simp only [WalkUpFrom, Device.constructCA, Stmt.Node, VisitCXXConstructExpr,
        Stmt.Children, VisitCallExprArgs, Stmt.getConstructor, dA, markDeviceFunction,
        (ih _).2.2.2]
    · rw [TraverseStmt]
      simp only [WalkUpFrom, Device.constructCB, Stmt.Node, VisitCXXConstructExpr,
        Stmt.Children, VisitCallExprArgs, Stmt.getConstructor, dB, markDeviceFunction,
        (ih _).2.2.1]
    · rw [TraverseStmt]
      simp only [WalkUpFrom, Device.bodyOf, Stmt.Node, Stmt.Children, TraverseStmts,
        (ih _).1]
    · rw [TraverseStmt]
      simp only [WalkUpFrom, Device.bodyOf, Stmt.Node, Stmt.Children, TraverseStmts,
        (ih _).2.1]

/-- C40 at the program with `struct CA { CA() { CB(); } };` and
`struct CB { CB() { CA(); } };`: the traversal of a body `{ CA(); }` returns
no result under any bound on the depth, from any state, since
`VisitCXXConstructExpr` traverses the body of a constructor whether or not it
is marked. The traversal of `{ F(); }`, with `F` calling `G` and `G` calling
`F`, returns: `VisitCallExpr` does not traverse the body of a function that
is marked. -/
theorem TraverseStmt_constructors_never_returns :
    (∀ (fuel : Nat) (St : VisitorState),
      TraverseStmt Device.Mutual fuel St (Device.bodyOf Device.constructCA) = none)
    ∧ (TraverseStmt Device.Mutual 20 Device.St0 (Device.bodyOf Device.callF)).map
        (fun St1 => (St1.DeviceAttrs, St1.SyclKernels)) = some ([5, 6], [6, 5]) := by
  refine ⟨fun fuel St => (TraverseStmt_constructors_none fuel St).2.2.1, rfl⟩

/-! ### The location of the layout diagnostic -/

/-- C36 at the closure of `[i, m]() { .. }` with `int i` declared at location
201 and `Mixed m`, not of a standard-layout type, declared at location 202:
`buildArgTys` reports `err_sycl_non_std_layout_type` for the field `m` at
location 201, the location of the first captured variable. -/
theorem buildArgTys_reports_at_first_capture :
    Device.twoCaptures.Info.Captures = [.Variable 201, .Variable 202]
    ∧ Device.twoCaptures.fields.map
        (fun F => (F.Name, F.getType.isStructureOrClassType,
          F.getType.isStandardLayoutType))
      = [("i", false, true), ("m", true, false)]
    ∧ buildArgTys Device.twoCaptures
      = .ok ⟨[⟨Device.tInt, "_arg_i"⟩, ⟨Device.mixedTy, "_arg_m"⟩],
             [⟨201, .err_sycl_non_std_layout_type⟩]⟩ := by
  refine ⟨rfl, rfl, rfl⟩

/-! ### The diagnostic of `emitFwdDecl` -/

theorem emitFwdDeclLoop_diags (D : Decl) :
    ∀ (DC : DeclContext) (Cnt : Nat) (NSStr : String),
      (emitFwdDeclLoop D DC Cnt NSStr).2.2
        = if DC.firstNonNamespace.isTranslationUnit = false
              ∧ D.isCompleteDefinition = true then
            [⟨D.Loc, .err_sycl_kernel_name_class_not_top_level⟩]
          else []
  | .TranslationUnit, Cnt, NSStr => by
    simp [emitFwdDeclLoop, DeclContext.firstNonNamespace, DeclContext.isTranslationUnit]
  | .Ctx Kind Name Parent, Cnt, NSStr => by
    rw [emitFwdDeclLoop, DeclContext.firstNonNamespace]
    by_cases hK : Kind = .Namespace
    · simp only [hK, if_true]
      exact emitFwdDeclLoop_diags D Parent _ _
    · simp only [hK, if_false]
      cases h1 : (DeclContext.Ctx Kind Name Parent).isTranslationUnit <;>
        cases h2 : D.isCompleteDefinition <;> simp

/-- C38: `emitFwdDecl` reports `err_sycl_kernel_name_class_not_top_level`, once
and at the begin of the declaration, exactly if the first context of the
declaration, going outward, that is not a namespace is not the translation
unit and the declaration (for a class template, its templated class) is a
complete definition; it reports nothing otherwise; and in every case the text
it writes has the declaration followed by `;` and a line break. -/
theorem emitFwdDecl_reports_not_top_level (D : Decl) :
    (emitFwdDecl D).2
      = (if D.getDeclContext.firstNonNamespace.isTranslationUnit = false
            ∧ D.isCompleteDefinition = true then
          [⟨D.Loc, .err_sycl_kernel_name_class_not_top_level⟩]
        else [])
    ∧ ∃ Pre Post : String, (emitFwdDecl D).1 = Pre ++ D.print ++ ";\n" ++ Post := by
  refine ⟨emitFwdDeclLoop_diags D D.getDeclContext 0 "", ?_⟩
  refine ⟨(emitFwdDeclLoop D D.getDeclContext 0 "").2.1
      ++ (if (emitFwdDeclLoop D D.getDeclContext 0 "").1 > 0 then "\n" else ""),
    closingBraces (emitFwdDeclLoop D D.getDeclContext 0 "").1
      ++ (if (emitFwdDeclLoop D D.getDeclContext 0 "").1 > 0 then "\n" else ""), ?_⟩
  simp only [emitFwdDecl, String.append_assoc]


/-! ### Qualified names -/

theorem matchScopes_scopes (Scopes : List (DeclKind × String))
    (hS : ∀ S ∈ Scopes, S.1 = .ClassTemplateSpecialization ∨ S.1 = .CXXRecord
      ∨ S.1 = .Namespace) :
    ∀ Ctx : DeclContext, matchScopes Ctx Scopes = .ok (decide (Ctx.scopes = Scopes)) := by
  induction Scopes with
  | nil =>
    intro Ctx
    cases Ctx with
    | TranslationUnit => simp [matchScopes, DeclContext.scopes, DeclContext.isTranslationUnit]
    | Ctx Kind Name Parent =>
      by_cases hK : Kind = .TranslationUnit
      · simp [matchScopes, DeclContext.scopes, DeclContext.isTranslationUnit, hK]
      · simp [matchScopes, DeclContext.scopes, DeclContext.isTranslationUnit, hK]
  | cons S Rest ih =>
    intro Ctx
    have hS0 := hS S (List.mem_cons_self _ _)
    have ih' := ih (fun S' h => hS S' (List.mem_cons_of_mem _ h))
    obtain ⟨SK, SN⟩ := S
    simp only at hS0
    unfold matchScopes
    cases Ctx with
    | TranslationUnit =>
      have hne : DeclKind.TranslationUnit ≠ SK := by
        rcases hS0 with h | h | h <;> rw [h] <;> decide
      simp [DeclContext.getDeclKind, hne, DeclContext.scopes]
    | Ctx Kind Name Parent =>
      by_cases hk : Kind = SK
      · subst hk
        have hT : Kind ≠ .TranslationUnit := by
          rcases hS0 with h | h | h <;> rw [h] <;> decide
        by_cases hn : Name = SN
        · subst hn
          simp [DeclContext.getDeclKind, hS0, DeclContext.scopes, hT, ih' Parent]
        · simp [DeclContext.getDeclKind, hS0, DeclContext.scopes, hT, hn]
      · by_cases hT : Kind = .TranslationUnit
        · subst hT
          simp [DeclContext.getDeclKind, hk, DeclContext.scopes]
        · simp [DeclContext.getDeclKind, hk, DeclContext.scopes, hT]

/-- C34 at the call that `isSyclAccessorType` makes for the accessor type of
the test, `cl::sycl::accessor<..>`: the scope list is `cl`, `sycl`, `accessor`
and the function returns true, while the contexts from the record of the type
outward are `accessor`, `sycl`, `cl`: the kind and the name of the record are
those of the last entry of the list, not of the first one. For the list whose
entries are, level by level, those of the contexts from the record outward,
the function returns false. -/
theorem matchQualifiedTypeName_accessor_order :
    isSyclAccessorType Test.acc1Ty
      = matchQualifiedTypeName Test.acc1Ty
          [(.Namespace, "cl"), (.Namespace, "sycl"),
            (.ClassTemplateSpecialization, "accessor")]
    ∧ matchQualifiedTypeName Test.acc1Ty
        [(.Namespace, "cl"), (.Namespace, "sycl"), (.ClassTemplateSpecialization, "accessor")]
      = .ok true
    ∧ Test.acc1Ty.getAsCXXRecordDecl.map (fun RD => RD.asDeclContext.scopes)
        = some [(.ClassTemplateSpecialization, "accessor"), (.Namespace, "sycl"),
            (.Namespace, "cl")]
    ∧ matchQualifiedTypeName Test.acc1Ty
        [(.ClassTemplateSpecialization, "accessor"), (.Namespace, "sycl"),
          (.Namespace, "cl")]
      = .ok false := by
  refine ⟨rfl, rfl, rfl, rfl⟩

/-- For the class `first_kernel` declared in the function `main` and the scope
list `main`, `first_kernel`, of the kinds function and class,
`matchQualifiedTypeName` returns neither true nor false: it ends in
`llvm_unreachable`. -/
theorem matchQualifiedTypeName_unsupported_kind :
    Test.firstKernelTy.getAsCXXRecordDecl.map (fun RD => RD.asDeclContext.scopes)
        = some [(.CXXRecord, "first_kernel"), (.Function, "main")]
    ∧ matchQualifiedTypeName Test.firstKernelTy
        [(.Function, "main"), (.CXXRecord, "first_kernel")]
      = .error "matchQualifiedTypeName: decl kind not supported" := by
  refine ⟨rfl, rfl⟩

/-- For a scope list whose entries have the kinds namespace, class and class
template specialization, `matchQualifiedTypeName` returns, and
it returns true exactly if the type is a record type and the contexts from
its record outward, up to the translation unit, have level by level the kind
and the name of the entries of the list taken from the last to the first,
with as many levels as the list has entries; so it returns false for a type
that is no record type; and the first level of a specialization of a class
template has the kind class template specialization and the name of the
record, which is the name of the template. -/
theorem matchQualifiedTypeName_iff (Ty : QualType) (Scopes : List (DeclKind × String))
    (hS : ∀ S ∈ Scopes, S.1 = .ClassTemplateSpecialization ∨ S.1 = .CXXRecord
      ∨ S.1 = .Namespace) :
    (∃ b, matchQualifiedTypeName Ty Scopes = .ok b)
    ∧ (matchQualifiedTypeName Ty Scopes = .ok true
        ↔ ∃ RecTy, Ty.getAsCXXRecordDecl = some RecTy
            ∧ RecTy.asDeclContext.scopes = Scopes.reverse)
    ∧ (Ty.getAsCXXRecordDecl = none → matchQualifiedTypeName Ty Scopes = .ok false)
    ∧ (∀ RecTy CTD, Ty.getAsCXXRecordDecl = some RecTy → RecTy.Template = some CTD →
        RecTy.asDeclContext.scopes.head?
          = some (.ClassTemplateSpecialization, RecTy.Info.Name)) := by
  have hR : ∀ S ∈ Scopes.reverse, S.1 = .ClassTemplateSpecialization ∨ S.1 = .CXXRecord
      ∨ S.1 = .Namespace := fun S h => hS S (List.mem_reverse.mp h)
  unfold matchQualifiedTypeName
  cases hT : Ty.getAsCXXRecordDecl with
  | none =>
    refine ⟨⟨false, rfl⟩, ?_, fun _ => rfl, ?_⟩
    · constructor
      · intro h; cases h
      · rintro ⟨RecTy, h, _⟩; cases h
    · intro RecTy CTD h; cases h
  | some RD =>
    simp only [matchScopes_scopes _ hR]
    refine ⟨⟨_, rfl⟩, ?_, (fun h => by cases h), ?_⟩
    · constructor
      · intro h
        simp only [Except.ok.injEq, decide_eq_true_eq] at h
        exact ⟨RD, rfl, h⟩
      · rintro ⟨RecTy, h1, h2⟩
        injection h1 with h1
        subst h1
        simp [h2]
    · intro RecTy CTD h1 h2
      injection h1 with h1
      subst h1
      simp [CXXRecordDecl.asDeclContext, CXXRecordDecl.getKind, h2, DeclContext.scopes]

/-- The same at the accessor type of the test and the scope list of
`isSyclAccessorType`. -/
theorem matchQualifiedTypeName_iff_witness :
    (∃ b, matchQualifiedTypeName Test.acc1Ty
        [(.Namespace, "cl"), (.Namespace, "sycl"),
          (.ClassTemplateSpecialization, "accessor")] = .ok b)
    ∧ (matchQualifiedTypeName Test.acc1Ty
          [(.Namespace, "cl"), (.Namespace, "sycl"),
            (.ClassTemplateSpecialization, "accessor")] = .ok true
        ↔ ∃ RecTy, Test.acc1Ty.getAsCXXRecordDecl = some RecTy
            ∧ RecTy.asDeclContext.scopes
              = [(DeclKind.Namespace, "cl"), (DeclKind.Namespace, "sycl"),
                  (DeclKind.ClassTemplateSpecialization, "accessor")].reverse)
    ∧ (Test.acc1Ty.getAsCXXRecordDecl = none →
        matchQualifiedTypeName Test.acc1Ty
          [(.Namespace, "cl"), (.Namespace, "sycl"),
            (.ClassTemplateSpecialization, "accessor")] = .ok false)
    ∧ (∀ RecTy CTD, Test.acc1Ty.getAsCXXRecordDecl = some RecTy →
        RecTy.Template = some CTD →
        RecTy.asDeclContext.scopes.head?
          = some (.ClassTemplateSpecialization, RecTy.Info.Name)) :=
  matchQualifiedTypeName_iff Test.acc1Ty
    [(.Namespace, "cl"), (.Namespace, "sycl"), (.ClassTemplateSpecialization, "accessor")]
    (by
      intro S hS
      simp only [List.mem_cons, List.mem_singleton, List.not_mem_nil, or_false] at hS
      rcases hS with rfl | rfl | rfl
      · exact Or.inr (Or.inr rfl)
      · exact Or.inr (Or.inr rfl)
      · exact Or.inl rfl)

/-- C35 at the call that `isSyclStreamType` makes for the class
`cl::sycl::stream`: the scope list is `cl`, `sycl`, `stream`, the outermost
namespace first, and the function returns true; its first entry is matched
against the outermost namespace and its last entry against the record of the
type. For the list ordered from the type outward, `stream`, `sycl`, `cl`, the
function returns false. -/
theorem matchQualifiedTypeName_order :
    isSyclStreamType (.mk (.Record Wide.streamRD) {})
      = matchQualifiedTypeName (.mk (.Record Wide.streamRD) {})
          [(.Namespace, "cl"), (.Namespace, "sycl"), (.CXXRecord, "stream")]
    ∧ Wide.streamRD.asDeclContext.scopes
        = [(.CXXRecord, "stream"), (.Namespace, "sycl"), (.Namespace, "cl")]
    ∧ matchQualifiedTypeName (.mk (.Record Wide.streamRD) {})
        [(.Namespace, "cl"), (.Namespace, "sycl"), (.CXXRecord, "stream")] = .ok true
    ∧ matchQualifiedTypeName (.mk (.Record Wide.streamRD) {})
        [(.CXXRecord, "stream"), (.Namespace, "sycl"), (.Namespace, "cl")] = .ok false := by
  refine ⟨rfl, rfl, rfl, rfl⟩


/-! ### The order of the forward declarations -/

theorem referencedDeclsArgs_flatten :
    ∀ Args : List TemplateArgument,
      referencedDeclsArgs Args = (Args.map referencedDeclsArg).flatten
  | [] => by rw [referencedDeclsArgs]; rfl
  | Arg :: Rest => by
    rw [referencedDeclsArgs, referencedDeclsArgs_flatten Rest]
    simp

theorem insertAndEmitAll_printed (Ds : List Decl) :
    ∀ St : FwdState,
      (insertAndEmitAll Ds St).Printed
        = St.Printed ++ firstOccurrences St.Printed (Ds.map Decl.ID) := by
  induction Ds with
  | nil => intro St; simp [insertAndEmitAll, firstOccurrences]
  | cons D Rest ih =>
    intro St
    rw [insertAndEmitAll, ih]
    by_cases hD : D.ID ∈ St.Printed
    · simp [insertAndEmit, hD, firstOccurrences]
    · simp [insertAndEmit, hD, firstOccurrences]

/-- C37: for a kernel name type that is a specialization of a class template,
no specialization on the way having a template template argument, and for an
output so far that has one entry for each declaration in `Printed`,
`emitForwardClassDecls` first runs through the template arguments, in
order, and then comes to the specialized template: the forward declarations
it adds are those of the declarations that the type arguments reference, in
argument order and recursively, and then that of the template, each with the
text of `emitFwdDecl` and each only if it was not printed before. -/
theorem emitForwardClassDecls_arguments_first (Info : RecordInfo)
    (CTD : ClassTemplateDecl) (Args : List TemplateArgument) (Fields : List FieldDecl)
    (Quals : Qualifiers) (St : FwdState)
    (hNo : noTemplateTemplateArgArgs Args = true)
    (hInv : St.O.map FwdDeclEntry.ID = St.Printed) (hNodup : St.Printed.Nodup) :
    ∃ St1 St2 : FwdState,
      emitForwardClassDeclsArgs Args St = .ok St1
      ∧ St1 = insertAndEmitAll ((Args.map referencedDeclsArg).flatten) St
      ∧ emitForwardClassDecls (.mk (.Record (.mk Info (some CTD) Args Fields)) Quals) St
          = .ok St2
      ∧ St2 = insertAndEmit (.ClassTemplate CTD) St1
      ∧ St2.O.map FwdDeclEntry.ID
          = St.O.map FwdDeclEntry.ID
            ++ firstOccurrences St.Printed
                (((Args.map referencedDeclsArg).flatten ++ [Decl.ClassTemplate CTD]).map Decl.ID)
      ∧ ∀ E ∈ St2.O, E ∈ St.O
          ∨ ∃ D ∈ (Args.map referencedDeclsArg).flatten ++ [Decl.ClassTemplate CTD],
              E = ⟨D.ID, (emitFwdDecl D).1⟩ := by
  have hA := emitForwardClassDeclsArgs_eq Args St hNo
  rw [referencedDeclsArgs_flatten] at hA
  have hAll : insertAndEmit (.ClassTemplate CTD)
        (insertAndEmitAll ((Args.map referencedDeclsArg).flatten) St)
      = insertAndEmitAll ((Args.map referencedDeclsArg).flatten ++ [.ClassTemplate CTD])
          St := by
    rw [insertAndEmitAll_append]; rfl
  refine ⟨_, _, hA, rfl, ?_, rfl, ?_, ?_⟩
  · rw [emitForwardClassDecls, emitForwardClassDeclsTy, emitForwardClassDeclsRD, hA]
  · rw [hAll]
    obtain ⟨h1, _⟩ := insertAndEmitAll_invariant
      ((Args.map referencedDeclsArg).flatten ++ [.ClassTemplate CTD]) St hInv hNodup
    rw [h1, insertAndEmitAll_printed, hInv]
  · rw [hAll]
    exact insertAndEmitAll_entries _ St

/-- C37 at the third kernel of the test, `third_kernel<1, int, point<X>>`, on
an empty output: the forward declarations are those of `X`, `point` and
`third_kernel`, in this order. -/
theorem emitForwardClassDecls_arguments_first_witness :
    emitForwardClassDecls Test.thirdKernelTy ⟨[], [], []⟩
        = .ok ⟨[⟨33, "struct X;\n"⟩, ⟨34, "template <typename T> struct point;\n"⟩,
                ⟨36, "template <int a, typename T1, typename T2> class third_kernel;\n"⟩],
              [33, 34, 36], []⟩
    ∧ ∃ St1 St2 : FwdState,
      emitForwardClassDeclsArgs [.Integral 1, .Type Test.tInt, .Type Test.pointXTy]
          ⟨[], [], []⟩ = .ok St1
      ∧ St1 = insertAndEmitAll
          (([TemplateArgument.Integral 1, .Type Test.tInt, .Type Test.pointXTy].map
            referencedDeclsArg).flatten) ⟨[], [], []⟩
      ∧ emitForwardClassDecls Test.thirdKernelTy ⟨[], [], []⟩ = .ok St2
      ∧ St2 = insertAndEmit (.ClassTemplate Test.thirdKernelCTD) St1
      ∧ St2.O.map FwdDeclEntry.ID
          = ([] : List FwdDeclEntry).map FwdDeclEntry.ID
            ++ firstOccurrences []
                ((([TemplateArgument.Integral 1, .Type Test.tInt, .Type Test.pointXTy].map
                    referencedDeclsArg).flatten
                  ++ [Decl.ClassTemplate Test.thirdKernelCTD]).map Decl.ID)
      ∧ ∀ E ∈ St2.O, E ∈ ([] : List FwdDeclEntry)
          ∨ ∃ D ∈ ([TemplateArgument.Integral 1, .Type Test.tInt, .Type Test.pointXTy].map
                    referencedDeclsArg).flatten
                  ++ [Decl.ClassTemplate Test.thirdKernelCTD],
              E = ⟨D.ID, (emitFwdDecl D).1⟩ :=
  ⟨rfl,
    emitForwardClassDecls_arguments_first
      ⟨37, "third_kernel", .Class, .TranslationUnit, false, true, 124, "", [], false⟩
      Test.thirdKernelCTD [.Integral 1, .Type Test.tInt, .Type Test.pointXTy] [] {}
      ⟨[], [], []⟩ rfl rfl List.nodup_nil⟩

/-! ### The type of a redirected reference -/

/-- C31: the claim fails for a kernel caller declared with the parameter
`const KernelType kernelFunc`: the reference to the parameter in the body of
the caller has the type `const KernelType`, and the reference that replaces
it in the body built has the type of the local closure object, `KernelType`
without the qualifier; the value kind and the locations are kept. -/
theorem TransformDeclRefExpr_counterexample :
    (Device.constKernelFuncRef Device.emptyClosure).Node.Ty
        = .mk (.Record Device.emptyClosure) { Const := true }
    ∧ (TransformDeclRefExpr
          [((Device.constKernelFunc Device.emptyClosure).ID,
            createKernelObjClone 201 Device.emptyClosure)]
          (Device.constKernelFuncRef Device.emptyClosure)).Node.Ty
        = .mk (.Record Device.emptyClosure) {}
    ∧ ((CreateSYCLKernelBody (Device.ConstKernels Device.emptyClosure) 201
          (Device.constKernelCaller Device.emptyClosure)
          (CreateSYCLKernelFunction 200 "k" [])).toOption.map fun Body =>
        (Body.Children.getLast?.map Stmt.refNodes).map fun Ns =>
          Ns.map fun N => (N.Ty, N.VK, N.BeginLoc, N.ExprLoc))
      = some (some [(Device.callOperator.getType, .VK_LValue, 114, 114),
          (.mk (.Record Device.emptyClosure) {}, .VK_LValue, 114, 114)]) := by
  refine ⟨rfl, rfl, rfl⟩

/-- C31 (amended): a reference to the closure parameter of the kernel caller
that has the type of the parameter is replaced by a reference to the local
closure object that has the same value kind and the same locations, and the
type of the local closure object, which is the type of the parameter without
its qualifiers: the same type as the reference it replaces exactly if the
parameter is declared without qualifiers. -/
theorem TransformDeclRefExpr_redirected (CloneID : Nat) (KernelObjParam : ValueDecl)
    (LC : CXXRecordDecl) (DRE : Stmt)
    (hLC : KernelObjParam.Ty.getAsCXXRecordDecl = some LC)
    (hP : KernelObjParam.isParmVarDecl = true)
    (hD : DRE.getDecl = some KernelObjParam)
    (hTy : DRE.getType = KernelObjParam.Ty) :
    ∃ New : Stmt,
      TransformDeclRefExpr [(KernelObjParam.ID, createKernelObjClone CloneID LC)] DRE = New
      ∧ New.Node.Class = .DeclRefExpr (createKernelObjClone CloneID LC)
      ∧ New.Node.VK = DRE.Node.VK
      ∧ New.Node.BeginLoc = DRE.Node.BeginLoc
      ∧ New.Node.ExprLoc = DRE.Node.ExprLoc
      ∧ New.getType = KernelObjParam.Ty.getUnqualifiedType
      ∧ (New.getType = DRE.getType ↔ KernelObjParam.Ty.getQualifiers = {}) := by
  have hDD : KernelObjParam.isDeclaratorDecl = true := by
    simp only [ValueDecl.isParmVarDecl, beq_iff_eq] at hP
    simp [ValueDecl.isDeclaratorDecl, hP]
  obtain ⟨Node, Children⟩ := DRE
  rcases hK : KernelObjParam.Ty with ⟨PTy, PQ⟩
  rw [hK] at hLC hTy
  cases PTy <;> simp only [QualType.getAsCXXRecordDecl] at hLC <;> try cases hLC
  simp only [Stmt.getType, Stmt.Node] at hTy
  refine ⟨_, rfl, ?_⟩
  simp only [TransformDeclRefExpr, hD, hDD, if_true, List.lookup, beq_self_eq_true,
    Stmt.Node, Stmt.getType, createKernelObjClone, QualType.getUnqualifiedType,
    QualType.getQualifiers, true_and, hTy]
  constructor
  · intro h
    injection h with _ h
    exact h.symm
  · intro h
    rw [h]

/-- The amended C31 at the reference to the parameter
`const KernelType kernelFunc`. -/
theorem TransformDeclRefExpr_redirected_witness :
    ∃ New : Stmt,
      TransformDeclRefExpr
          [((Device.constKernelFunc Device.emptyClosure).ID,
            createKernelObjClone 201 Device.emptyClosure)]
          (Device.constKernelFuncRef Device.emptyClosure) = New
      ∧ New.Node.Class = .DeclRefExpr (createKernelObjClone 201 Device.emptyClosure)
      ∧ New.Node.VK = (Device.constKernelFuncRef Device.emptyClosure).Node.VK
      ∧ New.Node.BeginLoc = (Device.constKernelFuncRef Device.emptyClosure).Node.BeginLoc
      ∧ New.Node.ExprLoc = (Device.constKernelFuncRef Device.emptyClosure).Node.ExprLoc
      ∧ New.getType = (Device.constKernelFunc Device.emptyClosure).Ty.getUnqualifiedType
      ∧ (New.getType = (Device.constKernelFuncRef Device.emptyClosure).getType
          ↔ (Device.constKernelFunc Device.emptyClosure).Ty.getQualifiers = {}) :=
  TransformDeclRefExpr_redirected 201 (Device.constKernelFunc Device.emptyClosure)
    Device.emptyClosure (Device.constKernelFuncRef Device.emptyClosure) rfl rfl rfl rfl


/-! ### Exceptions, assembly and RTTI -/

theorem languageRestrictions_append (Ds1 Ds2 : List Diagnostic) :
    languageRestrictions (Ds1 ++ Ds2)
      = languageRestrictions Ds1 ++ languageRestrictions Ds2 := by
  simp [languageRestrictions, restrictions_append]

theorem languageRestrictions_of_restrictions (Ds : List Diagnostic)
    (h : restrictions Ds = []) : languageRestrictions Ds = [] := by
  simp [languageRestrictions, h]

theorem QuietClosed.ret_quiet {C : (VisitorState → Option VisitorState) → Prop}
    (hC : QuietClosed C) : C (fun St => some St) := by
  have h := hC.diags [] rfl
  have e : (fun St : VisitorState => some { St with Diags := St.Diags ++ [] })
      = (fun St => some St) := by
    funext St; simp
  rwa [e] at h

theorem QuietClosed.diag_quiet {C : (VisitorState → Option VisitorState) → Prop}
    (hC : QuietClosed C) (Loc : SourceLocation) (ID : DiagID)
    (hQ : languageRestrictions [⟨Loc, ID⟩] = []) : C (fun St => some (St.Diag Loc ID)) :=
  hC.diags [⟨Loc, ID⟩] hQ

theorem QuietClosed.of_eq_quiet {C : (VisitorState → Option VisitorState) → Prop}
    (_hC : QuietClosed C) (f g : VisitorState → Option VisitorState) (hf : C f)
    (h : ∀ St, g St = f St) : C g := by
  have e : g = f := funext h
  rw [e]; exact hf

theorem QuietClosed.cond_quiet {C : (VisitorState → Option VisitorState) → Prop}
    (hC : QuietClosed C) (b : Bool) (Loc : SourceLocation) (ID : DiagID)
    (hQ : languageRestrictions [⟨Loc, ID⟩] = []) :
    C (fun St => some (if b then St.Diag Loc ID else St)) := by
  cases b
  · exact hC.ret_quiet
  · exact hC.diag_quiet Loc ID hQ

theorem QuietClosed.check_quiet {C : (VisitorState → Option VisitorState) → Prop}
    (hC : QuietClosed C) (TU : TranslationUnit) (fuel : Nat) (Ty : QualType)
    (Loc : SourceLocation) : C (fun St => St.check TU fuel Ty Loc) := by
  cases h : CheckSYCLType TU fuel Ty Loc with
  | none =>
    have e : (fun St : VisitorState => St.check TU fuel Ty Loc) = (fun _ => none) := by
      funext St; simp [VisitorState.check, h]
    rw [e]; exact hC.fail
  | some R =>
    obtain ⟨b, Ds⟩ := R
    have e : (fun St : VisitorState => St.check TU fuel Ty Loc)
        = (fun St => some { St with Diags := St.Diags ++ Ds }) := by
      funext St; simp [VisitorState.check, h]
    rw [e]
    exact hC.diags Ds (languageRestrictions_of_restrictions Ds
      (CheckSYCLType_restrictions TU fuel Ty Loc b Ds h))

theorem QuietClosed.args_quiet {C : (VisitorState → Option VisitorState) → Prop}
    (hC : QuietClosed C) (TU : TranslationUnit) (fuel : Nat) :
    ∀ Args : List Stmt, C (fun St => VisitCallExprArgs TU fuel St Args)
  | [] => hC.ret_quiet
  | Arg :: Rest => by
    have h := hC.seq _ _ (hC.check_quiet TU fuel Arg.getType Arg.Node.BeginLoc)
      (QuietClosed.args_quiet hC TU fuel Rest)
    have e : (fun St => VisitCallExprArgs TU fuel St (Arg :: Rest))
        = (fun St => (St.check TU fuel Arg.getType Arg.Node.BeginLoc).bind
            fun St => VisitCallExprArgs TU fuel St Rest) := by
      funext St
      rw [VisitCallExprArgs]
      cases St.check TU fuel Arg.getType Arg.Node.BeginLoc <;> rfl
    rw [e]; exact h

theorem QuietClosed.body_quiet {C : (VisitorState → Option VisitorState) → Prop}
    (hC : QuietClosed C) (T : VisitorState → Stmt → Option VisitorState)
    (Body : Option Stmt) (hT : ∀ B, Body = some B → C (fun St => T St B)) :
    C (fun St => Body.elim (some St) (fun B => T St B)) := by
  cases Body with
  | none => exact hC.ret_quiet
  | some B => exact hT B rfl

theorem QuietClosed.markDeviceFunction_quiet
    {C : (VisitorState → Option VisitorState) → Prop}
    (hC : QuietClosed C) (T : VisitorState → Stmt → Option VisitorState)
    (Def : FunctionDecl) (Body : Option Stmt)
    (hT : ∀ B, Body = some B → C (fun St => T St B)) :
    C (fun St => SemaSYCL.markDeviceFunction T St Def Body) := by
  have h := hC.mark Def _ (hC.body_quiet T Body hT)
  have e : (fun St => SemaSYCL.markDeviceFunction T St Def Body) = _ :=
    funext fun St => markDeviceFunction_eq T St Def Body
  rw [e]; exact h

theorem QuietClosed.guardedMark_quiet {C : (VisitorState → Option VisitorState) → Prop}
    (hC : QuietClosed C) (T : VisitorState → Stmt → Option VisitorState)
    (Def : FunctionDecl) (Body : Option Stmt)
    (hT : ∀ B, Body = some B → C (fun St => T St B)) :
    C (fun St => if !St.hasAttr Def then SemaSYCL.markDeviceFunction T St Def Body
        else some St) := by
  have h := hC.guarded Def _ (hC.body_quiet T Body hT)
  have e : (fun St : VisitorState => if !St.hasAttr Def then
        SemaSYCL.markDeviceFunction T St Def Body else some St)
      = (fun St => if St.hasAttr Def then some St else
          ((fun St => Body.elim (some St) (fun B => T St B))
            { St with DeviceAttrs := St.DeviceAttrs ++ [Def.ID] }).map
          fun St2 : VisitorState =>
            { St2 with SyclKernels := St2.SyclKernels ++ [Def.ID] }) := by
    funext St
    rw [markDeviceFunction_eq T St Def Body]
    cases hH : St.hasAttr Def <;> simp
  rw [e]; exact h

theorem QuietClosed.VisitCallExpr_quiet {C : (VisitorState → Option VisitorState) → Prop}
    (hC : QuietClosed C) (TU : TranslationUnit)
    (T : VisitorState → Stmt → Option VisitorState) (fuel : Nat) (e : Stmt)
    (hT : ∀ FD B, TU.getDefinition FD = some (some B) → C (fun St => T St B)) :
    C (fun St => SemaSYCL.VisitCallExpr TU T fuel St e) := by
  cases hCallee : e.getDirectCallee with
  | none =>
    refine hC.of_eq_quiet _ _ (hC.seq _ _ (hC.args_quiet TU fuel e.arguments)
      (hC.diag_quiet e.Node.ExprLoc (.err_sycl_restrict .KernelCallFunctionPointer) rfl)) ?_
    intro St
    simp only [SemaSYCL.VisitCallExpr, hCallee]
    cases VisitCallExprArgs TU fuel St e.arguments <;> rfl
  | some Callee =>
    cases hRec : IsRecursive TU (IsRecursiveDepth TU) Callee.ID Callee [] with
    | none =>
      refine hC.of_eq_quiet _ _ (hC.seq _ _ (hC.args_quiet TU fuel e.arguments) hC.fail) ?_
      intro St
      simp only [SemaSYCL.VisitCallExpr, hCallee, hRec]
      cases VisitCallExprArgs TU fuel St e.arguments <;> rfl
    | some R =>
      obtain ⟨Recursive, Ds⟩ := R
      have hLast : C (fun St =>
          match TU.getDefinition Callee with
          | some Body =>
            if !St.hasAttr Callee then SemaSYCL.markDeviceFunction T St Callee Body
            else some St
          | none => some St) := by
        cases hDef : TU.getDefinition Callee with
        | none => exact hC.ret_quiet
        | some Body =>
          exact hC.guardedMark_quiet T Callee Body (fun B hB => hT Callee B (by rw [hDef, hB]))
      refine hC.of_eq_quiet _ _
        (hC.seq _ _ (hC.args_quiet TU fuel e.arguments)
          (hC.seq _ _ (hC.diags Ds (languageRestrictions_of_restrictions Ds
              (IsRecursive_restrictions TU Callee _ _ _ Recursive Ds hRec)))
            (hC.seq _ _ (hC.cond_quiet Recursive e.Node.ExprLoc
                (.err_sycl_restrict .KernelCallRecursiveFunction) rfl)
              (hC.seq _ _ (hC.cond_quiet Callee.IsVirtualMethod e.Node.ExprLoc
                  (.err_sycl_restrict .KernelCallVirtualFunction) rfl)
                (hC.seq _ _ (hC.check_quiet TU fuel Callee.ReturnType Callee.Loc) hLast))))) ?_
      intro St
      simp only [SemaSYCL.VisitCallExpr, hCallee, hRec]
      cases VisitCallExprArgs TU fuel St e.arguments with
      | none => rfl
      | some St1 =>
        simp only [Option.bind]
        split <;> simp_all

theorem QuietClosed.VisitCXXNewExpr_quiet {C : (VisitorState → Option VisitorState) → Prop}
    (hC : QuietClosed C) (TU : TranslationUnit)
    (T : VisitorState → Stmt → Option VisitorState) (E : Stmt)
    (hT : ∀ FD B, TU.getDefinition FD = some (some B) → C (fun St => T St B)) :
    C (fun St => SemaSYCL.VisitCXXNewExpr TU T St E) := by
  unfold SemaSYCL.VisitCXXNewExpr
  cases E.getOperatorNew with
  | none => exact hC.ret_quiet
  | some FD =>
    simp only []
    cases FD.IsReplaceableGlobalAllocationFunction with
    | true => exact hC.diag_quiet _ _ rfl
    | false =>
      simp only [Bool.false_eq_true, if_false]
      cases hDef : TU.getDefinition FD with
      | none => exact hC.ret_quiet
      | some Body =>
        exact hC.guardedMark_quiet T FD Body (fun B hB => hT FD B (by rw [hDef, hB]))

theorem QuietClosed.VisitCXXConstructExpr_quiet
    {C : (VisitorState → Option VisitorState) → Prop} (hC : QuietClosed C)
    (TU : TranslationUnit) (T : VisitorState → Stmt → Option VisitorState)
    (fuel : Nat) (E : Stmt)
    (hT : ∀ FD B, TU.getDefinition FD = some (some B) → C (fun St => T St B)) :
    C (fun St => SemaSYCL.VisitCXXConstructExpr TU T fuel St E) := by
  have hMark : ∀ D : FunctionDecl, C (fun St =>
      match TU.getDefinition D with
      | some Body => SemaSYCL.markDeviceFunction T St D Body
      | none => some St) := by
    intro D
    cases hDef : TU.getDefinition D with
    | none => exact hC.ret_quiet
    | some Body =>
      exact hC.markDeviceFunction_quiet T D Body (fun B hB => hT D B (by rw [hDef, hB]))
  cases hCtor : E.getConstructor with
  | none =>
    refine hC.of_eq_quiet _ _ (hC.args_quiet TU fuel E.Children) ?_
    intro St
    simp only [SemaSYCL.VisitCXXConstructExpr, hCtor]
    cases VisitCallExprArgs TU fuel St E.Children <;> rfl
  | some Ctor =>
    have hDt : C (fun St =>
        match E.getUserDeclaredDestructor with
        | some Dtor =>
          match TU.getDefinition Dtor with
          | some Body => SemaSYCL.markDeviceFunction T St Dtor Body
          | none => some St
        | none => some St) := by
      cases hDtor : E.getUserDeclaredDestructor with
      | none => exact hC.ret_quiet
      | some Dtor => exact hMark Dtor
    refine hC.of_eq_quiet _ _
      (hC.seq _ _ (hC.args_quiet TU fuel E.Children) (hC.seq _ _ (hMark Ctor) hDt)) ?_
    intro St
    simp only [SemaSYCL.VisitCXXConstructExpr, hCtor]
    cases VisitCallExprArgs TU fuel St E.Children with
    | none => rfl
    | some St1 =>
      simp only [Option.bind]
      split <;> simp_all

theorem QuietClosed.VisitDeclRefExpr_quiet {C : (VisitorState → Option VisitorState) → Prop}
    (hC : QuietClosed C) (TU : TranslationUnit) (fuel : Nat) (E : Stmt) :
    C (fun St => SemaSYCL.VisitDeclRefExpr TU fuel St E) := by
  have hLast : ∃ b : Bool, ∀ St1 : VisitorState,
      (match E.getDecl with
        | some VD =>
          if VD.isVarDecl then
            if !VD.Ty.getNonReferenceType.isConstQualified && VD.HasGlobalStorage
                && !VD.IsStaticLocal && !VD.IsStaticDataMember && !VD.isParmVarDecl then
              some (St1.Diag E.Node.ExprLoc (.err_sycl_restrict .KernelGlobalVariable))
            else some St1
          else some St1
        | none => some St1)
      = some (if b then
          St1.Diag E.Node.ExprLoc (.err_sycl_restrict .KernelGlobalVariable) else St1) := by
    cases E.getDecl with
    | none => exact ⟨false, fun _ => rfl⟩
    | some VD =>
      by_cases h1 : VD.isVarDecl = true
      · by_cases h2 : (!VD.Ty.getNonReferenceType.isConstQualified && VD.HasGlobalStorage
                && !VD.IsStaticLocal && !VD.IsStaticDataMember && !VD.isParmVarDecl) = true
        · exact ⟨true, fun _ => by simp only [h1, h2, if_true]⟩
        · exact ⟨false, fun _ => by simp only [h1, h2, if_true, if_false, Bool.false_eq_true]⟩
      · exact ⟨false, fun _ => by simp only [h1, if_false, Bool.false_eq_true]⟩
  obtain ⟨b, hb⟩ := hLast
  refine hC.of_eq_quiet _ _
    (hC.seq _ _ (hC.check_quiet TU fuel E.getType E.Node.BeginLoc)
      (hC.cond_quiet b E.Node.ExprLoc (.err_sycl_restrict .KernelGlobalVariable) rfl)) ?_
  intro St
  simp only [SemaSYCL.VisitDeclRefExpr]
  cases St.check TU fuel E.getType E.Node.BeginLoc with
  | none => rfl
  | some St1 => exact hb St1

theorem QuietClosed.VisitMemberExpr_quiet {C : (VisitorState → Option VisitorState) → Prop}
    (hC : QuietClosed C) (E : Stmt) : C (fun St => some (SemaSYCL.VisitMemberExpr St E)) := by
  have hb : ∃ b : Bool, ∀ St : VisitorState, SemaSYCL.VisitMemberExpr St E
      = if b then
          St.Diag E.Node.ExprLoc (.err_sycl_restrict .KernelNonConstStaticDataVariable)
        else St := by
    unfold SemaSYCL.VisitMemberExpr
    cases E.getMemberDecl with
    | none => exact ⟨false, fun _ => rfl⟩
    | some MD =>
      cases MD with
      | Field F => exact ⟨false, fun _ => rfl⟩
      | Method M => exact ⟨false, fun _ => rfl⟩
      | Var VD =>
        by_cases h1 : VD.isVarDecl = true
        · by_cases h2 : (VD.IsStaticDataMember
              && !VD.Ty.getNonReferenceType.isConstQualified) = true
          · exact ⟨true, fun _ => by simp only [h1, h2, if_true]⟩
          · exact ⟨false, fun _ => by
              simp only [h1, h2, if_true, if_false, Bool.false_eq_true]⟩
        · exact ⟨false, fun _ => by simp only [h1, if_false, Bool.false_eq_true]⟩
  obtain ⟨b, hb⟩ := hb
  refine hC.of_eq_quiet _ _ (hC.cond_quiet b E.Node.ExprLoc
    (.err_sycl_restrict .KernelNonConstStaticDataVariable) rfl) ?_
  intro St
  rw [hb St]

theorem QuietClosed.TraverseStmts_quiet {C : (VisitorState → Option VisitorState) → Prop}
    (hC : QuietClosed C) (T : VisitorState → Stmt → Option VisitorState) :
    ∀ Ss : List Stmt, (∀ S ∈ Ss, C (fun St => T St S)) →
      C (fun St => SemaSYCL.TraverseStmts T St Ss)
  | [], _ => hC.ret_quiet
  | S :: Rest, h => by
    refine hC.of_eq_quiet _ _
      (hC.seq _ _ (h S (List.mem_cons_self _ _))
        (QuietClosed.TraverseStmts_quiet hC T Rest
          (fun S2 hS2 => h S2 (List.mem_cons_of_mem _ hS2)))) ?_
    intro St
    rw [SemaSYCL.TraverseStmts]
    cases T St S <;> rfl

/-- The visit of a node of one of the eight restricted classes returns and
reports the restriction of the node, whatever the traversal, the bound and the
state. -/
theorem WalkUpFrom_restricted (TU : TranslationUnit)
    (T : VisitorState → Stmt → Option VisitorState) (fuel : Nat) (St : VisitorState)
    (S : Stmt) (R : SourceLocation × RestrictKind) (hR : S.Node.restricted = some R) :
    WalkUpFrom TU T fuel St S = some (St.Diag R.1 (.err_sycl_restrict R.2)) := by
  unfold StmtNode.restricted at hR
  unfold WalkUpFrom
  split at hR <;> first
    | (next hCl =>
        injection hR with hR
        subst hR
        simp only [hCl]
        rfl)
    | cases hR

theorem QuietClosed.WalkUpFrom_quiet {C : (VisitorState → Option VisitorState) → Prop}
    (hC : QuietClosed C) (TU : TranslationUnit)
    (T : VisitorState → Stmt → Option VisitorState) (fuel : Nat) (S : Stmt)
    (hQ : S.Node.restricted = none)
    (hT : ∀ FD B, TU.getDefinition FD = some (some B) → C (fun St => T St B)) :
    C (fun St => SemaSYCL.WalkUpFrom TU T fuel St S) := by
  unfold SemaSYCL.WalkUpFrom
  unfold StmtNode.restricted at hQ
  cases hCl : S.Node.Class with
  | CallExpr _ => exact hC.VisitCallExpr_quiet TU T fuel S hT
  | CXXConstructExpr _ _ => exact hC.VisitCXXConstructExpr_quiet TU T fuel S hT
  | CXXTypeidExpr => rw [hCl] at hQ; cases hQ
  | CXXDynamicCastExpr => rw [hCl] at hQ; cases hQ
  | TypedefNameDecl UnderlyingType => exact hC.check_quiet TU fuel _ _
  | RecordDecl TypeForDecl => exact hC.check_quiet TU fuel _ _
  | VarDecl VD =>
    simp only []
    cases hP : VD.isParmVarDecl with
    | false =>
      refine hC.of_eq_quiet _ _ (hC.check_quiet TU fuel VD.Ty VD.Loc) ?_
      intro St
      simp only [SemaSYCL.VisitVarDecl, Bool.false_eq_true, if_false]
      cases St.check TU fuel VD.Ty VD.Loc <;> rfl
    | true =>
      refine hC.of_eq_quiet _ _
        (hC.seq _ _ (hC.check_quiet TU fuel VD.Ty VD.Loc)
          (hC.check_quiet TU fuel VD.Ty VD.Loc)) ?_
      intro St
      simp only [SemaSYCL.VisitVarDecl, SemaSYCL.VisitParmVarDecl, if_true]
      cases St.check TU fuel VD.Ty VD.Loc <;> rfl
  | MemberExpr _ => exact hC.VisitMemberExpr_quiet S
  | DeclRefExpr _ => exact hC.VisitDeclRefExpr_quiet TU fuel S
  | CXXNewExpr _ => exact hC.VisitCXXNewExpr_quiet TU T S hT
  | CXXThrowExpr => rw [hCl] at hQ; cases hQ
  | CXXCatchStmt => rw [hCl] at hQ; cases hQ
  | CXXTryStmt => rw [hCl] at hQ; cases hQ
  | SEHTryStmt => rw [hCl] at hQ; cases hQ
  | GCCAsmStmt => rw [hCl] at hQ; cases hQ
  | MSAsmStmt => rw [hCl] at hQ; cases hQ
  | CompoundStmt => exact hC.ret_quiet
  | DeclStmt => exact hC.ret_quiet
  | ImplicitCastExpr _ => exact hC.ret_quiet
  | BinaryOperator _ => exact hC.ret_quiet
  | Other => exact hC.ret_quiet


theorem QuietStep_closed : QuietClosed QuietStep where
  fail := by intro St St1 h; cases h
  diags := by
    intro Ds hDs St St1 h
    dsimp only at h ⊢
    injection h with h
    subst h
    exact ⟨Ds, [], [], by simp [VisitorState.extend], hDs⟩
  seq := by
    intro f g hf hg St St1 h
    dsimp only at h ⊢
    cases hfs : f St with
    | none => rw [hfs] at h; cases h
    | some Sa =>
      rw [hfs] at h
      simp only [Option.bind] at h
      obtain ⟨A, M, K, rfl, hA⟩ := hf St Sa hfs
      obtain ⟨A2, M2, K2, rfl, hA2⟩ := hg _ St1 h
      refine ⟨A ++ A2, M ++ M2, K ++ K2, VisitorState.extend_extend _ _ _ _ _ _ _, ?_⟩
      rw [languageRestrictions_append, hA, hA2]
      rfl
  mark := by
    intro Def f hf St St1 h
    dsimp only at h ⊢
    cases hfs : f { St with DeviceAttrs := St.DeviceAttrs ++ [Def.ID] } with
    | none => rw [hfs] at h; cases h
    | some St2 =>
      rw [hfs] at h
      simp only [Option.map, Option.some.injEq] at h
      subst h
      obtain ⟨A, M, K, rfl, hA⟩ := hf _ St2 hfs
      exact ⟨A, Def.ID :: M, K ++ [Def.ID], VisitorState.marked_extend St Def A M K, hA⟩
  guarded := by
    intro Def f hf St St1 h
    dsimp only at h ⊢
    by_cases hH : St.hasAttr Def = true
    · simp only [hH, if_true, Option.some.injEq] at h
      subst h
      exact ⟨[], [], [], (VisitorState.extend_nil _).symm, rfl⟩
    · simp only [hH, if_false, Bool.false_eq_true] at h
      cases hfs : f { St with DeviceAttrs := St.DeviceAttrs ++ [Def.ID] } with
      | none => rw [hfs] at h; cases h
      | some St2 =>
        rw [hfs] at h
        simp only [Option.map, Option.some.injEq] at h
        subst h
        obtain ⟨A, M, K, rfl, hA⟩ := hf _ St2 hfs
        exact ⟨A, Def.ID :: M, K ++ [Def.ID], VisitorState.marked_extend St Def A M K, hA⟩

theorem VisitorState.extend_diags_inj (St : VisitorState) (A A2 : List Diagnostic)
    (M M2 K K2 : List Nat) (h : St.extend A M K = St.extend A2 M2 K2) : A = A2 := by
  have h2 := congrArg VisitorState.Diags h
  simp only [VisitorState.extend] at h2
  exact List.append_cancel_left h2

theorem VisitorState.Diag_extend (St : VisitorState) (Loc : SourceLocation) (ID : DiagID) :
    St.Diag Loc ID = St.extend [⟨Loc, ID⟩] [] [] := by
  simp [VisitorState.Diag, VisitorState.extend]

/-- The diagnostic of the restriction of a node reports a use of exceptions, of
assembly or of RTTI. -/
theorem languageRestrictions_restricted (N : StmtNode) (R : SourceLocation × RestrictKind)
    (hR : N.restricted = some R) : languageRestrictions [restrictionDiag R] = [R] := by
  unfold StmtNode.restricted at hR
  split at hR <;> first
    | (injection hR with hR
       subst hR
       simp [languageRestrictions, restrictions, restrictionDiag])
    | cases hR

theorem languageRestrictions_map_restricted :
    ∀ Rs : List (SourceLocation × RestrictKind),
      (∀ R ∈ Rs, languageRestrictions [restrictionDiag R] = [R]) →
      languageRestrictions (Rs.map restrictionDiag) = Rs
  | [], _ => rfl
  | R :: Rest, h => by
    have e : (R :: Rest).map restrictionDiag = [restrictionDiag R] ++ Rest.map restrictionDiag :=
      rfl
    rw [e, languageRestrictions_append, h R (List.mem_cons_self _ _),
      languageRestrictions_map_restricted Rest (fun R2 h2 => h R2 (List.mem_cons_of_mem _ h2))]
    rfl

/-- What the visit of one node adds: the state is extended; for a node of a
restricted class by the one diagnostic of its restriction; for another node,
when the traversal of the bodies that the translation unit defines adds no
report of a use of exceptions, of assembly or of RTTI, by no such report. -/
theorem WalkUpFrom_extends (TU : TranslationUnit) (fuel : Nat) (St Sa : VisitorState)
    (S : Stmt) (h : WalkUpFrom TU (TraverseStmt TU fuel) fuel St S = some Sa) :
    ∃ (A : List Diagnostic) (M K : List Nat), Sa = St.extend A M K
      ∧ List.Sublist S.Node.restricted.toList (languageRestrictions A)
      ∧ ((∀ FD B, TU.getDefinition FD = some (some B) →
            QuietStep (fun St => TraverseStmt TU fuel St B)) →
          languageRestrictions A = S.Node.restricted.toList) := by
  cases hR : S.Node.restricted with
  | some R =>
    rw [WalkUpFrom_restricted TU _ fuel St S R hR] at h
    injection h with h
    subst h
    have hL := languageRestrictions_restricted S.Node R hR
    refine ⟨[restrictionDiag R], [], [], VisitorState.Diag_extend _ _ _, ?_, fun _ => ?_⟩
    · rw [hL]; exact List.Sublist.refl _
    · rw [hL]; rfl
  | none =>
    have hU : Uniform (fun St => WalkUpFrom TU (TraverseStmt TU fuel) fuel St S) :=
      Uniform_closed.WalkUpFrom TU _ fuel S (fun _ _ => trivial)
        (fun _ B _ => TraverseStmt_uniform TU fuel B)
    obtain ⟨A, M, K, hSa, _⟩ := hU St Sa h
    refine ⟨A, M, K, hSa, List.nil_sublist _, fun hT => ?_⟩
    obtain ⟨A2, M2, K2, hSa2, hA2⟩ :=
      QuietStep_closed.WalkUpFrom_quiet TU (TraverseStmt TU fuel) fuel S hR hT St Sa h
    rw [VisitorState.extend_diags_inj St A A2 M M2 K K2 (hSa.symm.trans hSa2)]
    exact hA2

/-- What the traversal of a list of statements adds, from what the traversal
of each adds. -/
theorem TraverseStmts_extends (T : VisitorState → Stmt → Option VisitorState)
    (P : Prop) :
    ∀ (Ss : List Stmt),
      (∀ S ∈ Ss, ∀ St St1, T St S = some St1 →
        ∃ (A : List Diagnostic) (M K : List Nat), St1 = St.extend A M K
          ∧ List.Sublist S.restrictedNodes (languageRestrictions A)
          ∧ (P → languageRestrictions A = S.restrictedNodes)) →
      ∀ St St1, TraverseStmts T St Ss = some St1 →
        ∃ (A : List Diagnostic) (M K : List Nat), St1 = St.extend A M K
          ∧ List.Sublist (restrictedNodesOf Ss) (languageRestrictions A)
          ∧ (P → languageRestrictions A = restrictedNodesOf Ss)
  | [], _, St, St1, h => by
    rw [TraverseStmts] at h
    injection h with h
    subst h
    exact ⟨[], [], [], (VisitorState.extend_nil _).symm, List.Sublist.refl _, fun _ => rfl⟩
  | S :: Rest, hS, St, St1, h => by
    rw [TraverseStmts] at h
    cases hT : T St S with
    | none => rw [hT] at h; cases h
    | some Sa =>
      rw [hT] at h
      simp only [] at h
      obtain ⟨A, M, K, rfl, hSub, hEq⟩ := hS S (List.mem_cons_self _ _) St Sa hT
      obtain ⟨A2, M2, K2, rfl, hSub2, hEq2⟩ :=
        TraverseStmts_extends T P Rest (fun S2 h2 => hS S2 (List.mem_cons_of_mem _ h2)) _ St1 h
      refine ⟨A ++ A2, M ++ M2, K ++ K2, VisitorState.extend_extend _ _ _ _ _ _ _, ?_, ?_⟩
      · rw [restrictedNodesOf, languageRestrictions_append]
        exact List.Sublist.append hSub hSub2
      · intro hP
        rw [restrictedNodesOf, languageRestrictions_append, hEq hP, hEq2 hP]

/-- What the traversal of a statement adds, where it returns: the state is
extended, the restrictions of the nodes of the statement are reported in the
order of the nodes, and when no body that the translation unit defines has a
node of a restricted class, no other use of exceptions, of assembly or of RTTI
is reported. -/
theorem TraverseStmt_extends (TU : TranslationUnit) :
    ∀ (fuel : Nat) (S : Stmt) (St St1 : VisitorState),
      TraverseStmt TU fuel St S = some St1 →
      ∃ (A : List Diagnostic) (M K : List Nat), St1 = St.extend A M K
        ∧ List.Sublist S.restrictedNodes (languageRestrictions A)
        ∧ ((∀ FD B, TU.getDefinition FD = some (some B) → B.restrictedNodes = []) →
            languageRestrictions A = S.restrictedNodes)
  | 0, _, _, _, h => by rw [TraverseStmt] at h; cases h
  | fuel + 1, S, St, St1, h => by
    have ih := TraverseStmt_extends TU fuel
    rw [TraverseStmt] at h
    cases hW : WalkUpFrom TU (TraverseStmt TU fuel) fuel St S with
    | none => rw [hW] at h; cases h
    | some Sa =>
      rw [hW] at h
      simp only [] at h
      obtain ⟨A, M, K, rfl, hSub, hEq⟩ := WalkUpFrom_extends TU fuel St Sa S hW
      obtain ⟨A2, M2, K2, rfl, hSub2, hEq2⟩ :=
        TraverseStmts_extends (TraverseStmt TU fuel)
          (∀ FD B, TU.getDefinition FD = some (some B) → B.restrictedNodes = [])
          S.Children (fun S2 _ => ih S2) _ St1 h
      obtain ⟨Node, Children⟩ := S
      refine ⟨A ++ A2, M ++ M2, K ++ K2, VisitorState.extend_extend _ _ _ _ _ _ _, ?_, ?_⟩
      · rw [Stmt.restrictedNodes, languageRestrictions_append]
        exact List.Sublist.append hSub hSub2
      · intro hTU
        have hQ : ∀ FD B, TU.getDefinition FD = some (some B) →
            QuietStep (fun St => TraverseStmt TU fuel St B) := by
          intro FD B hB St2 St3 h3
          obtain ⟨A3, M3, K3, h4, _, h5⟩ := ih B St2 St3 h3
          exact ⟨A3, M3, K3, h4, by rw [h5 hTU, hTU FD B hB]⟩
        rw [Stmt.restrictedNodes, languageRestrictions_append, hEq hQ, hEq2 hTU]
        rfl

theorem depthOf_mem : ∀ (Ss : List Stmt) (S : Stmt), S ∈ Ss → S.depth ≤ depthOf Ss
  | [], _, h => absurd h (List.not_mem_nil _)
  | S0 :: Rest, S, h => by
    rw [depthOf]
    rcases List.mem_cons.mp h with rfl | h
    · exact le_max_left _ _
    · exact le_trans (depthOf_mem Rest S h) (le_max_right _ _)

/-- The traversal of statements that are plain, with a bound that suffices
for each, returns and reports the restrictions of their nodes and nothing
else. -/
theorem TraverseStmts_plain (T : VisitorState → Stmt → Option VisitorState) :
    ∀ (Ss : List Stmt),
      (∀ S ∈ Ss, S.plain = true → ∀ St,
        T St S = some (St.extend (S.restrictedNodes.map restrictionDiag) [] [])) →
      plainOf Ss = true → ∀ St,
        TraverseStmts T St Ss
          = some (St.extend ((restrictedNodesOf Ss).map restrictionDiag) [] [])
  | [], _, _, St => by
    rw [TraverseStmts, restrictedNodesOf]
    simp [VisitorState.extend]
  | S :: Rest, hS, hP, St => by
    rw [plainOf, Bool.and_eq_true] at hP
    rw [TraverseStmts, hS S (List.mem_cons_self _ _) hP.1 St]
    simp only []
    rw [TraverseStmts_plain T Rest (fun S2 h2 => hS S2 (List.mem_cons_of_mem _ h2)) hP.2,
      VisitorState.extend_extend, restrictedNodesOf, List.map_append]
    rfl

theorem WalkUpFrom_plain (TU : TranslationUnit)
    (T : VisitorState → Stmt → Option VisitorState) (fuel : Nat) (St : VisitorState)
    (S : Stmt) (hP : (S.Node.restricted.isSome || S.Node.unhandled) = true) :
    WalkUpFrom TU T fuel St S
      = some (St.extend (S.Node.restricted.toList.map restrictionDiag) [] []) := by
  cases hR : S.Node.restricted with
  | some R =>
    rw [WalkUpFrom_restricted TU T fuel St S R hR]
    exact congrArg some (VisitorState.Diag_extend _ _ _)
  | none =>
    rw [hR] at hP
    simp only [Option.isSome, Bool.false_or] at hP
    unfold StmtNode.unhandled at hP
    unfold WalkUpFrom
    split at hP <;> first
      | (next hCl => simp only [hCl]; simp [VisitorState.extend])
      | cases hP

/-- The traversal of a plain statement returns when the bound is at least
the depth of the statement, and reports the restrictions of its nodes and
nothing else. -/
theorem TraverseStmt_plain (TU : TranslationUnit) :
    ∀ (fuel : Nat) (S : Stmt), S.depth ≤ fuel → S.plain = true → ∀ St,
      TraverseStmt TU fuel St S
        = some (St.extend (S.restrictedNodes.map restrictionDiag) [] [])
  | 0, S, hD, _, _ => by
    obtain ⟨Node, Children⟩ := S
    rw [Stmt.depth] at hD
    omega
  | fuel + 1, S, hD, hP, St => by
    have ih := TraverseStmt_plain TU fuel
    obtain ⟨Node, Children⟩ := S
    rw [Stmt.depth] at hD
    rw [Stmt.plain, Bool.and_eq_true] at hP
    rw [TraverseStmt, WalkUpFrom_plain TU _ fuel St (.mk Node Children) hP.1]
    simp only [Stmt.Children, Stmt.Node]
    rw [TraverseStmts_plain (TraverseStmt TU fuel) Children
        (fun S2 h2 hP2 => ih S2 (le_trans (depthOf_mem Children S2 h2) (by omega)) hP2) hP.2,
      VisitorState.extend_extend, Stmt.restrictedNodes, List.map_append]
    rfl


theorem lookup_mem {β : Type} (k : Nat) (v : β) :
    ∀ l : List (Nat × β), l.lookup k = some v → (k, v) ∈ l
  | [], h => by cases h
  | (k0, v0) :: Rest, h => by
    rw [List.lookup] at h
    split at h
    · next hk =>
      injection h with h
      subst h
      have e : k = k0 := by simpa using hk
      subst e
      exact List.mem_cons_self _ _
    · exact List.mem_cons_of_mem _ (lookup_mem k v Rest h)

theorem Mutual_bodies_unrestricted (FD : FunctionDecl) (B : Stmt)
    (h : Device.Mutual.getDefinition FD = some (some B)) : B.restrictedNodes = [] := by
  have hM := lookup_mem FD.ID (some B) Device.Mutual.Definitions h
  simp only [Device.Mutual, List.mem_cons, Prod.mk.injEq, Option.some.injEq,
    List.mem_nil_iff, or_false] at hM
  rcases hM with ⟨_, rfl⟩ | ⟨_, rfl⟩ | ⟨_, rfl⟩ | ⟨_, rfl⟩ <;> rfl

/-- C33: the handler of a node of one of the eight restricted classes (a throw
expression, a try statement, a catch clause, an SEH try statement, a GCC or MS
assembly statement, a typeid expression, a dynamic cast) returns, whatever the
state, and adds exactly the one diagnostic of the kind of the class at the
location of the node. Where the traversal of a body returns, the restrictions
of the nodes of the body are all among the reports of a use of exceptions, of
assembly or of RTTI that were added, in the order of the nodes; they are
exactly those reports, as many as there are such nodes, when no body that the
translation unit defines has such a node. For a body made of such nodes and of
nodes without a handler the traversal returns for every bound from the depth of
the body on, and adds these diagnostics and nothing else. -/
theorem restricted_nodes_reported (TU : TranslationUnit) (fuel : Nat)
    (St St1 : VisitorState) (S : Stmt) (h : TraverseStmt TU fuel St S = some St1) :
    (∀ (T : VisitorState → Stmt → Option VisitorState) (fl : Nat) (St0 : VisitorState)
        (N : Stmt) (R : SourceLocation × RestrictKind), N.Node.restricted = some R →
        WalkUpFrom TU T fl St0 N = some (St0.Diag R.1 (.err_sycl_restrict R.2)))
    ∧ (∃ (A : List Diagnostic) (M K : List Nat), St1 = St.extend A M K
        ∧ List.Sublist S.restrictedNodes (languageRestrictions A)
        ∧ ((∀ FD B, TU.getDefinition FD = some (some B) → B.restrictedNodes = []) →
            languageRestrictions A = S.restrictedNodes
            ∧ (languageRestrictions A).length = S.restrictedNodes.length))
    ∧ (S.plain = true → ∀ n : Nat,
        TraverseStmt TU (S.depth + n) St S
          = some (St.extend (S.restrictedNodes.map restrictionDiag) [] [])) := by
  refine ⟨fun T fl St0 N R hR => WalkUpFrom_restricted TU T fl St0 N R hR, ?_, ?_⟩
  · obtain ⟨A, M, K, hSt, hSub, hEq⟩ := TraverseStmt_extends TU fuel S St St1 h
    exact ⟨A, M, K, hSt, hSub, fun hTU => ⟨hEq hTU, by rw [hEq hTU]⟩⟩
  · intro hP n
    exact TraverseStmt_plain TU (S.depth + n) S (Nat.le_add_right _ _) hP St

theorem restricted_nodes_reported_witness :
    TraverseStmt Device.Mutual 20 Device.St0 Device.restrictedBody
      = some ⟨[⟨241, .err_sycl_restrict .KernelUseExceptions⟩,
               ⟨244, .err_sycl_restrict .KernelUseExceptions⟩,
               ⟨245, .err_sycl_restrict .KernelUseExceptions⟩,
               ⟨247, .err_sycl_restrict .KernelUseExceptions⟩,
               ⟨249, .err_sycl_restrict .KernelUseAssembly⟩,
               ⟨250, .err_sycl_restrict .KernelUseAssembly⟩,
               ⟨252, .err_sycl_restrict .KernelRTTI⟩,
               ⟨254, .err_sycl_restrict .KernelRTTI⟩], [], []⟩
    ∧ Device.restrictedBody.restrictedNodes
      = [(241, .KernelUseExceptions), (244, .KernelUseExceptions),
         (245, .KernelUseExceptions), (247, .KernelUseExceptions),
         (249, .KernelUseAssembly), (250, .KernelUseAssembly),
         (252, .KernelRTTI), (254, .KernelRTTI)]
    ∧ (∃ (A : List Diagnostic) (M K : List Nat),
        (⟨[⟨241, .err_sycl_restrict .KernelUseExceptions⟩,
           ⟨244, .err_sycl_restrict .KernelUseExceptions⟩,
           ⟨245, .err_sycl_restrict .KernelUseExceptions⟩,
           ⟨247, .err_sycl_restrict .KernelUseExceptions⟩,
           ⟨249, .err_sycl_restrict .KernelUseAssembly⟩,
           ⟨250, .err_sycl_restrict .KernelUseAssembly⟩,
           ⟨252, .err_sycl_restrict .KernelRTTI⟩,
           ⟨254, .err_sycl_restrict .KernelRTTI⟩], [], []⟩ : VisitorState)
          = Device.St0.extend A M K
        ∧ languageRestrictions A = Device.restrictedBody.restrictedNodes
        ∧ (languageRestrictions A).length = 8) := by
  refine ⟨rfl, rfl, ?_⟩
  obtain ⟨A, M, K, h1, _, h3⟩ :=
    (restricted_nodes_reported Device.Mutual 20 Device.St0 _ Device.restrictedBody rfl).2.1
  exact ⟨A, M, K, h1, (h3 Mutual_bodies_unrestricted).1, by
    rw [(h3 Mutual_bodies_unrestricted).1]; rfl⟩


/-! ### Reports that a check of a type keeps from being made -/

/-- C15 at the reference `head` to the variable of `List *head;` declared at
namespace scope, with `struct List { List *Next; int V; }`: the variable has
global storage, its type is not const-qualified, and it is no static local
variable, no static data member and no parameter, but `VisitDeclRefExpr`
returns no result under any bound on the depth and from any state, so that no
`KernelGlobalVariable` is reported: the check of the type of the reference,
which comes first, never returns. The reference `g` to `int g;` is reported. -/
theorem VisitDeclRefExpr_list_never_reports :
    Device.refHead.getDecl.map
        (fun VD => (VD.ID, VD.isVarDecl, VD.HasGlobalStorage,
          VD.Ty.getNonReferenceType.isConstQualified, VD.IsStaticLocal,
          VD.IsStaticDataMember, VD.isParmVarDecl))
      = some (76, true, true, false, false, false, false)
    ∧ Device.refHead.getType = Device.listPtrTy
    ∧ (∀ (fuel : Nat) (St : VisitorState),
        VisitDeclRefExpr Device.Lists fuel St Device.refHead = none)
    ∧ (VisitDeclRefExpr Device.Types 1 Device.St0 Device.refG).map VisitorState.Diags
        = some [⟨40, .err_sycl_restrict .KernelGlobalVariable⟩] := by
  refine ⟨rfl, rfl, ?_, rfl⟩
  intro fuel St
  have h : CheckSYCLType Device.Lists fuel Device.refHead.getType
      Device.refHead.Node.BeginLoc = none :=
    CheckSYCLType_listPtr_never_returns fuel _
  simp only [VisitDeclRefExpr, VisitorState.check, h]

/-- C17 at the call `fp(head)` through a pointer to a function, `head` being
of the type `List *` with `struct List { List *Next; int V; }`: the call has no
direct callee, but `VisitCallExpr` returns no result under any bound on the
depth, from any state and with any traversal, so that no
`KernelCallFunctionPointer` is reported: the check of the type of the
argument, which comes first, never returns. The call `fp()` without an
argument is reported. -/
theorem VisitCallExpr_list_argument_never_reports :
    Device.callPtrHead.getDirectCallee = none
    ∧ Device.callPtrHead.arguments.map Stmt.getType = [Device.listPtrTy]
    ∧ (∀ (T : VisitorState → Stmt → Option VisitorState) (fuel : Nat)
        (St : VisitorState),
        VisitCallExpr Device.Lists T fuel St Device.callPtrHead = none)
    ∧ (VisitCallExpr Device.Lists Device.skip 1 Device.St0 Device.callPtr).map
        VisitorState.Diags
      = some [⟨53, .err_sycl_restrict .KernelCallFunctionPointer⟩] := by
  refine ⟨rfl, rfl, ?_, rfl⟩
  intro T fuel St
  have h : CheckSYCLType Device.Lists fuel Device.listPtrTy 264 = none :=
    CheckSYCLType_listPtr_never_returns fuel _
  have hA : VisitCallExprArgs Device.Lists fuel St Device.callPtrHead.arguments = none := by
    simp only [Device.callPtrHead, Stmt.arguments, Stmt.Children, List.tail,
      VisitCallExprArgs, VisitorState.check, Stmt.getType, Stmt.Node, h]
  simp only [VisitCallExpr, hA]


/-! ### The definitions that a traversal reaches through calls -/

theorem BodyClosed.ret_body {TU : TranslationUnit}
    {T : VisitorState → Stmt → Option VisitorState}
    {C : (VisitorState → Option VisitorState) → Prop} (hC : BodyClosed TU T C) :
    C (fun St => some St) := by
  have h := hC.diags []
  have e : (fun St : VisitorState => some { St with Diags := St.Diags ++ [] })
      = (fun St => some St) := by
    funext St; simp
  rwa [e] at h

theorem BodyClosed.diag_body {TU : TranslationUnit}
    {T : VisitorState → Stmt → Option VisitorState}
    {C : (VisitorState → Option VisitorState) → Prop} (hC : BodyClosed TU T C)
    (Loc : SourceLocation) (ID : DiagID) : C (fun St => some (St.Diag Loc ID)) :=
  hC.diags [⟨Loc, ID⟩]

theorem BodyClosed.of_eq_body {TU : TranslationUnit}
    {T : VisitorState → Stmt → Option VisitorState}
    {C : (VisitorState → Option VisitorState) → Prop} (_hC : BodyClosed TU T C)
    (f g : VisitorState → Option VisitorState) (hf : C f)
    (h : ∀ St, g St = f St) : C g := by
  have e : g = f := funext h
  rw [e]; exact hf

theorem BodyClosed.cond_body {TU : TranslationUnit}
    {T : VisitorState → Stmt → Option VisitorState}
    {C : (VisitorState → Option VisitorState) → Prop} (hC : BodyClosed TU T C)
    (b : Bool) (Loc : SourceLocation) (ID : DiagID) :
    C (fun St => some (if b then St.Diag Loc ID else St)) := by
  cases b
  · exact hC.ret_body
  · exact hC.diag_body Loc ID

theorem BodyClosed.check_body {TU : TranslationUnit}
    {T : VisitorState → Stmt → Option VisitorState}
    {C : (VisitorState → Option VisitorState) → Prop} (hC : BodyClosed TU T C)
    (fuel : Nat) (Ty : QualType) (Loc : SourceLocation) :
    C (fun St => St.check TU fuel Ty Loc) := by
  cases h : CheckSYCLType TU fuel Ty Loc with
  | none =>
    have e : (fun St : VisitorState => St.check TU fuel Ty Loc) = (fun _ => none) := by
      funext St; simp [VisitorState.check, h]
    rw [e]; exact hC.fail
  | some R =>
    obtain ⟨b, Ds⟩ := R
    have e : (fun St : VisitorState => St.check TU fuel Ty Loc)
        = (fun St => some { St with Diags := St.Diags ++ Ds }) := by
      funext St; simp [VisitorState.check, h]
    rw [e]
    exact hC.diags Ds

theorem BodyClosed.args_body {TU : TranslationUnit}
    {T : VisitorState → Stmt → Option VisitorState}
    {C : (VisitorState → Option VisitorState) → Prop} (hC : BodyClosed TU T C)
    (fuel : Nat) : ∀ Args : List Stmt, C (fun St => VisitCallExprArgs TU fuel St Args)
  | [] => hC.ret_body
  | Arg :: Rest => by
    have h := hC.seq _ _ (hC.check_body fuel Arg.getType Arg.Node.BeginLoc)
      (BodyClosed.args_body hC fuel Rest)
    have e : (fun St => VisitCallExprArgs TU fuel St (Arg :: Rest))
        = (fun St => (St.check TU fuel Arg.getType Arg.Node.BeginLoc).bind
            fun St => VisitCallExprArgs TU fuel St Rest) := by
      funext St
      rw [VisitCallExprArgs]
      cases St.check TU fuel Arg.getType Arg.Node.BeginLoc <;> rfl
    rw [e]; exact h

theorem BodyClosed.VisitCallExpr_body {TU : TranslationUnit}
    {T : VisitorState → Stmt → Option VisitorState}
    {C : (VisitorState → Option VisitorState) → Prop} (hC : BodyClosed TU T C)
    (fuel : Nat) (e : Stmt)
    (hT : ∀ FD B, TU.getDefinition FD = some (some B) → C (fun St => T St B)) :
    C (fun St => SemaSYCL.VisitCallExpr TU T fuel St e) := by
  cases hCallee : e.getDirectCallee with
  | none =>
    refine hC.of_eq_body _ _ (hC.seq _ _ (hC.args_body fuel e.arguments)
      (hC.diag_body e.Node.ExprLoc (.err_sycl_restrict .KernelCallFunctionPointer))) ?_
    intro St
    simp only [SemaSYCL.VisitCallExpr, hCallee]
    cases VisitCallExprArgs TU fuel St e.arguments <;> rfl
  | some Callee =>
    cases hRec : IsRecursive TU (IsRecursiveDepth TU) Callee.ID Callee [] with
    | none =>
      refine hC.of_eq_body _ _ (hC.seq _ _ (hC.args_body fuel e.arguments) hC.fail) ?_
      intro St
      simp only [SemaSYCL.VisitCallExpr, hCallee, hRec]
      cases VisitCallExprArgs TU fuel St e.arguments <;> rfl
    | some R =>
      obtain ⟨Recursive, Ds⟩ := R
      have hLast : C (fun St =>
          match TU.getDefinition Callee with
          | some Body =>
            if !St.hasAttr Callee then SemaSYCL.markDeviceFunction T St Callee Body
            else some St
          | none => some St) := by
        cases hDef : TU.getDefinition Callee with
        | none => exact hC.ret_body
        | some Body =>
          exact hC.guarded Callee Body hDef (fun B hB => hT Callee B (by rw [hDef, hB]))
      refine hC.of_eq_body _ _
        (hC.seq _ _ (hC.args_body fuel e.arguments)
          (hC.seq _ _ (hC.diags Ds)
            (hC.seq _ _ (hC.cond_body Recursive e.Node.ExprLoc
                (.err_sycl_restrict .KernelCallRecursiveFunction))
              (hC.seq _ _ (hC.cond_body Callee.IsVirtualMethod e.Node.ExprLoc
                  (.err_sycl_restrict .KernelCallVirtualFunction))
                (hC.seq _ _ (hC.check_body fuel Callee.ReturnType Callee.Loc) hLast))))) ?_
      intro St
      simp only [SemaSYCL.VisitCallExpr, hCallee, hRec]
      cases VisitCallExprArgs TU fuel St e.arguments with
      | none => rfl
      | some St1 =>
        simp only [Option.bind]
        split <;> simp_all

theorem BodyClosed.VisitCXXNewExpr_body {TU : TranslationUnit}
    {T : VisitorState → Stmt → Option VisitorState}
    {C : (VisitorState → Option VisitorState) → Prop} (hC : BodyClosed TU T C)
    (E : Stmt)
    (hT : ∀ FD B, TU.getDefinition FD = some (some B) → C (fun St => T St B)) :
    C (fun St => SemaSYCL.VisitCXXNewExpr TU T St E) := by
  unfold SemaSYCL.VisitCXXNewExpr
  cases E.getOperatorNew with
  | none => exact hC.ret_body
  | some FD =>
    simp only []
    cases FD.IsReplaceableGlobalAllocationFunction with
    | true => exact hC.diag_body _ _
    | false =>
      simp only [Bool.false_eq_true, if_false]
      cases hDef : TU.getDefinition FD with
      | none => exact hC.ret_body
      | some Body =>
        exact hC.guarded FD Body hDef (fun B hB => hT FD B (by rw [hDef, hB]))

theorem BodyClosed.VisitCXXConstructExpr_body {TU : TranslationUnit}
    {T : VisitorState → Stmt → Option VisitorState}
    {C : (VisitorState → Option VisitorState) → Prop} (hC : BodyClosed TU T C)
    (fuel : Nat) (E : Stmt)
    (hT : ∀ FD B, TU.getDefinition FD = some (some B) → C (fun St => T St B)) :
    C (fun St => SemaSYCL.VisitCXXConstructExpr TU T fuel St E) := by
  have hMark : ∀ D : FunctionDecl, C (fun St =>
      match TU.getDefinition D with
      | some Body => SemaSYCL.markDeviceFunction T St D Body
      | none => some St) := by
    intro D
    cases hDef : TU.getDefinition D with
    | none => exact hC.ret_body
    | some Body =>
      exact hC.mark D Body hDef (fun B hB => hT D B (by rw [hDef, hB]))
  cases hCtor : E.getConstructor with
  | none =>
    refine hC.of_eq_body _ _ (hC.args_body fuel E.Children) ?_
    intro St
    simp only [SemaSYCL.VisitCXXConstructExpr, hCtor]
    cases VisitCallExprArgs TU fuel St E.Children <;> rfl
  | some Ctor =>
    have hDt : C (fun St =>
        match E.getUserDeclaredDestructor with
        | some Dtor =>
          match TU.getDefinition Dtor with
          | some Body => SemaSYCL.markDeviceFunction T St Dtor Body
          | none => some St
        | none => some St) := by
      cases hDtor : E.getUserDeclaredDestructor with
      | none => exact hC.ret_body
      | some Dtor => exact hMark Dtor
    refine hC.of_eq_body _ _
      (hC.seq _ _ (hC.args_body fuel E.Children) (hC.seq _ _ (hMark Ctor) hDt)) ?_
    intro St
    simp only [SemaSYCL.VisitCXXConstructExpr, hCtor]
    cases VisitCallExprArgs TU fuel St E.Children with
    | none => rfl
    | some St1 =>
      simp only [Option.bind]
      split <;> simp_all

theorem BodyClosed.VisitDeclRefExpr_body {TU : TranslationUnit}
    {T : VisitorState → Stmt → Option VisitorState}
    {C : (VisitorState → Option VisitorState) → Prop} (hC : BodyClosed TU T C)
    (fuel : Nat) (E : Stmt) : C (fun St => SemaSYCL.VisitDeclRefExpr TU fuel St E) := by
  have hLast : ∃ b : Bool, ∀ St1 : VisitorState,
      (match E.getDecl with
        | some VD =>
          if VD.isVarDecl then
            if !VD.Ty.getNonReferenceType.isConstQualified && VD.HasGlobalStorage
                && !VD.IsStaticLocal && !VD.IsStaticDataMember && !VD.isParmVarDecl then
              some (St1.Diag E.Node.ExprLoc (.err_sycl_restrict .KernelGlobalVariable))
            else some St1
          else some St1
        | none => some St1)
      = some (if b then
          St1.Diag E.Node.ExprLoc (.err_sycl_restrict .KernelGlobalVariable) else St1) := by
    cases E.getDecl with
    | none => exact ⟨false, fun _ => rfl⟩
    | some VD =>
      by_cases h1 : VD.isVarDecl = true
      · by_cases h2 : (!VD.Ty.getNonReferenceType.isConstQualified && VD.HasGlobalStorage
                && !VD.IsStaticLocal && !VD.IsStaticDataMember && !VD.isParmVarDecl) = true
        · exact ⟨true, fun _ => by simp only [h1, h2, if_true]⟩
        · exact ⟨false, fun _ => by simp only [h1, h2, if_true, if_false, Bool.false_eq_true]⟩
      · exact ⟨false, fun _ => by simp only [h1, if_false, Bool.false_eq_true]⟩
  obtain ⟨b, hb⟩ := hLast
  refine hC.of_eq_body _ _
    (hC.seq _ _ (hC.check_body fuel E.getType E.Node.BeginLoc)
      (hC.cond_body b E.Node.ExprLoc (.err_sycl_restrict .KernelGlobalVariable))) ?_
  intro St
  simp only [SemaSYCL.VisitDeclRefExpr]
  cases St.check TU fuel E.getType E.Node.BeginLoc with
  | none => rfl
  | some St1 => exact hb St1

theorem BodyClosed.VisitMemberExpr_body {TU : TranslationUnit}
    {T : VisitorState → Stmt → Option VisitorState}
    {C : (VisitorState → Option VisitorState) → Prop} (hC : BodyClosed TU T C)
    (E : Stmt) : C (fun St => some (SemaSYCL.VisitMemberExpr St E)) := by
  have hb : ∃ b : Bool, ∀ St : VisitorState, SemaSYCL.VisitMemberExpr St E
      = if b then
          St.Diag E.Node.ExprLoc (.err_sycl_restrict .KernelNonConstStaticDataVariable)
        else St := by
    unfold SemaSYCL.VisitMemberExpr
    cases E.getMemberDecl with
    | none => exact ⟨false, fun _ => rfl⟩
    | some MD =>
      cases MD with
      | Field F => exact ⟨false, fun _ => rfl⟩
      | Method M => exact ⟨false, fun _ => rfl⟩
      | Var VD =>
        by_cases h1 : VD.isVarDecl = true
        · by_cases h2 : (VD.IsStaticDataMember
              && !VD.Ty.getNonReferenceType.isConstQualified) = true
          · exact ⟨true, fun _ => by simp only [h1, h2, if_true]⟩
          · exact ⟨false, fun _ => by
              simp only [h1, h2, if_true, if_false, Bool.false_eq_true]⟩
        · exact ⟨false, fun _ => by simp only [h1, if_false, Bool.false_eq_true]⟩
  obtain ⟨b, hb⟩ := hb
  refine hC.of_eq_body _ _ (hC.cond_body b E.Node.ExprLoc
    (.err_sycl_restrict .KernelNonConstStaticDataVariable)) ?_
  intro St
  rw [hb St]

theorem BodyClosed.TraverseStmts_body {TU : TranslationUnit}
    {T : VisitorState → Stmt → Option VisitorState}
    {C : (VisitorState → Option VisitorState) → Prop} (hC : BodyClosed TU T C)
    (T2 : VisitorState → Stmt → Option VisitorState) :
    ∀ Ss : List Stmt, (∀ S ∈ Ss, C (fun St => T2 St S)) →
      C (fun St => SemaSYCL.TraverseStmts T2 St Ss)
  | [], _ => hC.ret_body
  | S :: Rest, h => by
    refine hC.of_eq_body _ _
      (hC.seq _ _ (h S (List.mem_cons_self _ _))
        (BodyClosed.TraverseStmts_body hC T2 Rest
          (fun S2 hS2 => h S2 (List.mem_cons_of_mem _ hS2)))) ?_
    intro St
    rw [SemaSYCL.TraverseStmts]
    cases T2 St S <;> rfl

theorem BodyClosed.WalkUpFrom_body {TU : TranslationUnit}
    {T : VisitorState → Stmt → Option VisitorState}
    {C : (VisitorState → Option VisitorState) → Prop} (hC : BodyClosed TU T C)
    (fuel : Nat) (S : Stmt)
    (hT : ∀ FD B, TU.getDefinition FD = some (some B) → C (fun St => T St B)) :
    C (fun St => SemaSYCL.WalkUpFrom TU T fuel St S) := by
  unfold SemaSYCL.WalkUpFrom
  cases hCl : S.Node.Class with
  | CallExpr _ => exact hC.VisitCallExpr_body fuel S hT
  | CXXConstructExpr _ _ => exact hC.VisitCXXConstructExpr_body fuel S hT
  | CXXTypeidExpr => exact hC.diag_body _ _
  | CXXDynamicCastExpr => exact hC.diag_body _ _
  | TypedefNameDecl UnderlyingType => exact hC.check_body fuel _ _
  | RecordDecl TypeForDecl => exact hC.check_body fuel _ _
  | VarDecl VD =>
    simp only []
    cases hP : VD.isParmVarDecl with
    | false =>
      refine hC.of_eq_body _ _ (hC.check_body fuel VD.Ty VD.Loc) ?_
      intro St
      simp only [SemaSYCL.VisitVarDecl, Bool.false_eq_true, if_false]
      cases St.check TU fuel VD.Ty VD.Loc <;> rfl
    | true =>
      refine hC.of_eq_body _ _
        (hC.seq _ _ (hC.check_body fuel VD.Ty VD.Loc) (hC.check_body fuel VD.Ty VD.Loc)) ?_
      intro St
      simp only [SemaSYCL.VisitVarDecl, SemaSYCL.VisitParmVarDecl, if_true]
      cases St.check TU fuel VD.Ty VD.Loc <;> rfl
  | MemberExpr _ => exact hC.VisitMemberExpr_body S
  | DeclRefExpr _ => exact hC.VisitDeclRefExpr_body fuel S
  | CXXNewExpr _ => exact hC.VisitCXXNewExpr_body S hT
  | CXXThrowExpr => exact hC.diag_body _ _
  | CXXCatchStmt => exact hC.diag_body _ _
  | CXXTryStmt => exact hC.diag_body _ _
  | SEHTryStmt => exact hC.diag_body _ _
  | GCCAsmStmt => exact hC.diag_body _ _
  | MSAsmStmt => exact hC.diag_body _ _
  | CompoundStmt => exact hC.ret_body
  | DeclStmt => exact hC.ret_body
  | ImplicitCastExpr _ => exact hC.ret_body
  | BinaryOperator _ => exact hC.ret_body
  | Other => exact hC.ret_body


theorem VisitorState.extend_inj (St : VisitorState) (A A2 : List Diagnostic)
    (M M2 K K2 : List Nat) (h : St.extend A M K = St.extend A2 M2 K2) :
    A = A2 ∧ M = M2 ∧ K = K2 := by
  have h1 := congrArg VisitorState.Diags h
  have h2 := congrArg VisitorState.DeviceAttrs h
  have h3 := congrArg VisitorState.SyclKernels h
  simp only [VisitorState.extend] at h1 h2 h3
  exact ⟨List.append_cancel_left h1, List.append_cancel_left h2,
    List.append_cancel_left h3⟩

theorem CallsMarked.extend_calls {TU : TranslationUnit} {S : Stmt} {St : VisitorState}
    (h : CallsMarked TU S St) (A : List Diagnostic) (M K : List Nat) :
    CallsMarked TU S (St.extend A M K) := by
  intro D hD hDef
  simp only [VisitorState.extend, List.mem_append]
  exact Or.inl (h D hD hDef)

theorem TraverseStmt_marks_mono (TU : TranslationUnit) (fuel : Nat) (St St1 : VisitorState)
    (S : Stmt) (h : TraverseStmt TU fuel St S = some St1) :
    ∀ ID ∈ St.DeviceAttrs, ID ∈ St1.DeviceAttrs := by
  intro ID hID
  obtain ⟨A, M, K, rfl, _⟩ := TraverseStmt_uniform TU fuel S St St1 h
  simp [VisitorState.extend, hID]

/-- After the traversal of a list of statements the definitions of the direct
callees of their call expressions are marked, when this holds after the
traversal of each. -/
theorem TraverseStmts_calls_marked (TU : TranslationUnit) (fuel : Nat)
    (hT : ∀ S St St1, TraverseStmt TU fuel St S = some St1 → CallsMarked TU S St1) :
    ∀ (Ss : List Stmt) (St St1 : VisitorState),
      TraverseStmts (TraverseStmt TU fuel) St Ss = some St1 →
      ∀ D ∈ calleesOf Ss, (TU.getDefinition D).isSome = true → D.ID ∈ St1.DeviceAttrs
  | [], _, _, _, D, hD, _ => by
    rw [calleesOf] at hD
    cases hD
  | S :: Rest, St, St1, h, D, hD, hDef => by
    rw [TraverseStmts] at h
    cases hS : TraverseStmt TU fuel St S with
    | none => rw [hS] at h; cases h
    | some Sa =>
      rw [hS] at h
      simp only [] at h
      rw [calleesOf] at hD
      rcases List.mem_append.mp hD with hD | hD
      · have h1 := hT S St Sa hS D hD hDef
        obtain ⟨A, M, K, rfl, _⟩ := TraverseStmts_uniform TU fuel Rest Sa St1 h
        simp [VisitorState.extend, h1]
      · exact TraverseStmts_calls_marked TU fuel hT Rest Sa St1 h D hD hDef

/-- After a traversal that returns, the definitions of the direct callees of
the call expressions in the statement are marked. -/
theorem TraverseStmt_calls_marked (TU : TranslationUnit) :
    ∀ (fuel : Nat) (S : Stmt) (St St1 : VisitorState),
      TraverseStmt TU fuel St S = some St1 → CallsMarked TU S St1
  | 0, _, _, _, h => by rw [TraverseStmt] at h; cases h
  | fuel + 1, S, St, St1, h => by
    have ih := TraverseStmt_calls_marked TU fuel
    rw [TraverseStmt] at h
    cases hW : WalkUpFrom TU (TraverseStmt TU fuel) fuel St S with
    | none => rw [hW] at h; cases h
    | some Sw =>
      rw [hW] at h
      simp only [] at h
      have hRest := TraverseStmts_calls_marked TU fuel ih S.Children Sw St1 h
      obtain ⟨A2, M2, K2, hEq, _⟩ := TraverseStmts_uniform TU fuel S.Children Sw St1 h
      obtain ⟨Node, Children⟩ := S
      intro D hD hDef
      rw [Stmt.callees] at hD
      split at hD
      · next Callee hCl =>
        rcases List.mem_cons.mp hD with hD | hD
        · subst hD
          have hCal : (Stmt.mk Node Children).getDirectCallee = some D := by
            simp only [Stmt.getDirectCallee, Stmt.Node, hCl]
          unfold WalkUpFrom at hW
          simp only [Stmt.Node, hCl] at hW
          obtain ⟨Body, hBody⟩ := Option.isSome_iff_exists.mp hDef
          have hSw := VisitCallExpr_marks TU (TraverseStmt TU fuel) fuel St Sw
            (.mk Node Children) D Body hCal hBody
            (fun S0 B S1 hB => TraverseStmt_marks_mono TU fuel S0 S1 B hB) hW
          rw [hEq]
          simp [VisitorState.extend, hSw]
        · exact hRest D hD hDef
      · exact hRest D hD hDef

theorem ClosureStep_closed (TU : TranslationUnit)
    (T : VisitorState → Stmt → Option VisitorState)
    (hT : ∀ B St St1, T St B = some St1 → CallsMarked TU B St1) :
    BodyClosed TU T (ClosureStep TU) where
  fail := by intro St St1 h; cases h
  diags := by
    intro Ds St St1 h
    dsimp only at h ⊢
    injection h with h
    subst h
    exact ⟨Ds, [], [], by simp [VisitorState.extend], fun ID hID => by cases hID⟩
  seq := by
    intro f g hf hg St St1 h
    dsimp only at h ⊢
    cases hfs : f St with
    | none => rw [hfs] at h; cases h
    | some Sa =>
      rw [hfs] at h
      simp only [Option.bind] at h
      obtain ⟨A, M, K, rfl, hA⟩ := hf St Sa hfs
      obtain ⟨A2, M2, K2, rfl, hA2⟩ := hg _ St1 h
      refine ⟨A ++ A2, M ++ M2, K ++ K2, VisitorState.extend_extend _ _ _ _ _ _ _, ?_⟩
      intro ID hID B hB
      rcases List.mem_append.mp hID with hID | hID
      · exact (hA ID hID B hB).extend_calls A2 M2 K2
      · exact hA2 ID hID B hB
  mark := by
    intro Def Body hDef hf St St1 h
    dsimp only at h ⊢
    rw [markDeviceFunction_eq] at h
    cases Body with
    | none =>
      simp only [Option.elim, Option.map, Option.some.injEq] at h
      subst h
      refine ⟨[], [Def.ID], [Def.ID], by simp [VisitorState.extend], ?_⟩
      intro ID hID B hB
      rw [List.mem_singleton] at hID
      subst hID
      rw [TranslationUnit.getDefinition] at hDef
      rw [hDef] at hB
      cases hB
    | some B0 =>
      simp only [Option.elim] at h
      cases hB0 : T { St with DeviceAttrs := St.DeviceAttrs ++ [Def.ID] } B0 with
      | none => rw [hB0] at h; cases h
      | some St2 =>
        rw [hB0] at h
        simp only [Option.map, Option.some.injEq] at h
        subst h
        have hCalls := hT B0 _ St2 hB0
        obtain ⟨A, M, K, rfl, hA⟩ := hf B0 rfl _ St2 hB0
        refine ⟨A, Def.ID :: M, K ++ [Def.ID], VisitorState.marked_extend St Def A M K, ?_⟩
        intro ID hID B hB
        rcases List.mem_cons.mp hID with hID | hID
        · subst hID
          rw [TranslationUnit.getDefinition] at hDef
          rw [hDef] at hB
          injection hB with hB
          injection hB with hB
          subst hB
          exact hCalls
        · exact hA ID hID B hB
  guarded := by
    intro Def Body hDef hf St St1 h
    dsimp only at h ⊢
    by_cases hH : St.hasAttr Def = true
    · simp only [hH, Bool.not_true, Bool.false_eq_true, if_false, Option.some.injEq] at h
      subst h
      exact ⟨[], [], [], (VisitorState.extend_nil _).symm, fun ID hID => by cases hID⟩
    · simp only [hH, Bool.not_false, if_true] at h
      rw [markDeviceFunction_eq] at h
      cases Body with
      | none =>
        simp only [Option.elim, Option.map, Option.some.injEq] at h
        subst h
        refine ⟨[], [Def.ID], [Def.ID], by simp [VisitorState.extend], ?_⟩
        intro ID hID B hB
        rw [List.mem_singleton] at hID
        subst hID
        rw [TranslationUnit.getDefinition] at hDef
        rw [hDef] at hB
        cases hB
      | some B0 =>
        simp only [Option.elim] at h
        cases hB0 : T { St with DeviceAttrs := St.DeviceAttrs ++ [Def.ID] } B0 with
        | none => rw [hB0] at h; cases h
        | some St2 =>
          rw [hB0] at h
          simp only [Option.map, Option.some.injEq] at h
          subst h
          have hCalls := hT B0 _ St2 hB0
          obtain ⟨A, M, K, rfl, hA⟩ := hf B0 rfl _ St2 hB0
          refine ⟨A, Def.ID :: M, K ++ [Def.ID], VisitorState.marked_extend St Def A M K, ?_⟩
          intro ID hID B hB
          rcases List.mem_cons.mp hID with hID | hID
          · subst hID
            rw [TranslationUnit.getDefinition] at hDef
            rw [hDef] at hB
            injection hB with hB
            injection hB with hB
            subst hB
            exact hCalls
          · exact hA ID hID B hB

/-- Where a traversal returns, for every definition that it has marked the
definitions of the direct callees of the call expressions in the body of that
definition are marked. -/
theorem TraverseStmt_closure (TU : TranslationUnit) :
    ∀ (fuel : Nat) (S : Stmt), ClosureStep TU (fun St => TraverseStmt TU fuel St S)
  | 0, _ => by intro St St1 h; cases h
  | fuel + 1, S => by
    have ih := TraverseStmt_closure TU fuel
    have hC := ClosureStep_closed TU (TraverseStmt TU fuel)
      (fun B St St1 h => TraverseStmt_calls_marked TU fuel B St St1 h)
    refine hC.of_eq_body _ _
      (hC.seq _ _ (hC.WalkUpFrom_body fuel S (fun _ B _ => ih B))
        (hC.TraverseStmts_body (TraverseStmt TU fuel) S.Children (fun Child _ => ih Child))) ?_
    intro St
    rw [TraverseStmt]
    cases WalkUpFrom TU (TraverseStmt TU fuel) fuel St S <;> rfl

/-- A definition that is reached through call expressions from a statement is
marked after a traversal of the statement that returns. -/
theorem CallReached.marked_reached {TU : TranslationUnit} {S : Stmt} {St : VisitorState}
    {A : List Diagnostic} {M K : List Nat}
    (hCalls : CallsMarked TU S (St.extend A M K))
    (hClos : ∀ ID ∈ M, ∀ B : Stmt, TU.Definitions.lookup ID = some (some B) →
      CallsMarked TU B (St.extend A M K))
    {Def : FunctionDecl} (hR : CallReached TU St.DeviceAttrs S Def)
    (hDef : (TU.getDefinition Def).isSome = true) :
    Def.ID ∈ (St.extend A M K).DeviceAttrs := by
  induction hR with
  | direct D hD => exact hCalls D hD hDef
  | step D1 D B _ hN hB hD ih =>
    have h1 := ih (by rw [hB]; rfl)
    simp only [VisitorState.extend, List.mem_append] at h1
    rcases h1 with h1 | h1
    · exact absurd h1 hN
    · exact hClos D1.ID h1 B hB D hD hDef


theorem Mutual_not_constructed (S : Stmt) (ID : Nat) (hS : S.constructs = [])
    (h1 : ID ≠ 131) (h2 : ID ≠ 132) : NotConstructed Device.Mutual S ID := by
  refine ⟨(by rw [hS]; intro D hD; cases hD), ?_⟩
  intro FD B hB D hD
  have hM := lookup_mem FD.ID (some B) Device.Mutual.Definitions hB
  simp only [Device.Mutual, List.mem_cons, Prod.mk.injEq, Option.some.injEq,
    List.mem_nil_iff, or_false] at hM
  rcases hM with ⟨_, rfl⟩ | ⟨_, rfl⟩ | ⟨_, rfl⟩ | ⟨_, rfl⟩
  · have e : (Device.bodyOf Device.constructCB).constructs = [Device.ctorCB] := rfl
    rw [e, List.mem_singleton] at hD
    subst hD
    exact fun h => h2 h.symm
  · have e : (Device.bodyOf Device.constructCA).constructs = [Device.ctorCA] := rfl
    rw [e, List.mem_singleton] at hD
    subst hD
    exact fun h => h1 h.symm
  · have e : (Device.bodyOf Device.callG).constructs = [] := rfl
    rw [e] at hD
    cases hD
  · have e : (Device.bodyOf Device.callF).constructs = [] := rfl
    rw [e] at hD
    cases hD

/-- C23 (amended): let a traversal of the statement `S` return. Every
definition `Def` that is reached through a call expression, in `S`, in the
body of a function that is reached in this way and was not marked before, or
in the body of any definition that the traversal has marked, is marked after
the traversal. If moreover no construct expression of `S` or of a body of the
translation unit names `Def` as constructor or destructor, the traversal has
marked and registered `Def` exactly once, however many call expressions reach
it, and not at all if `Def` was marked already; and a later traversal, of any
statement, from the state reached neither marks nor registers `Def` again:
the body of `Def` is traversed by the visit that marks it and by no other. -/
theorem marked_and_registered_once (TU : TranslationUnit) (fuel : Nat)
    (St St1 : VisitorState) (S : Stmt) (h : TraverseStmt TU fuel St S = some St1) :
    ∃ (A : List Diagnostic) (M K : List Nat), St1 = St.extend A M K
      ∧ (∀ Def : FunctionDecl,
          (CallReached TU St.DeviceAttrs S Def
            ∨ ∃ ID ∈ M, ∃ B : Stmt, TU.Definitions.lookup ID = some (some B)
                ∧ Def ∈ B.callees) →
          (TU.getDefinition Def).isSome = true →
          Def.ID ∈ St1.DeviceAttrs
          ∧ (NotConstructed TU S Def.ID →
              M.count Def.ID = (if Def.ID ∈ St.DeviceAttrs then 0 else 1)
              ∧ K.count Def.ID = (if Def.ID ∈ St.DeviceAttrs then 0 else 1)
              ∧ ∀ (fuel2 : Nat) (S2 : Stmt) (St2 : VisitorState),
                  NotConstructed TU S2 Def.ID →
                  TraverseStmt TU fuel2 St1 S2 = some St2 →
                  ∃ (A2 : List Diagnostic) (M2 K2 : List Nat),
                    St2 = St1.extend A2 M2 K2
                    ∧ M2.count Def.ID = 0 ∧ K2.count Def.ID = 0))
      ∧ (∀ Def : FunctionDecl, NotConstructed TU S Def.ID →
          M.count Def.ID = K.count Def.ID ∧ M.count Def.ID ≤ 1) := by
  obtain ⟨A, M, K, hEq, hClos⟩ := TraverseStmt_closure TU fuel S St St1 h
  have hCalls := TraverseStmt_calls_marked TU fuel S St St1 h
  have hOnce : ∀ Def : FunctionDecl, NotConstructed TU S Def.ID →
      M.count Def.ID = K.count Def.ID ∧ M.count Def.ID ≤ 1
      ∧ (Def.ID ∈ St.DeviceAttrs → M.count Def.ID = 0) := by
    intro Def hN
    obtain ⟨A1, M1, K1, hEq1, h1, h2, h3⟩ :=
      (MarksOnce_closed Def.ID).TraverseStmt TU hN.2 fuel S hN.1 St St1 h
    obtain ⟨_, hM, hK⟩ := VisitorState.extend_inj St A A1 M M1 K K1 (hEq.symm.trans hEq1)
    rw [hM, hK]
    exact ⟨h1, h2, h3⟩
  refine ⟨A, M, K, hEq, ?_, fun Def hN => ⟨(hOnce Def hN).1, (hOnce Def hN).2.1⟩⟩
  intro Def hR hDef
  have hIn : Def.ID ∈ St1.DeviceAttrs := by
    rw [hEq] at hCalls hClos ⊢
    rcases hR with hR | ⟨ID, hID, B, hB, hD⟩
    · exact hR.marked_reached hCalls hClos hDef
    · exact hClos ID hID B hB Def hD hDef
  refine ⟨hIn, ?_⟩
  intro hN
  obtain ⟨h1, h2, h3⟩ := hOnce Def hN
  have hCount : M.count Def.ID = if Def.ID ∈ St.DeviceAttrs then 0 else 1 := by
    by_cases hSt : Def.ID ∈ St.DeviceAttrs
    · rw [if_pos hSt]; exact h3 hSt
    · rw [if_neg hSt]
      have hMem : Def.ID ∈ M := by
        rw [hEq] at hIn
        simp only [VisitorState.extend, List.mem_append] at hIn
        rcases hIn with hIn | hIn
        · exact absurd hIn hSt
        · exact hIn
      have hPos : 0 < M.count Def.ID := List.count_pos_iff.mpr hMem
      omega
  refine ⟨hCount, by rw [← h1]; exact hCount, ?_⟩
  intro fuel2 S2 St2 hN2 h2nd
  obtain ⟨A2, M2, K2, hEq2, g1, _, g3⟩ :=
    (MarksOnce_closed Def.ID).TraverseStmt TU hN2.2 fuel2 S2 hN2.1 St1 St2 h2nd
  have hZ := g3 hIn
  exact ⟨A2, M2, K2, hEq2, hZ, by rw [← g1]; exact hZ⟩

/-- The amended C23 at the body `{ A(); A(); }`, in which two call expressions
reach `A`, and at the body `{ F(); }` with `F` calling `G` and `G` calling
`F`, in which `G` is reached through the body of `F`; both from the state in
which nothing is marked. -/
theorem marked_and_registered_once_witness :
    (TraverseStmt Device.Objects 20 Device.St0 Device.twoCalls
        = some ⟨[⟨171, .err_sycl_restrict .KernelUseExceptions⟩], [1], [1]⟩
      ∧ Device.twoCalls.callees.map FunctionDecl.ID = [1, 1]
      ∧ ∃ (A : List Diagnostic) (M K : List Nat),
          (⟨[⟨171, .err_sycl_restrict .KernelUseExceptions⟩], [1], [1]⟩ : VisitorState)
            = Device.St0.extend A M K
          ∧ M.count Device.fnA.ID = 1 ∧ K.count Device.fnA.ID = 1)
    ∧ (TraverseStmt Device.Mutual 20 Device.St0 (Device.bodyOf Device.callF)
        = some ⟨Device.mutualDiags, [5, 6], [6, 5]⟩
      ∧ (Device.bodyOf Device.callF).callees.map FunctionDecl.ID = [5]
      ∧ ∃ (A : List Diagnostic) (M K : List Nat),
          (⟨Device.mutualDiags, [5, 6], [6, 5]⟩ : VisitorState) = Device.St0.extend A M K
          ∧ M.count Device.fnG.ID = 1 ∧ K.count Device.fnG.ID = 1) := by
  refine ⟨⟨rfl, rfl, ?_⟩, rfl, rfl, ?_⟩
  · obtain ⟨A, M, K, hEq, hR, _⟩ :=
      marked_and_registered_once Device.Objects 20 Device.St0
        ⟨[⟨171, .err_sycl_restrict .KernelUseExceptions⟩], [1], [1]⟩ Device.twoCalls rfl
    have hA : CallReached Device.Objects Device.St0.DeviceAttrs Device.twoCalls Device.fnA :=
      .direct _ (by
        have e : Device.twoCalls.callees = [Device.fnA, Device.fnA] := rfl
        rw [e]
        exact List.mem_cons_self _ _)
    obtain ⟨h1, h2, _⟩ := (hR Device.fnA (Or.inl hA) rfl).2
      (Objects_not_constructed Device.twoCalls rfl)
    exact ⟨A, M, K, hEq, h1, h2⟩
  · obtain ⟨A, M, K, hEq, hR, _⟩ :=
      marked_and_registered_once Device.Mutual 20 Device.St0 _
        (Device.bodyOf Device.callF) rfl
    have hF : CallReached Device.Mutual Device.St0.DeviceAttrs (Device.bodyOf Device.callF)
        Device.fnF :=
      .direct _ (by
        have e : (Device.bodyOf Device.callF).callees = [Device.fnF] := rfl
        rw [e]
        exact List.mem_cons_self _ _)
    have hG : CallReached Device.Mutual Device.St0.DeviceAttrs (Device.bodyOf Device.callF)
        Device.fnG :=
      .step Device.fnF _ (Device.bodyOf Device.callG) hF (by simp [Device.St0]) rfl (by
        have e : (Device.bodyOf Device.callG).callees = [Device.fnG] := rfl
        rw [e]
        exact List.mem_cons_self _ _)
    obtain ⟨h1, h2, _⟩ := (hR Device.fnG (Or.inl hG) rfl).2
      (Mutual_not_constructed _ 6 rfl (by decide) (by decide))
    exact ⟨A, M, K, hEq, h1, h2⟩


end SemaSYCL
